import Mathlib

/-!
# HelixRT kernel: scheduler, semaphore, mutex and message queue

A shallow embedding of `kernel/scheduler.c`, `kernel/kernel.c` and
`kernel/sync/{semaphore,mutex,queue}.c`.

* A `task_tcb_t *` is an `Option Nat`: `none` is `NULL`, `some a` is the TCB at
  address `a`.  The TCB memory is the function `Kernel.tcb`.
* The intrusive `next` / `prev` links are kept exactly as in the source, so the
  ready lists and the blocked list are pointer structures in `Kernel.tcb`.
* A function that can loop for ever (a list walk over a cyclic list) or that
  indexes `ready_list` out of bounds has an `Option` result; `none` stands for
  "no defined result".  Loops take a `fuel` argument.
* Unsigned 32-bit arithmetic is `Nat` with an explicit `% 2^32`; the signed
  semaphore count is an `Int` wrapped to 32 bits.
* `critical_enter` / `critical_exit` only mask interrupts and are not modelled.
-/

namespace HelixRT

/-! ## Constants (`include/config.h`, `kernel/kernel.h`) -/

def CONFIG_MAX_PRIORITY : Nat := 32
def CONFIG_TIME_SLICE : Nat := 10
def CONFIG_ROUND_ROBIN : Bool := true
def CONFIG_PRIORITY_INHERITANCE : Bool := true
def UINT32_MAX : Nat := 4294967295
def TIMEOUT_NONE : Nat := 0

def KERNEL_OK : Int := 0
def KERNEL_ERR_PARAM : Int := -1
def KERNEL_ERR_NO_MEM : Int := -2
def KERNEL_ERR_TIMEOUT : Int := -3
def KERNEL_ERR_ISR : Int := -4
def KERNEL_ERR_STATE : Int := -5
def KERNEL_ERR_DELETED : Int := -6
def KERNEL_ERR_OVERFLOW : Int := -7

/-! ## Task control block (`kernel/task.h`) -/

inductive task_state_t where
  | READY
  | RUNNING
  | BLOCKED
  | SUSPENDED
  | DELETED
  deriving DecidableEq, Repr

inductive block_reason_t where
  | NONE
  | DELAY
  | SEMAPHORE
  | MUTEX
  | QUEUE_SEND
  | QUEUE_RECV
  | EVENT
  deriving DecidableEq, Repr

/-- The record `task_tcb_t`.  Pointers to code and to stack words are byte
addresses; the `name` array is left out. -/
structure task_tcb_t where
  sp : Nat
  next : Option Nat
  prev : Option Nat
  id : Nat
  entry : Option Nat
  arg : Nat
  priority : Nat
  base_priority : Nat
  state : task_state_t
  flags : Nat
  delay_ticks : Nat
  stack_base : Nat
  stack_top : Nat
  stack_size : Nat
  time_slice : Nat
  wake_tick : Nat
  block_reason : block_reason_t
  block_object : Option Nat
  block_timeout : Nat
  block_result : Int
  run_count : Nat
  total_ticks : Nat
  max_stack_used : Nat
  event_wait_bits : Nat
  event_wait_all : Nat

inductive kernel_state_t where
  | UNINIT
  | INIT
  | RUNNING
  | STOPPED
  deriving DecidableEq, Repr

/-- The `scheduler_t` control block of `kernel/scheduler.h`.  `ready_list` is
the array of `CONFIG_MAX_PRIORITY` list heads; only indices below
`CONFIG_MAX_PRIORITY` are ever read or written. -/
structure scheduler_t where
  priority_bitmap : Nat
  ready_list : Nat → Option Nat
  current : Option Nat
  lock_count : Nat
  reschedule_pending : Bool

/-- The global state of `scheduler.c` and `kernel.c` together with the TCB
memory, the word memory holding the task stacks (by byte address), the
PENDSVSET bit of ICSR (written by `scheduler_trigger_switch`) and the IPSR
register (read by `is_isr_context`). -/
structure Kernel where
  tcb : Nat → task_tcb_t
  g_sched : scheduler_t
  current_task : Option Nat
  next_task : Option Nat
  g_tick_count : Nat
  g_blocked_head : Option Nat
  pendsv : Bool
  ipsr : Nat
  g_kernel_state : kernel_state_t
  g_task_slot_used : Nat → Nat
  g_stack_slot_used : Nat → Nat
  g_next_task_id : Nat
  stack_mem : Nat → Nat

/-- Store to the TCB at address `t`. -/
def Kernel.setTcb (k : Kernel) (t : Nat) (f : task_tcb_t → task_tcb_t) : Kernel :=
  { k with tcb := Function.update k.tcb t (f (k.tcb t)) }

/-- Store to `g_sched.ready_list[p]`. -/
def Kernel.setReady (k : Kernel) (p : Nat) (h : Option Nat) : Kernel :=
  { k with g_sched := { k.g_sched with ready_list := Function.update k.g_sched.ready_list p h } }

/-- Store to `g_sched.priority_bitmap`. -/
def Kernel.setBitmap (k : Kernel) (b : Nat) : Kernel :=
  { k with g_sched := { k.g_sched with priority_bitmap := b } }

/-! ## Priority bitmap helpers (`kernel/scheduler.h`) -/

/-- Count trailing zeros of a non-zero word, as `__builtin_ctz`. -/
def ctz : Nat → Nat → Nat
  | 0, _ => 0
  | fuel + 1, b => if b % 2 = 1 then 0 else 1 + ctz fuel (b / 2)

def bitmap_find_highest (bitmap : Nat) : Nat :=
  if bitmap = 0 then CONFIG_MAX_PRIORITY else ctz 32 bitmap % 256

def bitmap_set (bitmap : Nat) (bit : Nat) : Nat :=
  bitmap ||| ((1 <<< bit) % 2 ^ 32)

def bitmap_clear (bitmap : Nat) (bit : Nat) : Nat :=
  bitmap &&& (UINT32_MAX ^^^ ((1 <<< bit) % 2 ^ 32))

def bitmap_test (bitmap : Nat) (bit : Nat) : Bool :=
  (bitmap &&& ((1 <<< bit) % 2 ^ 32)) != 0

def scheduler_trigger_switch (k : Kernel) : Kernel :=
  { k with pendsv := true }

def is_isr_context (k : Kernel) : Bool :=
  k.ipsr != 0

/-! ## Scheduler (`kernel/scheduler.c`) -/

/-- The loop `while (head->next != NULL) head = head->next;` of
`ready_insert_tail`. -/
def ready_tail_walk (mem : Nat → task_tcb_t) : Nat → Nat → Option Nat
  | 0, _ => none
  | fuel + 1, head =>
    match (mem head).next with
    | none => some head
    | some n => ready_tail_walk mem fuel n

def ready_insert_tail (fuel : Nat) (k : Kernel) (t : Nat) : Option Kernel :=
  let prio := (k.tcb t).priority
  let k1 := k.setTcb t (fun c => { c with next := none, prev := none })
  if prio < CONFIG_MAX_PRIORITY then
    match k1.g_sched.ready_list prio with
    | none =>
      some ((k1.setReady prio (some t)).setBitmap (bitmap_set k1.g_sched.priority_bitmap prio))
    | some head =>
      match ready_tail_walk k1.tcb fuel head with
      | none => none
      | some tail =>
        some ((k1.setTcb tail (fun c => { c with next := some t })).setTcb t
          (fun c => { c with prev := some tail }))
  else none

def blocked_insert (k : Kernel) (t : Nat) : Kernel :=
  let k1 := k.setTcb t (fun c => { c with next := k.g_blocked_head, prev := none })
  let k2 := match k1.g_blocked_head with
    | some h => k1.setTcb h (fun c => { c with prev := some t })
    | none => k1
  { k2 with g_blocked_head := some t }

def blocked_remove (k : Kernel) (t : Nat) : Kernel :=
  let k1 := match (k.tcb t).prev with
    | some p => k.setTcb p (fun c => { c with next := (k.tcb t).next })
    | none => if k.g_blocked_head = some t then { k with g_blocked_head := (k.tcb t).next } else k
  let k2 := match (k1.tcb t).next with
    | some n => k1.setTcb n (fun c => { c with prev := (k1.tcb t).prev })
    | none => k1
  k2.setTcb t (fun c => { c with next := none, prev := none })

def scheduler_init (k : Kernel) : Kernel :=
  { k with
    g_sched :=
      { priority_bitmap := 0
        current := none
        lock_count := 0
        reschedule_pending := false
        ready_list := fun i => if i < CONFIG_MAX_PRIORITY then none else k.g_sched.ready_list i }
    g_tick_count := 0
    g_blocked_head := none
    current_task := none
    next_task := none }

def scheduler_add_task (fuel : Nat) (k : Kernel) (t : Nat) : Option Kernel :=
  let k1 := k.setTcb t (fun c => { c with state := task_state_t.READY, time_slice := CONFIG_TIME_SLICE })
  match ready_insert_tail fuel k1 t with
  | none => none
  | some k2 =>
    match k2.current_task with
    | some cur =>
      if (k2.tcb t).priority < (k2.tcb cur).priority then some (scheduler_trigger_switch k2)
      else some k2
    | none => some k2

def scheduler_remove_task (k : Kernel) (tcb : Option Nat) : Option Kernel :=
  match tcb with
  | none => some k
  | some t =>
    let prio := (k.tcb t).priority
    if prio < CONFIG_MAX_PRIORITY then
      let k1 := if k.g_sched.ready_list prio = some t then k.setReady prio (k.tcb t).next else k
      let k2 := match (k1.tcb t).prev with
        | some p => k1.setTcb p (fun c => { c with next := (k1.tcb t).next })
        | none => k1
      let k3 := match (k2.tcb t).next with
        | some n => k2.setTcb n (fun c => { c with prev := (k2.tcb t).prev })
        | none => k2
      let k4 := if k3.g_sched.ready_list prio = none
        then k3.setBitmap (bitmap_clear k3.g_sched.priority_bitmap prio) else k3
      some (k4.setTcb t (fun c => { c with next := none, prev := none }))
    else none

def scheduler_set_priority (fuel : Nat) (k : Kernel) (tcb : Option Nat) (new_priority : Nat) :
    Option Kernel :=
  match tcb with
  | none => some k
  | some t =>
    if new_priority ≥ CONFIG_MAX_PRIORITY then some k
    else if (k.tcb t).state = task_state_t.READY ∨ (k.tcb t).state = task_state_t.RUNNING then
      match scheduler_remove_task k (some t) with
      | none => none
      | some k1 => scheduler_add_task fuel (k1.setTcb t (fun c => { c with priority := new_priority })) t
    else some (k.setTcb t (fun c => { c with priority := new_priority }))

def scheduler_yield (fuel : Nat) (k : Kernel) : Option Kernel :=
  match k.current_task with
  | none => some k
  | some cur =>
    if k.g_sched.lock_count > 0 then
      some { k with g_sched := { k.g_sched with reschedule_pending := true } }
    else
      let prio := (k.tcb cur).priority
      if prio < CONFIG_MAX_PRIORITY then
        match k.g_sched.ready_list prio with
        | none => some (scheduler_trigger_switch k)
        | some head =>
          match (k.tcb head).next with
          | none => some (scheduler_trigger_switch k)
          | some n =>
            if head = cur then
              let k1 := k.setReady prio (some n)
              let k2 := k1.setTcb n (fun c => { c with prev := none })
              let k3 := k2.setTcb head (fun c => { c with next := none, prev := none })
              match ready_insert_tail fuel k3 head with
              | none => none
              | some k4 => some (scheduler_trigger_switch k4)
            else some (scheduler_trigger_switch k)
      else none

/-- The decision taken for one blocked task in the walk of `scheduler_tick`:
`none` when the task stays blocked, otherwise the TCB memory after a possible
store of `KERNEL_ERR_TIMEOUT`. -/
def tick_wake (k : Kernel) (it : Nat) : Option Kernel :=
  if (k.tcb it).block_reason = block_reason_t.DELAY then
    if k.g_tick_count ≥ (k.tcb it).wake_tick then some k else none
  else if (k.tcb it).block_timeout ≠ 0 ∧ (k.tcb it).block_timeout ≠ UINT32_MAX then
    if k.g_tick_count ≥ (k.tcb it).wake_tick then
      some (k.setTcb it (fun c => { c with block_result := KERNEL_ERR_TIMEOUT }))
    else none
  else none

/-- The `while (iter != NULL)` loop of `scheduler_tick`; `n` is the fuel handed
to the inner `ready_insert_tail`. -/
def tick_walk (n : Nat) : Nat → Kernel → Option Nat → Option Kernel
  | _, k, none => some k
  | 0, _, some _ => none
  | fuel + 1, k, some it =>
    let next_iter := (k.tcb it).next
    match tick_wake k it with
    | none => tick_walk n fuel k next_iter
    | some k1 =>
      let k2 := blocked_remove k1 it
      let k3 := k2.setTcb it (fun c =>
        { c with block_reason := block_reason_t.NONE, block_object := none, block_timeout := 0,
                 state := task_state_t.READY })
      match ready_insert_tail n k3 it with
      | none => none
      | some k4 => tick_walk n fuel k4 next_iter

def scheduler_tick (fuel : Nat) (k : Kernel) : Option Kernel :=
  let k0 := { k with g_tick_count := (k.g_tick_count + 1) % 2 ^ 32 }
  match tick_walk fuel fuel k0 k0.g_blocked_head with
  | none => none
  | some k1 =>
    let r : Option Kernel := match k1.current_task with
      | none => some k1
      | some cur =>
        let k2 := if (k1.tcb cur).time_slice > 0
          then k1.setTcb cur (fun c => { c with time_slice := c.time_slice - 1 }) else k1
        if CONFIG_ROUND_ROBIN ∧ (k2.tcb cur).time_slice = 0 then
          scheduler_yield fuel (k2.setTcb cur (fun c => { c with time_slice := CONFIG_TIME_SLICE }))
        else some k2
    match r with
    | none => none
    | some k3 =>
      let highest_prio := bitmap_find_highest k3.g_sched.priority_bitmap
      match k3.current_task with
      | some cur =>
        if highest_prio < (k3.tcb cur).priority then some (scheduler_trigger_switch k3)
        else some k3
      | none => some k3

/-- How a call that may block ends: it returns a code, or the caller is
suspended inside `scheduler_block_task` and goes on when it is scheduled
again. -/
inductive Outcome where
  | done (code : Int)
  | blocked
  deriving DecidableEq, Repr

/-- The part of `scheduler_block_task` up to and including the first
`critical_exit`: the caller is taken off its ready list, marked blocked and
put on the blocked list, and the switch is requested.  With no current task
the function returns `KERNEL_ERR_STATE` at once. -/
def scheduler_block_task_enter (k : Kernel) (reason : block_reason_t) (object : Option Nat)
    (timeout : Nat) : Option (Kernel × Outcome) :=
  match k.current_task with
  | none => some (k, Outcome.done KERNEL_ERR_STATE)
  | some self =>
    match scheduler_remove_task k (some self) with
    | none => none
    | some k1 =>
      let wake :=
        if timeout = 0 then (k1.g_tick_count + 1) % 2 ^ 32
        else if timeout = UINT32_MAX then UINT32_MAX
        else (k1.g_tick_count + timeout) % 2 ^ 32
      let k2 := k1.setTcb self (fun c =>
        { c with state := task_state_t.BLOCKED, block_reason := reason, block_object := object,
                 block_timeout := timeout, block_result := KERNEL_OK, wake_tick := wake })
      some (scheduler_trigger_switch (blocked_insert k2 self), Outcome.blocked)

/-- The tail of `scheduler_block_task`, executed by `self` once it runs again:
`scheduler_yield(); return self->block_result;`. -/
def scheduler_block_task_resume (fuel : Nat) (k : Kernel) (self : Nat) : Option (Kernel × Int) :=
  match scheduler_yield fuel k with
  | none => none
  | some k1 => some (k1, (k1.tcb self).block_result)

def scheduler_unblock_task (fuel : Nat) (k : Kernel) (tcb : Option Nat) (result : Int) :
    Option Kernel :=
  match tcb with
  | none => some k
  | some t =>
    if (k.tcb t).state ≠ task_state_t.BLOCKED then some k
    else
      let k1 := blocked_remove k t
      let k2 := k1.setTcb t (fun c =>
        { c with state := task_state_t.READY, block_reason := block_reason_t.NONE,
                 block_result := result, block_object := none, block_timeout := 0 })
      match ready_insert_tail fuel k2 t with
      | none => none
      | some k3 =>
        match k3.current_task with
        | some cur =>
          if (k3.tcb t).priority < (k3.tcb cur).priority then some (scheduler_trigger_switch k3)
          else some k3
        | none => some k3

/-- The search loop of `scheduler_unblock_one`. -/
def unblock_one_find (k : Kernel) (reason : block_reason_t) (object : Option Nat) :
    Nat → Option Nat → Option Nat → Option (Option Nat)
  | _, none, best => some best
  | 0, some _, _ => none
  | fuel + 1, some it, best =>
    let best1 :=
      if (k.tcb it).block_reason = reason ∧ (k.tcb it).block_object = object then
        match best with
        | none => some it
        | some b => if (k.tcb it).priority < (k.tcb b).priority then some it else best
      else best
    unblock_one_find k reason object fuel (k.tcb it).next best1

def scheduler_unblock_one (fuel : Nat) (k : Kernel) (reason : block_reason_t)
    (object : Option Nat) (result : Int) : Option (Kernel × Bool) :=
  match unblock_one_find k reason object fuel k.g_blocked_head none with
  | none => none
  | some none => some (k, false)
  | some (some best) =>
    let k1 := blocked_remove k best
    let k2 := k1.setTcb best (fun c =>
      { c with state := task_state_t.READY, block_reason := block_reason_t.NONE,
               block_result := result, block_object := none, block_timeout := 0 })
    match ready_insert_tail fuel k2 best with
    | none => none
    | some k3 =>
      match k3.current_task with
      | some cur =>
        if (k3.tcb best).priority < (k3.tcb cur).priority then
          some (scheduler_trigger_switch k3, true)
        else some (k3, true)
      | none => some (k3, true)

/-- The loop of `scheduler_unblock_all`, returning the state and the number of
tasks unblocked. -/
def unblock_all_walk (n : Nat) (reason : block_reason_t) (object : Option Nat) (result : Int) :
    Nat → Kernel → Option Nat → Nat → Option (Kernel × Nat)
  | _, k, none, cnt => some (k, cnt)
  | 0, _, some _, _ => none
  | fuel + 1, k, some it, cnt =>
    let next_iter := (k.tcb it).next
    if (k.tcb it).block_reason = reason ∧ (k.tcb it).block_object = object then
      let k1 := blocked_remove k it
      let k2 := k1.setTcb it (fun c =>
        { c with state := task_state_t.READY, block_reason := block_reason_t.NONE,
                 block_result := result, block_object := none, block_timeout := 0 })
      match ready_insert_tail n k2 it with
      | none => none
      | some k3 => unblock_all_walk n reason object result fuel k3 next_iter ((cnt + 1) % 2 ^ 32)
    else unblock_all_walk n reason object result fuel k next_iter cnt

def scheduler_unblock_all (fuel : Nat) (k : Kernel) (reason : block_reason_t)
    (object : Option Nat) (result : Int) : Option (Kernel × Nat) :=
  match unblock_all_walk fuel reason object result fuel k k.g_blocked_head 0 with
  | none => none
  | some (k1, unblocked) =>
    if unblocked > 0 then some (scheduler_trigger_switch k1, unblocked) else some (k1, unblocked)

def scheduler_get_current (k : Kernel) : Option Nat :=
  k.current_task

def scheduler_get_next (k : Kernel) : Option (Option Nat) :=
  let highest_prio := bitmap_find_highest k.g_sched.priority_bitmap
  if highest_prio ≥ CONFIG_MAX_PRIORITY then some none
  else some (k.g_sched.ready_list highest_prio)

/-- The state changes of `scheduler_start` before it enters the first task:
the head of the best ready list becomes the current, running task.  With no
ready task the function spins for ever (`none`). -/
def scheduler_start (k : Kernel) : Option Kernel :=
  match scheduler_get_next k with
  | some (some first) =>
    let k1 := { k with current_task := some first, g_sched := { k.g_sched with current := some first } }
    some (k1.setTcb first (fun c =>
      { c with state := task_state_t.RUNNING, time_slice := CONFIG_TIME_SLICE,
               sp := c.stack_top }))
  | _ => none

def scheduler_select_next_task (k : Kernel) : Option (Kernel × Option Nat) :=
  match scheduler_get_next k with
  | none => none
  | some nxt => some ({ k with next_task := nxt, g_sched := { k.g_sched with current := nxt } }, nxt)

def scheduler_get_tick_count (k : Kernel) : Nat :=
  k.g_tick_count

def scheduler_lock (k : Kernel) : Kernel :=
  { k with g_sched := { k.g_sched with lock_count := (k.g_sched.lock_count + 1) % 2 ^ 32 } }

def scheduler_unlock (k : Kernel) : Kernel :=
  let k1 : Kernel :=
    if k.g_sched.lock_count > 0 then
      { k with g_sched := { k.g_sched with lock_count := k.g_sched.lock_count - 1 } }
    else k
  if k1.g_sched.lock_count = 0 ∧ k1.g_sched.reschedule_pending = true then
    scheduler_trigger_switch
      { k1 with g_sched := { k1.g_sched with reschedule_pending := false } }
  else k1

def scheduler_is_locked (k : Kernel) : Bool :=
  decide (k.g_sched.lock_count > 0)

/-- Modelled from the spec: the switch exception handler (its assembly source
is not part of the files at hand), once the scheduler has chosen `t`.
Spec 4.4: it "queries the scheduler for the next-to-run and sets it running
with time-slice reset"; the saving and loading of registers are not modelled.
Taking the exception clears the pend bit. -/
def switch_to (k : Kernel) (t : Nat) : Kernel :=
  ({ k with current_task := some t, pendsv := false }).setTcb t (fun c =>
    { c with state := task_state_t.RUNNING, time_slice := CONFIG_TIME_SLICE })

/-- Modelled from the spec: the switch exception handler, which asks
`scheduler_select_next_task` for the next task and switches to it. -/
def PendSV_Handler (k : Kernel) : Option Kernel :=
  match scheduler_select_next_task k with
  | none => none
  | some (k1, none) => some { k1 with pendsv := false }
  | some (k1, some n) => some (switch_to k1 n)

/-! ## Kernel core (`kernel/kernel.c`) -/

def CONFIG_MAX_TASKS : Nat := 16
def CONFIG_DEFAULT_STACK_SIZE : Nat := 1024
def CONFIG_MIN_STACK_SIZE : Nat := 256
def CONFIG_IDLE_STACK_SIZE : Nat := 256
def TASK_STACK_FILL : Nat := 0xCDCDCDCD
def EXC_RETURN_THREAD_PSP : Nat := 0xFFFFFFFD

/-- Address of `g_task_pool[i]`.  TCB addresses are abstract; the pool
occupies the addresses `0 .. 15` and `g_idle_tcb` the next one. -/
def g_task_pool (i : Nat) : Nat := i

def g_idle_tcb : Nat := CONFIG_MAX_TASKS

/-- Byte address of `g_stack_pool[i]`, an 8-aligned block of 1024 bytes. -/
def g_stack_pool (i : Nat) : Nat := 0x20000000 + CONFIG_DEFAULT_STACK_SIZE * i

/-- Byte address of `g_idle_stack`. -/
def g_idle_stack : Nat := 0x20000000 + CONFIG_DEFAULT_STACK_SIZE * CONFIG_MAX_TASKS

/-- Code addresses of `task_exit_trampoline` and `idle_task` (fixed at link
time; the values stand for them). -/
def task_exit_trampoline : Nat := 0x60001001

def idle_task : Nat := 0x60002001

/-- The search loop of `alloc_slot`: the first index `i < count` with
`bitmap[i] == 0`, tried for `n` more indices. -/
def alloc_slot_find (bitmap : Nat → Nat) : Nat → Nat → Option Nat
  | 0, _ => none
  | n + 1, i => if bitmap i = 0 then some i else alloc_slot_find bitmap n (i + 1)

/-- The function `alloc_slot`: the updated map and the slot, `none` for `-1`. -/
def alloc_slot (bitmap : Nat → Nat) (count : Nat) : (Nat → Nat) × Option Nat :=
  match alloc_slot_find bitmap count 0 with
  | some i => (Function.update bitmap i 1, some i)
  | none => (bitmap, none)

def free_slot (bitmap : Nat → Nat) (idx : Option Nat) : Nat → Nat :=
  match idx with
  | some i => Function.update bitmap i 0
  | none => bitmap

/-- The fill loop of `task_create`: `stack[i] = TASK_STACK_FILL` for the
`words` words starting at byte address `stack`. -/
def stack_fill (mem : Nat → Nat) (stack : Nat) : Nat → Nat → Nat → Nat
  | 0, _ => mem
  | n + 1, i => stack_fill (Function.update mem (stack + 4 * i) TASK_STACK_FILL) stack n (i + 1)

/-- One `*(--sp) = v`. -/
def push_word (st : (Nat → Nat) × Nat) (v : Nat) : (Nat → Nat) × Nat :=
  (Function.update st.1 (st.2 - 4) (v % 2 ^ 32), st.2 - 4)

def task_init_stack (mem : Nat → Nat) (stack_top : Nat) (entry : Nat) (arg : Nat)
    (exit_func : Nat) : (Nat → Nat) × Nat :=
  [0x01000000, entry, exit_func, 0, 0, 0, 0, arg,
   EXC_RETURN_THREAD_PSP, 0, 0, 0, 0, 0, 0, 0, 0].foldl push_word (mem, stack_top)

def task_get_current (k : Kernel) : Option Nat :=
  scheduler_get_current k

/-- The function `task_create`.  The `name` argument is left out.  The
result is the new state and the return code. -/
def task_create (fuel : Nat) (k : Kernel) (tcb : Option Nat) (entry : Option Nat) (arg : Nat)
    (priority : Nat) (stack : Option Nat) (stack_size : Nat) : Option (Kernel × Int) :=
  match entry with
  | none => some (k, KERNEL_ERR_PARAM)
  | some entry_addr =>
    if priority ≥ CONFIG_MAX_PRIORITY then some (k, KERNEL_ERR_PARAM)
    else if stack_size < CONFIG_MIN_STACK_SIZE ∨ stack_size % 8 ≠ 0 then some (k, KERNEL_ERR_PARAM)
    else
      -- TCB slot
      let a : Option (Kernel × Nat × Option Nat) :=
        match tcb with
        | some t => some (k, t, none)
        | none =>
          match alloc_slot k.g_task_slot_used CONFIG_MAX_TASKS with
          | (used, some slot) => some ({ k with g_task_slot_used := used }, g_task_pool slot, some slot)
          | (_, none) => none
      match a with
      | none => some (k, KERNEL_ERR_NO_MEM)
      | some (k1, t, tcb_slot) =>
        -- stack slot
        let b : Option (Kernel × Nat × Nat) :=
          match stack with
          | some st => some (k1, st, stack_size)
          | none =>
            if stack_size > CONFIG_DEFAULT_STACK_SIZE then none
            else
              match alloc_slot k1.g_stack_slot_used CONFIG_MAX_TASKS with
              | (used, some slot) =>
                some ({ k1 with g_stack_slot_used := used }, g_stack_pool slot,
                      CONFIG_DEFAULT_STACK_SIZE)
              | (_, none) => none
        match b with
        | none =>
          some ({ k1 with g_task_slot_used := free_slot k1.g_task_slot_used tcb_slot },
                KERNEL_ERR_NO_MEM)
        | some (k2, st, size) =>
          let mem1 := stack_fill k2.stack_mem st (size / 4) 0
          let stack_top := (st + 4 * (size / 4)) - (st + 4 * (size / 4)) % 8
          let fr := task_init_stack mem1 stack_top entry_addr arg task_exit_trampoline
          let k3 := { k2 with stack_mem := fr.1, g_next_task_id := (k2.g_next_task_id + 1) % 2 ^ 32 }
          let k4 := k3.setTcb t (fun c =>
            { c with
              id := k2.g_next_task_id
              entry := some entry_addr
              arg := arg
              priority := priority
              base_priority := priority
              state := task_state_t.READY
              flags := 0
              next := none
              prev := none
              stack_base := st
              stack_top := stack_top
              stack_size := size
              delay_ticks := 0
              time_slice := CONFIG_TIME_SLICE
              wake_tick := 0
              block_reason := block_reason_t.NONE
              block_object := none
              block_timeout := 0
              block_result := KERNEL_OK
              event_wait_bits := 0
              event_wait_all := 0
              run_count := 0
              total_ticks := 0
              max_stack_used := 0
              sp := fr.2 })
          match scheduler_add_task fuel k4 t with
          | none => none
          | some k5 => some (k5, KERNEL_OK)

def kernel_init (fuel : Nat) (k : Kernel) : Option (Kernel × Int) :=
  if k.g_kernel_state ≠ kernel_state_t.UNINIT then some (k, KERNEL_ERR_STATE)
  else
    match task_create fuel (scheduler_init k) (some g_idle_tcb) (some idle_task) 0
        (CONFIG_MAX_PRIORITY - 1) (some g_idle_stack) CONFIG_IDLE_STACK_SIZE with
    | none => none
    | some (k1, res) =>
      if res ≠ KERNEL_OK then some (k1, KERNEL_ERR_STATE)
      else some ({ k1 with g_kernel_state := kernel_state_t.INIT }, KERNEL_OK)

/-- The function `task_delete`.  When the deleted task is the caller the
function yields and then waits for ever: the outcome is `blocked`. -/
def task_delete (fuel : Nat) (k : Kernel) (tcb : Option Nat) : Option (Kernel × Outcome) :=
  let tcb1 := match tcb with
    | none => task_get_current k
    | some t => some t
  match tcb1 with
  | none => some (k, Outcome.done KERNEL_ERR_PARAM)
  | some t =>
    match scheduler_remove_task k (some t) with
    | none => none
    | some k1 =>
      let k2 := k1.setTcb t (fun c => { c with state := task_state_t.DELETED })
      if some t = task_get_current k2 then
        match scheduler_yield fuel k2 with
        | none => none
        | some k3 => some (k3, Outcome.blocked)
      else some (k2, Outcome.done KERNEL_OK)

def task_suspend (fuel : Nat) (k : Kernel) (tcb : Option Nat) : Option (Kernel × Int) :=
  let tcb1 := match tcb with
    | none => task_get_current k
    | some t => some t
  match tcb1 with
  | none => some (k, KERNEL_ERR_PARAM)
  | some t =>
    match scheduler_remove_task k (some t) with
    | none => none
    | some k1 =>
      let k2 := k1.setTcb t (fun c => { c with state := task_state_t.SUSPENDED })
      if some t = task_get_current k2 then
        match scheduler_yield fuel k2 with
        | none => none
        | some k3 => some (k3, KERNEL_OK)
      else some (k2, KERNEL_OK)

def task_resume (fuel : Nat) (k : Kernel) (tcb : Option Nat) : Option (Kernel × Int) :=
  match tcb with
  | none => some (k, KERNEL_ERR_PARAM)
  | some t =>
    if (k.tcb t).state ≠ task_state_t.SUSPENDED then some (k, KERNEL_ERR_PARAM)
    else
      match scheduler_add_task fuel (k.setTcb t (fun c => { c with state := task_state_t.READY })) t with
      | none => none
      | some k1 => some (k1, KERNEL_OK)

/-- The function `task_delay` up to the point where the caller is suspended
(`blocked`) or, for `ticks = 0`, has yielded (`done`; the function is `void`,
the code `0` stands for its return). -/
def task_delay (fuel : Nat) (k : Kernel) (ticks : Nat) : Option (Kernel × Outcome) :=
  if ticks = 0 then
    match scheduler_yield fuel k with
    | none => none
    | some k1 => some (k1, Outcome.done 0)
  else
    match scheduler_block_task_enter k block_reason_t.DELAY none ticks with
    | none => none
    | some (k1, Outcome.blocked) => some (k1, Outcome.blocked)
    | some (k1, Outcome.done _) => some (k1, Outcome.done 0)

def CONFIG_TICK_RATE_HZ : Nat := 1000

/-- The macro `MS_TO_TICKS` (`include/config.h`) on a `uint32_t` argument. -/
def MS_TO_TICKS (ms : Nat) : Nat :=
  ((ms * CONFIG_TICK_RATE_HZ) % 2 ^ 32) / 1000

/-- The inline function `task_delay_ms` (`kernel/kernel.h`): the product is
formed in 32 bits before the division. -/
def task_delay_ms (fuel : Nat) (k : Kernel) (ms : Nat) : Option (Kernel × Outcome) :=
  task_delay fuel k (((ms * CONFIG_TICK_RATE_HZ) % 2 ^ 32) / 1000)

def task_set_priority (fuel : Nat) (k : Kernel) (tcb : Option Nat) (priority : Nat) :
    Option (Kernel × Int) :=
  if priority ≥ CONFIG_MAX_PRIORITY then some (k, KERNEL_ERR_PARAM)
  else
    let tcb1 := match tcb with
      | none => task_get_current k
      | some t => some t
    match tcb1 with
    | none => some (k, KERNEL_ERR_PARAM)
    | some t =>
      match scheduler_set_priority fuel k (some t) priority with
      | none => none
      | some k1 => some (k1, KERNEL_OK)

/-! ## Semaphore (`kernel/sync/semaphore.c`) -/

structure semaphore_t where
  count : Int
  max_count : Int
  wait_list_head : Option Nat
  wait_list_tail : Option Nat
  deriving DecidableEq

/-- Two's-complement wrap of a signed 32-bit result. -/
def wrap_int32 (x : Int) : Int :=
  (x + 2 ^ 31) % 2 ^ 32 - 2 ^ 31

/-- The function `sem_init`; `sem` is the address of the semaphore (`none`
for `NULL`) and `s` the record stored there. -/
def sem_init (sem : Option Nat) (s : semaphore_t) (initial : Int) (max_count : Int) :
    semaphore_t × Int :=
  match sem with
  | none => (s, KERNEL_ERR_PARAM)
  | some _ =>
    if initial < 0 ∨ (max_count > 0 ∧ initial > max_count) then (s, KERNEL_ERR_PARAM)
    else
      ({ count := initial, max_count := max_count, wait_list_head := none,
         wait_list_tail := none }, KERNEL_OK)

/-- One pass through the body of the `while (1)` loop of `sem_take`, up to
the point where the caller returns or is suspended in
`scheduler_block_task`. -/
def sem_take_attempt (k : Kernel) (sem : Nat) (s : semaphore_t) (timeout : Nat) :
    Option (Kernel × semaphore_t × Outcome) :=
  if s.count > 0 then
    some (k, { s with count := wrap_int32 (s.count - 1) }, Outcome.done KERNEL_OK)
  else if timeout = TIMEOUT_NONE then some (k, s, Outcome.done KERNEL_ERR_TIMEOUT)
  else if is_isr_context k then some (k, s, Outcome.done KERNEL_ERR_ISR)
  else
    match scheduler_block_task_enter k block_reason_t.SEMAPHORE (some sem) timeout with
    | none => none
    | some (k1, o) => some (k1, s, o)

def sem_take (k : Kernel) (sem : Option Nat) (s : semaphore_t) (timeout : Nat) :
    Option (Kernel × semaphore_t × Outcome) :=
  match sem with
  | none => some (k, s, Outcome.done KERNEL_ERR_PARAM)
  | some a => sem_take_attempt k a s timeout

/-- The rest of `sem_take` for a caller `self` that was suspended in
`scheduler_block_task` and runs again: `scheduler_block_task` returns
`self->block_result`; a result other than `KERNEL_OK` is returned, otherwise
the loop body is entered again. -/
def sem_take_resume (fuel : Nat) (k : Kernel) (self : Nat) (sem : Nat) (s : semaphore_t)
    (timeout : Nat) : Option (Kernel × semaphore_t × Outcome) :=
  match scheduler_block_task_resume fuel k self with
  | none => none
  | some (k1, res) =>
    if res ≠ KERNEL_OK then some (k1, s, Outcome.done res)
    else sem_take_attempt k1 sem s timeout

def sem_give (fuel : Nat) (k : Kernel) (sem : Option Nat) (s : semaphore_t) :
    Option (Kernel × semaphore_t × Int) :=
  match sem with
  | none => some (k, s, KERNEL_ERR_PARAM)
  | some a =>
    match scheduler_unblock_one fuel k block_reason_t.SEMAPHORE (some a) KERNEL_OK with
    | none => none
    | some (k1, true) => some (k1, s, KERNEL_OK)
    | some (k1, false) =>
      if s.max_count > 0 ∧ s.count ≥ s.max_count then some (k1, s, KERNEL_ERR_OVERFLOW)
      else some (k1, { s with count := wrap_int32 (s.count + 1) }, KERNEL_OK)

def sem_get_count (sem : Option Nat) (s : semaphore_t) : Int :=
  match sem with
  | none => 0
  | some _ => s.count

def sem_reset (fuel : Nat) (k : Kernel) (sem : Option Nat) (s : semaphore_t) (new_count : Int) :
    Option (Kernel × semaphore_t × Int) :=
  match sem with
  | none => some (k, s, KERNEL_ERR_PARAM)
  | some a =>
    if new_count < 0 ∨ (s.max_count > 0 ∧ new_count > s.max_count) then
      some (k, s, KERNEL_ERR_PARAM)
    else
      match scheduler_unblock_all fuel k block_reason_t.SEMAPHORE (some a) KERNEL_ERR_STATE with
      | none => none
      | some (k1, _) => some (k1, { s with count := new_count }, KERNEL_OK)

/-! ## Mutex (`kernel/sync/mutex.c`) -/

structure mutex_t where
  locked : Nat
  owner : Option Nat
  owner_base_priority : Nat
  recursive_count : Nat
  flags : Nat
  wait_list_head : Option Nat
  wait_list_tail : Option Nat
  deriving DecidableEq

def MUTEX_FLAG_RECURSIVE : Nat := 1

def mutex_init (mtx : Option Nat) (m : mutex_t) (flags : Nat) : mutex_t × Int :=
  match mtx with
  | none => (m, KERNEL_ERR_PARAM)
  | some _ =>
    ({ locked := 0, owner := none, owner_base_priority := 0, recursive_count := 0,
       flags := flags, wait_list_head := none, wait_list_tail := none }, KERNEL_OK)

def mutex_trylock (k : Kernel) (mtx : Option Nat) (m : mutex_t) : mutex_t × Int :=
  match mtx with
  | none => (m, KERNEL_ERR_PARAM)
  | some _ =>
    if is_isr_context k then (m, KERNEL_ERR_ISR)
    else
      match task_get_current k with
      | none => (m, KERNEL_ERR_STATE)
      | some self =>
        if m.locked = 0 then
          ({ m with locked := 1, owner := some self,
                    owner_base_priority := (k.tcb self).priority, recursive_count := 1 },
           KERNEL_OK)
        else if m.owner = some self ∧ m.flags &&& MUTEX_FLAG_RECURSIVE ≠ 0 then
          (if m.recursive_count < 0xFF then { m with recursive_count := m.recursive_count + 1 }
           else m, KERNEL_OK)
        else (m, KERNEL_ERR_TIMEOUT)

/-- One pass through the body of the `while (1)` loop of `mutex_lock` for the
caller `self`, up to the point where the caller returns or is suspended. -/
def mutex_lock_attempt (fuel : Nat) (k : Kernel) (self : Nat) (mtx : Nat) (m : mutex_t)
    (timeout : Nat) : Option (Kernel × mutex_t × Outcome) :=
  match mutex_trylock k (some mtx) m with
  | (m1, res) =>
    if res = KERNEL_OK then some (k, m1, Outcome.done KERNEL_OK)
    else if timeout = TIMEOUT_NONE then some (k, m1, Outcome.done KERNEL_ERR_TIMEOUT)
    else
      let k1 : Option Kernel :=
        if CONFIG_PRIORITY_INHERITANCE then
          match m1.owner with
          | some o =>
            if (k.tcb o).priority > (k.tcb self).priority then
              scheduler_set_priority fuel k (some o) (k.tcb self).priority
            else some k
          | none => some k
        else some k
      match k1 with
      | none => none
      | some k2 =>
        match scheduler_block_task_enter k2 block_reason_t.MUTEX (some mtx) timeout with
        | none => none
        | some (k3, o) => some (k3, m1, o)

def mutex_lock (fuel : Nat) (k : Kernel) (mtx : Option Nat) (m : mutex_t) (timeout : Nat) :
    Option (Kernel × mutex_t × Outcome) :=
  match mtx with
  | none => some (k, m, Outcome.done KERNEL_ERR_PARAM)
  | some a =>
    if is_isr_context k then some (k, m, Outcome.done KERNEL_ERR_ISR)
    else
      match task_get_current k with
      | none => some (k, m, Outcome.done KERNEL_ERR_STATE)
      | some self => mutex_lock_attempt fuel k self a m timeout

/-- The rest of `mutex_lock` for a caller `self` that was suspended in
`scheduler_block_task` and runs again. -/
def mutex_lock_resume (fuel : Nat) (k : Kernel) (self : Nat) (mtx : Nat) (m : mutex_t)
    (timeout : Nat) : Option (Kernel × mutex_t × Outcome) :=
  match scheduler_block_task_resume fuel k self with
  | none => none
  | some (k1, res) =>
    if res ≠ KERNEL_OK then some (k1, m, Outcome.done res)
    else mutex_lock_attempt fuel k1 self mtx m timeout

def mutex_unlock (fuel : Nat) (k : Kernel) (mtx : Option Nat) (m : mutex_t) :
    Option (Kernel × mutex_t × Int) :=
  match mtx with
  | none => some (k, m, KERNEL_ERR_PARAM)
  | some a =>
    if is_isr_context k then some (k, m, KERNEL_ERR_ISR)
    else
      match task_get_current k with
      | none => some (k, m, KERNEL_ERR_STATE)
      | some self =>
        if m.owner ≠ some self then some (k, m, KERNEL_ERR_STATE)
        else if m.recursive_count > 1 then
          some (k, { m with recursive_count := m.recursive_count - 1 }, KERNEL_OK)
        else
          let k1 : Option Kernel :=
            if CONFIG_PRIORITY_INHERITANCE ∧ (k.tcb self).priority ≠ (k.tcb self).base_priority then
              scheduler_set_priority fuel k (some self) (k.tcb self).base_priority
            else some k
          match k1 with
          | none => none
          | some k2 =>
            match scheduler_unblock_one fuel k2 block_reason_t.MUTEX (some a) KERNEL_OK with
            | none => none
            | some (k3, _) =>
              some (k3, { m with locked := 0, owner := none, recursive_count := 0 }, KERNEL_OK)

def mutex_get_owner (mtx : Option Nat) (m : mutex_t) : Option Nat :=
  match mtx with
  | none => none
  | some _ => m.owner

/-! ## Message queue (`kernel/sync/queue.c`) -/

/-- The record `msg_queue_t`.  `buffer` holds the bytes of the caller's
buffer, by byte offset from `queue->buffer`. -/
structure msg_queue_t where
  buffer : Nat → Nat
  msg_size : Nat
  capacity : Nat
  head : Nat
  tail : Nat
  count : Nat
  send_wait_head : Option Nat
  send_wait_tail : Option Nat
  recv_wait_head : Option Nat
  recv_wait_tail : Option Nat

/-- The function `mem_copy`: `len` bytes from offset `s` of `src` to offset
`d` of `dst`, one byte at a time. -/
def mem_copy (dst : Nat → Nat) (d : Nat) (src : Nat → Nat) (s : Nat) : Nat → Nat → Nat
  | 0 => dst
  | len + 1 => mem_copy (Function.update dst d (src s)) (d + 1) src (s + 1) len

/-- Byte offset of slot `idx` in the buffer (`queue_slot_ptr`), computed in
32 bits. -/
def queue_slot_ptr (queue : msg_queue_t) (idx : Nat) : Nat :=
  (idx * queue.msg_size) % 2 ^ 32

def queue_push_back (queue : msg_queue_t) (msg : Nat → Nat) : msg_queue_t :=
  { queue with
    buffer := mem_copy queue.buffer (queue_slot_ptr queue queue.head) msg 0 queue.msg_size
    head := ((queue.head + 1) % 2 ^ 32) % queue.capacity
    count := (queue.count + 1) % 2 ^ 32 }

def queue_push_front (queue : msg_queue_t) (msg : Nat → Nat) : msg_queue_t :=
  let tail := if queue.tail = 0 then (queue.capacity + (2 ^ 32 - 1)) % 2 ^ 32
    else queue.tail - 1
  { queue with
    tail := tail
    buffer := mem_copy queue.buffer (queue_slot_ptr queue tail) msg 0 queue.msg_size
    count := (queue.count + 1) % 2 ^ 32 }

/-- The function `queue_pop`: the queue afterwards and the caller's buffer
`msg` after the copy. -/
def queue_pop (queue : msg_queue_t) (msg : Nat → Nat) : msg_queue_t × (Nat → Nat) :=
  ({ queue with
     tail := ((queue.tail + 1) % 2 ^ 32) % queue.capacity
     count := (queue.count + (2 ^ 32 - 1)) % 2 ^ 32 },
   mem_copy msg 0 queue.buffer (queue_slot_ptr queue queue.tail) queue.msg_size)

/-- The function `queue_init`; `buffer` is `none` for a `NULL` buffer. -/
def queue_init (queue : Option Nat) (q : msg_queue_t) (buffer : Option (Nat → Nat))
    (msg_size : Nat) (capacity : Nat) : msg_queue_t × Int :=
  match queue, buffer with
  | some _, some buf =>
    if msg_size = 0 ∨ capacity = 0 then (q, KERNEL_ERR_PARAM)
    else
      ({ buffer := buf, msg_size := msg_size, capacity := capacity, head := 0, tail := 0,
         count := 0, send_wait_head := none, send_wait_tail := none, recv_wait_head := none,
         recv_wait_tail := none }, KERNEL_OK)
  | _, _ => (q, KERNEL_ERR_PARAM)

/-- One pass through the loop body of `queue_send` (`front = false`) or
`queue_send_front` (`front = true`). -/
def queue_send_attempt (fuel : Nat) (k : Kernel) (queue : Nat) (q : msg_queue_t)
    (msg : Nat → Nat) (timeout : Nat) (front : Bool) : Option (Kernel × msg_queue_t × Outcome) :=
  if q.count < q.capacity then
    let q1 := if front then queue_push_front q msg else queue_push_back q msg
    match scheduler_unblock_one fuel k block_reason_t.QUEUE_RECV (some queue) KERNEL_OK with
    | none => none
    | some (k1, _) => some (k1, q1, Outcome.done KERNEL_OK)
  else if timeout = TIMEOUT_NONE then some (k, q, Outcome.done KERNEL_ERR_TIMEOUT)
  else if is_isr_context k then some (k, q, Outcome.done KERNEL_ERR_ISR)
  else
    match scheduler_block_task_enter k block_reason_t.QUEUE_SEND (some queue) timeout with
    | none => none
    | some (k1, o) => some (k1, q, o)

/-- The function `queue_send`; `msg` is `none` for a `NULL` message pointer. -/
def queue_send (fuel : Nat) (k : Kernel) (queue : Option Nat) (q : msg_queue_t)
    (msg : Option (Nat → Nat)) (timeout : Nat) : Option (Kernel × msg_queue_t × Outcome) :=
  match queue, msg with
  | some a, some m => queue_send_attempt fuel k a q m timeout false
  | _, _ => some (k, q, Outcome.done KERNEL_ERR_PARAM)

def queue_send_front (fuel : Nat) (k : Kernel) (queue : Option Nat) (q : msg_queue_t)
    (msg : Option (Nat → Nat)) (timeout : Nat) : Option (Kernel × msg_queue_t × Outcome) :=
  match queue, msg with
  | some a, some m => queue_send_attempt fuel k a q m timeout true
  | _, _ => some (k, q, Outcome.done KERNEL_ERR_PARAM)

/-- The rest of `queue_send` / `queue_send_front` for a caller that was
suspended and runs again. -/
def queue_send_resume (fuel : Nat) (k : Kernel) (self : Nat) (queue : Nat) (q : msg_queue_t)
    (msg : Nat → Nat) (timeout : Nat) (front : Bool) : Option (Kernel × msg_queue_t × Outcome) :=
  match scheduler_block_task_resume fuel k self with
  | none => none
  | some (k1, res) =>
    if res ≠ KERNEL_OK then some (k1, q, Outcome.done res)
    else queue_send_attempt fuel k1 queue q msg timeout front

def queue_send_isr (fuel : Nat) (k : Kernel) (queue : Option Nat) (q : msg_queue_t)
    (msg : Option (Nat → Nat)) : Option (Kernel × msg_queue_t × Int) :=
  match queue, msg with
  | some a, some m =>
    if q.count ≥ q.capacity then some (k, q, KERNEL_ERR_OVERFLOW)
    else
      match scheduler_unblock_one fuel k block_reason_t.QUEUE_RECV (some a) KERNEL_OK with
      | none => none
      | some (k1, _) => some (k1, queue_push_back q m, KERNEL_OK)
  | _, _ => some (k, q, KERNEL_ERR_PARAM)

/-- One pass through the loop body of `queue_receive` (`peek = false`) or
`queue_peek` (`peek = true`); `msg` is the caller's buffer, returned after
the copy. -/
def queue_receive_attempt (fuel : Nat) (k : Kernel) (queue : Nat) (q : msg_queue_t)
    (msg : Nat → Nat) (timeout : Nat) (peek : Bool) :
    Option (Kernel × msg_queue_t × (Nat → Nat) × Outcome) :=
  if q.count > 0 then
    if peek then
      some (k, q, mem_copy msg 0 q.buffer (queue_slot_ptr q q.tail) q.msg_size,
            Outcome.done KERNEL_OK)
    else
      let r := queue_pop q msg
      match scheduler_unblock_one fuel k block_reason_t.QUEUE_SEND (some queue) KERNEL_OK with
      | none => none
      | some (k1, _) => some (k1, r.1, r.2, Outcome.done KERNEL_OK)
  else if timeout = TIMEOUT_NONE then some (k, q, msg, Outcome.done KERNEL_ERR_TIMEOUT)
  else if is_isr_context k then some (k, q, msg, Outcome.done KERNEL_ERR_ISR)
  else
    match scheduler_block_task_enter k block_reason_t.QUEUE_RECV (some queue) timeout with
    | none => none
    | some (k1, o) => some (k1, q, msg, o)

def queue_receive (fuel : Nat) (k : Kernel) (queue : Option Nat) (q : msg_queue_t)
    (msg : Option (Nat → Nat)) (timeout : Nat) :
    Option (Kernel × msg_queue_t × (Nat → Nat) × Outcome) :=
  match queue, msg with
  | some a, some m => queue_receive_attempt fuel k a q m timeout false
  | _, _ => some (k, q, msg.getD (fun _ => 0), Outcome.done KERNEL_ERR_PARAM)

def queue_peek (fuel : Nat) (k : Kernel) (queue : Option Nat) (q : msg_queue_t)
    (msg : Option (Nat → Nat)) (timeout : Nat) :
    Option (Kernel × msg_queue_t × (Nat → Nat) × Outcome) :=
  match queue, msg with
  | some a, some m => queue_receive_attempt fuel k a q m timeout true
  | _, _ => some (k, q, msg.getD (fun _ => 0), Outcome.done KERNEL_ERR_PARAM)

/-- The rest of `queue_receive` / `queue_peek` for a caller that was
suspended and runs again. -/
def queue_receive_resume (fuel : Nat) (k : Kernel) (self : Nat) (queue : Nat) (q : msg_queue_t)
    (msg : Nat → Nat) (timeout : Nat) (peek : Bool) :
    Option (Kernel × msg_queue_t × (Nat → Nat) × Outcome) :=
  match scheduler_block_task_resume fuel k self with
  | none => none
  | some (k1, res) =>
    if res ≠ KERNEL_OK then some (k1, q, msg, Outcome.done res)
    else queue_receive_attempt fuel k1 queue q msg timeout peek

def queue_get_count (queue : Option Nat) (q : msg_queue_t) : Nat :=
  match queue with
  | none => 0
  | some _ => q.count

def queue_get_space (queue : Option Nat) (q : msg_queue_t) : Nat :=
  match queue with
  | none => 0
  | some _ => if q.capacity < q.count then 0 else q.capacity - q.count

def queue_reset (fuel : Nat) (k : Kernel) (queue : Option Nat) (q : msg_queue_t) :
    Option (Kernel × msg_queue_t × Int) :=
  match queue with
  | none => some (k, q, KERNEL_ERR_PARAM)
  | some a =>
    let q1 := { q with head := 0, tail := 0, count := 0 }
    match scheduler_unblock_all fuel k block_reason_t.QUEUE_SEND (some a) KERNEL_ERR_STATE with
    | none => none
    | some (k1, _) =>
      match scheduler_unblock_all fuel k1 block_reason_t.QUEUE_RECV (some a) KERNEL_ERR_STATE with
      | none => none
      | some (k2, _) => some (k2, q1, KERNEL_OK)

/-! ## Event groups (`kernel/sync/event.c`) -/

structure event_group_t where
  flags : Nat
  deriving DecidableEq

def EVENT_WAIT_ANY : Nat := 0
def EVENT_WAIT_ALL : Nat := 1
def EVENT_CLEAR_ON_EXIT : Nat := 2 ^ 31

/-- The function `event_match`; the result is whether the returned `int` is
non-zero. -/
def event_match (current bits : Nat) (wait_all : Nat) : Bool :=
  if wait_all ≠ 0 then (current &&& bits) == bits else (current &&& bits) != 0

def event_init (eg : Option Nat) (e : event_group_t) : event_group_t × Int :=
  match eg with
  | none => (e, KERNEL_ERR_PARAM)
  | some _ => ({ e with flags := 0 }, KERNEL_OK)

def event_set (fuel : Nat) (k : Kernel) (eg : Option Nat) (e : event_group_t) (bits : Nat) :
    Option (Kernel × event_group_t × Int) :=
  match eg with
  | none => some (k, e, KERNEL_ERR_PARAM)
  | some a =>
    match scheduler_unblock_all fuel k block_reason_t.EVENT (some a) KERNEL_OK with
    | none => none
    | some (k1, _) => some (k1, { e with flags := e.flags ||| bits }, KERNEL_OK)

def event_clear (eg : Option Nat) (e : event_group_t) (bits : Nat) : event_group_t × Int :=
  match eg with
  | none => (e, KERNEL_ERR_PARAM)
  | some _ => ({ e with flags := e.flags &&& (UINT32_MAX ^^^ bits) }, KERNEL_OK)

def event_get (eg : Option Nat) (e : event_group_t) : Nat :=
  match eg with
  | none => 0
  | some _ => e.flags

/-- One pass through the body of the `while (1)` loop of `event_wait`: `bits`
is the request without the bit `EVENT_CLEAR_ON_EXIT` and `clear_on_exit` is
that bit of the request.  The returned `uint32_t` is the code of `done`. -/
def event_wait_attempt (k : Kernel) (eg : Nat) (e : event_group_t)
    (bits clear_on_exit wait_all timeout : Nat) : Option (Kernel × event_group_t × Outcome) :=
  let matched := e.flags &&& bits
  if event_match e.flags bits wait_all then
    some (k, (if clear_on_exit ≠ 0 then { e with flags := e.flags &&& (UINT32_MAX ^^^ matched) }
              else e), Outcome.done (Int.ofNat matched))
  else if timeout = TIMEOUT_NONE then some (k, e, Outcome.done 0)
  else
    match scheduler_block_task_enter k block_reason_t.EVENT (some eg) timeout with
    | none => none
    | some (k1, Outcome.blocked) => some (k1, e, Outcome.blocked)
    | some (k1, Outcome.done _) => some (k1, e, Outcome.done 0)

def event_wait (k : Kernel) (eg : Option Nat) (e : event_group_t)
    (bits wait_all timeout : Nat) : Option (Kernel × event_group_t × Outcome) :=
  match eg with
  | none => some (k, e, Outcome.done 0)
  | some a =>
    if bits = 0 then some (k, e, Outcome.done 0)
    else if is_isr_context k then some (k, e, Outcome.done 0)
    else
      let clear_on_exit := bits &&& EVENT_CLEAR_ON_EXIT
      let bits1 := bits &&& (UINT32_MAX ^^^ EVENT_CLEAR_ON_EXIT)
      match task_get_current k with
      | none => some (k, e, Outcome.done 0)
      | some self =>
        let k1 := k.setTcb self (fun c =>
          { c with event_wait_bits := bits1, event_wait_all := if wait_all ≠ 0 then 1 else 0 })
        event_wait_attempt k1 a e bits1 clear_on_exit wait_all timeout

/-- The rest of `event_wait` for a caller `self` that was suspended in
`scheduler_block_task` and runs again. -/
def event_wait_resume (fuel : Nat) (k : Kernel) (self : Nat) (eg : Nat) (e : event_group_t)
    (bits clear_on_exit wait_all timeout : Nat) : Option (Kernel × event_group_t × Outcome) :=
  match scheduler_block_task_resume fuel k self with
  | none => none
  | some (k1, res) =>
    if res ≠ KERNEL_OK then some (k1, e, Outcome.done 0)
    else event_wait_attempt k1 eg e bits clear_on_exit wait_all timeout

/-! ## Reachable scheduler states -/

/-- The states reached from `scheduler_init` by the operations of
`scheduler.c`.  `dispatch` is the effect of the context switch (and of
`scheduler_select_next_task`): it only chooses the task pointers. -/
inductive SchedReachable : Kernel → Prop where
  | init (k : Kernel) : SchedReachable (scheduler_init k)
  | add_task {k k1 : Kernel} (fuel t : Nat) :
      SchedReachable k → scheduler_add_task fuel k t = some k1 → SchedReachable k1
  | remove_task {k k1 : Kernel} (tcb : Option Nat) :
      SchedReachable k → scheduler_remove_task k tcb = some k1 → SchedReachable k1
  | set_priority {k k1 : Kernel} (fuel : Nat) (tcb : Option Nat) (p : Nat) :
      SchedReachable k → scheduler_set_priority fuel k tcb p = some k1 → SchedReachable k1
  | yield {k k1 : Kernel} (fuel : Nat) :
      SchedReachable k → scheduler_yield fuel k = some k1 → SchedReachable k1
  | tick {k k1 : Kernel} (fuel : Nat) :
      SchedReachable k → scheduler_tick fuel k = some k1 → SchedReachable k1
  | block_task {k k1 : Kernel} (reason : block_reason_t) (object : Option Nat) (timeout : Nat)
      (res : Outcome) :
      SchedReachable k → scheduler_block_task_enter k reason object timeout = some (k1, res) →
      SchedReachable k1
  | unblock_task {k k1 : Kernel} (fuel : Nat) (tcb : Option Nat) (result : Int) :
      SchedReachable k → scheduler_unblock_task fuel k tcb result = some k1 → SchedReachable k1
  | unblock_one {k k1 : Kernel} (fuel : Nat) (reason : block_reason_t) (object : Option Nat)
      (result : Int) (b : Bool) :
      SchedReachable k → scheduler_unblock_one fuel k reason object result = some (k1, b) →
      SchedReachable k1
  | unblock_all {k k1 : Kernel} (fuel : Nat) (reason : block_reason_t) (object : Option Nat)
      (result : Int) (n : Nat) :
      SchedReachable k → scheduler_unblock_all fuel k reason object result = some (k1, n) →
      SchedReachable k1
  | start {k k1 : Kernel} :
      SchedReachable k → scheduler_start k = some k1 → SchedReachable k1
  | dispatch {k : Kernel} (cur nxt sc : Option Nat) :
      SchedReachable k →
      SchedReachable { k with current_task := cur, next_task := nxt,
                              g_sched := { k.g_sched with current := sc } }

/-- Invariant I2 / P1: bit `p` of the bitmap is set exactly when
`ready_list[p]` is not `NULL`. -/
def BitmapInv (k : Kernel) : Prop :=
  ∀ p, p < CONFIG_MAX_PRIORITY →
    (bitmap_test k.g_sched.priority_bitmap p = true ↔ k.g_sched.ready_list p ≠ none)

/-- A small memory used by the concrete examples: every TCB is a fresh record
of priority `5`. -/
def tcb0 : task_tcb_t :=
  { sp := 0, next := none, prev := none, id := 0, entry := none, arg := 0, priority := 5,
    base_priority := 5, state := task_state_t.READY, flags := 0, delay_ticks := 0,
    stack_base := 0, stack_top := 0, stack_size := 0, time_slice := 0, wake_tick := 0,
    block_reason := block_reason_t.NONE, block_object := none, block_timeout := 0,
    block_result := 0, run_count := 0, total_ticks := 0, max_stack_used := 0,
    event_wait_bits := 0, event_wait_all := 0 }

/-- An arbitrary power-on state; `scheduler_init` is applied to it. -/
def kernel0 : Kernel :=
  { tcb := fun _ => tcb0
    g_sched := { priority_bitmap := 0, ready_list := fun _ => none, current := none,
                 lock_count := 0, reschedule_pending := false }
    current_task := none, next_task := none, g_tick_count := 0, g_blocked_head := none,
    pendsv := false, ipsr := 0, g_kernel_state := kernel_state_t.UNINIT,
    g_task_slot_used := fun _ => 0, g_stack_slot_used := fun _ => 0, g_next_task_id := 1,
    stack_mem := fun _ => 0 }

/-- The state after `scheduler_init` and one `scheduler_add_task` of task `1`. -/
def kernelA : Kernel :=
  (scheduler_add_task 4 (scheduler_init kernel0) 1).getD kernel0

/-! ## Concrete scenarios -/

/-- Two tasks, `A` (TCB 1, priority 5) and `B` (TCB 2, priority 6), created
with caller-supplied TCBs and stacks after `scheduler_init`; `A` is started. -/
def scenario_two_tasks : Option Kernel := do
  let r1 ← task_create 8 (scheduler_init kernel0) (some 1) (some 0x60003001) 0 5
    (some 0x20010000) 256
  let r2 ← task_create 8 r1.1 (some 2) (some 0x60004001) 0 6 (some 0x20010100) 256
  scheduler_start r2.1

/-- What is observed in `scenario_suspend_blocked`. -/
structure SuspendObs where
  delay_outcome : Outcome
  suspend_code : Int
  current_task : Option Nat
  g_blocked_head : Option Nat
  state_A : task_state_t
  deriving DecidableEq

/-- Task `A` calls `task_delay(10)` and is blocked, the switch exception runs
`B`, and `B` calls `task_suspend(A)`. -/
def scenario_suspend_blocked : Option SuspendObs := do
  let k0 ← scenario_two_tasks
  let r1 ← task_delay 8 k0 10
  let k2 ← PendSV_Handler r1.1
  let r3 ← task_suspend 8 k2 (some 1)
  pure { delay_outcome := r1.2, suspend_code := r3.2, current_task := r3.1.current_task,
         g_blocked_head := r3.1.g_blocked_head, state_A := (r3.1.tcb 1).state }

/-- A semaphore at address 100 with count 0 and bound 1. -/
def sem0 : semaphore_t :=
  (sem_init (some 100) { count := 0, max_count := 0, wait_list_head := none,
                         wait_list_tail := none } 0 1).1

/-- What is observed in `scenario_sem_give_to_waiter`. -/
structure SemGiveObs where
  take_outcome : Outcome
  give_code : Int
  state_A_after_give : task_state_t
  block_result_A_after_give : Int
  count_after_give : Int
  resumed_take_outcome : Outcome
  count_at_end : Int
  state_A_at_end : task_state_t
  g_blocked_head_at_end : Option Nat
  deriving DecidableEq

/-- Task `A` calls `sem_take(sem, 50)` on the empty semaphore and is blocked;
the switch exception runs `B`; `B` calls `sem_give(sem)`; the switch exception
runs `A` again, which goes on inside `sem_take`. -/
def scenario_sem_give_to_waiter : Option SemGiveObs := do
  let k0 ← scenario_two_tasks
  let r1 ← sem_take k0 (some 100) sem0 50
  let k2 ← PendSV_Handler r1.1
  let r3 ← sem_give 8 k2 (some 100) r1.2.1
  let k4 ← PendSV_Handler r3.1
  let r5 ← sem_take_resume 8 k4 1 100 r3.2.1 50
  pure { take_outcome := r1.2.2, give_code := r3.2.2, state_A_after_give := (r3.1.tcb 1).state,
         block_result_A_after_give := (r3.1.tcb 1).block_result, count_after_give := r3.2.1.count,
         resumed_take_outcome := r5.2.2, count_at_end := r5.2.1.count,
         state_A_at_end := (r5.1.tcb 1).state, g_blocked_head_at_end := r5.1.g_blocked_head }

/-- What is observed in `scenario_set_priority`. -/
structure SetPriorityObs where
  create_code : Int
  set_priority_code : Int
  priority : Nat
  base_priority : Nat
  deriving DecidableEq

/-- Task `A` is created with priority 10 and then `task_set_priority(A, 3)`
is called. -/
def scenario_set_priority : Option SetPriorityObs := do
  let r1 ← task_create 8 (scheduler_init kernel0) (some 1) (some 0x60003001) 0 10
    (some 0x20010000) 256
  let r2 ← task_set_priority 8 r1.1 (some 1) 3
  pure { create_code := r1.2, set_priority_code := r2.2, priority := (r2.1.tcb 1).priority,
         base_priority := (r2.1.tcb 1).base_priority }

/-! ## Reachable mutex and queue states -/

/-- The mutex records reached from `mutex_init` by `mutex_trylock`,
`mutex_lock` (also when its caller is suspended and runs again) and
`mutex_unlock`, called in any kernel state. -/
inductive MutexReachable : mutex_t → Prop where
  | init (mtx : Nat) (m : mutex_t) (flags : Nat) :
      MutexReachable (mutex_init (some mtx) m flags).1
  | trylock {m : mutex_t} (k : Kernel) (mtx : Option Nat) :
      MutexReachable m → MutexReachable (mutex_trylock k mtx m).1
  | lock {m m1 : mutex_t} (fuel : Nat) (k k1 : Kernel) (mtx : Option Nat) (timeout : Nat)
      (o : Outcome) :
      MutexReachable m → mutex_lock fuel k mtx m timeout = some (k1, m1, o) → MutexReachable m1
  | lock_resume {m m1 : mutex_t} (fuel : Nat) (k k1 : Kernel) (self mtx : Nat) (timeout : Nat)
      (o : Outcome) :
      MutexReachable m → mutex_lock_resume fuel k self mtx m timeout = some (k1, m1, o) →
      MutexReachable m1
  | unlock {m m1 : mutex_t} (fuel : Nat) (k k1 : Kernel) (mtx : Option Nat) (code : Int) :
      MutexReachable m → mutex_unlock fuel k mtx m = some (k1, m1, code) → MutexReachable m1

/-- The queue records reached from a successful `queue_init` (with 32-bit
arguments) by the queue operations, called in any kernel state. -/
inductive QueueReachable : msg_queue_t → Prop where
  | init (queue : Option Nat) (q : msg_queue_t) (buffer : Option (Nat → Nat))
      (msg_size capacity : Nat) :
      msg_size < 2 ^ 32 → capacity < 2 ^ 32 →
      (queue_init queue q buffer msg_size capacity).2 = KERNEL_OK →
      QueueReachable (queue_init queue q buffer msg_size capacity).1
  | send {q q1 : msg_queue_t} (fuel : Nat) (k k1 : Kernel) (queue : Option Nat)
      (msg : Option (Nat → Nat)) (timeout : Nat) (o : Outcome) :
      QueueReachable q → queue_send fuel k queue q msg timeout = some (k1, q1, o) →
      QueueReachable q1
  | send_front {q q1 : msg_queue_t} (fuel : Nat) (k k1 : Kernel) (queue : Option Nat)
      (msg : Option (Nat → Nat)) (timeout : Nat) (o : Outcome) :
      QueueReachable q → queue_send_front fuel k queue q msg timeout = some (k1, q1, o) →
      QueueReachable q1
  | send_resume {q q1 : msg_queue_t} (fuel : Nat) (k k1 : Kernel) (self queue : Nat)
      (msg : Nat → Nat) (timeout : Nat) (front : Bool) (o : Outcome) :
      QueueReachable q →
      queue_send_resume fuel k self queue q msg timeout front = some (k1, q1, o) →
      QueueReachable q1
  | send_isr {q q1 : msg_queue_t} (fuel : Nat) (k k1 : Kernel) (queue : Option Nat)
      (msg : Option (Nat → Nat)) (code : Int) :
      QueueReachable q → queue_send_isr fuel k queue q msg = some (k1, q1, code) →
      QueueReachable q1
  | receive {q q1 : msg_queue_t} (fuel : Nat) (k k1 : Kernel) (queue : Option Nat)
      (msg : Option (Nat → Nat)) (timeout : Nat) (out : Nat → Nat) (o : Outcome) :
      QueueReachable q → queue_receive fuel k queue q msg timeout = some (k1, q1, out, o) →
      QueueReachable q1
  | peek {q q1 : msg_queue_t} (fuel : Nat) (k k1 : Kernel) (queue : Option Nat)
      (msg : Option (Nat → Nat)) (timeout : Nat) (out : Nat → Nat) (o : Outcome) :
      QueueReachable q → queue_peek fuel k queue q msg timeout = some (k1, q1, out, o) →
      QueueReachable q1
  | receive_resume {q q1 : msg_queue_t} (fuel : Nat) (k k1 : Kernel) (self queue : Nat)
      (msg : Nat → Nat) (timeout : Nat) (peek : Bool) (out : Nat → Nat) (o : Outcome) :
      QueueReachable q →
      queue_receive_resume fuel k self queue q msg timeout peek = some (k1, q1, out, o) →
      QueueReachable q1
  | reset {q q1 : msg_queue_t} (fuel : Nat) (k k1 : Kernel) (queue : Option Nat) (code : Int) :
      QueueReachable q → queue_reset fuel k queue q = some (k1, q1, code) → QueueReachable q1

/-- The bounds of P5 on a queue record (with the capacity a positive 32-bit
number). -/
def QueueBounds (q : msg_queue_t) : Prop :=
  1 ≤ q.capacity ∧ q.capacity < 2 ^ 32 ∧ q.count ≤ q.capacity ∧ q.head < q.capacity ∧
    q.tail < q.capacity

/-- Invariant I4 on a mutex record. -/
def MutexInv (m : mutex_t) : Prop :=
  (m.owner = none ∧ m.locked = 0 ∧ m.recursive_count = 0) ∨
  (m.owner ≠ none ∧ m.locked = 1 ∧ 1 ≤ m.recursive_count)

/-- A mutex record before `mutex_init`. -/
def mutex0 : mutex_t :=
  { locked := 7, owner := some 9, owner_base_priority := 3, recursive_count := 0, flags := 0,
    wait_list_head := none, wait_list_tail := none }

/-- A queue record before `queue_init`. -/
def queue0 : msg_queue_t :=
  { buffer := fun _ => 0, msg_size := 0, capacity := 0, head := 5, tail := 6, count := 7,
    send_wait_head := none, send_wait_tail := none, recv_wait_head := none,
    recv_wait_tail := none }

/-! ## List views of the pointer structures -/

/-- `l` is the sequence of TCBs met when following `next` from `head` until
`NULL`. -/
def NextChain (mem : Nat → task_tcb_t) : Option Nat → List Nat → Prop
  | h, [] => h = none
  | h, a :: l => h = some a ∧ NextChain mem (mem a).next l

/-- One step of the search of `scheduler_unblock_one`: the candidate after
looking at `it`. -/
def pick_step (k : Kernel) (reason : block_reason_t) (object : Option Nat) (best : Option Nat)
    (it : Nat) : Option Nat :=
  if (k.tcb it).block_reason = reason ∧ (k.tcb it).block_object = object then
    match best with
    | none => some it
    | some b => if (k.tcb it).priority < (k.tcb b).priority then some it else best
  else best

/-- The task chosen by the search of `scheduler_unblock_one` over the list
`l`, starting from the candidate `best`. -/
def pick_best (k : Kernel) (reason : block_reason_t) (object : Option Nat) (l : List Nat)
    (best : Option Nat) : Option Nat :=
  l.foldl (pick_step k reason object) best

/-- `l` is the doubly linked list that starts at `head`: `nx` and `pv` are the
`next` and `prev` links, `prev` is the `prev` link expected in the first
element. -/
def DList (nx pv : Nat → Option Nat) : Option Nat → Option Nat → List Nat → Prop
  | _, head, [] => head = none
  | prev, head, a :: l => head = some a ∧ pv a = prev ∧ DList nx pv (some a) (nx a) l

/-- The `next` links after unlinking `t` as `blocked_remove` and
`scheduler_remove_task` do. -/
def unlink_nx (nx pv : Nat → Option Nat) (t : Nat) : Nat → Option Nat :=
  Function.update
    (match pv t with
     | some p => Function.update nx p (nx t)
     | none => nx) t none

/-- The `prev` links after unlinking `t`. -/
def unlink_pv (nx pv : Nat → Option Nat) (t : Nat) : Nat → Option Nat :=
  Function.update
    (match (match pv t with
            | some p => Function.update nx p (nx t)
            | none => nx) t with
     | some n => Function.update pv n (pv t)
     | none => pv) t none


/-- The `next` links of the TCB memory. -/
def nxt (k : Kernel) : Nat → Option Nat :=
  fun a => (k.tcb a).next

/-- The `prev` links of the TCB memory. -/
def prv (k : Kernel) : Nat → Option Nat :=
  fun a => (k.tcb a).prev

/-- A TCB without its list links. -/
def tcb_data (c : task_tcb_t) : task_tcb_t :=
  { c with next := none, prev := none }

/-- The scheduler lists are well formed: `rl p` is the content of
`ready_list[p]` and `bl` the content of the blocked list, each a proper doubly
linked list without repetition; a task on `ready_list[p]` has priority `p`, a
blocked task has a valid priority, and no task is on two lists. -/
structure SchedRep (k : Kernel) (rl : Nat → List Nat) (bl : List Nat) : Prop where
  ready : ∀ p, p < CONFIG_MAX_PRIORITY →
    DList (nxt k) (prv k) none (k.g_sched.ready_list p) (rl p)
  blocked : DList (nxt k) (prv k) none k.g_blocked_head bl
  ready_prio : ∀ p, p < CONFIG_MAX_PRIORITY → ∀ t ∈ rl p, (k.tcb t).priority = p
  blocked_prio : ∀ t ∈ bl, (k.tcb t).priority < CONFIG_MAX_PRIORITY
  ready_nodup : ∀ p, p < CONFIG_MAX_PRIORITY → (rl p).Nodup
  blocked_nodup : bl.Nodup
  disjoint : ∀ p, p < CONFIG_MAX_PRIORITY → ∀ t ∈ rl p, t ∉ bl

/-- The fuel `fuel` covers every list: all listed tasks are among the at most
`fuel` tasks of `U`. -/
def FuelCovers (rl : Nat → List Nat) (bl : List Nat) (fuel : Nat) : Prop :=
  ∃ U : List Nat, (∀ p, p < CONFIG_MAX_PRIORITY → ∀ t ∈ rl p, t ∈ U) ∧ (∀ t ∈ bl, t ∈ U) ∧
    U.length ≤ fuel

/-- The scheduler registers that the list primitives never write. -/
def SameRegs (k k1 : Kernel) : Prop :=
  k1.current_task = k.current_task ∧ k1.ipsr = k.ipsr ∧ k1.g_tick_count = k.g_tick_count ∧
    k1.g_sched.lock_count = k.g_sched.lock_count

/-- The scheduler lists are well formed and every list walk ends within
`fuel` steps. -/
def SchedOk (k : Kernel) (fuel : Nat) : Prop :=
  ∃ (rl : Nat → List Nat) (bl : List Nat), SchedRep k rl bl ∧ FuelCovers rl bl fuel

/-! ## List view of the message queue -/

/-- The first `n` bytes at a message pointer. -/
def msg_bytes (m : Nat → Nat) (n : Nat) : List Nat :=
  (List.range n).map m

/-- The bytes of slot `idx` of the queue buffer. -/
def slot_bytes (q : msg_queue_t) (idx : Nat) : List Nat :=
  (List.range q.msg_size).map (fun j => q.buffer (queue_slot_ptr q idx + j))

/-- The messages held by the queue, oldest first: the `count` slots starting
at `tail`. -/
def queue_contents (q : msg_queue_t) : List (List Nat) :=
  (List.range q.count).map (fun i => slot_bytes q ((q.tail + i) % q.capacity))

/-- A queue record as `queue_init` and the operations leave it: sizes are
positive, the buffer of `msg_size * capacity` bytes fits in the 32-bit address
space, and `head` is `count` slots after `tail`. -/
def QueueWF (q : msg_queue_t) : Prop :=
  1 ≤ q.msg_size ∧ 1 ≤ q.capacity ∧ q.msg_size * q.capacity < 2 ^ 32 ∧ q.count ≤ q.capacity ∧
    q.tail < q.capacity ∧ q.head = (q.tail + q.count) % q.capacity

/-- `queue_send` of each message of the list in turn, with the outcomes. -/
def queue_send_all (fuel : Nat) (queue : Nat) (timeout : Nat) :
    Kernel → msg_queue_t → List (Nat → Nat) → Option (Kernel × msg_queue_t × List Outcome)
  | k, q, [] => some (k, q, [])
  | k, q, m :: ms =>
    match queue_send fuel k (some queue) q (some m) timeout with
    | none => none
    | some (k1, q1, o) =>
      match queue_send_all fuel queue timeout k1 q1 ms with
      | none => none
      | some (k2, q2, os) => some (k2, q2, o :: os)

/-- `n` calls of `queue_receive` in turn, each into the caller's buffer `buf`,
with the buffers after each call and the outcomes. -/
def queue_receive_n (fuel : Nat) (queue : Nat) (buf : Nat → Nat) (timeout : Nat) :
    Kernel → msg_queue_t → Nat → Option (Kernel × msg_queue_t × List (Nat → Nat) × List Outcome)
  | k, q, 0 => some (k, q, [], [])
  | k, q, n + 1 =>
    match queue_receive fuel k (some queue) q (some buf) timeout with
    | none => none
    | some (k1, q1, out, o) =>
      match queue_receive_n fuel queue buf timeout k1 q1 n with
      | none => none
      | some (k2, q2, outs, os) => some (k2, q2, out :: outs, o :: os)

/-! ## Repeated mutex calls -/

/-- `n` calls of `mutex_lock` in turn, with the outcomes. -/
def mutex_lock_n (fuel : Nat) (mtx : Nat) (timeout : Nat) :
    Kernel → mutex_t → Nat → Option (Kernel × mutex_t × List Outcome)
  | k, m, 0 => some (k, m, [])
  | k, m, n + 1 =>
    match mutex_lock fuel k (some mtx) m timeout with
    | none => none
    | some (k1, m1, o) =>
      match mutex_lock_n fuel mtx timeout k1 m1 n with
      | none => none
      | some (k2, m2, os) => some (k2, m2, o :: os)

/-- `n` calls of `mutex_unlock` in turn; for each call the return code and
the `locked` flag and the owner it leaves. -/
def mutex_unlock_n (fuel : Nat) (mtx : Nat) :
    Kernel → mutex_t → Nat → Option (Kernel × mutex_t × List (Int × Nat × Option Nat))
  | k, m, 0 => some (k, m, [])
  | k, m, n + 1 =>
    match mutex_unlock fuel k (some mtx) m with
    | none => none
    | some (k1, m1, code) =>
      match mutex_unlock_n fuel mtx k1 m1 n with
      | none => none
      | some (k2, m2, rs) => some (k2, m2, (code, m1.locked, m1.owner) :: rs)

/-- What is observed in `scenario_recursive_256`. -/
structure RecursiveObs where
  lock_outcomes : List Outcome
  count_after_locks : Nat
  first_unlocks : List (Int × Nat × Option Nat)
  code_255 : Int
  locked_after_255 : Nat
  owner_after_255 : Option Nat
  code_256 : Int
  deriving DecidableEq

/-- Task `A` (TCB 1) locks a recursive mutex 256 times and then unlocks it 256
times: the first 254 unlocks, the 255th and the 256th are observed. -/
def scenario_recursive_256 : Option RecursiveObs := do
  let k0 ← scenario_two_tasks
  let r1 ← mutex_lock_n 8 200 100 k0 (mutex_init (some 200) mutex0 MUTEX_FLAG_RECURSIVE).1 256
  let r2 ← mutex_unlock_n 8 200 r1.1 r1.2.1 254
  let r3 ← mutex_unlock 8 r2.1 (some 200) r2.2.1
  let r4 ← mutex_unlock 8 r3.1 (some 200) r3.2.1
  pure { lock_outcomes := r1.2.2, count_after_locks := r1.2.1.recursive_count,
         first_unlocks := r2.2.2, code_255 := r3.2.2, locked_after_255 := r3.2.1.locked,
         owner_after_255 := r3.2.1.owner, code_256 := r4.2.2 }

/-- The mutex record after `n >= 1` successful locks by task `T` of priority
`prio`, starting from the record `m`. -/
def mutex_held (m : mutex_t) (T prio n : Nat) : mutex_t :=
  { m with locked := 1, owner := some T, owner_base_priority := prio, recursive_count := n }

/-- The state `kernelA` with task 1 running. -/
def kernelB : Kernel :=
  { kernelA with current_task := some 1 }

/-- Modelled from the spec: the switch exception handler when the choice of
`scheduler_select_next_task` is the task `t`. -/
def dispatch (k : Kernel) (t : Nat) : Kernel :=
  switch_to { k with next_task := some t, g_sched := { k.g_sched with current := some t } } t

/-- Three tasks created with caller-supplied TCBs and stacks after
`scheduler_init`: `A` (TCB 1, priority 5), `B` (TCB 2, priority 5) and `C`
(TCB 3, priority 6); `A` is started. -/
def scenario_three_tasks : Option Kernel := do
  let r1 ← task_create 8 (scheduler_init kernel0) (some 1) (some 0x60003001) 0 5
    (some 0x20010000) 256
  let r2 ← task_create 8 r1.1 (some 2) (some 0x60004001) 0 5 (some 0x20010100) 256
  let r3 ← task_create 8 r2.1 (some 3) (some 0x60005001) 0 6 (some 0x20010200) 256
  scheduler_start r3.1

/-- What is observed in `scenario_two_waiters`. -/
structure TwoWaitersObs where
  take_A : Outcome
  current_after_A : Option Nat
  take_B : Outcome
  current_after_B : Option Nat
  blocked_head_before : Option Nat
  blocked_second_before : Option Nat
  priority_A : Nat
  priority_B : Nat
  unblock_result : Bool
  state_A_after : task_state_t
  state_B_after : task_state_t
  block_result_B_after : Int
  blocked_head_after : Option Nat
  deriving DecidableEq

/-- After `scenario_three_tasks`: `A` calls `sem_take(sem, UINT32_MAX)` on the
empty semaphore at address 100 and is blocked; the switch exception runs `B`,
which calls the same and is blocked; the switch exception runs `C`, which
calls `scheduler_unblock_one(BLOCK_SEMAPHORE, sem, KERNEL_OK)`, as `sem_give`
does. -/
def scenario_two_waiters : Option TwoWaitersObs := do
  let k0 ← scenario_three_tasks
  let r1 ← sem_take k0 (some 100) sem0 UINT32_MAX
  let k2 ← PendSV_Handler r1.1
  let r3 ← sem_take k2 (some 100) r1.2.1 UINT32_MAX
  let k4 ← PendSV_Handler r3.1
  let r5 ← scheduler_unblock_one 8 k4 block_reason_t.SEMAPHORE (some 100) KERNEL_OK
  pure { take_A := r1.2.2, current_after_A := k2.current_task, take_B := r3.2.2,
         current_after_B := k4.current_task, blocked_head_before := k4.g_blocked_head,
         blocked_second_before := (k4.tcb 2).next,
         priority_A := (k4.tcb 1).priority, priority_B := (k4.tcb 2).priority,
         unblock_result := r5.2, state_A_after := (r5.1.tcb 1).state,
         state_B_after := (r5.1.tcb 2).state, block_result_B_after := (r5.1.tcb 2).block_result,
         blocked_head_after := r5.1.g_blocked_head }

/-- What is observed in `scenario_delay_forever` and `scenario_delay_wrap`. -/
structure DelayObs where
  delay_outcome : Outcome
  block_reason_A : block_reason_t
  block_timeout_A : Nat
  wake_tick_A : Nat
  state_A_before : task_state_t
  tick_before : Nat
  tick_after : Nat
  state_A_after : task_state_t
  block_result_A_after : Int
  blocked_head_after : Option Nat
  ready_head_5_after : Option Nat
  deriving DecidableEq

/-- After `scenario_two_tasks`, when the tick counter has reached `t`: `A`
calls `task_delay(n)` and is blocked, the switch exception runs `B`, and one
`scheduler_tick` is processed. -/
def scenario_delay (t n : Nat) : Option DelayObs := do
  let k0 ← scenario_two_tasks
  let r2 ← task_delay 8 { k0 with g_tick_count := t } n
  let k3 ← PendSV_Handler r2.1
  let k4 ← scheduler_tick 8 k3
  pure { delay_outcome := r2.2, block_reason_A := (k3.tcb 1).block_reason,
         block_timeout_A := (k3.tcb 1).block_timeout, wake_tick_A := (k3.tcb 1).wake_tick,
         state_A_before := (k3.tcb 1).state, tick_before := k3.g_tick_count,
         tick_after := k4.g_tick_count, state_A_after := (k4.tcb 1).state,
         block_result_A_after := (k4.tcb 1).block_result,
         blocked_head_after := k4.g_blocked_head,
         ready_head_5_after := k4.g_sched.ready_list 5 }

/-- The tick counter stands at `0xFFFFFFFE` and `A` calls
`task_delay(UINT32_MAX)`. -/
def scenario_delay_forever : Option DelayObs :=
  scenario_delay 0xFFFFFFFE UINT32_MAX

/-- The tick counter stands at `0xFFFFFFF0` and `A` calls `task_delay(32)`. -/
def scenario_delay_wrap : Option DelayObs :=
  scenario_delay 0xFFFFFFF0 32

/-- What is observed in `scenario_delete_blocked_head`. -/
structure DeleteHeadObs where
  delay_A : Outcome
  delay_B : Outcome
  blocked_head_before : Option Nat
  blocked_second_before : Option Nat
  current_before : Option Nat
  delete_outcome : Outcome
  state_B_after_delete : task_state_t
  blocked_head_after_delete : Option Nat
  next_B_after_delete : Option Nat
  state_A_after_delete : task_state_t
  tick_after : Nat
  state_A_after_ticks : task_state_t
  state_B_after_ticks : task_state_t
  blocked_head_after_ticks : Option Nat
  ready_head_5_after_ticks : Option Nat
  current_after_switch : Option Nat
  deriving DecidableEq

/-- After `scenario_three_tasks`: `A` calls `task_delay(3)` and is blocked, the
switch exception runs `B`, which calls `task_delay(3)` and is blocked, so `B`
is the head of the blocked list and `A` stands behind it; the switch exception
runs `C`. -/
def delete_blocked_head_setup : Option (Outcome × Outcome × Kernel) := do
  let k0 ← scenario_three_tasks
  let r1 ← task_delay 8 k0 3
  let k2 ← PendSV_Handler r1.1
  let r3 ← task_delay 8 k2 3
  let k4 ← PendSV_Handler r3.1
  pure (r1.2, r3.2, k4)

/-- After `delete_blocked_head_setup`, `C` calls `task_delete(B)`; then four
ticks are processed and the switch exception is taken. -/
def scenario_delete_blocked_head : Option DeleteHeadObs := do
  let s ← delete_blocked_head_setup
  let r5 ← task_delete 8 s.2.2 (some 2)
  let k6 ← scheduler_tick 8 r5.1
  let k7 ← scheduler_tick 8 k6
  let k8 ← scheduler_tick 8 k7
  let k9 ← scheduler_tick 8 k8
  let k10 ← PendSV_Handler k9
  pure { delay_A := s.1, delay_B := s.2.1, blocked_head_before := s.2.2.g_blocked_head,
         blocked_second_before := (s.2.2.tcb 2).next, current_before := s.2.2.current_task,
         delete_outcome := r5.2, state_B_after_delete := (r5.1.tcb 2).state,
         blocked_head_after_delete := r5.1.g_blocked_head,
         next_B_after_delete := (r5.1.tcb 2).next,
         state_A_after_delete := (r5.1.tcb 1).state, tick_after := k9.g_tick_count,
         state_A_after_ticks := (k9.tcb 1).state, state_B_after_ticks := (k9.tcb 2).state,
         blocked_head_after_ticks := k9.g_blocked_head,
         ready_head_5_after_ticks := k9.g_sched.ready_list 5,
         current_after_switch := k10.current_task }

/-- Calls `task_create(NULL, name, entry, 0, 5, NULL, 512)` `n` times in
succession and collects the return codes. -/
def pool_create_n (fuel : Nat) : Nat → Kernel → Option (Kernel × List Int)
  | 0, k => some (k, [])
  | n + 1, k =>
    match task_create fuel k none (some 0x60003001) 0 5 none 512 with
    | none => none
    | some (k1, c) =>
      match pool_create_n fuel n k1 with
      | none => none
      | some (k2, cs) => some (k2, c :: cs)

/-- What is observed in `scenario_pool_delete`. -/
structure PoolDeleteObs where
  init_code : Int
  create_codes : List Int
  stack_base_3 : Nat
  current_task : Option Nat
  delete_outcome : Outcome
  state_3_after_delete : task_state_t
  task_slot_3_after_delete : Nat
  stack_slot_3_after_delete : Nat
  create_code_after_delete : Int
  deriving DecidableEq

/-- After `kernel_init`, sixteen tasks are created from the pools, the task in
`g_task_pool[3]` is deleted with `task_delete`, and one more task is created
from the pools. -/
def scenario_pool_delete : Option PoolDeleteObs := do
  let r0 ← kernel_init 20 kernel0
  let r1 ← pool_create_n 20 16 r0.1
  let r2 ← task_delete 20 r1.1 (some (g_task_pool 3))
  let r3 ← task_create 20 r2.1 none (some 0x60003001) 0 5 none 512
  pure { init_code := r0.2, create_codes := r1.2, stack_base_3 := (r1.1.tcb 3).stack_base,
         current_task := r1.1.current_task, delete_outcome := r2.2,
         state_3_after_delete := (r2.1.tcb 3).state,
         task_slot_3_after_delete := r2.1.g_task_slot_used 3,
         stack_slot_3_after_delete := r2.1.g_stack_slot_used 3,
         create_code_after_delete := r3.2 }

/-- What is observed in `scenario_unblock_while_locked`. -/
structure LockedUnblockObs where
  take_A : Outcome
  current_task : Option Nat
  priority_A : Nat
  priority_current : Nat
  lock_count : Nat
  is_locked : Bool
  pendsv_before : Bool
  reschedule_pending_before : Bool
  unblock_one_result : Bool
  pendsv_after_unblock_one : Bool
  reschedule_pending_after_unblock_one : Bool
  pendsv_after_unblock_task : Bool
  reschedule_pending_after_unblock_task : Bool
  unblock_all_count : Nat
  pendsv_after_unblock_all : Bool
  reschedule_pending_after_unblock_all : Bool
  lock_count_after : Nat
  deriving DecidableEq

/-- After `scenario_two_tasks`: `A` (priority 5) calls `sem_take` on the empty
semaphore and is blocked; the switch exception runs `B` (priority 6), which
calls `scheduler_lock`.  From that state each of `scheduler_unblock_one`,
`scheduler_unblock_task` and `scheduler_unblock_all` is called to wake `A`. -/
def scenario_unblock_while_locked : Option LockedUnblockObs := do
  let k0 ← scenario_two_tasks
  let r1 ← sem_take k0 (some 100) sem0 UINT32_MAX
  let k2 ← PendSV_Handler r1.1
  let k3 := scheduler_lock k2
  let r4 ← scheduler_unblock_one 8 k3 block_reason_t.SEMAPHORE (some 100) KERNEL_OK
  let k5 ← scheduler_unblock_task 8 k3 (some 1) KERNEL_OK
  let r6 ← scheduler_unblock_all 8 k3 block_reason_t.SEMAPHORE (some 100) KERNEL_OK
  pure { take_A := r1.2.2, current_task := k3.current_task, priority_A := (k3.tcb 1).priority,
         priority_current := (k3.tcb 2).priority, lock_count := k3.g_sched.lock_count,
         is_locked := scheduler_is_locked k3, pendsv_before := k3.pendsv,
         reschedule_pending_before := k3.g_sched.reschedule_pending,
         unblock_one_result := r4.2, pendsv_after_unblock_one := r4.1.pendsv,
         reschedule_pending_after_unblock_one := r4.1.g_sched.reschedule_pending,
         pendsv_after_unblock_task := k5.pendsv,
         reschedule_pending_after_unblock_task := k5.g_sched.reschedule_pending,
         unblock_all_count := r6.2, pendsv_after_unblock_all := r6.1.pendsv,
         reschedule_pending_after_unblock_all := r6.1.g_sched.reschedule_pending,
         lock_count_after := r4.1.g_sched.lock_count }

/-! ## The static pools -/

/-- Number of slots `i < n` whose used-flag in a slot map is not 0. -/
def used_count (bitmap : Nat → Nat) : Nat → Nat
  | 0 => 0
  | n + 1 => used_count bitmap n + (if bitmap n = 0 then 0 else 1)

/-- Runs from a state `k` in which `n` calls `task_create(NULL, ...)` have
returned `KERNEL_OK`; the steps in between, `other`, are any that leave
`g_task_slot_used` as it is. -/
inductive PoolCreated : Nat → Kernel → Kernel → Prop where
  | start (k : Kernel) : PoolCreated 0 k k
  | create {n : Nat} {k k1 k2 : Kernel} (fuel : Nat) (entry : Option Nat) (arg priority : Nat)
      (stack : Option Nat) (stack_size : Nat) :
      PoolCreated n k k1 →
      task_create fuel k1 none entry arg priority stack stack_size = some (k2, KERNEL_OK) →
      PoolCreated (n + 1) k k2
  | other {n : Nat} {k k1 k2 : Kernel} :
      PoolCreated n k k1 → k2.g_task_slot_used = k1.g_task_slot_used → PoolCreated n k k2

/-- The state after `scheduler_init` and sixteen `task_create` calls that take
their TCB and stack from the pools. -/
def kernelFull : Kernel :=
  ((pool_create_n 20 16 (scheduler_init kernel0)).map Prod.fst).getD kernel0

/-- A state after `scheduler_init` in which `scheduler_lock` has been called
`UINT32_MAX` times: `lock_count` is `0xFFFFFFFF`. -/
def kernelLockMax : Kernel :=
  { scheduler_init kernel0 with
    g_sched := { (scheduler_init kernel0).g_sched with lock_count := UINT32_MAX } }

/-- The state `kernelB` after one `scheduler_lock`. -/
def kernelLocked : Kernel :=
  scheduler_lock kernelB

/-- The result of `task_init_stack` below `0x20010100` for the entry
`0x60003001`, the argument 7 and the exit function `task_exit_trampoline`, in
a memory of zeros. -/
def frameW : (Nat → Nat) × Nat :=
  task_init_stack (fun _ => 0) 0x20010100 0x60003001 7 task_exit_trampoline

/-- A recursive mutex record held by task 1 with `recursive_count = 255`, as
after 255 nested `mutex_lock` calls. -/
def mutexDeep : mutex_t :=
  mutex_held (mutex_init (some 200) mutex0 MUTEX_FLAG_RECURSIVE).1 1 5 255

/-- A full queue of one slot: `queue_init` with capacity 1 and one message
pushed. -/
def queueFull : msg_queue_t :=
  queue_push_back (queue_init (some 300) queue0 (some (fun _ => 0)) 4 1).1 (fun _ => 7)

/-- An empty queue of one slot. -/
def queueEmpty : msg_queue_t :=
  (queue_init (some 300) queue0 (some (fun _ => 0)) 4 1).1

/-- A mutex record held once by task 2. -/
def mutexOther : mutex_t :=
  mutex_held (mutex_init (some 200) mutex0 0).1 2 5 1

/-- The state `kernelB` inside an interrupt handler (exception number 15). -/
def kernelIsr : Kernel :=
  { kernelB with ipsr := 15 }

/-- A queue of four slots of four bytes holding the two messages
`01 02 03 04` and `05 06 07 08`. -/
def queueTwo : msg_queue_t :=
  queue_push_back
    (queue_push_back (queue_init (some 300) queue0 (some (fun _ => 0)) 4 4).1
      (fun j => [1, 2, 3, 4].getD j 0))
    (fun j => [5, 6, 7, 8].getD j 0)

/-! ## A state with blocked tasks -/

/-- The state after `scheduler_add_task` of `t`. -/
def addW (k : Kernel) (t : Nat) : Kernel :=
  (scheduler_add_task 8 k t).getD k

/-- The current task enters `scheduler_block_task` with the given reason on
`object` and is suspended; task `next` is switched in. -/
def blockW (k : Kernel) (reason : block_reason_t) (object next : Nat) : Kernel :=
  match scheduler_block_task_enter k reason (some object) 50 with
  | some (k1, _) => { k1 with current_task := some next }
  | none => k

/-- The ready lists with the list `l` at priority 5 and nothing elsewhere. -/
def readyL (l : List Nat) : Nat → List Nat :=
  Function.update (fun _ => []) 5 l

/-- Six tasks of priority 5 on `ready_list[5]`, task 1 running. -/
def kernelW0 : Kernel :=
  { addW (addW (addW (addW (addW (addW (scheduler_init kernel0) 1) 2) 3) 4) 5) 6 with
    current_task := some 1 }

/-- Tasks 1 and 3 wait for the semaphore at 100, task 2 for the mutex at
200, task 5 for room in the queue at 300 and task 6 for a message of it;
task 4 runs. -/
def kernelW : Kernel :=
  blockW (blockW (blockW (blockW (blockW kernelW0 block_reason_t.SEMAPHORE 100 2)
    block_reason_t.MUTEX 200 3) block_reason_t.SEMAPHORE 100 5)
    block_reason_t.QUEUE_SEND 300 6) block_reason_t.QUEUE_RECV 300 4

/-- The blocked list of `kernelW`, head first. -/
def blockedW : List Nat := [6, 5, 3, 2, 1]

/-! ## The test of the unblock walks -/

/-- The test of `scheduler_unblock_all` and `scheduler_unblock_one` on a
task: it is blocked for `reason` on `object`. -/
def waits_on (k : Kernel) (reason : block_reason_t) (object : Option Nat) (t : Nat) : Bool :=
  decide ((k.tcb t).block_reason = reason ∧ (k.tcb t).block_object = object)

/-- Task `t` passes the test and has priority `p`. -/
def wakes (k : Kernel) (reason : block_reason_t) (object : Option Nat) (p t : Nat) : Bool :=
  waits_on k reason object t && decide ((k.tcb t).priority = p)

/-- A mutex record held once by task 4. -/
def mutexW : mutex_t :=
  mutex_held (mutex_init (some 200) mutex0 0).1 4 5 1

/-! ## Scenarios for the timing claims -/

/-- What is observed in `scenario_delay_ms`. -/
structure DelayMsObs where
  ticks_of_ms : Nat
  delay_ms_outcome : Outcome
  state_A_after_delay_ms : task_state_t
  delay_outcome : Outcome
  state_A_after_delay : task_state_t
  wake_tick_A_after_delay : Nat
  deriving DecidableEq

/-- After `scenario_two_tasks`, the running task `A` calls
`task_delay_ms(ms)`; for comparison, `task_delay(ms)` in the same state. -/
def scenario_delay_ms (ms : Nat) : Option DelayMsObs := do
  let k0 ← scenario_two_tasks
  let r1 ← task_delay_ms 8 k0 ms
  let r2 ← task_delay 8 k0 ms
  pure { ticks_of_ms := MS_TO_TICKS ms, delay_ms_outcome := r1.2,
         state_A_after_delay_ms := (r1.1.tcb 1).state, delay_outcome := r2.2,
         state_A_after_delay := (r2.1.tcb 1).state,
         wake_tick_A_after_delay := (r2.1.tcb 1).wake_tick }

/-- `n` calls of `scheduler_tick`. -/
def tick_n (fuel : Nat) : Nat → Kernel → Option Kernel
  | 0, k => some k
  | n + 1, k =>
    match scheduler_tick fuel k with
    | none => none
    | some k1 => tick_n fuel n k1

/-- After `scenario_two_tasks`, at tick 0: `A` calls
`event_wait(eg, 0x6, EVENT_WAIT_ALL, 100)` on the empty group and is blocked;
the switch exception runs `B`; ten ticks pass. -/
def event_retry_setup : Option (Kernel × event_group_t × Outcome × Nat × Nat) := do
  let k0 ← scenario_two_tasks
  let r1 ← event_wait k0 (some 400) { flags := 0 } 6 EVENT_WAIT_ALL 100
  let k2 ← PendSV_Handler r1.1
  let k3 ← tick_n 8 10 k2
  let k4 ← PendSV_Handler k3
  pure (k4, r1.2.1, r1.2.2, k0.g_tick_count, (r1.1.tcb 1).wake_tick)

/-- What is observed in `scenario_event_retry`. -/
structure EventRetryObs where
  entry_tick : Nat
  first_outcome : Outcome
  first_wake_tick : Nat
  set_tick : Nat
  set_code : Int
  flags_after_set : Nat
  state_A_after_set : task_state_t
  block_result_A_after_set : Int
  resumed_outcome : Outcome
  state_A_at_end : task_state_t
  block_timeout_A_at_end : Nat
  second_wake_tick : Nat
  deriving DecidableEq

/-- After `event_retry_setup`, `B` calls `event_set(eg, 0x2)`; the switch
exception runs `A` again, which goes on inside `event_wait`. -/
def scenario_event_retry : Option EventRetryObs := do
  let s ← event_retry_setup
  let r5 ← event_set 8 s.1 (some 400) s.2.1 2
  let k6 ← PendSV_Handler r5.1
  let r7 ← event_wait_resume 8 k6 1 400 r5.2.1 6 0 EVENT_WAIT_ALL 100
  pure { entry_tick := s.2.2.2.1, first_outcome := s.2.2.1, first_wake_tick := s.2.2.2.2,
         set_tick := s.1.g_tick_count, set_code := r5.2.2, flags_after_set := r5.2.1.flags,
         state_A_after_set := (r5.1.tcb 1).state,
         block_result_A_after_set := (r5.1.tcb 1).block_result,
         resumed_outcome := r7.2.2, state_A_at_end := (r7.1.tcb 1).state,
         block_timeout_A_at_end := (r7.1.tcb 1).block_timeout,
         second_wake_tick := (r7.1.tcb 1).wake_tick }

/-! ## The history of a message queue -/

/-- The record `sw_timer_t`: `callback` is the function pointer and `arg` the
argument pointer. -/
structure sw_timer_t where
  period_ticks : Nat
  remaining_ticks : Nat
  callback : Option Nat
  arg : Nat
  periodic : Nat
  active : Nat
  next : Option Nat
  deriving DecidableEq

/-- The timer memory and the list head `g_timer_list` of `timer.c`, with the
record of the callback invocations made so far, oldest first: the timer that
fired, the function called and the argument passed. -/
structure TimerState where
  timer : Nat → sw_timer_t
  g_timer_list : Option Nat
  calls : List (Nat × Nat × Nat)

/-- Store to the timer record at address `t`. -/
def TimerState.setTimer (s : TimerState) (t : Nat) (f : sw_timer_t → sw_timer_t) : TimerState :=
  { s with timer := Function.update s.timer t (f (s.timer t)) }

/-- The loop of `timer_list_remove`, at `iter` with `prev` behind it. -/
def timer_remove_walk (timer : Nat) : Nat → TimerState → Option Nat → Option Nat → Option TimerState
  | _, s, none, _ => some s
  | 0, _, some _, _ => none
  | fuel + 1, s, some iter, prev =>
    if iter = timer then
      let s1 := match prev with
        | none => { s with g_timer_list := (s.timer iter).next }
        | some p => s.setTimer p (fun c => { c with next := (s.timer iter).next })
      some (s1.setTimer iter (fun c => { c with next := none, active := 0 }))
    else timer_remove_walk timer fuel s (s.timer iter).next (some iter)

def timer_list_remove (fuel : Nat) (s : TimerState) (timer : Nat) : Option TimerState :=
  timer_remove_walk timer fuel s s.g_timer_list none

def timer_list_add (s : TimerState) (timer : Nat) : TimerState :=
  let s1 := s.setTimer timer (fun c => { c with next := s.g_timer_list })
  let s2 := { s1 with g_timer_list := some timer }
  s2.setTimer timer (fun c => { c with active := 1 })

def timer_create (s : TimerState) (timer : Option Nat) (cb : Option Nat) (arg : Nat) :
    TimerState × Int :=
  match timer, cb with
  | some t, some f =>
    (s.setTimer t (fun c =>
      { c with period_ticks := 0, remaining_ticks := 0, callback := some f, arg := arg,
               periodic := 0, active := 0, next := none }), KERNEL_OK)
  | _, _ => (s, KERNEL_ERR_PARAM)

def timer_start (fuel : Nat) (s : TimerState) (timer : Option Nat) (period_ticks : Nat)
    (periodic : Nat) : Option (TimerState × Int) :=
  match timer with
  | none => some (s, KERNEL_ERR_PARAM)
  | some t =>
    if (s.timer t).callback = none ∨ period_ticks = 0 then some (s, KERNEL_ERR_PARAM)
    else
      match (if (s.timer t).active ≠ 0 then timer_list_remove fuel s t else some s) with
      | none => none
      | some s1 =>
        let s2 := s1.setTimer t (fun c =>
          { c with period_ticks := period_ticks, remaining_ticks := period_ticks,
                   periodic := if periodic ≠ 0 then 1 else 0 })
        some (timer_list_add s2 t, KERNEL_OK)

def timer_stop (fuel : Nat) (s : TimerState) (timer : Option Nat) : Option (TimerState × Int) :=
  match timer with
  | none => some (s, KERNEL_ERR_PARAM)
  | some t =>
    match (if (s.timer t).active ≠ 0 then timer_list_remove fuel s t else some s) with
    | none => none
    | some s1 => some (s1, KERNEL_OK)

def timer_is_active (s : TimerState) (timer : Option Nat) : Int :=
  match timer with
  | none => 0
  | some t => if (s.timer t).active ≠ 0 then 1 else 0

/-- The loop of `timer_tick_isr`; `n` is the fuel handed to
`timer_list_remove`.  The call `cb(arg)` is entered in the record of calls; a
call through a `NULL` function pointer has no result. -/
def timer_tick_walk (n : Nat) : Nat → TimerState → Option Nat → Option TimerState
  | _, s, none => some s
  | 0, _, some _ => none
  | fuel + 1, s, some iter =>
    let next := (s.timer iter).next
    let s1 := if (s.timer iter).remaining_ticks > 0
      then s.setTimer iter (fun c => { c with remaining_ticks := c.remaining_ticks - 1 }) else s
    if (s1.timer iter).remaining_ticks = 0 then
      let cb := (s1.timer iter).callback
      let arg := (s1.timer iter).arg
      let r := if (s1.timer iter).periodic ≠ 0
        then some (s1.setTimer iter (fun c => { c with remaining_ticks := c.period_ticks }))
        else timer_list_remove n s1 iter
      match r, cb with
      | some s2, some f =>
        timer_tick_walk n fuel { s2 with calls := s2.calls ++ [(iter, f, arg)] } next
      | _, _ => none
    else timer_tick_walk n fuel s1 next

def timer_tick_isr (fuel : Nat) (s : TimerState) : Option TimerState :=
  timer_tick_walk fuel fuel s s.g_timer_list

/-- The state after `k` calls of `timer_tick_isr`. -/
def timer_ticks (fuel : Nat) : Nat → TimerState → Option TimerState
  | 0, s => some s
  | k + 1, s =>
    match timer_tick_isr fuel s with
    | none => none
    | some s1 => timer_ticks fuel k s1

/-! ## List view of the timer list -/

/-- `l` is the sequence of timers met when following `next` from `head` until
`NULL`. -/
def TimerChain (nx : Nat → Option Nat) : Option Nat → List Nat → Prop
  | h, [] => h = none
  | h, a :: l => h = some a ∧ TimerChain nx (nx a) l

/-- The `next` links of the timer memory. -/
def timer_nxt (s : TimerState) : Nat → Option Nat :=
  fun a => (s.timer a).next

/-- A timer record without its link. -/
def timer_data (c : sw_timer_t) : sw_timer_t :=
  { c with next := none }

/-- The timer list is well formed with content `l`: a proper list without
repetition that holds exactly the active timers, each with a callback and
with `1 ≤ remaining_ticks ≤ period_ticks`. -/
structure TimerInv (s : TimerState) (l : List Nat) : Prop where
  chain : TimerChain (timer_nxt s) s.g_timer_list l
  nodup : l.Nodup
  active : ∀ t, (s.timer t).active ≠ 0 ↔ t ∈ l
  armed : ∀ t ∈ l, (s.timer t).callback ≠ none ∧ 1 ≤ (s.timer t).remaining_ticks ∧
    (s.timer t).remaining_ticks ≤ (s.timer t).period_ticks

/-- The last element of `prev :: l` in the walk of `timer_list_remove`. -/
def last_before : Option Nat → List Nat → Option Nat
  | prev, [] => prev
  | _, a :: l => last_before (some a) l

/-- The state after the unlink step of `timer_list_remove` for the timer `t`
found behind `prev`. -/
def timer_unlink (s : TimerState) (prev : Option Nat) (t : Nat) : TimerState :=
  (match prev with
    | none => { s with g_timer_list := (s.timer t).next }
    | some p => s.setTimer p (fun c => { c with next := (s.timer t).next })).setTimer t
      (fun c => { c with next := none, active := 0 })

/-- The timer `t` fires on the next tick. -/
def timer_fires (s : TimerState) (t : Nat) : Bool :=
  decide ((s.timer t).remaining_ticks ≤ 1)

/-- The timer `t` is still in the list after the next tick. -/
def timer_stays (s : TimerState) (t : Nat) : Bool :=
  !(timer_fires s t && decide ((s.timer t).periodic = 0))

/-- The entry made in the record of calls when timer `t` fires. -/
def timer_call (s : TimerState) (t : Nat) : Nat × Nat × Nat :=
  (t, (s.timer t).callback.getD 0, (s.timer t).arg)

/-- The calls made for timer `t`, oldest first. -/
def calls_of (s : TimerState) (t : Nat) : List (Nat × Nat × Nat) :=
  s.calls.filter (fun e => e.1 == t)

/-- An empty timer memory: every record is zero, as in `.bss`. -/
def timers0 : TimerState :=
  { timer := fun _ => { period_ticks := 0, remaining_ticks := 0, callback := none, arg := 0,
                        periodic := 0, active := 0, next := none }
    g_timer_list := none
    calls := [] }

/-- Two timers after `timer_create`: timer 1 with callback `0x60005001` and
argument 7, timer 2 with callback `0x60005101` and argument 9. -/
def timersS : TimerState :=
  (timer_create (timer_create timers0 (some 1) (some 0x60005001) 7).1 (some 2)
    (some 0x60005101) 9).1

/-- The state `timersS` after timer 2 is started with period 3, periodic. -/
def timersA : TimerState :=
  ((timer_start 4 timersS (some 2) 3 1).getD (timers0, 0)).1

/-! ## Scenarios with a waiter cut off from the blocked list -/

/-- After `scenario_three_tasks`: `A` calls `sem_take(sem, UINT32_MAX)` on the
empty semaphore at address 100 and is blocked; the switch exception runs `B`,
which calls the same and is blocked, so `B` is the head of the blocked list
and `A` stands behind it; the switch exception runs `C`, which calls
`task_suspend(B)`.  The result is the state, the semaphore and the code
returned to `C`. -/
def sem_cut_off_setup : Option (Kernel × semaphore_t × Int) := do
  let k0 ← scenario_three_tasks
  let r1 ← sem_take k0 (some 100) sem0 UINT32_MAX
  let k2 ← PendSV_Handler r1.1
  let r3 ← sem_take k2 (some 100) r1.2.1 UINT32_MAX
  let k4 ← PendSV_Handler r3.1
  let r5 ← task_suspend 8 k4 (some 2)
  pure (r5.1, r3.2.1, r5.2)

/-- What is observed in `scenario_unblock_all_cut_off`. -/
structure UnblockAllCutObs where
  suspend_code : Int
  current_before : Option Nat
  state_A_before : task_state_t
  A_matches_before : Bool
  state_B_before : task_state_t
  blocked_head_before : Option Nat
  next_B_before : Option Nat
  returned_count : Nat
  state_A_after : task_state_t
  A_matches_after : Bool
  block_result_A_after : Int
  state_B_after : task_state_t
  block_result_B_after : Int
  ready_head_5_after : Option Nat
  blocked_head_after : Option Nat
  deriving DecidableEq

/-- After `sem_cut_off_setup`, `C` calls
`scheduler_unblock_all(BLOCK_SEMAPHORE, sem, KERNEL_ERR_STATE)`. -/
def scenario_unblock_all_cut_off : Option UnblockAllCutObs := do
  let s ← sem_cut_off_setup
  let r6 ← scheduler_unblock_all 8 s.1 block_reason_t.SEMAPHORE (some 100) KERNEL_ERR_STATE
  pure { suspend_code := s.2.2, current_before := s.1.current_task,
         state_A_before := (s.1.tcb 1).state,
         A_matches_before := waits_on s.1 block_reason_t.SEMAPHORE (some 100) 1,
         state_B_before := (s.1.tcb 2).state, blocked_head_before := s.1.g_blocked_head,
         next_B_before := (s.1.tcb 2).next, returned_count := r6.2,
         state_A_after := (r6.1.tcb 1).state,
         A_matches_after := waits_on r6.1 block_reason_t.SEMAPHORE (some 100) 1,
         block_result_A_after := (r6.1.tcb 1).block_result,
         state_B_after := (r6.1.tcb 2).state,
         block_result_B_after := (r6.1.tcb 2).block_result,
         ready_head_5_after := r6.1.g_sched.ready_list 5,
         blocked_head_after := r6.1.g_blocked_head }

/-- What is observed in `scenario_sem_reset_cut_off`. -/
structure SemResetCutObs where
  state_A_before : task_state_t
  block_reason_A_before : block_reason_t
  block_object_A_before : Option Nat
  state_B_before : task_state_t
  blocked_head_before : Option Nat
  next_B_before : Option Nat
  reset_code : Int
  count_after : Int
  state_A_after : task_state_t
  block_reason_A_after : block_reason_t
  block_result_A_after : Int
  state_B_after : task_state_t
  block_result_B_after : Int
  ready_head_5_after : Option Nat
  blocked_head_after : Option Nat
  deriving DecidableEq

/-- After `sem_cut_off_setup`, `C` calls `sem_reset(sem, 0)`. -/
def scenario_sem_reset_cut_off : Option SemResetCutObs := do
  let s ← sem_cut_off_setup
  let r6 ← sem_reset 8 s.1 (some 100) s.2.1 0
  pure { state_A_before := (s.1.tcb 1).state,
         block_reason_A_before := (s.1.tcb 1).block_reason,
         block_object_A_before := (s.1.tcb 1).block_object,
         state_B_before := (s.1.tcb 2).state, blocked_head_before := s.1.g_blocked_head,
         next_B_before := (s.1.tcb 2).next, reset_code := r6.2.2, count_after := r6.2.1.count,
         state_A_after := (r6.1.tcb 1).state,
         block_reason_A_after := (r6.1.tcb 1).block_reason,
         block_result_A_after := (r6.1.tcb 1).block_result,
         state_B_after := (r6.1.tcb 2).state,
         block_result_B_after := (r6.1.tcb 2).block_result,
         ready_head_5_after := r6.1.g_sched.ready_list 5,
         blocked_head_after := r6.1.g_blocked_head }

/-- Four tasks created with caller-supplied TCBs and stacks after
`scheduler_init`: `A` (TCB 1, priority 5), `B` (TCB 2, priority 5), `C`
(TCB 3, priority 6) and `D` (TCB 4, priority 7); `A` is started. -/
def scenario_four_tasks : Option Kernel := do
  let r1 ← task_create 8 (scheduler_init kernel0) (some 1) (some 0x60003001) 0 5
    (some 0x20010000) 256
  let r2 ← task_create 8 r1.1 (some 2) (some 0x60004001) 0 5 (some 0x20010100) 256
  let r3 ← task_create 8 r2.1 (some 3) (some 0x60005001) 0 6 (some 0x20010200) 256
  let r4 ← task_create 8 r3.1 (some 4) (some 0x60006001) 0 7 (some 0x20010300) 256
  scheduler_start r4.1

/-- After `scenario_four_tasks`: `A` locks the mutex at address 200 and calls
`task_delay(2)`; the switch exception runs `B`, which calls
`mutex_lock(M, UINT32_MAX)` and is blocked; the switch exception runs `C`,
which calls the same and is blocked, so the blocked list is `C`, `B`, `A`; the
switch exception runs `D`. -/
def mutex_cut_off_setup : Option (Kernel × mutex_t × Outcome × Outcome × Outcome) := do
  let k0 ← scenario_four_tasks
  let r1 ← mutex_lock 8 k0 (some 200) (mutex_init (some 200) mutex0 0).1 UINT32_MAX
  let r2 ← task_delay 8 r1.1 2
  let k3 ← PendSV_Handler r2.1
  let r4 ← mutex_lock 8 k3 (some 200) r1.2.1 UINT32_MAX
  let k5 ← PendSV_Handler r4.1
  let r6 ← mutex_lock 8 k5 (some 200) r4.2.1 UINT32_MAX
  let k7 ← PendSV_Handler r6.1
  pure (k7, r6.2.1, r1.2.2, r4.2.2, r6.2.2)

/-- What is observed in `scenario_unlock_cut_off`. -/
structure UnlockCutObs where
  lock_A : Outcome
  lock_B : Outcome
  lock_C : Outcome
  current_during_ticks : Option Nat
  owner_before : Option Nat
  current_at_unlock : Option Nat
  suspend_code : Int
  state_B_before : task_state_t
  B_waits_before : Bool
  priority_B : Nat
  state_C_before : task_state_t
  priority_C : Nat
  blocked_head_before : Option Nat
  next_C_before : Option Nat
  unlock_code : Int
  owner_after : Option Nat
  state_B_after : task_state_t
  B_waits_after : Bool
  state_C_after : task_state_t
  block_result_C_after : Int
  ready_head_6_after : Option Nat
  blocked_head_after : Option Nat
  deriving DecidableEq

/-- After `mutex_cut_off_setup`: two ticks pass while `D` runs, which end the
delay of `A`, and the switch exception runs `A`; `A` calls `task_suspend(C)`,
`C` being the head of the blocked list, and then `mutex_unlock(M)`. -/
def scenario_unlock_cut_off : Option UnlockCutObs := do
  let s ← mutex_cut_off_setup
  let k8 ← tick_n 8 2 s.1
  let k9 ← PendSV_Handler k8
  let r10 ← task_suspend 8 k9 (some 3)
  let r11 ← mutex_unlock 8 r10.1 (some 200) s.2.1
  pure { lock_A := s.2.2.1, lock_B := s.2.2.2.1, lock_C := s.2.2.2.2,
         current_during_ticks := s.1.current_task, owner_before := s.2.1.owner, current_at_unlock := r10.1.current_task,
         suspend_code := r10.2, state_B_before := (r10.1.tcb 2).state,
         B_waits_before := waits_on r10.1 block_reason_t.MUTEX (some 200) 2,
         priority_B := (r10.1.tcb 2).priority, state_C_before := (r10.1.tcb 3).state,
         priority_C := (r10.1.tcb 3).priority, blocked_head_before := r10.1.g_blocked_head,
         next_C_before := (r10.1.tcb 3).next, unlock_code := r11.2.2,
         owner_after := r11.2.1.owner, state_B_after := (r11.1.tcb 2).state,
         B_waits_after := waits_on r11.1 block_reason_t.MUTEX (some 200) 2,
         state_C_after := (r11.1.tcb 3).state,
         block_result_C_after := (r11.1.tcb 3).block_result,
         ready_head_6_after := r11.1.g_sched.ready_list 6,
         blocked_head_after := r11.1.g_blocked_head }

/-! # Theorems -/

/-! ## Bitmap helpers -/

theorem bitmap_test_eq_testBit (b p : Nat) (hp : p < 32) : bitmap_test b p = b.testBit p := by
  unfold bitmap_test
  have h1 : (1 <<< p) % 2 ^ 32 = 2 ^ p := by
    rw [Nat.one_shiftLeft]
    exact Nat.mod_eq_of_lt (Nat.pow_lt_pow_right (by norm_num) hp)
  rw [h1, Nat.and_two_pow]
  cases h : b.testBit p <;> simp

theorem bitmap_test_set (b p q : Nat) (hp : p < 32) (hq : q < 32) :
    bitmap_test (bitmap_set b q) p = (decide (q = p) || bitmap_test b p) := by
  rw [bitmap_test_eq_testBit _ _ hp, bitmap_test_eq_testBit _ _ hp]
  unfold bitmap_set
  have h1 : (1 <<< q) % 2 ^ 32 = 2 ^ q := by
    rw [Nat.one_shiftLeft]
    exact Nat.mod_eq_of_lt (Nat.pow_lt_pow_right (by norm_num) hq)
  rw [h1, Nat.testBit_or, Nat.testBit_two_pow, Bool.or_comm]

theorem bitmap_test_clear (b p q : Nat) (hp : p < 32) (hq : q < 32) :
    bitmap_test (bitmap_clear b q) p = (!decide (q = p) && bitmap_test b p) := by
  rw [bitmap_test_eq_testBit _ _ hp, bitmap_test_eq_testBit _ _ hp]
  unfold bitmap_clear
  have h1 : (1 <<< q) % 2 ^ 32 = 2 ^ q := by
    rw [Nat.one_shiftLeft]
    exact Nat.mod_eq_of_lt (Nat.pow_lt_pow_right (by norm_num) hq)
  have h2 : UINT32_MAX = 2 ^ 32 - 1 := by norm_num [UINT32_MAX]
  rw [h1, h2, Nat.testBit_and, Nat.testBit_xor, Nat.testBit_two_pow_sub_one, Nat.testBit_two_pow]
  simp [hp, Bool.and_comm]

/-! ## Frame facts: what the list primitives leave alone -/

@[simp] theorem setTcb_g_sched (k : Kernel) (t : Nat) (f : task_tcb_t → task_tcb_t) :
    (k.setTcb t f).g_sched = k.g_sched := rfl

@[simp] theorem setTcb_current_task (k : Kernel) (t : Nat) (f : task_tcb_t → task_tcb_t) :
    (k.setTcb t f).current_task = k.current_task := rfl

@[simp] theorem setTcb_g_blocked_head (k : Kernel) (t : Nat) (f : task_tcb_t → task_tcb_t) :
    (k.setTcb t f).g_blocked_head = k.g_blocked_head := rfl

@[simp] theorem setTcb_g_tick_count (k : Kernel) (t : Nat) (f : task_tcb_t → task_tcb_t) :
    (k.setTcb t f).g_tick_count = k.g_tick_count := rfl

@[simp] theorem trigger_switch_g_sched (k : Kernel) :
    (scheduler_trigger_switch k).g_sched = k.g_sched := rfl

theorem blocked_remove_g_sched (k : Kernel) (t : Nat) :
    (blocked_remove k t).g_sched = k.g_sched := by
  unfold blocked_remove
  cases h1 : (k.tcb t).prev <;> simp only [] <;> split <;> (try split) <;> rfl

theorem blocked_insert_g_sched (k : Kernel) (t : Nat) :
    (blocked_insert k t).g_sched = k.g_sched := by
  unfold blocked_insert
  simp only []
  split <;> rfl

/-! ## C1: the bitmap invariant -/

theorem BitmapInv_of_g_sched_eq {k k1 : Kernel} (h : k1.g_sched = k.g_sched) (hk : BitmapInv k) :
    BitmapInv k1 := by
  intro p hp
  rw [h]
  exact hk p hp

theorem BitmapInv_scheduler_init (k : Kernel) : BitmapInv (scheduler_init k) := by
  intro p hp
  have h0 : bitmap_test 0 p = false := by
    rw [bitmap_test_eq_testBit _ _ hp]
    simp
  simp [scheduler_init, hp, h0]

theorem BitmapInv_ready_insert_tail {fuel : Nat} {k k1 : Kernel} {t : Nat}
    (h : ready_insert_tail fuel k t = some k1) (hk : BitmapInv k) : BitmapInv k1 := by
  unfold ready_insert_tail at h
  simp only [] at h
  split at h
  · rename_i hprio
    split at h
    · rename_i hhead
      cases h
      intro p hp
      simp only [Kernel.setBitmap, Kernel.setReady, Kernel.setTcb]
      rw [bitmap_test_set _ _ _ hp hprio]
      by_cases hq : (k.tcb t).priority = p
      · subst hq
        simp
      · simp [hq, Function.update_noteq (Ne.symm hq)]
        exact hk p hp
    · split at h
      · cases h
      · cases h
        exact BitmapInv_of_g_sched_eq rfl hk
  · cases h

theorem BitmapInv_scheduler_add_task {fuel : Nat} {k k1 : Kernel} {t : Nat}
    (h : scheduler_add_task fuel k t = some k1) (hk : BitmapInv k) : BitmapInv k1 := by
  unfold scheduler_add_task at h
  simp only [] at h
  split at h
  · cases h
  · rename_i k2 h2
    have hk2 : BitmapInv k2 :=
      BitmapInv_ready_insert_tail h2 (BitmapInv_of_g_sched_eq rfl hk)
    split at h
    · split at h <;> cases h
      · exact BitmapInv_of_g_sched_eq rfl hk2
      · exact hk2
    · cases h
      exact hk2

theorem BitmapInv_scheduler_remove_task {k k1 : Kernel} {tcb : Option Nat}
    (h : scheduler_remove_task k tcb = some k1) (hk : BitmapInv k) : BitmapInv k1 := by
  unfold scheduler_remove_task at h
  cases tcb with
  | none =>
    cases h
    exact hk
  | some t =>
    simp only [] at h
    split at h
    · rename_i hprio
      cases h
      apply BitmapInv_of_g_sched_eq (setTcb_g_sched _ _ _)
      -- the head store
      generalize hka : (if k.g_sched.ready_list (k.tcb t).priority = some t
          then k.setReady (k.tcb t).priority (k.tcb t).next else k) = ka
      have ha1 : ka.g_sched.priority_bitmap = k.g_sched.priority_bitmap := by
        rw [← hka]
        split <;> rfl
      have ha2 : ∀ p, p ≠ (k.tcb t).priority →
          ka.g_sched.ready_list p = k.g_sched.ready_list p := by
        intro p hne
        rw [← hka]
        split
        · simp only [Kernel.setReady, Function.update_noteq hne]
        · rfl
      have ha3 : ka.g_sched.ready_list (k.tcb t).priority ≠ none →
          k.g_sched.ready_list (k.tcb t).priority ≠ none := by
        rw [← hka]
        split
        · rename_i hhead
          intro _
          rw [hhead]
          simp
        · exact id
      -- the two link stores leave `g_sched` alone
      generalize hkb : (match (ka.tcb t).prev with
        | some p => ka.setTcb p (fun c => { c with next := (ka.tcb t).next })
        | none => ka) = kb
      have hb : kb.g_sched = ka.g_sched := by
        rw [← hkb]
        split <;> rfl
      generalize hkc : (match (kb.tcb t).next with
        | some n => kb.setTcb n (fun c => { c with prev := (kb.tcb t).prev })
        | none => kb) = kc
      have hc : kc.g_sched = ka.g_sched := by
        rw [← hkc, ← hb]
        split <;> rfl
      intro p hp
      by_cases hq : p = (k.tcb t).priority
      · subst hq
        split
        · rename_i hnone
          simp only [Kernel.setBitmap]
          rw [bitmap_test_clear _ _ _ hp hp]
          simp [hnone]
        · rename_i hsome
          rw [hc] at hsome ⊢
          rw [ha1]
          have := hk _ hp
          simp [this, hsome, ha3 hsome]
      · have hgoal : bitmap_test kc.g_sched.priority_bitmap p = true ↔
            kc.g_sched.ready_list p ≠ none := by
          rw [hc, ha1, ha2 p hq]
          exact hk p hp
        split
        · simp only [Kernel.setBitmap]
          rw [bitmap_test_clear _ _ _ hp hprio]
          simp only [Ne.symm hq, decide_False, Bool.not_false, Bool.true_and]
          exact hgoal
        · exact hgoal
    · cases h

theorem BitmapInv_scheduler_set_priority {fuel : Nat} {k k1 : Kernel} {tcb : Option Nat} {p : Nat}
    (h : scheduler_set_priority fuel k tcb p = some k1) (hk : BitmapInv k) : BitmapInv k1 := by
  unfold scheduler_set_priority at h
  cases tcb with
  | none =>
    cases h
    exact hk
  | some t =>
    simp only [] at h
    split at h
    · cases h
      exact hk
    · split at h
      · cases hrm : scheduler_remove_task k (some t) with
        | none =>
          rw [hrm] at h
          cases h
        | some k2 =>
          rw [hrm] at h
          exact BitmapInv_scheduler_add_task h
            (BitmapInv_of_g_sched_eq (setTcb_g_sched _ _ _)
              (BitmapInv_scheduler_remove_task hrm hk))
      · cases h
        exact BitmapInv_of_g_sched_eq rfl hk

theorem BitmapInv_scheduler_yield {fuel : Nat} {k k1 : Kernel}
    (h : scheduler_yield fuel k = some k1) (hk : BitmapInv k) : BitmapInv k1 := by
  unfold scheduler_yield at h
  split at h
  · cases h
    exact hk
  · rename_i cur hcur
    split at h
    · cases h
      intro p hp
      exact hk p hp
    · simp only [] at h
      split at h
      · rename_i hprio
        split at h
        · cases h
          exact BitmapInv_of_g_sched_eq rfl hk
        · rename_i head hhead
          split at h
          · cases h
            exact BitmapInv_of_g_sched_eq rfl hk
          · rename_i n hn
            split at h
            · split at h
              · cases h
              · rename_i k4 h4
                cases h
                apply BitmapInv_of_g_sched_eq (trigger_switch_g_sched _)
                apply BitmapInv_ready_insert_tail h4
                apply BitmapInv_of_g_sched_eq (setTcb_g_sched _ _ _)
                apply BitmapInv_of_g_sched_eq (setTcb_g_sched _ _ _)
                intro p hp
                by_cases hq : p = (k.tcb cur).priority
                · subst hq
                  simp only [Kernel.setReady, Function.update_same]
                  have := hk _ hp
                  rw [hhead] at this
                  simp [this]
                · simp only [Kernel.setReady, Function.update_noteq hq]
                  exact hk p hp
            · cases h
              exact BitmapInv_of_g_sched_eq rfl hk
      · cases h

theorem tick_wake_g_sched {k k1 : Kernel} {it : Nat} (h : tick_wake k it = some k1) :
    k1.g_sched = k.g_sched := by
  unfold tick_wake at h
  split at h
  · split at h <;> cases h
    rfl
  · split at h
    · split at h <;> cases h
      rfl
    · cases h

theorem BitmapInv_tick_walk (n : Nat) : ∀ (fuel : Nat) (k : Kernel) (iter : Option Nat) (k1 : Kernel),
    tick_walk n fuel k iter = some k1 → BitmapInv k → BitmapInv k1 := by
  intro fuel
  induction fuel with
  | zero =>
    intro k iter k1 h hk
    cases iter with
    | none =>
      simp only [tick_walk] at h
      cases h
      exact hk
    | some it => simp [tick_walk] at h
  | succ fuel ih =>
    intro k iter k1 h hk
    cases iter with
    | none =>
      simp only [tick_walk] at h
      cases h
      exact hk
    | some it =>
      simp only [tick_walk] at h
      split at h
      · exact ih _ _ _ h hk
      · rename_i ka hka
        split at h
        · cases h
        · rename_i k4 h4
          apply ih _ _ _ h
          apply BitmapInv_ready_insert_tail h4
          apply BitmapInv_of_g_sched_eq (setTcb_g_sched _ _ _)
          apply BitmapInv_of_g_sched_eq (blocked_remove_g_sched _ _)
          exact BitmapInv_of_g_sched_eq (tick_wake_g_sched hka) hk

theorem BitmapInv_scheduler_tick {fuel : Nat} {k k1 : Kernel}
    (h : scheduler_tick fuel k = some k1) (hk : BitmapInv k) : BitmapInv k1 := by
  unfold scheduler_tick at h
  simp only [] at h
  split at h
  · cases h
  · rename_i ka hka
    have hka1 : BitmapInv ka := BitmapInv_tick_walk _ _ _ _ _ hka (BitmapInv_of_g_sched_eq rfl hk)
    split at h
    · cases h
    · rename_i kb hkb
      have hkb1 : BitmapInv kb := by
        split at hkb
        · cases hkb
          exact hka1
        · split at hkb <;> split at hkb
          all_goals first
            | (cases hkb
               exact hka1)
            | (apply BitmapInv_scheduler_yield hkb
               apply BitmapInv_of_g_sched_eq (setTcb_g_sched _ _ _)
               exact hka1)
      split at h
      · split at h <;> cases h
        · exact BitmapInv_of_g_sched_eq rfl hkb1
        · exact hkb1
      · cases h
        exact hkb1

theorem BitmapInv_scheduler_block_task_enter {k k1 : Kernel} {reason : block_reason_t}
    {object : Option Nat} {timeout : Nat} {res : Outcome}
    (h : scheduler_block_task_enter k reason object timeout = some (k1, res)) (hk : BitmapInv k) :
    BitmapInv k1 := by
  unfold scheduler_block_task_enter at h
  split at h
  · cases h
    exact hk
  · split at h
    · cases h
    · rename_i ka hka
      cases h
      apply BitmapInv_of_g_sched_eq (trigger_switch_g_sched _)
      apply BitmapInv_of_g_sched_eq (blocked_insert_g_sched _ _)
      apply BitmapInv_of_g_sched_eq (setTcb_g_sched _ _ _)
      exact BitmapInv_scheduler_remove_task hka hk

theorem BitmapInv_unblock_tail {fuel : Nat} {k k3 : Kernel} {t : Nat} {result : Int}
    (h : ready_insert_tail fuel ((blocked_remove k t).setTcb t (fun c =>
      { c with state := task_state_t.READY, block_reason := block_reason_t.NONE,
               block_result := result, block_object := none, block_timeout := 0 })) t = some k3)
    (hk : BitmapInv k) : BitmapInv k3 := by
  apply BitmapInv_ready_insert_tail h
  apply BitmapInv_of_g_sched_eq (setTcb_g_sched _ _ _)
  exact BitmapInv_of_g_sched_eq (blocked_remove_g_sched _ _) hk

theorem BitmapInv_scheduler_unblock_task {fuel : Nat} {k k1 : Kernel} {tcb : Option Nat}
    {result : Int} (h : scheduler_unblock_task fuel k tcb result = some k1) (hk : BitmapInv k) :
    BitmapInv k1 := by
  unfold scheduler_unblock_task at h
  cases tcb with
  | none =>
    cases h
    exact hk
  | some t =>
    simp only [] at h
    split at h
    · cases h
      exact hk
    · split at h
      · cases h
      · rename_i k3 h3
        have hk3 : BitmapInv k3 := BitmapInv_unblock_tail h3 hk
        split at h
        · split at h <;> cases h
          · exact BitmapInv_of_g_sched_eq rfl hk3
          · exact hk3
        · cases h
          exact hk3

theorem BitmapInv_scheduler_unblock_one {fuel : Nat} {k k1 : Kernel} {reason : block_reason_t}
    {object : Option Nat} {result : Int} {b : Bool}
    (h : scheduler_unblock_one fuel k reason object result = some (k1, b)) (hk : BitmapInv k) :
    BitmapInv k1 := by
  unfold scheduler_unblock_one at h
  split at h
  · cases h
  · cases h
    exact hk
  · simp only [] at h
    split at h
    · cases h
    · rename_i k3 h3
      have hk3 : BitmapInv k3 := BitmapInv_unblock_tail h3 hk
      split at h
      · split at h <;> cases h
        · exact BitmapInv_of_g_sched_eq rfl hk3
        · exact hk3
      · cases h
        exact hk3

theorem BitmapInv_unblock_all_walk (n : Nat) (reason : block_reason_t) (object : Option Nat)
    (result : Int) : ∀ (fuel : Nat) (k : Kernel) (iter : Option Nat) (cnt : Nat) (k1 : Kernel)
    (c1 : Nat), unblock_all_walk n reason object result fuel k iter cnt = some (k1, c1) →
    BitmapInv k → BitmapInv k1 := by
  intro fuel
  induction fuel with
  | zero =>
    intro k iter cnt k1 c1 h hk
    cases iter with
    | none =>
      simp only [unblock_all_walk] at h
      cases h
      exact hk
    | some it => simp [unblock_all_walk] at h
  | succ fuel ih =>
    intro k iter cnt k1 c1 h hk
    cases iter with
    | none =>
      simp only [unblock_all_walk] at h
      cases h
      exact hk
    | some it =>
      simp only [unblock_all_walk] at h
      split at h
      · split at h
        · cases h
        · rename_i k3 h3
          exact ih _ _ _ _ _ h (BitmapInv_unblock_tail h3 hk)
      · exact ih _ _ _ _ _ h hk

theorem BitmapInv_scheduler_unblock_all {fuel : Nat} {k k1 : Kernel} {reason : block_reason_t}
    {object : Option Nat} {result : Int} {n : Nat}
    (h : scheduler_unblock_all fuel k reason object result = some (k1, n)) (hk : BitmapInv k) :
    BitmapInv k1 := by
  unfold scheduler_unblock_all at h
  split at h
  · cases h
  · rename_i ka cnt hka
    have hka1 : BitmapInv ka := BitmapInv_unblock_all_walk _ _ _ _ _ _ _ _ _ _ hka hk
    split at h <;> cases h
    · exact BitmapInv_of_g_sched_eq rfl hka1
    · exact hka1

theorem BitmapInv_scheduler_start {k k1 : Kernel} (h : scheduler_start k = some k1)
    (hk : BitmapInv k) : BitmapInv k1 := by
  unfold scheduler_start at h
  split at h
  · cases h
    intro p hp
    exact hk p hp
  · cases h

/-- C1 (P1 / I2): in every state reachable from `scheduler_init` by the
scheduler operations (add, remove, set-priority, yield, tick, block,
unblock-task, unblock-one, unblock-all, and also start and the context
switch), for every priority `p < 32`, bit `p` of `priority_bitmap` is set if
and only if `ready_list[p]` is non-empty.  The theorem does not need the
restriction that an added task is on no list. -/
theorem C1_bitmap_iff_ready_nonempty (k : Kernel) (hk : SchedReachable k) (p : Nat)
    (hp : p < CONFIG_MAX_PRIORITY) :
    bitmap_test k.g_sched.priority_bitmap p = true ↔ k.g_sched.ready_list p ≠ none := by
  have inv : BitmapInv k := by
    induction hk with
    | init k => exact BitmapInv_scheduler_init k
    | add_task fuel t _ h ih => exact BitmapInv_scheduler_add_task h ih
    | remove_task tcb _ h ih => exact BitmapInv_scheduler_remove_task h ih
    | set_priority fuel tcb p _ h ih => exact BitmapInv_scheduler_set_priority h ih
    | yield fuel _ h ih => exact BitmapInv_scheduler_yield h ih
    | tick fuel _ h ih => exact BitmapInv_scheduler_tick h ih
    | block_task reason object timeout res _ h ih => exact BitmapInv_scheduler_block_task_enter h ih
    | unblock_task fuel tcb result _ h ih => exact BitmapInv_scheduler_unblock_task h ih
    | unblock_one fuel reason object result b _ h ih => exact BitmapInv_scheduler_unblock_one h ih
    | unblock_all fuel reason object result n _ h ih => exact BitmapInv_scheduler_unblock_all h ih
    | start _ h ih => exact BitmapInv_scheduler_start h ih
    | dispatch cur nxt sc _ ih =>
      intro q hq
      exact ih q hq
  exact inv p hp

theorem kernelA_reachable : SchedReachable kernelA :=
  SchedReachable.add_task 4 1 (SchedReachable.init kernel0) (by rfl)

/-- Witness for C1: after `scheduler_init` and `scheduler_add_task` of a task
of priority 5, `ready_list[5]` is that task and bit 5 agrees with it. -/
theorem C1_bitmap_iff_ready_nonempty_witness :
    SchedReachable kernelA ∧ kernelA.g_sched.ready_list 5 = some 1 ∧
    (bitmap_test kernelA.g_sched.priority_bitmap 5 = true ↔
      kernelA.g_sched.ready_list 5 ≠ none) :=
  ⟨kernelA_reachable, by rfl,
    C1_bitmap_iff_ready_nonempty kernelA kernelA_reachable 5 (by decide)⟩

/-! ## C2: a blocked task that is suspended stays on the blocked list -/

/-- C2 (P2 / I1), failing input: task `A` blocks in `task_delay(10)` and is then
suspended by task `B`.  `task_suspend` returns `KERNEL_OK`, `A` is in state
Suspended, yet `A` is still the head of the blocked list:
`scheduler_remove_task` only unlinks through `prev` / `next` and the ready
head, and never updates `g_blocked_head`. -/
theorem C2_suspended_task_stays_on_blocked_list :
    scenario_suspend_blocked =
    some { delay_outcome := Outcome.blocked, suspend_code := KERNEL_OK, current_task := some 2,
           g_blocked_head := some 1, state_A := task_state_t.SUSPENDED } := by
  decide

/-! ## C5: a give to a waiting task is lost -/

/-- C5 (R1), failing input: `A` waits in `sem_take(sem, 50)` on a semaphore of
count 0 and `B` calls `sem_give(sem)`.  The give returns `KERNEL_OK`, makes `A`
Ready with `block_result = KERNEL_OK` and leaves the count at 0; when `A` runs
again its `sem_take` does not return `KERNEL_OK`: it tests `count > 0`, finds
0 and blocks a second time. -/
theorem C5_resumed_sem_take_blocks_again :
    scenario_sem_give_to_waiter =
    some { take_outcome := Outcome.blocked, give_code := KERNEL_OK,
           state_A_after_give := task_state_t.READY, block_result_A_after_give := KERNEL_OK,
           count_after_give := 0, resumed_take_outcome := Outcome.blocked, count_at_end := 0,
           state_A_at_end := task_state_t.BLOCKED, g_blocked_head_at_end := some 1 } := by
  decide!

/-! ## C10: `task_set_priority` leaves `base_priority` behind -/

/-- C10 (I5), failing input: a task created with priority 10 that owns no mutex
gets `task_set_priority(t, 3)`.  Both calls return `KERNEL_OK`; afterwards
`priority = 3` and `base_priority = 10`: `scheduler_set_priority` writes
`priority` only. -/
theorem C10_set_priority_keeps_base_priority :
    scenario_set_priority =
    some { create_code := KERNEL_OK, set_priority_code := KERNEL_OK, priority := 3,
           base_priority := 10 } := by
  decide

/-! ## C9: the mutex invariant -/

theorem MutexInv_mutex_trylock (k : Kernel) (mtx : Option Nat) (m : mutex_t) (h : MutexInv m) :
    MutexInv (mutex_trylock k mtx m).1 := by
  unfold mutex_trylock
  cases mtx with
  | none => exact h
  | some a =>
    simp only []
    split
    · exact h
    · cases hc : task_get_current k with
      | none => exact h
      | some self =>
        simp only []
        split
        · right
          simp
        · split
          · rename_i hlocked hown
            rcases h with ⟨h1, h2, _⟩ | ⟨h1, h2, h3⟩
            · exact absurd h2 hlocked
            · split
              · right
                exact ⟨h1, h2, by simp⟩
              · right
                exact ⟨h1, h2, h3⟩
          · exact h

theorem mutex_lock_attempt_fst {fuel : Nat} {k k1 : Kernel} {self mtx : Nat} {m m1 : mutex_t}
    {timeout : Nat} {o : Outcome}
    (h : mutex_lock_attempt fuel k self mtx m timeout = some (k1, m1, o)) :
    m1 = (mutex_trylock k (some mtx) m).1 := by
  unfold mutex_lock_attempt at h
  simp only [] at h
  split at h
  · cases h
    rfl
  · split at h
    · cases h
      rfl
    · split at h
      · cases h
      · split at h
        · cases h
        · cases h
          rfl

theorem MutexInv_mutex_lock {fuel : Nat} {k k1 : Kernel} {mtx : Option Nat} {m m1 : mutex_t}
    {timeout : Nat} {o : Outcome} (h : mutex_lock fuel k mtx m timeout = some (k1, m1, o))
    (hm : MutexInv m) : MutexInv m1 := by
  unfold mutex_lock at h
  cases mtx with
  | none =>
    cases h
    exact hm
  | some a =>
    simp only [] at h
    split at h
    · cases h
      exact hm
    · split at h
      · cases h
        exact hm
      · rw [mutex_lock_attempt_fst h]
        exact MutexInv_mutex_trylock _ _ _ hm

theorem MutexInv_mutex_lock_resume {fuel : Nat} {k k1 : Kernel} {self mtx : Nat}
    {m m1 : mutex_t} {timeout : Nat} {o : Outcome}
    (h : mutex_lock_resume fuel k self mtx m timeout = some (k1, m1, o)) (hm : MutexInv m) :
    MutexInv m1 := by
  unfold mutex_lock_resume at h
  split at h
  · cases h
  · split at h
    · cases h
      exact hm
    · rw [mutex_lock_attempt_fst h]
      exact MutexInv_mutex_trylock _ _ _ hm

theorem MutexInv_mutex_unlock {fuel : Nat} {k k1 : Kernel} {mtx : Option Nat} {m m1 : mutex_t}
    {code : Int} (h : mutex_unlock fuel k mtx m = some (k1, m1, code)) (hm : MutexInv m) :
    MutexInv m1 := by
  unfold mutex_unlock at h
  cases mtx with
  | none =>
    cases h
    exact hm
  | some a =>
    simp only [] at h
    split at h
    · cases h
      exact hm
    · split at h
      · cases h
        exact hm
      · rename_i self hself
        split at h
        · cases h
          exact hm
        · rename_i hown
          split at h
          · rename_i hrc
            cases h
            right
            rcases hm with ⟨h1, _, h3⟩ | ⟨h1, h2, _⟩
            · simp only [h3] at hrc
              omega
            · exact ⟨h1, h2, by simp only []; omega⟩
          · split at h
            · cases h
            · split at h
              · cases h
              · cases h
                left
                exact ⟨rfl, rfl, rfl⟩

/-- C9 (I4): after `mutex_init`, every sequence of `mutex_trylock`, `mutex_lock`
and `mutex_unlock` calls keeps: `owner != NULL` if and only if `locked = 1`, in
that case `recursive_count >= 1`, and with `owner = NULL` the
`recursive_count` is 0.  (The calls may be made in any context.) -/
theorem C9_mutex_owner_locked_count (m : mutex_t) (hm : MutexReachable m) :
    (m.owner ≠ none ↔ m.locked = 1) ∧ (m.owner ≠ none → 1 ≤ m.recursive_count) ∧
    (m.owner = none → m.recursive_count = 0) := by
  have inv : MutexInv m := by
    induction hm with
    | init mtx m flags =>
      left
      exact ⟨rfl, rfl, rfl⟩
    | trylock k mtx _ ih => exact MutexInv_mutex_trylock k mtx _ ih
    | lock fuel k k1 mtx timeout o _ h ih => exact MutexInv_mutex_lock h ih
    | lock_resume fuel k k1 self mtx timeout o _ h ih => exact MutexInv_mutex_lock_resume h ih
    | unlock fuel k k1 mtx code _ h ih => exact MutexInv_mutex_unlock h ih
  rcases inv with ⟨h1, h2, h3⟩ | ⟨h1, h2, h3⟩
  · simp [h1, h2, h3]
  · simp [h1, h2, h3]

/-- Witness for C9: the record after `mutex_init` and one `mutex_trylock` by
task 1. -/
theorem C9_mutex_owner_locked_count_witness :
    (mutex_trylock { kernel0 with current_task := some 1 } (some 200)
      (mutex_init (some 200) mutex0 0).1).1.owner = some 1 ∧
    ((mutex_trylock { kernel0 with current_task := some 1 } (some 200)
      (mutex_init (some 200) mutex0 0).1).1.owner ≠ none ↔
     (mutex_trylock { kernel0 with current_task := some 1 } (some 200)
      (mutex_init (some 200) mutex0 0).1).1.locked = 1) :=
  ⟨by decide,
   (C9_mutex_owner_locked_count _
     (MutexReachable.trylock { kernel0 with current_task := some 1 } (some 200)
       (MutexReachable.init 200 mutex0 0))).1⟩

/-! ## C4: the queue bounds -/

theorem QueueBounds_push_back (q : msg_queue_t) (msg : Nat → Nat) (h : QueueBounds q)
    (hc : q.count < q.capacity) : QueueBounds (queue_push_back q msg) := by
  obtain ⟨h1, h2, _, _, h5⟩ := h
  refine ⟨h1, h2, ?_, ?_, h5⟩
  · simp only [queue_push_back]
    rw [Nat.mod_eq_of_lt (by omega)]
    omega
  · simp only [queue_push_back]
    exact Nat.mod_lt _ (by omega)

theorem QueueBounds_push_front (q : msg_queue_t) (msg : Nat → Nat) (h : QueueBounds q)
    (hc : q.count < q.capacity) : QueueBounds (queue_push_front q msg) := by
  obtain ⟨h1, h2, _, h4, h5⟩ := h
  refine ⟨h1, h2, ?_, h4, ?_⟩
  · simp only [queue_push_front]
    rw [Nat.mod_eq_of_lt (by omega)]
    omega
  · simp only [queue_push_front]
    split
    · have : (q.capacity + (2 ^ 32 - 1)) % 2 ^ 32 = q.capacity - 1 := by omega
      rw [this]
      omega
    · omega

theorem QueueBounds_pop (q : msg_queue_t) (msg : Nat → Nat) (h : QueueBounds q)
    (hc : 0 < q.count) : QueueBounds (queue_pop q msg).1 := by
  obtain ⟨h1, h2, h3, h4, _⟩ := h
  refine ⟨h1, h2, ?_, h4, ?_⟩
  · simp only [queue_pop]
    have : (q.count + (2 ^ 32 - 1)) % 2 ^ 32 = q.count - 1 := by omega
    rw [this]
    omega
  · simp only [queue_pop]
    exact Nat.mod_lt _ (by omega)

theorem QueueBounds_send_attempt {fuel : Nat} {k k1 : Kernel} {queue : Nat} {q q1 : msg_queue_t}
    {msg : Nat → Nat} {timeout : Nat} {front : Bool} {o : Outcome}
    (h : queue_send_attempt fuel k queue q msg timeout front = some (k1, q1, o))
    (hq : QueueBounds q) : QueueBounds q1 := by
  unfold queue_send_attempt at h
  split at h
  · rename_i hc
    simp only [] at h
    split at h
    · cases h
    · cases h
      split
      · exact QueueBounds_push_front q msg hq hc
      · exact QueueBounds_push_back q msg hq hc
  · split at h
    · cases h
      exact hq
    · split at h
      · cases h
        exact hq
      · split at h
        · cases h
        · cases h
          exact hq

theorem QueueBounds_receive_attempt {fuel : Nat} {k k1 : Kernel} {queue : Nat}
    {q q1 : msg_queue_t} {msg out : Nat → Nat} {timeout : Nat} {peek : Bool} {o : Outcome}
    (h : queue_receive_attempt fuel k queue q msg timeout peek = some (k1, q1, out, o))
    (hq : QueueBounds q) : QueueBounds q1 := by
  unfold queue_receive_attempt at h
  split at h
  · rename_i hc
    split at h
    · cases h
      exact hq
    · simp only [] at h
      split at h
      · cases h
      · cases h
        exact QueueBounds_pop q msg hq hc
  · split at h
    · cases h
      exact hq
    · split at h
      · cases h
        exact hq
      · split at h
        · cases h
        · cases h
          exact hq

theorem QueueBounds_of_reachable (q : msg_queue_t) (hq : QueueReachable q) : QueueBounds q := by
  induction hq with
  | init queue q buffer msg_size capacity hm hcap hok =>
    unfold queue_init at hok ⊢
    split at hok
    · split at hok
      · simp [KERNEL_ERR_PARAM, KERNEL_OK] at hok
      · rename_i hne
        rw [if_neg hne]
        simp only [not_or] at hne
        refine ⟨by simp only []; omega, hcap, ?_, ?_, ?_⟩ <;> simp only [] <;> omega
    · simp [KERNEL_ERR_PARAM, KERNEL_OK] at hok
  | send fuel k k1 queue msg timeout o _ h ih =>
    unfold queue_send at h
    split at h
    · exact QueueBounds_send_attempt h ih
    · cases h
      exact ih
  | send_front fuel k k1 queue msg timeout o _ h ih =>
    unfold queue_send_front at h
    split at h
    · exact QueueBounds_send_attempt h ih
    · cases h
      exact ih
  | send_resume fuel k k1 self queue msg timeout front o _ h ih =>
    unfold queue_send_resume at h
    split at h
    · cases h
    · split at h
      · cases h
        exact ih
      · exact QueueBounds_send_attempt h ih
  | send_isr fuel k k1 queue msg code _ h ih =>
    unfold queue_send_isr at h
    split at h
    · split at h
      · cases h
        exact ih
      · rename_i hc
        split at h
        · cases h
        · cases h
          exact QueueBounds_push_back _ _ ih (by omega)
    · cases h
      exact ih
  | receive fuel k k1 queue msg timeout out o _ h ih =>
    unfold queue_receive at h
    split at h
    · exact QueueBounds_receive_attempt h ih
    · cases h
      exact ih
  | peek fuel k k1 queue msg timeout out o _ h ih =>
    unfold queue_peek at h
    split at h
    · exact QueueBounds_receive_attempt h ih
    · cases h
      exact ih
  | receive_resume fuel k k1 self queue msg timeout peek out o _ h ih =>
    unfold queue_receive_resume at h
    split at h
    · cases h
    · split at h
      · cases h
        exact ih
      · exact QueueBounds_receive_attempt h ih
  | reset fuel k k1 queue code _ h ih =>
    unfold queue_reset at h
    split at h
    · cases h
      exact ih
    · simp only [] at h
      split at h
      · cases h
      · split at h
        · cases h
        · cases h
          obtain ⟨h1, h2, _, _, _⟩ := ih
          exact ⟨h1, h2, Nat.zero_le _, h1, h1⟩

/-- C4 (P5): after a successful `queue_init`, every sequence of `queue_send`,
`queue_send_front`, `queue_send_isr`, `queue_receive`, `queue_peek` and
`queue_reset` (blocked callers that run again included) keeps
`count <= capacity`, `head < capacity` and `tail < capacity`, and
`queue_get_count + queue_get_space` equals `capacity`. -/
theorem C4_queue_bounds (q : msg_queue_t) (hq : QueueReachable q) (queue : Nat) :
    q.count ≤ q.capacity ∧ q.head < q.capacity ∧ q.tail < q.capacity ∧
    queue_get_count (some queue) q + queue_get_space (some queue) q = q.capacity := by
  obtain ⟨_, _, h3, h4, h5⟩ := QueueBounds_of_reachable q hq
  refine ⟨h3, h4, h5, ?_⟩
  simp only [queue_get_count, queue_get_space]
  rw [if_neg (by omega)]
  omega

/-- Witness for C4: a queue of capacity 4 after `queue_init`. -/
theorem C4_queue_bounds_witness :
    (queue_init (some 300) queue0 (some (fun _ => 0)) 4 4).1.capacity = 4 ∧
    queue_get_count (some 300) (queue_init (some 300) queue0 (some (fun _ => 0)) 4 4).1 +
      queue_get_space (some 300) (queue_init (some 300) queue0 (some (fun _ => 0)) 4 4).1 =
      (queue_init (some 300) queue0 (some (fun _ => 0)) 4 4).1.capacity :=
  ⟨by decide,
   (C4_queue_bounds _
     (QueueReachable.init (some 300) queue0 (some (fun _ => 0)) 4 4 (by decide) (by decide)
       (by decide)) 300).2.2.2⟩

/-! ## The search of `scheduler_unblock_one` over a well-formed list -/

theorem unblock_one_find_eq (k : Kernel) (reason : block_reason_t) (object : Option Nat) :
    ∀ (l : List Nat) (fuel : Nat) (head best : Option Nat),
      NextChain k.tcb head l → l.length ≤ fuel →
      unblock_one_find k reason object fuel head best =
        some (pick_best k reason object l best) := by
  intro l
  induction l with
  | nil =>
    intro fuel head best hc _
    simp only [NextChain] at hc
    subst hc
    cases fuel <;> simp [unblock_one_find, pick_best]
  | cons a l ih =>
    intro fuel head best hc hf
    obtain ⟨hh, hc1⟩ := hc
    subst hh
    cases fuel with
    | zero => simp at hf
    | succ fuel =>
      simp only [unblock_one_find]
      rw [ih fuel _ _ hc1 (by simpa using hf)]
      simp only [pick_best, List.foldl_cons, pick_step]

theorem DList_congr {nx pv nx1 pv1 : Nat → Option Nat} :
    ∀ (l : List Nat) (prev head : Option Nat),
      (∀ a ∈ l, nx1 a = nx a ∧ pv1 a = pv a) → DList nx pv prev head l →
      DList nx1 pv1 prev head l := by
  intro l
  induction l with
  | nil =>
    intro prev head _ h
    exact h
  | cons a l ih =>
    intro prev head hag h
    obtain ⟨h1, h2, h3⟩ := h
    have ha := hag a (List.mem_cons_self a l)
    refine ⟨h1, by rw [ha.2]; exact h2, ?_⟩
    rw [ha.1]
    exact ih _ _ (fun b hb => hag b (List.mem_cons_of_mem a hb)) h3

theorem DList_head {nx pv : Nat → Option Nat} {prev head : Option Nat} {l : List Nat}
    (h : DList nx pv prev head l) : head = l.head? := by
  cases l with
  | nil => exact h
  | cons a l => exact h.1

/-- Links of a member: its `next` is `NULL` or a member, its `prev` is the
outer `prev` or a member. -/
theorem DList_links {nx pv : Nat → Option Nat} :
    ∀ (l : List Nat) (prev head : Option Nat), DList nx pv prev head l →
      ∀ t ∈ l, (nx t = none ∨ ∃ b ∈ l, nx t = some b) ∧ (pv t = prev ∨ ∃ b ∈ l, pv t = some b) := by
  intro l
  induction l with
  | nil =>
    intro prev head _ t ht
    simp at ht
  | cons a l ih =>
    intro prev head h t ht
    obtain ⟨_, h2, h3⟩ := h
    rcases List.mem_cons.mp ht with rfl | ht1
    · refine ⟨?_, Or.inl h2⟩
      cases l with
      | nil => exact Or.inl h3
      | cons b l => exact Or.inr ⟨b, by simp, h3.1⟩
    · obtain ⟨i1, i2⟩ := ih _ _ h3 t ht1
      constructor
      · rcases i1 with i1 | ⟨b, hb, i1⟩
        · exact Or.inl i1
        · exact Or.inr ⟨b, List.mem_cons_of_mem a hb, i1⟩
      · rcases i2 with i2 | ⟨b, hb, i2⟩
        · exact Or.inr ⟨a, List.mem_cons_self a l, i2⟩
        · exact Or.inr ⟨b, List.mem_cons_of_mem a hb, i2⟩

/-- In a list without repetition the `next` link of a member never points to
the first element, and only the first element has the outer `prev`. -/
theorem DList_next_ne_head {nx pv : Nat → Option Nat} :
    ∀ (l : List Nat) (prev head : Option Nat) (x : Nat), DList nx pv prev head l →
      (x :: l).Nodup → ∀ t ∈ l, nx t ≠ some x := by
  intro l prev head x h hnd t ht hx
  obtain ⟨i1, _⟩ := DList_links l prev head h t ht
  rcases i1 with i1 | ⟨b, hb, i1⟩
  · rw [i1] at hx
    cases hx
  · rw [i1] at hx
    cases hx
    exact (List.nodup_cons.mp hnd).1 hb

theorem DList_prev_first {nx pv : Nat → Option Nat} :
    ∀ (l : List Nat) (prev head : Option Nat), DList nx pv prev head l → l.Nodup →
      (∀ p, prev = some p → p ∉ l) → ∀ t ∈ l, pv t = prev → head = some t := by
  intro l prev head h hnd hp t ht hpt
  cases l with
  | nil => simp at ht
  | cons a l =>
    obtain ⟨h1, _, h3⟩ := h
    rcases List.mem_cons.mp ht with rfl | ht1
    · exact h1
    · exfalso
      obtain ⟨_, i2⟩ := DList_links l _ _ h3 t ht1
      rcases i2 with i2 | ⟨b, hb, i2⟩
      · rw [hpt] at i2
        exact hp a i2 (List.mem_cons_self a l)
      · rw [hpt] at i2
        exact hp b i2 (List.mem_cons_of_mem a hb)

theorem DList_prev_ne_self {nx pv : Nat → Option Nat} :
    ∀ (l : List Nat) (prev head : Option Nat), DList nx pv prev head l → l.Nodup →
      (∀ p, prev = some p → p ∉ l) → ∀ t ∈ l, pv t ≠ some t := by
  intro l
  induction l with
  | nil =>
    intro prev head _ _ _ t ht
    simp at ht
  | cons a l ih =>
    intro prev head h hnd hp t ht hpt
    obtain ⟨_, h2, h3⟩ := h
    rcases List.mem_cons.mp ht with rfl | ht1
    · rw [hpt] at h2
      exact hp t h2.symm (List.mem_cons_self t l)
    · refine ih _ _ h3 (List.nodup_cons.mp hnd).2 ?_ t ht1 hpt
      intro p hpa
      cases hpa
      exact (List.nodup_cons.mp hnd).1

/-- Unlinking a member `t` of a list leaves the list without `t`; the head
moves to `t`'s successor when `t` was the first element. -/
theorem DList_unlink {nx pv : Nat → Option Nat} :
    ∀ (l : List Nat) (prev head : Option Nat) (t : Nat), DList nx pv prev head l → l.Nodup →
      t ∈ l → (∀ p, prev = some p → p ∉ l) →
      DList (unlink_nx nx pv t) (unlink_pv nx pv t) prev (if head = some t then nx t else head)
        (l.erase t) := by
  intro l
  induction l with
  | nil =>
    intro prev head t _ _ ht
    simp at ht
  | cons a l ih =>
    intro prev head t h hnd ht hp
    have hnd1 := List.nodup_cons.mp hnd
    obtain ⟨h1, h2, h3⟩ := h
    by_cases hta : t = a
    · -- `t` is the first element
      subst hta
      rw [List.erase_cons_head, if_pos h1]
      have hnx1 : (match pv t with
          | some p => Function.update nx p (nx t)
          | none => nx) t = nx t := by
        cases hpv : pv t with
        | none => rfl
        | some p =>
          simp only []
          have : p ≠ t := by
            intro e
            subst e
            exact hp p (h2.symm.trans hpv) (List.mem_cons_self p l)
          rw [Function.update_noteq (Ne.symm this)]
      have hnxo : ∀ c, c ∈ l → unlink_nx nx pv t c = nx c := by
        intro c hc
        have hct : c ≠ t := fun e => hnd1.1 (e ▸ hc)
        unfold unlink_nx
        rw [Function.update_noteq hct]
        cases hpv : pv t with
        | none => rfl
        | some p =>
          simp only []
          have : c ≠ p := by
            intro e
            subst e
            exact hp c (h2.symm.trans hpv) (List.mem_cons_of_mem t hc)
          rw [Function.update_noteq this]
      cases l with
      | nil => exact h3
      | cons b l =>
        obtain ⟨g1, g2, g3⟩ := h3
        have hbt : b ≠ t := fun e => hnd1.1 (e ▸ List.mem_cons_self b l)
        have hnd2 := List.nodup_cons.mp hnd1.2
        refine ⟨g1, ?_, ?_⟩
        · unfold unlink_pv
          rw [Function.update_noteq hbt, hnx1, g1]
          simp only [Function.update_same]
          exact h2
        · rw [hnxo b (List.mem_cons_self b l)]
          apply DList_congr l _ _ _ g3
          intro c hc
          refine ⟨hnxo c (List.mem_cons_of_mem b hc), ?_⟩
          have hct : c ≠ t := fun e => hnd1.1 (e ▸ List.mem_cons_of_mem b hc)
          have hcb : c ≠ b := fun e => hnd2.1 (e ▸ hc)
          unfold unlink_pv
          rw [Function.update_noteq hct, hnx1, g1]
          simp only []
          rw [Function.update_noteq hcb]
    · -- `t` is further down
      have ht1 : t ∈ l := by
        rcases List.mem_cons.mp ht with e | e
        · exact absurd e hta
        · exact e
      have hat : a ≠ t := fun e => hta e.symm
      have hhead : head ≠ some t := by
        rw [h1]
        intro e
        cases e
        exact hta rfl
      rw [List.erase_cons_tail (by simpa using hat), if_neg hhead]
      have hpa : ∀ p, some a = some p → p ∉ l := by
        intro p e
        cases e
        exact hnd1.1
      have hih := ih (some a) (nx a) t h3 hnd1.2 ht1 hpa
      have hself := DList_prev_ne_self l _ _ h3 hnd1.2 hpa t ht1
      have hnx1 : (match pv t with
          | some p => Function.update nx p (nx t)
          | none => nx) t = nx t := by
        cases hpv : pv t with
        | none => rfl
        | some p =>
          simp only []
          have : t ≠ p := by
            intro e
            subst e
            exact hself hpv
          rw [Function.update_noteq this]
      refine ⟨h1, ?_, ?_⟩
      · unfold unlink_pv
        rw [Function.update_noteq hat, hnx1]
        cases hn : nx t with
        | none => exact h2
        | some n =>
          simp only []
          have : a ≠ n := by
            intro e
            subst e
            exact DList_next_ne_head l _ _ a h3 hnd t ht1 hn
          rw [Function.update_noteq this]
          exact h2
      · have hnxa : unlink_nx nx pv t a = if nx a = some t then nx t else nx a := by
          unfold unlink_nx
          rw [Function.update_noteq hat]
          by_cases hfirst : nx a = some t
          · rw [if_pos hfirst]
            have hl : l.head? = some t := (DList_head h3).symm.trans hfirst
            cases l with
            | nil => simp at hl
            | cons b l =>
              simp only [List.head?_cons, Option.some.injEq] at hl
              subst hl
              rw [h3.2.1]
              simp only [Function.update_same]
          · rw [if_neg hfirst]
            cases hpv : pv t with
            | none => rfl
            | some p =>
              simp only []
              have : a ≠ p := by
                intro e
                subst e
                exact hfirst (DList_prev_first l _ _ h3 hnd1.2 hpa t ht1 hpv)
              rw [Function.update_noteq this]
        rw [hnxa]
        exact hih

/-- Appending `t` behind the last element `last` of a non-empty list. -/
theorem DList_append {nx pv : Nat → Option Nat} (t : Nat) :
    ∀ (l : List Nat) (prev head : Option Nat) (hne : l ≠ []), DList nx pv prev head l →
      (t :: l).Nodup →
      DList (Function.update (Function.update nx t none) (l.getLast hne) (some t))
        (Function.update pv t (some (l.getLast hne))) prev head (l ++ [t]) := by
  intro l
  induction l with
  | nil =>
    intro prev head hne
    exact absurd rfl hne
  | cons a l ih =>
    intro prev head hne h hnd
    obtain ⟨h1, h2, h3⟩ := h
    have hnd1 := List.nodup_cons.mp hnd
    have hat : a ≠ t := fun e => hnd1.1 (e ▸ List.mem_cons_self a l)
    cases l with
    | nil =>
      simp only [List.getLast_singleton, List.nil_append, List.cons_append]
      refine ⟨h1, ?_, ?_, ?_, ?_⟩
      · rw [Function.update_noteq hat]
        exact h2
      · simp
      · simp
      · show Function.update (Function.update nx t none) a (some t) t = none
        rw [Function.update_noteq (Ne.symm hat), Function.update_same]
    | cons b l =>
      have hnd2 := List.nodup_cons.mp hnd1.2
      have hlast : (a :: b :: l).getLast hne = (b :: l).getLast (by simp) := by
        simp [List.getLast_cons]
      have hne_last : a ≠ (b :: l).getLast (by simp) := by
        intro e
        exact hnd2.1 (e ▸ List.getLast_mem _)
      rw [List.cons_append]
      refine ⟨h1, ?_, ?_⟩
      · rw [Function.update_noteq hat]
        exact h2
      · have hnxa : Function.update (Function.update nx t none)
            ((a :: b :: l).getLast hne) (some t) a = nx a := by
          rw [hlast, Function.update_noteq hne_last, Function.update_noteq hat]
        rw [hnxa]
        have := ih (some a) (nx a) (by simp) h3
          (List.nodup_cons.mpr ⟨fun hm => hnd1.1 (List.mem_cons_of_mem a hm), hnd2.2⟩)
        simp only [hlast]
        exact this

/-- Putting `t` in front of a list, as `blocked_insert` does. -/
theorem DList_cons {nx pv : Nat → Option Nat} (t : Nat) (l : List Nat) (head : Option Nat) :
    DList nx pv none head l → (t :: l).Nodup →
    DList (Function.update nx t head)
      (match head with
       | some b => Function.update (Function.update pv t none) b (some t)
       | none => Function.update pv t none) none (some t) (t :: l) := by
  intro h hnd
  have hnd1 := List.nodup_cons.mp hnd
  cases l with
  | nil =>
    simp only [DList] at h
    subst h
    exact ⟨rfl, by simp, by simp [DList]⟩
  | cons b l =>
    obtain ⟨h1, h2, h3⟩ := h
    subst h1
    have hbt : b ≠ t := fun e => hnd1.1 (e ▸ List.mem_cons_self b l)
    have hnd2 := List.nodup_cons.mp hnd1.2
    refine ⟨rfl, ?_, ?_, ?_, ?_⟩
    · simp only []
      rw [Function.update_noteq (Ne.symm hbt), Function.update_same]
    · simp
    · simp
    · simp only [Function.update_same]
      rw [Function.update_noteq hbt]
      apply DList_congr l _ _ _ h3
      intro c hc
      have hct : c ≠ t := fun e => hnd1.1 (e ▸ List.mem_cons_of_mem b hc)
      have hcb : c ≠ b := fun e => hnd2.1 (e ▸ hc)
      exact ⟨by rw [Function.update_noteq hct],
        by rw [Function.update_noteq hcb, Function.update_noteq hct]⟩

/-! ## Memory effect of the list primitives -/

theorem nodup_length_le_of_subset {l U : List Nat} (hl : l.Nodup) (hs : ∀ t ∈ l, t ∈ U) :
    l.length ≤ U.length :=
  (List.subperm_of_subset hl hs).length_le

theorem FuelCovers_ready {rl : Nat → List Nat} {bl : List Nat} {fuel : Nat}
    (h : FuelCovers rl bl fuel) {p : Nat} (hp : p < CONFIG_MAX_PRIORITY) (hnd : (rl p).Nodup) :
    (rl p).length ≤ fuel := by
  obtain ⟨U, h1, _, h3⟩ := h
  exact le_trans (nodup_length_le_of_subset hnd (h1 p hp)) h3

theorem FuelCovers_blocked {rl : Nat → List Nat} {bl : List Nat} {fuel : Nat}
    (h : FuelCovers rl bl fuel) (hnd : bl.Nodup) : bl.length ≤ fuel := by
  obtain ⟨U, _, h2, h3⟩ := h
  exact le_trans (nodup_length_le_of_subset hnd h2) h3

theorem nxt_setTcb (k : Kernel) (a : Nat) (f : task_tcb_t → task_tcb_t) :
    nxt (k.setTcb a f) = Function.update (nxt k) a (f (k.tcb a)).next := by
  funext u
  unfold nxt Kernel.setTcb
  by_cases h : u = a
  · subst h
    simp
  · simp [Function.update_noteq h]

theorem prv_setTcb (k : Kernel) (a : Nat) (f : task_tcb_t → task_tcb_t) :
    prv (k.setTcb a f) = Function.update (prv k) a (f (k.tcb a)).prev := by
  funext u
  unfold prv Kernel.setTcb
  by_cases h : u = a
  · subst h
    simp
  · simp [Function.update_noteq h]

theorem tcb_data_setTcb (k : Kernel) (a : Nat) (f : task_tcb_t → task_tcb_t)
    (hf : tcb_data (f (k.tcb a)) = tcb_data (k.tcb a)) (u : Nat) :
    tcb_data ((k.setTcb a f).tcb u) = tcb_data (k.tcb u) := by
  unfold Kernel.setTcb
  by_cases h : u = a
  · subst h
    simpa using hf
  · simp [Function.update_noteq h]

theorem update_self_eq (f : Nat → Option Nat) (a : Nat) : Function.update f a (f a) = f := by
  simp

theorem blocked_remove_nxt (k : Kernel) (t : Nat) :
    nxt (blocked_remove k t) = unlink_nx (nxt k) (prv k) t := by
  unfold blocked_remove unlink_nx
  simp only [nxt_setTcb]
  refine congrArg (fun g : Nat → Option Nat => Function.update g t none) ?_
  have e1 : ∀ k1 : Kernel, nxt (match (k1.tcb t).next with
      | some n => k1.setTcb n (fun c => { c with prev := (k1.tcb t).prev })
      | none => k1) = nxt k1 := by
    intro k1
    split
    · rw [nxt_setTcb]
      simp [nxt]
    · rfl
  rw [e1]
  show _ = (match (k.tcb t).prev with
    | some p => Function.update (nxt k) p ((k.tcb t).next)
    | none => nxt k)
  split
  · rw [nxt_setTcb]
  · split <;> rfl

theorem blocked_remove_prv (k : Kernel) (t : Nat) :
    prv (blocked_remove k t) = unlink_pv (nxt k) (prv k) t := by
  unfold blocked_remove unlink_pv
  simp only [prv_setTcb]
  refine congrArg (fun g : Nat → Option Nat => Function.update g t none) ?_
  generalize hk1 : (match (k.tcb t).prev with
    | some p => k.setTcb p (fun c => { c with next := (k.tcb t).next })
    | none => if k.g_blocked_head = some t then { k with g_blocked_head := (k.tcb t).next }
        else k) = k1
  have e1 : nxt k1 = (match prv k t with
      | some p => Function.update (nxt k) p (nxt k t)
      | none => nxt k) := by
    rw [← hk1]
    show _ = (match (k.tcb t).prev with
      | some p => Function.update (nxt k) p ((k.tcb t).next)
      | none => nxt k)
    split
    · rw [nxt_setTcb]
    · split <;> rfl
  have e2 : prv k1 = prv k := by
    rw [← hk1]
    split
    · rw [prv_setTcb]
      simp [prv]
    · split <;> rfl
  rw [← e1]
  show _ = (match (k1.tcb t).next with
    | some n => Function.update (prv k) n (prv k t)
    | none => prv k)
  split
  · rw [prv_setTcb, e2]
    show Function.update (prv k) _ (prv k1 t) = _
    rw [e2]
  · exact e2

theorem blocked_remove_data (k : Kernel) (t u : Nat) :
    tcb_data ((blocked_remove k t).tcb u) = tcb_data (k.tcb u) := by
  unfold blocked_remove
  simp only []
  rw [tcb_data_setTcb _ _ _ rfl]
  split
  · rw [tcb_data_setTcb _ _ _ rfl]
    split
    · rw [tcb_data_setTcb _ _ _ rfl]
    · split <;> rfl
  · split
    · rw [tcb_data_setTcb _ _ _ rfl]
    · split <;> rfl

theorem blocked_remove_head (k : Kernel) (t : Nat) :
    (blocked_remove k t).g_blocked_head =
      if (k.tcb t).prev = none ∧ k.g_blocked_head = some t then (k.tcb t).next
      else k.g_blocked_head := by
  unfold blocked_remove
  simp only [setTcb_g_blocked_head]
  cases hp : (k.tcb t).prev with
  | some p =>
    simp only []
    split <;> simp
  | none =>
    simp only []
    by_cases hh : k.g_blocked_head = some t
    · simp only [if_pos hh]
      split <;> simp [hh]
    · simp only [if_neg hh]
      split <;> simp [hh]

theorem ready_tail_walk_last (k : Kernel) :
    ∀ (l : List Nat) (fuel : Nat) (prev : Option Nat) (a : Nat) (hne : l ≠ []),
      DList (nxt k) (prv k) prev (some a) l → l.length ≤ fuel →
      ready_tail_walk k.tcb fuel a = some (l.getLast hne) := by
  intro l
  induction l with
  | nil =>
    intro fuel prev a hne
    exact absurd rfl hne
  | cons b l ih =>
    intro fuel prev a hne h hf
    obtain ⟨h1, _, h3⟩ := h
    cases h1
    cases fuel with
    | zero => simp at hf
    | succ fuel =>
      cases l with
      | nil =>
        simp only [DList, nxt] at h3
        simp [ready_tail_walk, h3]
      | cons c l =>
        have hn : (k.tcb b).next = some c := h3.1
        have hn1 : nxt k b = some c := h3.1
        rw [hn1] at h3
        have := ih fuel (some b) c (by simp) h3 (by simpa using hf)
        simp only [ready_tail_walk, hn]
        rw [this]
        simp [List.getLast_cons]

/-- Effect of `scheduler_remove_task` on a task with a valid priority. -/
theorem scheduler_remove_task_effect (k : Kernel) (t : Nat)
    (hp : (k.tcb t).priority < CONFIG_MAX_PRIORITY) :
    ∃ k1, scheduler_remove_task k (some t) = some k1 ∧
      nxt k1 = unlink_nx (nxt k) (prv k) t ∧ prv k1 = unlink_pv (nxt k) (prv k) t ∧
      (∀ u, tcb_data (k1.tcb u) = tcb_data (k.tcb u)) ∧
      k1.g_sched.ready_list =
        (if k.g_sched.ready_list (k.tcb t).priority = some t
         then Function.update k.g_sched.ready_list (k.tcb t).priority (k.tcb t).next
         else k.g_sched.ready_list) ∧
      k1.g_blocked_head = k.g_blocked_head ∧ k1.current_task = k.current_task ∧
      k1.ipsr = k.ipsr ∧ k1.g_tick_count = k.g_tick_count ∧
      k1.g_sched.lock_count = k.g_sched.lock_count ∧ k1.pendsv = k.pendsv := by
  unfold scheduler_remove_task
  simp only [if_pos hp]
  refine ⟨_, rfl, ?_⟩
  generalize hka : (if k.g_sched.ready_list (k.tcb t).priority = some t
    then k.setReady (k.tcb t).priority (k.tcb t).next else k) = ka
  have a1 : ka.tcb = k.tcb := by
    rw [← hka]
    split <;> rfl
  have a2 : ka.g_sched.ready_list = (if k.g_sched.ready_list (k.tcb t).priority = some t
         then Function.update k.g_sched.ready_list (k.tcb t).priority (k.tcb t).next
         else k.g_sched.ready_list) := by
    rw [← hka]
    split <;> rfl
  have a3 : ka.g_blocked_head = k.g_blocked_head ∧ ka.current_task = k.current_task ∧
      ka.ipsr = k.ipsr ∧ ka.g_tick_count = k.g_tick_count ∧
      ka.g_sched.lock_count = k.g_sched.lock_count ∧ ka.pendsv = k.pendsv := by
    rw [← hka]
    split <;> exact ⟨rfl, rfl, rfl, rfl, rfl, rfl⟩
  have a4 : nxt ka = nxt k := by
    unfold nxt
    rw [a1]
  have a5 : prv ka = prv k := by
    unfold prv
    rw [a1]
  generalize hkb : (match (ka.tcb t).prev with
    | some p => ka.setTcb p (fun c => { c with next := (ka.tcb t).next })
    | none => ka) = kb
  have b1 : nxt kb = (match prv k t with
      | some p => Function.update (nxt k) p (nxt k t)
      | none => nxt k) := by
    rw [← hkb, ← a4, ← a5]
    show _ = (match (ka.tcb t).prev with
      | some p => Function.update (nxt ka) p ((ka.tcb t).next)
      | none => nxt ka)
    split
    · rw [nxt_setTcb]
    · rfl
  have b2 : prv kb = prv k := by
    rw [← hkb, ← a5]
    split
    · rw [prv_setTcb]
      simp [prv]
    · rfl
  have b3 : ∀ u, tcb_data (kb.tcb u) = tcb_data (k.tcb u) := by
    intro u
    rw [← hkb, ← a1]
    split
    · rw [tcb_data_setTcb _ _ _ rfl]
    · rfl
  have b4 : kb.g_sched = ka.g_sched ∧ kb.g_blocked_head = ka.g_blocked_head ∧
      kb.current_task = ka.current_task ∧ kb.ipsr = ka.ipsr ∧
      kb.g_tick_count = ka.g_tick_count ∧ kb.pendsv = ka.pendsv := by
    rw [← hkb]
    split <;> exact ⟨rfl, rfl, rfl, rfl, rfl, rfl⟩
  generalize hkc : (match (kb.tcb t).next with
    | some n => kb.setTcb n (fun c => { c with prev := (kb.tcb t).prev })
    | none => kb) = kc
  have c1 : nxt kc = nxt kb := by
    rw [← hkc]
    split
    · rw [nxt_setTcb]
      simp [nxt]
    · rfl
  have c2 : prv kc = (match nxt kb t with
      | some n => Function.update (prv k) n (prv k t)
      | none => prv k) := by
    rw [← hkc, ← b2]
    show _ = (match (kb.tcb t).next with
      | some n => Function.update (prv kb) n ((kb.tcb t).prev)
      | none => prv kb)
    split
    · rw [prv_setTcb]
    · rfl
  have c3 : ∀ u, tcb_data (kc.tcb u) = tcb_data (k.tcb u) := by
    intro u
    rw [← hkc, ← b3 u]
    split
    · rw [tcb_data_setTcb _ _ _ rfl]
    · rfl
  have c4 : kc.g_sched = ka.g_sched ∧ kc.g_blocked_head = ka.g_blocked_head ∧
      kc.current_task = ka.current_task ∧ kc.ipsr = ka.ipsr ∧
      kc.g_tick_count = ka.g_tick_count ∧ kc.pendsv = ka.pendsv := by
    rw [← hkc]
    split
    · exact b4
    · exact b4
  generalize hkd : (if kc.g_sched.ready_list (k.tcb t).priority = none
    then kc.setBitmap (bitmap_clear kc.g_sched.priority_bitmap (k.tcb t).priority) else kc) = kd
  have d1 : kd.tcb = kc.tcb := by
    rw [← hkd]
    split <;> rfl
  have d2 : kd.g_sched.ready_list = kc.g_sched.ready_list ∧
      kd.g_sched.lock_count = kc.g_sched.lock_count ∧
      kd.g_blocked_head = kc.g_blocked_head ∧
      kd.current_task = kc.current_task ∧ kd.ipsr = kc.ipsr ∧
      kd.g_tick_count = kc.g_tick_count ∧ kd.pendsv = kc.pendsv := by
    rw [← hkd]
    split <;> exact ⟨rfl, rfl, rfl, rfl, rfl, rfl, rfl⟩
  refine ⟨?_, ?_, ?_, ?_, ?_, ?_, ?_, ?_, ?_, ?_⟩
  · rw [nxt_setTcb]
    unfold unlink_nx
    have : nxt kd = nxt kc := by
      unfold nxt
      rw [d1]
    rw [this, c1, b1]
  · rw [prv_setTcb]
    unfold unlink_pv
    have : prv kd = prv kc := by
      unfold prv
      rw [d1]
    rw [this, c2, b1]
  · intro u
    rw [tcb_data_setTcb _ _ _ rfl, d1]
    exact c3 u
  · rw [setTcb_g_sched, d2.1, c4.1, a2]
  · rw [setTcb_g_blocked_head, d2.2.2.1, c4.2.1, a3.1]
  · rw [setTcb_current_task, d2.2.2.2.1, c4.2.2.1, a3.2.1]
  · show kd.ipsr = _
    rw [d2.2.2.2.2.1, c4.2.2.2.1, a3.2.2.1]
  · rw [setTcb_g_tick_count, d2.2.2.2.2.2.1, c4.2.2.2.2.1, a3.2.2.2.1]
  · rw [setTcb_g_sched, d2.2.1, c4.1, a3.2.2.2.2.1]
  · show kd.pendsv = _
    rw [d2.2.2.2.2.2.2, c4.2.2.2.2.2, a3.2.2.2.2.2]

/-! ## The list primitives on well-formed scheduler lists -/

theorem SameRegs_refl (k : Kernel) : SameRegs k k := ⟨rfl, rfl, rfl, rfl⟩

theorem SameRegs_trans {k k1 k2 : Kernel} (h1 : SameRegs k k1) (h2 : SameRegs k1 k2) :
    SameRegs k k2 :=
  ⟨h2.1.trans h1.1, h2.2.1.trans h1.2.1, h2.2.2.1.trans h1.2.2.1, h2.2.2.2.trans h1.2.2.2⟩

theorem SameRegs_setTcb (k : Kernel) (t : Nat) (f : task_tcb_t → task_tcb_t) :
    SameRegs k (k.setTcb t f) := ⟨rfl, rfl, rfl, rfl⟩

theorem priority_of_data {c d : task_tcb_t} (h : tcb_data c = tcb_data d) :
    c.priority = d.priority := by
  show (tcb_data c).priority = (tcb_data d).priority
  rw [h]

theorem unlink_frame (nx pv : Nat → Option Nat) (t c : Nat) (h1 : c ≠ t) (h2 : pv t ≠ some c)
    (h3 : nx t ≠ some c) : unlink_nx nx pv t c = nx c ∧ unlink_pv nx pv t c = pv c := by
  have hnx1 : (match pv t with
      | some p => Function.update nx p (nx t)
      | none => nx) t = nx t := by
    cases hpv : pv t with
    | none => rfl
    | some p =>
      simp only []
      by_cases e : t = p
      · subst e
        simp
      · rw [Function.update_noteq e]
  constructor
  · unfold unlink_nx
    rw [Function.update_noteq h1]
    cases hpv : pv t with
    | none => rfl
    | some p =>
      simp only []
      have : c ≠ p := by
        intro e
        subst e
        exact h2 hpv
      rw [Function.update_noteq this]
  · unfold unlink_pv
    rw [Function.update_noteq h1, hnx1]
    cases hn : nx t with
    | none => rfl
    | some n =>
      simp only []
      have : c ≠ n := by
        intro e
        subst e
        exact h3 hn
      rw [Function.update_noteq this]

/-- Unlinking a member of the list `l` does not disturb a list `m` that
shares no element with `l`. -/
theorem DList_unlink_frame {nx pv : Nat → Option Nat} {l m : List Nat} {head hm : Option Nat}
    {t : Nat} (hl : DList nx pv none head l) (ht : t ∈ l) (hdis : ∀ c ∈ m, c ∉ l)
    (h : DList nx pv none hm m) :
    DList (unlink_nx nx pv t) (unlink_pv nx pv t) none hm m := by
  apply DList_congr m _ _ _ h
  intro c hc
  obtain ⟨i1, i2⟩ := DList_links l _ _ hl t ht
  apply unlink_frame
  · intro e
    subst e
    exact hdis c hc ht
  · intro e
    rcases i2 with i2 | ⟨b, hb, i2⟩
    · rw [i2] at e
      cases e
    · rw [i2] at e
      have e1 := Option.some.inj e
      subst e1
      exact hdis b hc hb
  · intro e
    rcases i1 with i1 | ⟨b, hb, i1⟩
    · rw [i1] at e
      cases e
    · rw [i1] at e
      have e1 := Option.some.inj e
      subst e1
      exact hdis b hc hb

theorem SchedRep.ready_disjoint {k : Kernel} {rl : Nat → List Nat} {bl : List Nat}
    (h : SchedRep k rl bl) {p q : Nat} (hp : p < CONFIG_MAX_PRIORITY)
    (hq : q < CONFIG_MAX_PRIORITY) (hne : q ≠ p) : ∀ c ∈ rl q, c ∉ rl p := by
  intro c hc hc1
  exact hne ((h.ready_prio q hq c hc).symm.trans (h.ready_prio p hp c hc1))

/-- `scheduler_remove_task` of a task on its ready list. -/
theorem rep_remove_ready {k : Kernel} {rl : Nat → List Nat} {bl : List Nat}
    (h : SchedRep k rl bl) {p t : Nat} (hp : p < CONFIG_MAX_PRIORITY) (ht : t ∈ rl p) :
    ∃ k1, scheduler_remove_task k (some t) = some k1 ∧
      SchedRep k1 (Function.update rl p ((rl p).erase t)) bl ∧
      (∀ u, tcb_data (k1.tcb u) = tcb_data (k.tcb u)) ∧ SameRegs k k1 ∧
      k1.g_blocked_head = k.g_blocked_head ∧ k1.pendsv = k.pendsv := by
  have hprio : (k.tcb t).priority = p := h.ready_prio p hp t ht
  obtain ⟨k1, e0, e1, e2, e3, e4, e5, e6, e7, e8, e9, e10⟩ :=
    scheduler_remove_task_effect k t (by rw [hprio]; exact hp)
  refine ⟨k1, e0, ?_, e3, ⟨e6, e7, e8, e9⟩, e5, e10⟩
  rw [hprio] at e4
  constructor
  · intro q hq
    rw [e1, e2, e4]
    by_cases hqp : q = p
    · subst hqp
      rw [Function.update_same]
      have := DList_unlink (rl q) none (k.g_sched.ready_list q) t (h.ready q hq)
        (h.ready_nodup q hq) ht (by intro p hp; cases hp)
      by_cases hh : k.g_sched.ready_list q = some t
      · rw [if_pos hh] at this ⊢
        rw [Function.update_same]
        exact this
      · rw [if_neg hh] at this ⊢
        exact this
    · rw [Function.update_noteq hqp]
      have hrl : (if k.g_sched.ready_list p = some t
          then Function.update k.g_sched.ready_list p (k.tcb t).next
          else k.g_sched.ready_list) q = k.g_sched.ready_list q := by
        split
        · rw [Function.update_noteq hqp]
        · rfl
      rw [hrl]
      exact DList_unlink_frame (h.ready p hp) ht (h.ready_disjoint hp hq hqp) (h.ready q hq)
  · rw [e1, e2, e5]
    exact DList_unlink_frame (h.ready p hp) ht
      (fun c hc hc1 => h.disjoint p hp c hc1 hc) h.blocked
  · intro q hq u hu
    rw [priority_of_data (e3 u)]
    by_cases hqp : q = p
    · subst hqp
      rw [Function.update_same] at hu
      exact h.ready_prio q hq u (List.mem_of_mem_erase hu)
    · rw [Function.update_noteq hqp] at hu
      exact h.ready_prio q hq u hu
  · intro u hu
    rw [priority_of_data (e3 u)]
    exact h.blocked_prio u hu
  · intro q hq
    by_cases hqp : q = p
    · subst hqp
      rw [Function.update_same]
      exact (h.ready_nodup q hq).erase t
    · rw [Function.update_noteq hqp]
      exact h.ready_nodup q hq
  · exact h.blocked_nodup
  · intro q hq u hu
    by_cases hqp : q = p
    · subst hqp
      rw [Function.update_same] at hu
      exact h.disjoint q hq u (List.mem_of_mem_erase hu)
    · rw [Function.update_noteq hqp] at hu
      exact h.disjoint q hq u hu

/-- `blocked_remove` of a task on the blocked list. -/
theorem rep_blocked_remove {k : Kernel} {rl : Nat → List Nat} {bl : List Nat}
    (h : SchedRep k rl bl) {t : Nat} (ht : t ∈ bl) :
    SchedRep (blocked_remove k t) rl (bl.erase t) := by
  have hhead : (blocked_remove k t).g_blocked_head =
      if k.g_blocked_head = some t then nxt k t else k.g_blocked_head := by
    rw [blocked_remove_head]
    by_cases hh : k.g_blocked_head = some t
    · have hpv : (k.tcb t).prev = none := by
        cases bl with
        | nil => simp at ht
        | cons b l =>
          have hb := h.blocked
          obtain ⟨g1, g2, _⟩ := hb
          rw [hh] at g1
          cases g1
          exact g2
      rw [if_pos ⟨hpv, hh⟩, if_pos hh]
      rfl
    · rw [if_neg (fun e => hh e.2), if_neg hh]
  constructor
  · intro q hq
    rw [blocked_remove_nxt, blocked_remove_prv, blocked_remove_g_sched]
    exact DList_unlink_frame h.blocked ht (fun c hc => h.disjoint q hq c hc) (h.ready q hq)
  · rw [blocked_remove_nxt, blocked_remove_prv, hhead]
    exact DList_unlink bl none k.g_blocked_head t h.blocked h.blocked_nodup ht
      (by intro p hp; cases hp)
  · intro q hq u hu
    rw [priority_of_data (blocked_remove_data k t u)]
    exact h.ready_prio q hq u hu
  · intro u hu
    rw [priority_of_data (blocked_remove_data k t u)]
    exact h.blocked_prio u (List.mem_of_mem_erase hu)
  · exact h.ready_nodup
  · exact h.blocked_nodup.erase t
  · intro q hq u hu hb
    exact h.disjoint q hq u hu (List.mem_of_mem_erase hb)

/-- A store to a TCB that keeps its links and respects the priority of its
list. -/
theorem rep_setTcb {k : Kernel} {rl : Nat → List Nat} {bl : List Nat}
    (h : SchedRep k rl bl) (t : Nat) (f : task_tcb_t → task_tcb_t)
    (hn : (f (k.tcb t)).next = (k.tcb t).next) (hp : (f (k.tcb t)).prev = (k.tcb t).prev)
    (hr : ∀ p, p < CONFIG_MAX_PRIORITY → t ∈ rl p → (f (k.tcb t)).priority = p)
    (hb : t ∈ bl → (f (k.tcb t)).priority < CONFIG_MAX_PRIORITY) :
    SchedRep (k.setTcb t f) rl bl := by
  have e1 : nxt (k.setTcb t f) = nxt k := by
    rw [nxt_setTcb, hn]
    exact Function.update_eq_self t (nxt k)
  have e2 : prv (k.setTcb t f) = prv k := by
    rw [prv_setTcb, hp]
    exact Function.update_eq_self t (prv k)
  have e3 : ∀ u, u ≠ t → (k.setTcb t f).tcb u = k.tcb u := by
    intro u hu
    simp [Kernel.setTcb, Function.update_noteq hu]
  have e4 : (k.setTcb t f).tcb t = f (k.tcb t) := by
    simp [Kernel.setTcb]
  constructor
  · intro q hq
    rw [e1, e2]
    exact h.ready q hq
  · rw [e1, e2]
    exact h.blocked
  · intro q hq u hu
    by_cases hut : u = t
    · subst hut
      rw [e4]
      exact hr q hq hu
    · rw [e3 u hut]
      exact h.ready_prio q hq u hu
  · intro u hu
    by_cases hut : u = t
    · subst hut
      rw [e4]
      exact hb hu
    · rw [e3 u hut]
      exact h.blocked_prio u hu
  · exact h.ready_nodup
  · exact h.blocked_nodup
  · exact h.disjoint

/-- `ready_insert_tail` of a task that is on no list. -/
theorem rep_ready_insert_tail {k : Kernel} {rl : Nat → List Nat} {bl : List Nat}
    (h : SchedRep k rl bl) {t fuel : Nat} (hb : t ∉ bl)
    (hr : ∀ p, p < CONFIG_MAX_PRIORITY → t ∉ rl p)
    (hprio : (k.tcb t).priority < CONFIG_MAX_PRIORITY)
    (hfuel : (rl (k.tcb t).priority).length ≤ fuel) :
    ∃ k1, ready_insert_tail fuel k t = some k1 ∧
      SchedRep k1 (Function.update rl (k.tcb t).priority (rl (k.tcb t).priority ++ [t])) bl ∧
      (∀ u, tcb_data (k1.tcb u) = tcb_data (k.tcb u)) ∧ SameRegs k k1 ∧
      k1.g_blocked_head = k.g_blocked_head ∧ k1.pendsv = k.pendsv := by
  unfold ready_insert_tail
  simp only [if_pos hprio]
  generalize hka : k.setTcb t (fun c => { c with next := none, prev := none }) = ka
  have a1 : nxt ka = Function.update (nxt k) t none := by
    rw [← hka, nxt_setTcb]
  have a2 : prv ka = Function.update (prv k) t none := by
    rw [← hka, prv_setTcb]
  have a3 : ∀ u, tcb_data (ka.tcb u) = tcb_data (k.tcb u) := by
    intro u
    rw [← hka]
    exact tcb_data_setTcb _ _ _ rfl u
  have a4 : ka.g_sched = k.g_sched := by
    rw [← hka]
    rfl
  have a5 : SameRegs k ka ∧ ka.g_blocked_head = k.g_blocked_head ∧ ka.pendsv = k.pendsv := by
    rw [← hka]
    exact ⟨SameRegs_setTcb _ _ _, rfl, rfl⟩
  -- lists that do not hold `t` are the same in `ka`
  have hframe : ∀ (m : List Nat) (hm : Option Nat), t ∉ m → DList (nxt k) (prv k) none hm m →
      DList (nxt ka) (prv ka) none hm m := by
    intro m hm htm hd
    apply DList_congr m _ _ _ hd
    intro c hc
    have hct : c ≠ t := fun e => htm (e ▸ hc)
    rw [a1, a2]
    exact ⟨Function.update_noteq hct _ _, Function.update_noteq hct _ _⟩
  have hprio_all : ∀ u, (ka.tcb u).priority = (k.tcb u).priority :=
    fun u => priority_of_data (a3 u)
  rw [a4]
  cases hl : rl (k.tcb t).priority with
  | nil =>
    have hhead : k.g_sched.ready_list (k.tcb t).priority = none := by
      have := h.ready _ hprio
      rw [hl] at this
      exact this
    rw [hhead]
    simp only []
    generalize hkn : (ka.setReady (k.tcb t).priority (some t)).setBitmap
      (bitmap_set k.g_sched.priority_bitmap (k.tcb t).priority) = kn
    have n1 : nxt kn = nxt ka := by
      rw [← hkn]
      rfl
    have n2 : prv kn = prv ka := by
      rw [← hkn]
      rfl
    have n3 : kn.tcb = ka.tcb := by
      rw [← hkn]
      rfl
    have n4 : kn.g_sched.ready_list =
        Function.update k.g_sched.ready_list (k.tcb t).priority (some t) := by
      rw [← hkn, ← a4]
      rfl
    have n5 : SameRegs ka kn ∧ kn.g_blocked_head = ka.g_blocked_head ∧ kn.pendsv = ka.pendsv := by
      rw [← hkn]
      exact ⟨⟨rfl, rfl, rfl, rfl⟩, rfl, rfl⟩
    refine ⟨kn, rfl, ?_, ?_, SameRegs_trans a5.1 n5.1, n5.2.1.trans a5.2.1,
      n5.2.2.trans a5.2.2⟩
    · constructor
      · intro q hq
        rw [n1, n2, n4]
        by_cases hqp : q = (k.tcb t).priority
        · subst hqp
          rw [Function.update_same, Function.update_same]
          refine ⟨rfl, ?_, ?_⟩
          · rw [a2, Function.update_same]
          · show nxt ka t = none
            rw [a1, Function.update_same]
        · rw [Function.update_noteq hqp, Function.update_noteq hqp]
          exact hframe _ _ (hr q hq) (h.ready q hq)
      · rw [n1, n2, n5.2.1, a5.2.1]
        exact hframe _ _ hb h.blocked
      · intro q hq u hu
        rw [n3, hprio_all]
        by_cases hqp : q = (k.tcb t).priority
        · subst hqp
          rw [Function.update_same] at hu
          simp only [List.nil_append, List.mem_singleton] at hu
          rw [hu]
        · rw [Function.update_noteq hqp] at hu
          exact h.ready_prio q hq u hu
      · intro u hu
        rw [n3, hprio_all]
        exact h.blocked_prio u hu
      · intro q hq
        by_cases hqp : q = (k.tcb t).priority
        · subst hqp
          rw [Function.update_same]
          simp
        · rw [Function.update_noteq hqp]
          exact h.ready_nodup q hq
      · exact h.blocked_nodup
      · intro q hq u hu
        by_cases hqp : q = (k.tcb t).priority
        · subst hqp
          rw [Function.update_same] at hu
          simp only [List.nil_append, List.mem_singleton] at hu
          rw [hu]
          exact hb
        · rw [Function.update_noteq hqp] at hu
          exact h.disjoint q hq u hu
    · intro u
      rw [n3]
      exact a3 u
  | cons a l =>
    have hd := h.ready _ hprio
    rw [hl] at hd
    have hhead : k.g_sched.ready_list (k.tcb t).priority = some a := hd.1
    have htl : t ∉ a :: l := by
      rw [← hl]
      exact hr _ hprio
    have hnd : (a :: l).Nodup := by
      rw [← hl]
      exact h.ready_nodup _ hprio
    rw [hhead] at hd
    rw [hhead]
    simp only []
    have hwalk := ready_tail_walk_last ka (a :: l) fuel none a (by simp)
      (hframe _ _ htl hd) (by rw [← hl]; exact hfuel)
    rw [hwalk]
    simp only []
    generalize hlast : (a :: l).getLast (by simp) = last
    have hlast_mem : last ∈ a :: l := by
      rw [← hlast]
      exact List.getLast_mem _
    have hlt : last ≠ t := fun e => htl (e ▸ hlast_mem)
    generalize hkb : (ka.setTcb last (fun c => { c with next := some t })).setTcb t
      (fun c => { c with prev := some last }) = kb
    have s1 : nxt (ka.setTcb last (fun c => { c with next := some t })) =
        Function.update (nxt ka) last (some t) := by
      rw [nxt_setTcb]
    have s2 : prv (ka.setTcb last (fun c => { c with next := some t })) = prv ka := by
      rw [prv_setTcb]
      exact Function.update_eq_self last (prv ka)
    have b1 : nxt kb = Function.update (Function.update (nxt k) t none) last (some t) := by
      rw [← hkb, nxt_setTcb, ← a1, ← s1]
      exact Function.update_eq_self t (nxt (ka.setTcb last (fun c => { c with next := some t })))
    have b2 : prv kb = Function.update (prv k) t (some last) := by
      rw [← hkb, prv_setTcb, s2, a2]
      simp only []
      rw [Function.update_idem]
    have b3 : ∀ u, tcb_data (kb.tcb u) = tcb_data (k.tcb u) := by
      intro u
      rw [← hkb, tcb_data_setTcb _ _ _ rfl, tcb_data_setTcb _ _ _ rfl]
      exact a3 u
    have b4 : kb.g_sched = k.g_sched := by
      rw [← hkb, ← a4]
      rfl
    have b5 : SameRegs k kb ∧ kb.g_blocked_head = k.g_blocked_head ∧ kb.pendsv = k.pendsv := by
      rw [← hkb]
      exact ⟨SameRegs_trans a5.1 ⟨rfl, rfl, rfl, rfl⟩, a5.2.1, a5.2.2⟩
    have hframe2 : ∀ (m : List Nat) (hm : Option Nat), t ∉ m → last ∉ m →
        DList (nxt k) (prv k) none hm m → DList (nxt kb) (prv kb) none hm m := by
      intro m hm htm hlm hdm
      apply DList_congr m _ _ _ hdm
      intro c hc
      have hct : c ≠ t := fun e => htm (e ▸ hc)
      have hcl : c ≠ last := fun e => hlm (e ▸ hc)
      rw [b1, b2]
      exact ⟨by rw [Function.update_noteq hcl, Function.update_noteq hct],
        Function.update_noteq hct _ _⟩
    have hprio_all2 : ∀ u, (kb.tcb u).priority = (k.tcb u).priority :=
      fun u => priority_of_data (b3 u)
    have hlast_rl : last ∈ rl (k.tcb t).priority := by
      rw [hl]
      exact hlast_mem
    refine ⟨kb, rfl, ?_, b3, b5.1, b5.2.1, b5.2.2⟩
    constructor
    · intro q hq
      rw [b4]
      by_cases hqp : q = (k.tcb t).priority
      · subst hqp
        rw [Function.update_same, hhead, b1, b2, ← hlast]
        exact DList_append t (a :: l) none (some a) (by simp) hd
          (List.nodup_cons.mpr ⟨htl, hnd⟩)
      · rw [Function.update_noteq hqp]
        exact hframe2 _ _ (hr q hq) (h.ready_disjoint hq hprio (Ne.symm hqp) last hlast_rl)
          (h.ready q hq)
    · rw [b5.2.1]
      exact hframe2 _ _ hb (h.disjoint _ hprio last hlast_rl) h.blocked
    · intro q hq u hu
      rw [hprio_all2]
      by_cases hqp : q = (k.tcb t).priority
      · subst hqp
        rw [Function.update_same] at hu
        rcases List.mem_append.mp hu with hu1 | hu1
        · rw [← hl] at hu1
          exact h.ready_prio _ hq u hu1
        · simp only [List.mem_singleton] at hu1
          rw [hu1]
      · rw [Function.update_noteq hqp] at hu
        exact h.ready_prio q hq u hu
    · intro u hu
      rw [hprio_all2]
      exact h.blocked_prio u hu
    · intro q hq
      by_cases hqp : q = (k.tcb t).priority
      · subst hqp
        rw [Function.update_same]
        apply List.Nodup.append hnd (by simp)
        intro x hx hx1
        simp only [List.mem_singleton] at hx1
        subst hx1
        exact htl hx
      · rw [Function.update_noteq hqp]
        exact h.ready_nodup q hq
    · exact h.blocked_nodup
    · intro q hq u hu
      by_cases hqp : q = (k.tcb t).priority
      · subst hqp
        rw [Function.update_same] at hu
        rcases List.mem_append.mp hu with hu1 | hu1
        · rw [← hl] at hu1
          exact h.disjoint _ hq u hu1
        · simp only [List.mem_singleton] at hu1
          rw [hu1]
          exact hb
      · rw [Function.update_noteq hqp] at hu
        exact h.disjoint q hq u hu

theorem blocked_insert_eq (k : Kernel) (t : Nat) :
    blocked_insert k t =
      { (match k.g_blocked_head with
         | some b => (k.setTcb t (fun c => { c with next := k.g_blocked_head, prev := none })).setTcb
             b (fun c => { c with prev := some t })
         | none => k.setTcb t (fun c => { c with next := k.g_blocked_head, prev := none })) with
        g_blocked_head := some t } := rfl

/-- `blocked_insert` of a task that is on no list. -/
theorem rep_blocked_insert {k : Kernel} {rl : Nat → List Nat} {bl : List Nat}
    (h : SchedRep k rl bl) {t : Nat} (hb : t ∉ bl)
    (hr : ∀ p, p < CONFIG_MAX_PRIORITY → t ∉ rl p)
    (hprio : (k.tcb t).priority < CONFIG_MAX_PRIORITY) :
    SchedRep (blocked_insert k t) rl (t :: bl) ∧
    (∀ u, tcb_data ((blocked_insert k t).tcb u) = tcb_data (k.tcb u)) ∧
    SameRegs k (blocked_insert k t) ∧ (blocked_insert k t).pendsv = k.pendsv := by
  have e1 : nxt (blocked_insert k t) = Function.update (nxt k) t k.g_blocked_head := by
    rw [blocked_insert_eq]
    cases hh : k.g_blocked_head with
    | none =>
      show nxt (k.setTcb t (fun c => { c with next := none, prev := none })) = _
      rw [nxt_setTcb]
    | some b =>
      show nxt ((k.setTcb t (fun c => { c with next := some b, prev := none })).setTcb b
        (fun c => { c with prev := some t })) = _
      rw [nxt_setTcb]
      have : nxt (k.setTcb t (fun c => { c with next := some b, prev := none })) =
          Function.update (nxt k) t (some b) := by
        rw [nxt_setTcb]
      rw [← this]
      exact Function.update_eq_self b
        (nxt (k.setTcb t (fun c => { c with next := some b, prev := none })))
  have e2 : prv (blocked_insert k t) = (match k.g_blocked_head with
      | some b => Function.update (Function.update (prv k) t none) b (some t)
      | none => Function.update (prv k) t none) := by
    rw [blocked_insert_eq]
    cases hh : k.g_blocked_head with
    | none =>
      show prv (k.setTcb t (fun c => { c with next := none, prev := none })) = _
      rw [prv_setTcb]
    | some b =>
      show prv ((k.setTcb t (fun c => { c with next := some b, prev := none })).setTcb b
        (fun c => { c with prev := some t })) = _
      rw [prv_setTcb, prv_setTcb]
  have e3 : ∀ u, tcb_data ((blocked_insert k t).tcb u) = tcb_data (k.tcb u) := by
    intro u
    rw [blocked_insert_eq]
    cases hh : k.g_blocked_head with
    | none =>
      show tcb_data ((k.setTcb t (fun c => { c with next := none, prev := none })).tcb u) = _
      rw [tcb_data_setTcb _ _ _ rfl]
    | some b =>
      show tcb_data (((k.setTcb t (fun c => { c with next := some b, prev := none })).setTcb b
        (fun c => { c with prev := some t })).tcb u) = _
      rw [tcb_data_setTcb _ _ _ rfl, tcb_data_setTcb _ _ _ rfl]
  have e4 : (blocked_insert k t).g_blocked_head = some t := rfl
  have e5 : SameRegs k (blocked_insert k t) ∧ (blocked_insert k t).pendsv = k.pendsv := by
    rw [blocked_insert_eq]
    cases hh : k.g_blocked_head <;> exact ⟨⟨rfl, rfl, rfl, rfl⟩, rfl⟩
  refine ⟨?_, e3, e5.1, e5.2⟩
  constructor
  · intro q hq
    rw [blocked_insert_g_sched]
    apply DList_congr (rl q) _ _ _ (h.ready q hq)
    intro c hc
    have hct : c ≠ t := fun e => hr q hq (e ▸ hc)
    rw [e1, e2]
    refine ⟨Function.update_noteq hct _ _, ?_⟩
    cases hh : k.g_blocked_head with
    | none => exact Function.update_noteq hct _ _
    | some b =>
      simp only []
      have hbm : b ∈ bl := by
        have := DList_head h.blocked
        rw [hh] at this
        cases bl with
        | nil => simp at this
        | cons x l =>
          simp only [List.head?_cons, Option.some.injEq] at this
          subst this
          exact List.mem_cons_self b l
      have hcb : c ≠ b := fun e => h.disjoint q hq c hc (e ▸ hbm)
      rw [Function.update_noteq hcb, Function.update_noteq hct]
  · rw [e1, e2, e4]
    exact DList_cons t bl k.g_blocked_head h.blocked
      (List.nodup_cons.mpr ⟨hb, h.blocked_nodup⟩)
  · intro q hq u hu
    rw [priority_of_data (e3 u)]
    exact h.ready_prio q hq u hu
  · intro u hu
    rw [priority_of_data (e3 u)]
    rcases List.mem_cons.mp hu with e | e
    · rw [e]
      exact hprio
    · exact h.blocked_prio u e
  · exact h.ready_nodup
  · exact List.nodup_cons.mpr ⟨hb, h.blocked_nodup⟩
  · intro q hq u hu hm
    rcases List.mem_cons.mp hm with e | e
    · exact hr q hq (e ▸ hu)
    · exact h.disjoint q hq u hu e

theorem NextChain_of_DList (k : Kernel) :
    ∀ (l : List Nat) (prev head : Option Nat), DList (nxt k) (prv k) prev head l →
      NextChain k.tcb head l := by
  intro l
  induction l with
  | nil =>
    intro prev head h
    exact h
  | cons a l ih =>
    intro prev head h
    exact ⟨h.1, ih _ _ h.2.2⟩

theorem pick_best_spec (k : Kernel) (reason : block_reason_t) (object : Option Nat) :
    ∀ (l : List Nat) (best : Option Nat) (b : Nat),
      pick_best k reason object l best = some b →
      best = some b ∨ (b ∈ l ∧ (k.tcb b).block_reason = reason ∧ (k.tcb b).block_object = object) := by
  intro l
  induction l with
  | nil =>
    intro best b h
    exact Or.inl h
  | cons a l ih =>
    intro best b h
    simp only [pick_best, List.foldl_cons] at h
    rcases ih _ b h with h1 | ⟨h1, h2⟩
    · unfold pick_step at h1
      split at h1
      · rename_i hm
        split at h1
        · have e := Option.some.inj h1
          subst e
          exact Or.inr ⟨List.mem_cons_self a l, hm⟩
        · split at h1
          · have e := Option.some.inj h1
            subst e
            exact Or.inr ⟨List.mem_cons_self a l, hm⟩
          · exact Or.inl h1
      · exact Or.inl h1
    · exact Or.inr ⟨List.mem_cons_of_mem a h1, h2⟩

theorem FuelCovers_move {rl : Nat → List Nat} {bl : List Nat} {fuel : Nat}
    (h : FuelCovers rl bl fuel) (p t : Nat) (ht : t ∈ bl) :
    FuelCovers (Function.update rl p (rl p ++ [t])) (bl.erase t) fuel := by
  obtain ⟨U, h1, h2, h3⟩ := h
  refine ⟨U, ?_, fun u hu => h2 u (List.mem_of_mem_erase hu), h3⟩
  intro q hq u hu
  by_cases hqp : q = p
  · subst hqp
    rw [Function.update_same] at hu
    rcases List.mem_append.mp hu with hu1 | hu1
    · exact h1 q hq u hu1
    · simp only [List.mem_singleton] at hu1
      rw [hu1]
      exact h2 t ht
  · rw [Function.update_noteq hqp] at hu
    exact h1 q hq u hu

/-- The second half of the unblock paths: the task `t` of the blocked list is
unlinked, marked Ready with the given result, and appended to its ready
list. -/
theorem rep_unblock_tail {k : Kernel} {rl : Nat → List Nat} {bl : List Nat} {fuel : Nat}
    (h : SchedRep k rl bl) (hf : FuelCovers rl bl fuel) {t : Nat} (ht : t ∈ bl) (result : Int) :
    ∃ k1, ready_insert_tail fuel ((blocked_remove k t).setTcb t (fun c =>
        { c with state := task_state_t.READY, block_reason := block_reason_t.NONE,
                 block_result := result, block_object := none, block_timeout := 0 })) t = some k1 ∧
      SchedRep k1 (Function.update rl (k.tcb t).priority (rl (k.tcb t).priority ++ [t]))
        (bl.erase t) ∧
      (∀ u, u ≠ t → tcb_data (k1.tcb u) = tcb_data (k.tcb u)) ∧
      tcb_data (k1.tcb t) = tcb_data { k.tcb t with
        state := task_state_t.READY, block_reason := block_reason_t.NONE,
        block_result := result, block_object := none, block_timeout := 0 } ∧
      SameRegs k k1 ∧ k1.pendsv = k.pendsv := by
  have hp : (k.tcb t).priority < CONFIG_MAX_PRIORITY := h.blocked_prio t ht
  have h1 := rep_blocked_remove h ht
  have hd1 : ∀ u, tcb_data ((blocked_remove k t).tcb u) = tcb_data (k.tcb u) :=
    blocked_remove_data k t
  generalize hka : blocked_remove k t = ka at h1 hd1
  have hregs : SameRegs k ka ∧ ka.pendsv = k.pendsv := by
    rw [← hka]
    unfold blocked_remove
    simp only []
    split <;> split <;> (try split) <;> exact ⟨⟨rfl, rfl, rfl, rfl⟩, rfl⟩
  have hnotr : ∀ p, p < CONFIG_MAX_PRIORITY → t ∉ rl p :=
    fun p hp ht1 => h.disjoint p hp t ht1 ht
  have hnotb : t ∉ bl.erase t := fun hm => (List.Nodup.mem_erase_iff h.blocked_nodup).mp hm |>.1 rfl
  have h2 := rep_setTcb h1 t (fun c =>
        { c with state := task_state_t.READY, block_reason := block_reason_t.NONE,
                 block_result := result, block_object := none, block_timeout := 0 }) rfl rfl
        (fun p hp hm => absurd hm (hnotr p hp)) (fun hm => absurd hm hnotb)
  generalize hkb : ka.setTcb t (fun c =>
        { c with state := task_state_t.READY, block_reason := block_reason_t.NONE,
                 block_result := result, block_object := none, block_timeout := 0 }) = kb at h2
  have hb1 : ∀ u, u ≠ t → kb.tcb u = ka.tcb u := by
    intro u hu
    rw [← hkb]
    simp [Kernel.setTcb, Function.update_noteq hu]
  have hb2 : kb.tcb t = { ka.tcb t with
        state := task_state_t.READY, block_reason := block_reason_t.NONE,
        block_result := result, block_object := none, block_timeout := 0 } := by
    rw [← hkb]
    simp [Kernel.setTcb]
  have hb3 : (kb.tcb t).priority = (k.tcb t).priority := by
    rw [hb2]
    show (ka.tcb t).priority = _
    exact priority_of_data (hd1 t)
  have hregs2 : SameRegs ka kb ∧ kb.pendsv = ka.pendsv := by
    rw [← hkb]
    exact ⟨SameRegs_setTcb _ _ _, rfl⟩
  obtain ⟨k1, g1, g2, g3, g4, _, g6⟩ := @rep_ready_insert_tail _ _ _ h2 _ fuel hnotb hnotr
    (by rw [hb3]; exact hp)
    (by rw [hb3]; exact FuelCovers_ready hf hp (h.ready_nodup _ hp))
  rw [hb3] at g2
  refine ⟨k1, g1, g2, ?_, ?_, SameRegs_trans (SameRegs_trans hregs.1 hregs2.1) g4,
    g6.trans (hregs2.2.trans hregs.2)⟩
  · intro u hu
    rw [g3 u, hb1 u hu]
    exact hd1 u
  · rw [g3 t, hb2]
    have := hd1 t
    unfold tcb_data at this ⊢
    simp only [task_tcb_t.mk.injEq] at this ⊢
    simp only [this, and_self]

/-! ## `scheduler_unblock_one` on well-formed lists -/

/-- `scheduler_unblock_one` on well-formed lists returns: with no match it
changes nothing and returns `false`; otherwise the task chosen by the search
moves from the blocked list to the tail of its ready list. -/
theorem rep_unblock_one {k : Kernel} {rl : Nat → List Nat} {bl : List Nat} {fuel : Nat}
    (h : SchedRep k rl bl) (hf : FuelCovers rl bl fuel) (reason : block_reason_t)
    (object : Option Nat) (result : Int) :
    (pick_best k reason object bl none = none ∧
      scheduler_unblock_one fuel k reason object result = some (k, false)) ∨
    (∃ best k1, pick_best k reason object bl none = some best ∧ best ∈ bl ∧
      scheduler_unblock_one fuel k reason object result = some (k1, true) ∧
      SchedRep k1 (Function.update rl (k.tcb best).priority
        (rl (k.tcb best).priority ++ [best])) (bl.erase best) ∧
      (∀ u, u ≠ best → tcb_data (k1.tcb u) = tcb_data (k.tcb u)) ∧
      tcb_data (k1.tcb best) = tcb_data { k.tcb best with
        state := task_state_t.READY, block_reason := block_reason_t.NONE,
        block_result := result, block_object := none, block_timeout := 0 } ∧
      SameRegs k k1) := by
  have hfind := unblock_one_find_eq k reason object bl fuel k.g_blocked_head none
    (NextChain_of_DList k bl none _ h.blocked) (FuelCovers_blocked hf h.blocked_nodup)
  unfold scheduler_unblock_one
  rw [hfind]
  cases hpb : pick_best k reason object bl none with
  | none =>
    left
    exact ⟨rfl, rfl⟩
  | some best =>
    right
    have hmem : best ∈ bl := by
      rcases pick_best_spec k reason object bl none best hpb with e | e
      · cases e
      · exact e.1
    obtain ⟨k1, g1, g2, g3, g4, g5, g6⟩ := rep_unblock_tail h hf hmem result
    have hres : ∃ kf, (match k1.current_task with
        | some cur =>
          if (k1.tcb best).priority < (k1.tcb cur).priority then
            some (scheduler_trigger_switch k1, true)
          else some (k1, true)
        | none => some (k1, true)) = some (kf, true) ∧
        (kf = k1 ∨ kf = scheduler_trigger_switch k1) := by
      cases k1.current_task with
      | none => exact ⟨k1, rfl, Or.inl rfl⟩
      | some cur =>
        simp only []
        split
        · exact ⟨_, rfl, Or.inr rfl⟩
        · exact ⟨k1, rfl, Or.inl rfl⟩
    obtain ⟨kf, hr1, hr2⟩ := hres
    refine ⟨best, kf, rfl, hmem, ?_, ?_, ?_, ?_, ?_⟩
    · simp only []
      rw [g1]
      exact hr1
    · rcases hr2 with e | e
      · rw [e]
        exact g2
      · rw [e]
        exact ⟨g2.ready, g2.blocked, g2.ready_prio, g2.blocked_prio, g2.ready_nodup,
          g2.blocked_nodup, g2.disjoint⟩
    · rcases hr2 with e | e <;> rw [e] <;> exact g3
    · rcases hr2 with e | e <;> rw [e] <;> exact g4
    · rcases hr2 with e | e
      · rw [e]
        exact g5
      · rw [e]
        exact SameRegs_trans g5 ⟨rfl, rfl, rfl, rfl⟩

theorem scheduler_unblock_one_ok {k : Kernel} {fuel : Nat} (h : SchedOk k fuel)
    (reason : block_reason_t) (object : Option Nat) (result : Int) :
    ∃ k1 b, scheduler_unblock_one fuel k reason object result = some (k1, b) ∧
      SchedOk k1 fuel := by
  obtain ⟨rl, bl, hrep, hf⟩ := h
  rcases rep_unblock_one hrep hf reason object result with ⟨_, h1⟩ |
    ⟨best, k1, _, hm, h1, h2, _⟩
  · exact ⟨k, false, h1, rl, bl, hrep, hf⟩
  · exact ⟨k1, true, h1, _, _, h2, FuelCovers_move hf _ best hm⟩

/-! ## The message queue as a list -/

theorem mem_copy_apply (src : Nat → Nat) :
    ∀ (len : Nat) (dst : Nat → Nat) (d s x : Nat),
      mem_copy dst d src s len x = if d ≤ x ∧ x < d + len then src (s + (x - d)) else dst x := by
  intro len
  induction len with
  | zero =>
    intro dst d s x
    simp only [mem_copy]
    rw [if_neg (by omega)]
  | succ len ih =>
    intro dst d s x
    simp only [mem_copy]
    rw [ih]
    by_cases hx : x = d
    · subst hx
      rw [if_neg (by omega), if_pos (by omega)]
      simp
    · rw [Function.update_noteq hx]
      by_cases h1 : d + 1 ≤ x ∧ x < d + 1 + len
      · rw [if_pos h1, if_pos (by omega)]
        congr 1
        omega
      · rw [if_neg h1, if_neg (by omega)]

theorem QueueWF.capacity_lt {q : msg_queue_t} (h : QueueWF q) : q.capacity < 2 ^ 32 := by
  obtain ⟨h1, _, h3, _⟩ := h
  calc q.capacity = 1 * q.capacity := (Nat.one_mul _).symm
    _ ≤ q.msg_size * q.capacity := Nat.mul_le_mul_right _ h1
    _ < 2 ^ 32 := h3

theorem queue_slot_ptr_eq {q : msg_queue_t} (h : QueueWF q) {idx : Nat} (hi : idx < q.capacity) :
    queue_slot_ptr q idx = idx * q.msg_size := by
  unfold queue_slot_ptr
  apply Nat.mod_eq_of_lt
  obtain ⟨h1, _, h3, _⟩ := h
  calc idx * q.msg_size < q.capacity * q.msg_size := Nat.mul_lt_mul_of_pos_right hi (by omega)
    _ = q.msg_size * q.capacity := Nat.mul_comm _ _
    _ < 2 ^ 32 := h3

theorem slot_disjoint (s i j a : Nat) (hij : i ≠ j) (ha : a < s) :
    ¬(j * s ≤ i * s + a ∧ i * s + a < j * s + s) := by
  rcases Nat.lt_or_gt_of_ne hij with h | h
  · have := Nat.mul_le_mul_right s (Nat.succ_le_of_lt h)
    rw [Nat.succ_mul] at this
    omega
  · have := Nat.mul_le_mul_right s (Nat.succ_le_of_lt h)
    rw [Nat.succ_mul] at this
    omega

theorem mod_ne_of_lt_lt {a b c : Nat} (hab : a < b) (hbc : b - a < c) : a % c ≠ b % c := by
  intro e
  have h1 : (b - a) % c = 0 := Nat.sub_mod_eq_zero_of_mod_eq e.symm
  rw [Nat.mod_eq_of_lt hbc] at h1
  omega

theorem QueueWF_push_back {q : msg_queue_t} (h : QueueWF q) (msg : Nat → Nat)
    (hc : q.count < q.capacity) :
    QueueWF (queue_push_back q msg) ∧
    queue_contents (queue_push_back q msg) = queue_contents q ++ [msg_bytes msg q.msg_size] := by
  have hcap := h.capacity_lt
  obtain ⟨h1, h2, h3, h4, h5, h6⟩ := h
  have hhead : q.head < q.capacity := by
    rw [h6]
    exact Nat.mod_lt _ (by omega)
  have hcount : (q.count + 1) % 2 ^ 32 = q.count + 1 := Nat.mod_eq_of_lt (by omega)
  have hnew_head : ((q.head + 1) % 2 ^ 32) % q.capacity = (q.tail + (q.count + 1)) % q.capacity := by
    rw [Nat.mod_eq_of_lt (by omega : q.head + 1 < 2 ^ 32), h6, Nat.mod_add_mod]
    rfl
  constructor
  · refine ⟨h1, h2, h3, ?_, h5, ?_⟩
    · show (q.count + 1) % 2 ^ 32 ≤ q.capacity
      rw [hcount]
      omega
    · show ((q.head + 1) % 2 ^ 32) % q.capacity = (q.tail + (q.count + 1) % 2 ^ 32) % q.capacity
      rw [hcount]
      exact hnew_head
  · have e : queue_contents (queue_push_back q msg) =
        (List.range (q.count + 1)).map
          (fun i => slot_bytes (queue_push_back q msg) ((q.tail + i) % q.capacity)) := by
      unfold queue_contents
      show List.map _ (List.range ((q.count + 1) % 2 ^ 32)) = _
      rw [hcount]
      rfl
    have e2 : ∀ idx, slot_bytes (queue_push_back q msg) idx =
        (List.range q.msg_size).map
          (fun j => mem_copy q.buffer (queue_slot_ptr q q.head) msg 0 q.msg_size
            (queue_slot_ptr q idx + j)) := fun _ => rfl
    rw [e, List.range_succ, List.map_append]
    unfold queue_contents
    congr 1
    · apply List.map_congr_left
      intro i hi
      have hi1 : i < q.count := List.mem_range.mp hi
      rw [e2]
      unfold slot_bytes
      apply List.map_congr_left
      intro j hj
      have hj1 : j < q.msg_size := List.mem_range.mp hj
      have hidx : (q.tail + i) % q.capacity < q.capacity := Nat.mod_lt _ (by omega)
      have hne : (q.tail + i) % q.capacity ≠ q.head := by
        rw [h6]
        exact mod_ne_of_lt_lt (by omega) (by omega)
      rw [queue_slot_ptr_eq ⟨h1, h2, h3, h4, h5, h6⟩ hidx,
        queue_slot_ptr_eq ⟨h1, h2, h3, h4, h5, h6⟩ hhead, mem_copy_apply,
        if_neg (slot_disjoint _ _ _ _ hne hj1)]
    · simp only [List.map_cons, List.map_nil, List.cons.injEq, and_true]
      rw [e2, ← h6]
      unfold msg_bytes
      apply List.map_congr_left
      intro j hj
      have hj1 : j < q.msg_size := List.mem_range.mp hj
      rw [queue_slot_ptr_eq ⟨h1, h2, h3, h4, h5, h6⟩ hhead, mem_copy_apply, if_pos (by omega)]
      congr 1
      omega

theorem QueueWF_pop {q : msg_queue_t} (h : QueueWF q) (buf : Nat → Nat) (hc : 0 < q.count) :
    QueueWF (queue_pop q buf).1 ∧
    queue_contents q = msg_bytes (queue_pop q buf).2 q.msg_size :: queue_contents (queue_pop q buf).1 ∧
    (queue_pop q buf).1.count = q.count - 1 ∧ (queue_pop q buf).1.msg_size = q.msg_size := by
  have hcap := h.capacity_lt
  obtain ⟨h1, h2, h3, h4, h5, h6⟩ := h
  have hcount : (q.count + (2 ^ 32 - 1)) % 2 ^ 32 = q.count - 1 := by omega
  have htail : ((q.tail + 1) % 2 ^ 32) % q.capacity = (q.tail + 1) % q.capacity := by
    rw [Nat.mod_eq_of_lt (by omega : q.tail + 1 < 2 ^ 32)]
  refine ⟨⟨h1, h2, h3, ?_, ?_, ?_⟩, ?_, hcount, rfl⟩
  · show (q.count + (2 ^ 32 - 1)) % 2 ^ 32 ≤ q.capacity
    rw [hcount]
    omega
  · exact Nat.mod_lt _ (by omega)
  · show q.head = (((q.tail + 1) % 2 ^ 32) % q.capacity + (q.count + (2 ^ 32 - 1)) % 2 ^ 32) %
      q.capacity
    rw [hcount, htail, Nat.mod_add_mod, h6]
    have e : q.tail + q.count = q.tail + 1 + (q.count - 1) := by omega
    rw [e]
  · unfold queue_contents
    obtain ⟨n, hn⟩ : ∃ n, q.count = n + 1 := ⟨q.count - 1, by omega⟩
    show _ = _ :: List.map _ (List.range ((q.count + (2 ^ 32 - 1)) % 2 ^ 32))
    rw [hcount, hn, List.range_succ_eq_map, List.map_cons, List.map_map]
    simp only [Nat.add_sub_cancel]
    refine congrArg₂ List.cons ?_ ?_
    · unfold slot_bytes msg_bytes
      apply List.map_congr_left
      intro j hj
      have hj1 : j < q.msg_size := List.mem_range.mp hj
      show _ = mem_copy buf 0 q.buffer (queue_slot_ptr q q.tail) q.msg_size j
      rw [mem_copy_apply, if_pos (by omega), Nat.add_zero, Nat.mod_eq_of_lt h5]
      rfl
    · apply List.map_congr_left
      intro i _
      show slot_bytes q ((q.tail + (i + 1)) % q.capacity) =
        slot_bytes (queue_pop q buf).1 ((((q.tail + 1) % 2 ^ 32) % q.capacity + i) % q.capacity)
      rw [htail, Nat.mod_add_mod, Nat.add_assoc, Nat.add_comm 1 i]
      rfl

/-! ## C3: FIFO order of the message queue -/

theorem queue_push_back_fields (q : msg_queue_t) (msg : Nat → Nat) :
    (queue_push_back q msg).msg_size = q.msg_size ∧
    (queue_push_back q msg).capacity = q.capacity ∧
    (queue_push_back q msg).count = (q.count + 1) % 2 ^ 32 := ⟨rfl, rfl, rfl⟩

theorem queue_send_all_spec (fuel queue ts : Nat) :
    ∀ (msgs : List (Nat → Nat)) (k : Kernel) (q : msg_queue_t),
      SchedOk k fuel → QueueWF q → q.count + msgs.length ≤ q.capacity →
      ∃ k1 q1, queue_send_all fuel queue ts k q msgs =
          some (k1, q1, List.replicate msgs.length (Outcome.done KERNEL_OK)) ∧
        SchedOk k1 fuel ∧ QueueWF q1 ∧
        queue_contents q1 = queue_contents q ++ msgs.map (fun m => msg_bytes m q.msg_size) ∧
        q1.msg_size = q.msg_size ∧ q1.count = q.count + msgs.length := by
  intro msgs
  induction msgs with
  | nil =>
    intro k q hk hq _
    exact ⟨k, q, rfl, hk, hq, by simp, rfl, rfl⟩
  | cons m ms ih =>
    intro k q hk hq hlen
    simp only [List.length_cons] at hlen
    have hc : q.count < q.capacity := by omega
    obtain ⟨hq1, hcont⟩ := QueueWF_push_back hq m hc
    obtain ⟨ka, b, hub, hka⟩ := scheduler_unblock_one_ok hk block_reason_t.QUEUE_RECV
      (some queue) KERNEL_OK
    have hcap := hq.capacity_lt
    have hcount1 : (queue_push_back q m).count = q.count + 1 := by
      show (q.count + 1) % 2 ^ 32 = _
      exact Nat.mod_eq_of_lt (by omega)
    obtain ⟨k1, q1, h1, h2, h3, h4, h5, h6⟩ := ih ka (queue_push_back q m) hka hq1
      (by rw [hcount1]; show _ ≤ q.capacity; omega)
    refine ⟨k1, q1, ?_, h2, h3, ?_, h5, ?_⟩
    · simp only [queue_send_all, queue_send, queue_send_attempt, if_pos hc, hub, h1,
        Bool.false_eq_true, if_false, List.length_cons, List.replicate_succ]
    · rw [h4, hcont]
      simp only [List.map_cons, List.append_assoc, List.singleton_append]
      rfl
    · rw [h6, hcount1, List.length_cons]
      omega

theorem queue_receive_n_spec (fuel queue tr : Nat) (buf : Nat → Nat) :
    ∀ (n : Nat) (k : Kernel) (q : msg_queue_t),
      SchedOk k fuel → QueueWF q → q.count = n →
      ∃ k2 q2 outs, queue_receive_n fuel queue buf tr k q n =
          some (k2, q2, outs, List.replicate n (Outcome.done KERNEL_OK)) ∧
        outs.map (fun o => msg_bytes o q.msg_size) = queue_contents q ∧ q2.count = 0 ∧
        SchedOk k2 fuel := by
  intro n
  induction n with
  | zero =>
    intro k q hk _ hc
    refine ⟨k, q, [], rfl, ?_, hc, hk⟩
    unfold queue_contents
    rw [hc]
    rfl
  | succ n ih =>
    intro k q hk hq hc
    have hpos : 0 < q.count := by omega
    obtain ⟨hq1, hcont, hcount, hsize⟩ := QueueWF_pop hq buf hpos
    obtain ⟨ka, b, hub, hka⟩ := scheduler_unblock_one_ok hk block_reason_t.QUEUE_SEND
      (some queue) KERNEL_OK
    obtain ⟨k2, q2, outs, h1, h2, h3, h4⟩ := ih ka (queue_pop q buf).1 hka hq1
      (by rw [hcount]; omega)
    refine ⟨k2, q2, (queue_pop q buf).2 :: outs, ?_, ?_, h3, h4⟩
    · simp only [queue_receive_n, queue_receive, queue_receive_attempt, if_pos hpos, hub, h1,
        Bool.false_eq_true, if_false, List.replicate_succ]
    · rw [hcont, List.map_cons, ← hsize, h2]

/-- C3 (R2 / S3): for a queue initialised with message size `s >= 1` and
capacity `c >= 1` (the buffer of `s * c` bytes lying in the 32-bit address
space) and every sequence of `k <= c` messages sent with `queue_send` to the
empty queue, each send returns `KERNEL_OK`, and `k` successive `queue_receive`
calls each return `KERNEL_OK` and yield the messages in exactly that order,
byte for byte, leaving the queue empty.  The scheduler lists are well formed
and `fuel` covers them, so that every call returns. -/
theorem C3_queue_fifo (k : Kernel) (fuel : Nat) (hk : SchedOk k fuel) (queue : Nat)
    (q0 : msg_queue_t) (buffer : Nat → Nat) (s c : Nat) (hs : 1 ≤ s) (hc : 1 ≤ c)
    (hsc : s * c < 2 ^ 32) (msgs : List (Nat → Nat)) (hlen : msgs.length ≤ c)
    (ts tr : Nat) (buf : Nat → Nat) :
    (queue_init (some queue) q0 (some buffer) s c).2 = KERNEL_OK ∧
    ∃ k1 q1, queue_send_all fuel queue ts k (queue_init (some queue) q0 (some buffer) s c).1 msgs =
        some (k1, q1, List.replicate msgs.length (Outcome.done KERNEL_OK)) ∧
      ∃ k2 q2 outs, queue_receive_n fuel queue buf tr k1 q1 msgs.length =
          some (k2, q2, outs, List.replicate msgs.length (Outcome.done KERNEL_OK)) ∧
        outs.map (fun o => msg_bytes o s) = msgs.map (fun m => msg_bytes m s) ∧
        q2.count = 0 := by
  have hne : ¬(s = 0 ∨ c = 0) := by omega
  have hinit : queue_init (some queue) q0 (some buffer) s c =
      ({ buffer := buffer, msg_size := s, capacity := c, head := 0, tail := 0, count := 0,
         send_wait_head := none, send_wait_tail := none, recv_wait_head := none,
         recv_wait_tail := none }, KERNEL_OK) := by
    simp only [queue_init, if_neg hne]
  have hwf : QueueWF (queue_init (some queue) q0 (some buffer) s c).1 := by
    rw [hinit]
    exact ⟨hs, hc, hsc, Nat.zero_le _, hc, by simp⟩
  have hsz : (queue_init (some queue) q0 (some buffer) s c).1.msg_size = s := by
    rw [hinit]
  have hcnt : (queue_init (some queue) q0 (some buffer) s c).1.count = 0 := by
    rw [hinit]
  have hcapq : (queue_init (some queue) q0 (some buffer) s c).1.capacity = c := by
    rw [hinit]
  refine ⟨by rw [hinit], ?_⟩
  obtain ⟨k1, q1, h1, h2, h3, h4, h5, h6⟩ := queue_send_all_spec fuel queue ts msgs k _ hk hwf
    (by rw [hcnt, hcapq]; simpa using hlen)
  refine ⟨k1, q1, h1, ?_⟩
  obtain ⟨k2, q2, outs, g1, g2, g3, _⟩ := queue_receive_n_spec fuel queue tr buf msgs.length
    k1 q1 h2 h3 (by rw [h6, hcnt]; simp)
  refine ⟨k2, q2, outs, g1, ?_, g3⟩
  rw [h5, hsz] at g2
  rw [g2, h4, hsz]
  simp [queue_contents, hcnt]

theorem SchedOk_scheduler_init (k : Kernel) (fuel : Nat) : SchedOk (scheduler_init k) fuel := by
  refine ⟨fun _ => [], [], ?_, [], by simp, by simp, Nat.zero_le _⟩
  constructor
  · intro p hp
    show (scheduler_init k).g_sched.ready_list p = none
    simp [scheduler_init, hp]
  · rfl
  · intro p _ t ht
    simp at ht
  · intro t ht
    simp at ht
  · intro p _
    exact List.nodup_nil
  · exact List.nodup_nil
  · intro p _ t ht
    simp at ht

/-- Witness for C3: scenario S3, the four messages `01 02 03 04`, ...,
`0D 0E 0F 10` through a queue of capacity 4 and message size 4, in the state
after `scheduler_init`. -/
theorem C3_queue_fifo_witness :
    SchedOk (scheduler_init kernel0) 1 ∧
    ∃ k1 q1, queue_send_all 1 300 0 (scheduler_init kernel0)
        (queue_init (some 300) queue0 (some (fun _ => 0)) 4 4).1
        [fun j => [1, 2, 3, 4].getD j 0, fun j => [5, 6, 7, 8].getD j 0,
         fun j => [9, 10, 11, 12].getD j 0, fun j => [13, 14, 15, 16].getD j 0] =
        some (k1, q1, List.replicate 4 (Outcome.done KERNEL_OK)) ∧
      ∃ k2 q2 outs, queue_receive_n 1 300 (fun _ => 0) 0 k1 q1 4 =
          some (k2, q2, outs, List.replicate 4 (Outcome.done KERNEL_OK)) ∧
        outs.map (fun o => msg_bytes o 4) =
          [[1, 2, 3, 4], [5, 6, 7, 8], [9, 10, 11, 12], [13, 14, 15, 16]] ∧
        q2.count = 0 :=
  ⟨SchedOk_scheduler_init kernel0 1,
   (C3_queue_fifo (scheduler_init kernel0) 1 (SchedOk_scheduler_init kernel0 1) 300 queue0
      (fun _ => 0) 4 4 (by decide) (by decide) (by decide)
      [fun j => [1, 2, 3, 4].getD j 0, fun j => [5, 6, 7, 8].getD j 0,
       fun j => [9, 10, 11, 12].getD j 0, fun j => [13, 14, 15, 16].getD j 0]
      (by decide) 0 0 (fun _ => 0)).2⟩

/-! ## Scheduler operations on well-formed lists -/

theorem FuelCovers_erase_ready {rl : Nat → List Nat} {bl : List Nat} {fuel : Nat}
    (h : FuelCovers rl bl fuel) (p t : Nat) :
    FuelCovers (Function.update rl p ((rl p).erase t)) bl fuel := by
  obtain ⟨U, h1, h2, h3⟩ := h
  refine ⟨U, ?_, h2, h3⟩
  intro q hq u hu
  by_cases hqp : q = p
  · subst hqp
    rw [Function.update_same] at hu
    exact h1 q hq u (List.mem_of_mem_erase hu)
  · rw [Function.update_noteq hqp] at hu
    exact h1 q hq u hu

theorem FuelCovers_requeue {rl : Nat → List Nat} {bl : List Nat} {fuel : Nat}
    (h : FuelCovers rl bl fuel) (p q t : Nat) (hp : p < CONFIG_MAX_PRIORITY) (ht : t ∈ rl p) :
    FuelCovers (Function.update (Function.update rl p ((rl p).erase t)) q
      (Function.update rl p ((rl p).erase t) q ++ [t])) bl fuel := by
  obtain ⟨U, h1, h2, h3⟩ := h
  refine ⟨U, ?_, h2, h3⟩
  have hsub : ∀ r, r < CONFIG_MAX_PRIORITY → ∀ u ∈ Function.update rl p ((rl p).erase t) r,
      u ∈ U := by
    intro r hr u hu
    by_cases hrp : r = p
    · subst hrp
      rw [Function.update_same] at hu
      exact h1 r hr u (List.mem_of_mem_erase hu)
    · rw [Function.update_noteq hrp] at hu
      exact h1 r hr u hu
  intro r hr u hu
  by_cases hrq : r = q
  · subst hrq
    rw [Function.update_same] at hu
    rcases List.mem_append.mp hu with hu1 | hu1
    · exact hsub r hr u hu1
    · simp only [List.mem_singleton] at hu1
      rw [hu1]
      exact h1 p hp t ht
  · rw [Function.update_noteq hrq] at hu
    exact hsub r hr u hu

theorem FuelCovers_block {rl : Nat → List Nat} {bl : List Nat} {fuel : Nat}
    (h : FuelCovers rl bl fuel) (p t : Nat) (hp : p < CONFIG_MAX_PRIORITY) (ht : t ∈ rl p) :
    FuelCovers (Function.update rl p ((rl p).erase t)) (t :: bl) fuel := by
  obtain ⟨U, h1, h2, h3⟩ := h
  refine ⟨U, ?_, ?_, h3⟩
  · intro q hq u hu
    by_cases hqp : q = p
    · subst hqp
      rw [Function.update_same] at hu
      exact h1 q hq u (List.mem_of_mem_erase hu)
    · rw [Function.update_noteq hqp] at hu
      exact h1 q hq u hu
  · intro u hu
    rcases List.mem_cons.mp hu with e | e
    · rw [e]
      exact h1 p hp t ht
    · exact h2 u e

/-- After `scheduler_remove_task` the task is on no list. -/
theorem off_lists_after_remove {k : Kernel} {rl : Nat → List Nat} {bl : List Nat}
    (h : SchedRep k rl bl) {p t : Nat} (hp : p < CONFIG_MAX_PRIORITY) (ht : t ∈ rl p) :
    t ∉ bl ∧ ∀ q, q < CONFIG_MAX_PRIORITY → t ∉ Function.update rl p ((rl p).erase t) q := by
  refine ⟨h.disjoint p hp t ht, ?_⟩
  intro q hq hm
  by_cases hqp : q = p
  · subst hqp
    rw [Function.update_same] at hm
    exact ((List.Nodup.mem_erase_iff (h.ready_nodup q hq)).mp hm).1 rfl
  · rw [Function.update_noteq hqp] at hm
    exact h.ready_disjoint hp hq hqp t hm ht

theorem tcb_setTcb_same (k : Kernel) (t : Nat) (f : task_tcb_t → task_tcb_t) :
    (k.setTcb t f).tcb t = f (k.tcb t) := by
  simp [Kernel.setTcb]

theorem tcb_setTcb_other (k : Kernel) (t u : Nat) (f : task_tcb_t → task_tcb_t) (h : u ≠ t) :
    (k.setTcb t f).tcb u = k.tcb u := by
  simp [Kernel.setTcb, Function.update_noteq h]

/-- `scheduler_add_task` of a task that is on no list. -/
theorem rep_add_task {k : Kernel} {rl : Nat → List Nat} {bl : List Nat} {fuel : Nat}
    (h : SchedRep k rl bl) {t : Nat} (hb : t ∉ bl)
    (hr : ∀ p, p < CONFIG_MAX_PRIORITY → t ∉ rl p)
    (hprio : (k.tcb t).priority < CONFIG_MAX_PRIORITY)
    (hfuel : (rl (k.tcb t).priority).length ≤ fuel) :
    ∃ k1, scheduler_add_task fuel k t = some k1 ∧
      SchedRep k1 (Function.update rl (k.tcb t).priority (rl (k.tcb t).priority ++ [t])) bl ∧
      (∀ u, u ≠ t → tcb_data (k1.tcb u) = tcb_data (k.tcb u)) ∧
      tcb_data (k1.tcb t) = tcb_data { k.tcb t with
        state := task_state_t.READY, time_slice := CONFIG_TIME_SLICE } ∧
      SameRegs k k1 ∧ k1.g_blocked_head = k.g_blocked_head := by
  unfold scheduler_add_task
  simp only []
  have h1 := rep_setTcb h t (fun c =>
    { c with state := task_state_t.READY, time_slice := CONFIG_TIME_SLICE }) rfl rfl
    (fun p hp hm => absurd hm (hr p hp)) (fun hm => absurd hm hb)
  generalize hka : k.setTcb t (fun c =>
    { c with state := task_state_t.READY, time_slice := CONFIG_TIME_SLICE }) = ka at h1
  have a1 : ka.tcb t = { k.tcb t with
      state := task_state_t.READY, time_slice := CONFIG_TIME_SLICE } := by
    rw [← hka]
    exact tcb_setTcb_same _ _ _
  have a2 : ∀ u, u ≠ t → ka.tcb u = k.tcb u := by
    intro u hu
    rw [← hka]
    exact tcb_setTcb_other _ _ _ _ hu
  have a3 : (ka.tcb t).priority = (k.tcb t).priority := by
    rw [a1]
  have a4 : SameRegs k ka ∧ ka.g_blocked_head = k.g_blocked_head := by
    rw [← hka]
    exact ⟨SameRegs_setTcb _ _ _, rfl⟩
  obtain ⟨k1, g1, g2, g3, g4, g5, _⟩ := @rep_ready_insert_tail _ _ _ h1 _ fuel hb hr
    (by rw [a3]; exact hprio) (by rw [a3]; exact hfuel)
  rw [a3] at g2
  rw [g1]
  simp only []
  have hres : ∃ kf, (match k1.current_task with
      | some cur =>
        if (k1.tcb t).priority < (k1.tcb cur).priority then some (scheduler_trigger_switch k1)
        else some k1
      | none => some k1) = some kf ∧ (kf = k1 ∨ kf = scheduler_trigger_switch k1) := by
    cases k1.current_task with
    | none => exact ⟨k1, rfl, Or.inl rfl⟩
    | some cur =>
      simp only []
      split
      · exact ⟨_, rfl, Or.inr rfl⟩
      · exact ⟨k1, rfl, Or.inl rfl⟩
  obtain ⟨kf, hr1, hr2⟩ := hres
  have hkf : kf.tcb = k1.tcb ∧ SameRegs k1 kf ∧ kf.g_blocked_head = k1.g_blocked_head ∧
      kf.g_sched = k1.g_sched := by
    rcases hr2 with e | e <;> rw [e] <;> exact ⟨rfl, ⟨rfl, rfl, rfl, rfl⟩, rfl, rfl⟩
  refine ⟨kf, hr1, ?_, ?_, ?_, SameRegs_trans (SameRegs_trans a4.1 g4) hkf.2.1,
    hkf.2.2.1.trans (g5.trans a4.2)⟩
  · rcases hr2 with e | e
    · rw [e]
      exact g2
    · rw [e]
      exact ⟨g2.ready, g2.blocked, g2.ready_prio, g2.blocked_prio, g2.ready_nodup,
        g2.blocked_nodup, g2.disjoint⟩
  · intro u hu
    rw [hkf.1, g3 u, a2 u hu]
  · rw [hkf.1, g3 t, a1]

/-- `scheduler_set_priority` of a Ready or Running task that is on its ready
list: the task moves to the tail of the ready list of the new priority. -/
theorem rep_set_priority_ready {k : Kernel} {rl : Nat → List Nat} {bl : List Nat} {fuel : Nat}
    (h : SchedRep k rl bl) (hf : FuelCovers rl bl fuel) {p t new : Nat}
    (hp : p < CONFIG_MAX_PRIORITY) (ht : t ∈ rl p)
    (hst : (k.tcb t).state = task_state_t.READY ∨ (k.tcb t).state = task_state_t.RUNNING)
    (hnew : new < CONFIG_MAX_PRIORITY) :
    ∃ k1, scheduler_set_priority fuel k (some t) new = some k1 ∧
      SchedRep k1 (Function.update (Function.update rl p ((rl p).erase t)) new
        (Function.update rl p ((rl p).erase t) new ++ [t])) bl ∧
      FuelCovers (Function.update (Function.update rl p ((rl p).erase t)) new
        (Function.update rl p ((rl p).erase t) new ++ [t])) bl fuel ∧
      (∀ u, u ≠ t → tcb_data (k1.tcb u) = tcb_data (k.tcb u)) ∧
      tcb_data (k1.tcb t) = tcb_data { k.tcb t with
        priority := new, state := task_state_t.READY, time_slice := CONFIG_TIME_SLICE } ∧
      SameRegs k k1 ∧ k1.g_blocked_head = k.g_blocked_head := by
  unfold scheduler_set_priority
  simp only [if_neg (Nat.not_le.mpr hnew), if_pos hst]
  obtain ⟨ka, a1, a2, a3, a4, a5, _⟩ := rep_remove_ready h hp ht
  rw [a1]
  simp only []
  obtain ⟨hoffb, hoffr⟩ := off_lists_after_remove h hp ht
  have h1 := rep_setTcb a2 t (fun c => { c with priority := new }) rfl rfl
    (fun q hq hm => absurd hm (hoffr q hq)) (fun hm => absurd hm hoffb)
  generalize hkb : ka.setTcb t (fun c => { c with priority := new }) = kb at h1
  have b1 : kb.tcb t = { ka.tcb t with priority := new } := by
    rw [← hkb]
    exact tcb_setTcb_same _ _ _
  have b2 : ∀ u, u ≠ t → kb.tcb u = ka.tcb u := by
    intro u hu
    rw [← hkb]
    exact tcb_setTcb_other _ _ _ _ hu
  have b3 : (kb.tcb t).priority = new := by
    rw [b1]
  have b4 : SameRegs ka kb ∧ kb.g_blocked_head = ka.g_blocked_head := by
    rw [← hkb]
    exact ⟨SameRegs_setTcb _ _ _, rfl⟩
  have hfa := FuelCovers_erase_ready hf p t
  obtain ⟨k1, g1, g2, g3, g4, g5, g6⟩ := @rep_add_task _ _ _ fuel h1 _ hoffb hoffr
    (by rw [b3]; exact hnew)
    (by rw [b3]; exact FuelCovers_ready hfa hnew (a2.ready_nodup new hnew))
  rw [b3] at g2
  refine ⟨k1, g1, g2, FuelCovers_requeue hf p new t hp ht, ?_, ?_,
    SameRegs_trans (SameRegs_trans a4 b4.1) g5, g6.trans (b4.2.trans a5)⟩
  · intro u hu
    rw [g3 u hu, b2 u hu]
    exact a3 u
  · rw [g4, b1]
    have := a3 t
    unfold tcb_data at this ⊢
    simp only [task_tcb_t.mk.injEq] at this ⊢
    simp only [this, and_self]

/-- `scheduler_block_task` up to the switch, for a current task that is on
its ready list: the task moves to the head of the blocked list. -/
theorem rep_block_task_enter {k : Kernel} {rl : Nat → List Nat} {bl : List Nat} {fuel : Nat}
    (h : SchedRep k rl bl) (hf : FuelCovers rl bl fuel) {p self : Nat}
    (hcur : k.current_task = some self) (hp : p < CONFIG_MAX_PRIORITY) (ht : self ∈ rl p)
    (reason : block_reason_t) (object : Option Nat) (timeout : Nat) :
    ∃ k1, scheduler_block_task_enter k reason object timeout = some (k1, Outcome.blocked) ∧
      SchedRep k1 (Function.update rl p ((rl p).erase self)) (self :: bl) ∧
      FuelCovers (Function.update rl p ((rl p).erase self)) (self :: bl) fuel ∧
      (∀ u, u ≠ self → tcb_data (k1.tcb u) = tcb_data (k.tcb u)) ∧
      (k1.tcb self).state = task_state_t.BLOCKED ∧ (k1.tcb self).block_reason = reason ∧
      (k1.tcb self).block_object = object ∧ (k1.tcb self).block_timeout = timeout ∧
      (k1.tcb self).block_result = KERNEL_OK ∧
      (k1.tcb self).priority = (k.tcb self).priority ∧
      (k1.tcb self).base_priority = (k.tcb self).base_priority ∧
      SameRegs k k1 := by
  unfold scheduler_block_task_enter
  rw [hcur]
  simp only []
  obtain ⟨ka, a1, a2, a3, a4, a5, _⟩ := rep_remove_ready h hp ht
  rw [a1]
  simp only []
  obtain ⟨hoffb, hoffr⟩ := off_lists_after_remove h hp ht
  generalize hw : (if timeout = 0 then (ka.g_tick_count + 1) % 2 ^ 32
        else if timeout = UINT32_MAX then UINT32_MAX
        else (ka.g_tick_count + timeout) % 2 ^ 32) = wake
  have h1 := rep_setTcb a2 self (fun c =>
        { c with state := task_state_t.BLOCKED, block_reason := reason, block_object := object,
                 block_timeout := timeout, block_result := KERNEL_OK, wake_tick := wake })
        rfl rfl (fun q hq hm => absurd hm (hoffr q hq)) (fun hm => absurd hm hoffb)
  generalize hkb : ka.setTcb self (fun c =>
        { c with state := task_state_t.BLOCKED, block_reason := reason, block_object := object,
                 block_timeout := timeout, block_result := KERNEL_OK, wake_tick := wake }) = kb
    at h1
  have b1 : kb.tcb self = { ka.tcb self with
      state := task_state_t.BLOCKED, block_reason := reason, block_object := object,
      block_timeout := timeout, block_result := KERNEL_OK, wake_tick := wake } := by
    rw [← hkb]
    exact tcb_setTcb_same _ _ _
  have b2 : ∀ u, u ≠ self → kb.tcb u = ka.tcb u := by
    intro u hu
    rw [← hkb]
    exact tcb_setTcb_other _ _ _ _ hu
  have b3 : (kb.tcb self).priority = (k.tcb self).priority := by
    rw [b1]
    show (ka.tcb self).priority = _
    exact priority_of_data (a3 self)
  have b4 : SameRegs ka kb := by
    rw [← hkb]
    exact SameRegs_setTcb _ _ _
  have hprio : (k.tcb self).priority = p := h.ready_prio p hp self ht
  obtain ⟨c1, c2, c3, _⟩ := rep_blocked_insert h1 (t := self) hoffb hoffr
    (by rw [b3, hprio]; exact hp)
  have hdata : ∀ {α : Type} (f : task_tcb_t → α), (∀ c, f (tcb_data c) = f c) →
      f ((blocked_insert kb self).tcb self) = f (kb.tcb self) := by
    intro α f hfd
    rw [← hfd, c2 self, hfd]
  refine ⟨_, rfl, ?_, FuelCovers_block hf p self hp ht, ?_, ?_, ?_, ?_, ?_, ?_, ?_, ?_, ?_⟩
  · exact ⟨c1.ready, c1.blocked, c1.ready_prio, c1.blocked_prio, c1.ready_nodup,
      c1.blocked_nodup, c1.disjoint⟩
  · intro u hu
    show tcb_data ((blocked_insert kb self).tcb u) = _
    rw [c2 u, b2 u hu]
    exact a3 u
  · show ((blocked_insert kb self).tcb self).state = _
    rw [hdata (fun c => c.state) (fun _ => rfl), b1]
  · show ((blocked_insert kb self).tcb self).block_reason = _
    rw [hdata (fun c => c.block_reason) (fun _ => rfl), b1]
  · show ((blocked_insert kb self).tcb self).block_object = _
    rw [hdata (fun c => c.block_object) (fun _ => rfl), b1]
  · show ((blocked_insert kb self).tcb self).block_timeout = _
    rw [hdata (fun c => c.block_timeout) (fun _ => rfl), b1]
  · show ((blocked_insert kb self).tcb self).block_result = _
    rw [hdata (fun c => c.block_result) (fun _ => rfl), b1]
  · show ((blocked_insert kb self).tcb self).priority = _
    rw [hdata (fun c => c.priority) (fun _ => rfl)]
    exact b3
  · show ((blocked_insert kb self).tcb self).base_priority = _
    rw [hdata (fun c => c.base_priority) (fun _ => rfl), b1]
    show (tcb_data (ka.tcb self)).base_priority = (tcb_data (k.tcb self)).base_priority
    rw [a3 self]
  · exact SameRegs_trans (SameRegs_trans (SameRegs_trans a4 b4) c3) ⟨rfl, rfl, rfl, rfl⟩

theorem yield_unlink_eq (k : Kernel) (head n prio : Nat) (h1 : (k.tcb head).priority = prio)
    (h2 : prio < CONFIG_MAX_PRIORITY) (h3 : k.g_sched.ready_list prio = some head)
    (h4 : (k.tcb head).prev = none) (h5 : (k.tcb head).next = some n) :
    scheduler_remove_task k (some head) =
      some (((k.setReady prio (some n)).setTcb n (fun c => { c with prev := none })).setTcb head
        (fun c => { c with next := none, prev := none })) := by
  unfold scheduler_remove_task
  simp only [h1, if_pos h2, h3, if_true, h5]
  have e1 : ((k.setReady prio (some n)).tcb head).prev = none := h4
  have e2 : ((k.setReady prio (some n)).tcb head).next = some n := h5
  simp only [e1, e2]
  have e3 : ((k.setReady prio (some n)).setTcb n (fun c => { c with prev := none })).g_sched.ready_list
      prio = some n := by
    simp [Kernel.setReady, Kernel.setTcb]
  rw [if_neg (by rw [e3]; simp)]

/-- `scheduler_yield` on well-formed lists returns and changes links only. -/
theorem rep_yield {k : Kernel} {rl : Nat → List Nat} {bl : List Nat} {fuel : Nat}
    (h : SchedRep k rl bl) (hf : FuelCovers rl bl fuel) {cur : Nat}
    (hcur : k.current_task = some cur) (hprio : (k.tcb cur).priority < CONFIG_MAX_PRIORITY) :
    ∃ k1, scheduler_yield fuel k = some k1 ∧
      (∀ u, tcb_data (k1.tcb u) = tcb_data (k.tcb u)) ∧ SameRegs k k1 ∧ SchedOk k1 fuel := by
  unfold scheduler_yield
  rw [hcur]
  simp only []
  split
  · exact ⟨_, rfl, fun _ => rfl, ⟨hcur.symm, rfl, rfl, rfl⟩, rl, bl,
      ⟨h.ready, h.blocked, h.ready_prio, h.blocked_prio, h.ready_nodup, h.blocked_nodup,
        h.disjoint⟩, hf⟩
  · have htrig : ∃ k1, some (scheduler_trigger_switch k) = some k1 ∧
        (∀ u, tcb_data (k1.tcb u) = tcb_data (k.tcb u)) ∧ SameRegs k k1 ∧ SchedOk k1 fuel :=
      ⟨_, rfl, fun _ => rfl, ⟨rfl, rfl, rfl, rfl⟩, rl, bl,
        ⟨h.ready, h.blocked, h.ready_prio, h.blocked_prio, h.ready_nodup, h.blocked_nodup,
          h.disjoint⟩, hf⟩
    cases hhead : k.g_sched.ready_list (k.tcb cur).priority with
    | none => exact htrig
    | some head =>
      simp only []
      cases hn : (k.tcb head).next with
      | none => exact htrig
      | some n =>
        simp only []
        by_cases hhc : head = cur
        · rw [if_pos hhc]
          subst hhc
          have hd := h.ready _ hprio
          rw [hhead] at hd
          have hmem : head ∈ rl (k.tcb head).priority := by
            cases hl : rl (k.tcb head).priority with
            | nil =>
              rw [hl] at hd
              cases hd
            | cons a l =>
              rw [hl] at hd
              have := Option.some.inj hd.1
              rw [this]
              exact List.mem_cons_self a l
          have hpv : (k.tcb head).prev = none := by
            cases hl : rl (k.tcb head).priority with
            | nil =>
              rw [hl] at hd
              cases hd
            | cons a l =>
              rw [hl] at hd
              have := Option.some.inj hd.1
              rw [this]
              exact hd.2.1
          have heq := yield_unlink_eq k head n _ rfl hprio hhead hpv hn
          obtain ⟨ka, a1, a2, a3, a4, a5, _⟩ := rep_remove_ready h hprio hmem
          rw [heq] at a1
          have a1' := Option.some.inj a1
          rw [a1']
          obtain ⟨hoffb, hoffr⟩ := off_lists_after_remove h hprio hmem
          have hpe : (ka.tcb head).priority = (k.tcb head).priority := priority_of_data (a3 head)
          obtain ⟨k1, g1, g2, g3, g4, _, _⟩ := @rep_ready_insert_tail _ _ _ a2 _ fuel hoffb hoffr
            (by rw [hpe]; exact hprio)
            (by rw [hpe]; exact FuelCovers_ready (FuelCovers_erase_ready hf _ head) hprio
                  (a2.ready_nodup _ hprio))
          rw [g1]
          rw [hpe] at g2
          refine ⟨_, rfl, ?_, ?_, _, _, ⟨g2.ready, g2.blocked, g2.ready_prio, g2.blocked_prio,
            g2.ready_nodup, g2.blocked_nodup, g2.disjoint⟩,
            FuelCovers_requeue hf _ _ head hprio hmem⟩
          · intro u
            show tcb_data (k1.tcb u) = _
            rw [g3 u]
            exact a3 u
          · exact SameRegs_trans (SameRegs_trans a4 g4) ⟨rfl, rfl, rfl, rfl⟩
        · rw [if_neg hhc]
          exact htrig

/-! ## C8: recursive locking -/

/-- C8 as stated fails for `N = 256`: all 256 locks return `KERNEL_OK`, but
`recursive_count` saturates at 255; the first 254 unlocks return `KERNEL_OK`
and leave the mutex locked and owned, the 255th unlock (one of the first
`N - 1`) already releases the mutex, and the 256th returns
`KERNEL_ERR_STATE`. -/
theorem C8_counterexample_256 :
    scenario_recursive_256 =
    some { lock_outcomes := List.replicate 256 (Outcome.done KERNEL_OK),
           count_after_locks := 255,
           first_unlocks := List.replicate 254 (KERNEL_OK, 1, some 1),
           code_255 := KERNEL_OK, locked_after_255 := 0, owner_after_255 := none,
           code_256 := KERNEL_ERR_STATE } := by
  decide!

theorem mutex_lock_first (fuel : Nat) (k : Kernel) (T mtx : Nat) (m : mutex_t) (timeout : Nat)
    (hcur : k.current_task = some T) (hisr : k.ipsr = 0) (hl : m.locked = 0) :
    mutex_lock fuel k (some mtx) m timeout =
      some (k, mutex_held m T (k.tcb T).priority 1, Outcome.done KERNEL_OK) := by
  have h1 : is_isr_context k = false := by simp [is_isr_context, hisr]
  have h2 : task_get_current k = some T := hcur
  simp [mutex_lock, mutex_lock_attempt, mutex_trylock, h1, h2, hl, mutex_held]

theorem mutex_lock_again (fuel : Nat) (k : Kernel) (T mtx prio n : Nat) (m : mutex_t)
    (timeout : Nat) (hcur : k.current_task = some T) (hisr : k.ipsr = 0)
    (hflag : m.flags &&& MUTEX_FLAG_RECURSIVE ≠ 0) (hn : n < 255) :
    mutex_lock fuel k (some mtx) (mutex_held m T prio n) timeout =
      some (k, mutex_held m T prio (n + 1), Outcome.done KERNEL_OK) := by
  have h1 : is_isr_context k = false := by simp [is_isr_context, hisr]
  have h2 : task_get_current k = some T := hcur
  simp [mutex_lock, mutex_lock_attempt, mutex_trylock, h1, h2, mutex_held, hflag, hn]

theorem mutex_lock_n_held (fuel : Nat) (k : Kernel) (T mtx prio : Nat) (m : mutex_t)
    (timeout : Nat) (hcur : k.current_task = some T) (hisr : k.ipsr = 0)
    (hflag : m.flags &&& MUTEX_FLAG_RECURSIVE ≠ 0) :
    ∀ (j n : Nat), n + j ≤ 255 →
      mutex_lock_n fuel mtx timeout k (mutex_held m T prio n) j =
        some (k, mutex_held m T prio (n + j), List.replicate j (Outcome.done KERNEL_OK)) := by
  intro j
  induction j with
  | zero =>
    intro n _
    rfl
  | succ j ih =>
    intro n hn
    simp only [mutex_lock_n]
    rw [mutex_lock_again fuel k T mtx prio n m timeout hcur hisr hflag (by omega)]
    simp only []
    rw [ih (n + 1) (by omega)]
    simp only [List.replicate_succ]
    have : n + 1 + j = n + (j + 1) := by omega
    rw [this]

theorem mutex_unlock_held (fuel : Nat) (k : Kernel) (T mtx prio n : Nat) (m : mutex_t)
    (hcur : k.current_task = some T) (hisr : k.ipsr = 0) (hn : 1 < n) :
    mutex_unlock fuel k (some mtx) (mutex_held m T prio n) =
      some (k, mutex_held m T prio (n - 1), KERNEL_OK) := by
  have h1 : is_isr_context k = false := by simp [is_isr_context, hisr]
  have h2 : task_get_current k = some T := hcur
  simp [mutex_unlock, h1, h2, mutex_held, hn]

theorem mutex_unlock_n_held (fuel : Nat) (k : Kernel) (T mtx prio : Nat) (m : mutex_t)
    (hcur : k.current_task = some T) (hisr : k.ipsr = 0) :
    ∀ (j n : Nat), j < n →
      mutex_unlock_n fuel mtx k (mutex_held m T prio n) j =
        some (k, mutex_held m T prio (n - j), List.replicate j (KERNEL_OK, 1, some T)) := by
  intro j
  induction j with
  | zero =>
    intro n _
    rfl
  | succ j ih =>
    intro n hn
    simp only [mutex_unlock_n]
    rw [mutex_unlock_held fuel k T mtx prio n m hcur hisr (by omega)]
    simp only []
    rw [ih (n - 1) (by omega)]
    simp only [List.replicate_succ]
    have : n - 1 - j = n - (j + 1) := by omega
    rw [this]
    rfl

/-- The releasing `mutex_unlock` (count 1) by the running task, which is on
its ready list, returns `KERNEL_OK` on well-formed scheduler lists. -/
theorem mutex_unlock_last {k : Kernel} {rl : Nat → List Nat} {bl : List Nat} {fuel : Nat}
    (h : SchedRep k rl bl) (hf : FuelCovers rl bl fuel) {T p : Nat} (mtx prio : Nat)
    (m : mutex_t) (hcur : k.current_task = some T) (hisr : k.ipsr = 0)
    (hp : p < CONFIG_MAX_PRIORITY) (hT : T ∈ rl p)
    (hst : (k.tcb T).state = task_state_t.READY ∨ (k.tcb T).state = task_state_t.RUNNING) :
    ∃ k3, mutex_unlock fuel k (some mtx) (mutex_held m T prio 1) =
      some (k3, { mutex_held m T prio 1 with locked := 0, owner := none, recursive_count := 0 },
        KERNEL_OK) := by
  have h1 : is_isr_context k = false := by simp [is_isr_context, hisr]
  have h2 : task_get_current k = some T := hcur
  have hk2 : ∃ k2, (if CONFIG_PRIORITY_INHERITANCE = true ∧
        (k.tcb T).priority ≠ (k.tcb T).base_priority then
        scheduler_set_priority fuel k (some T) (k.tcb T).base_priority
      else some k) = some k2 ∧ SchedOk k2 fuel := by
    split
    · by_cases hb : (k.tcb T).base_priority < CONFIG_MAX_PRIORITY
      · obtain ⟨k2, g1, g2, g3, _⟩ := rep_set_priority_ready h hf hp hT hst hb
        exact ⟨k2, g1, _, _, g2, g3⟩
      · refine ⟨k, ?_, rl, bl, h, hf⟩
        simp only [scheduler_set_priority]
        rw [if_pos (by omega)]
    · exact ⟨k, rfl, rl, bl, h, hf⟩
  obtain ⟨k2, e1, e2⟩ := hk2
  obtain ⟨k3, b, e3, _⟩ := scheduler_unblock_one_ok e2 block_reason_t.MUTEX (some mtx) KERNEL_OK
  refine ⟨k3, ?_⟩
  simp only [mutex_unlock, h1, h2, mutex_held, Bool.false_eq_true, if_false, ne_eq,
    not_true_eq_false, gt_iff_lt, Nat.lt_irrefl]
  rw [e1]
  simp only []
  rw [e3]

/-- C8 (R3), amended: for every `N` with `1 <= N <= 255`: after the same task
locks a recursive mutex `N` times in succession, each lock returns
`KERNEL_OK`; each of the first `N - 1` `mutex_unlock` calls returns `KERNEL_OK`
and leaves the mutex locked and owned by that task; the record is then the
one after a single lock, so the `N`-th `mutex_unlock` is that of a single
lock/unlock pair: it returns `KERNEL_OK` and releases the mutex
(`locked = 0`, `owner = NULL`, `recursive_count = 0`).  The caller is the
running task, on its ready list, in task context; the scheduler lists are
well formed. -/
theorem C8_recursive_lock_unlock (k : Kernel) (rl : Nat → List Nat) (bl : List Nat)
    (fuel : Nat) (hrep : SchedRep k rl bl) (hfuel : FuelCovers rl bl fuel) (T p : Nat)
    (hcur : k.current_task = some T) (hisr : k.ipsr = 0) (hp : p < CONFIG_MAX_PRIORITY)
    (hT : T ∈ rl p)
    (hst : (k.tcb T).state = task_state_t.READY ∨ (k.tcb T).state = task_state_t.RUNNING)
    (mtx : Nat) (m0 : mutex_t) (flags : Nat) (hflag : flags &&& MUTEX_FLAG_RECURSIVE ≠ 0)
    (timeout N : Nat) (h1 : 1 ≤ N) (h255 : N ≤ 255) :
    ∃ m1, mutex_lock_n fuel mtx timeout k (mutex_init (some mtx) m0 flags).1 N =
        some (k, m1, List.replicate N (Outcome.done KERNEL_OK)) ∧
      ∃ m2, mutex_unlock_n fuel mtx k m1 (N - 1) =
          some (k, m2, List.replicate (N - 1) (KERNEL_OK, 1, some T)) ∧
        mutex_lock fuel k (some mtx) (mutex_init (some mtx) m0 flags).1 timeout =
          some (k, m2, Outcome.done KERNEL_OK) ∧
        ∃ k3 m3, mutex_unlock fuel k (some mtx) m2 = some (k3, m3, KERNEL_OK) ∧
          m3.locked = 0 ∧ m3.owner = none ∧ m3.recursive_count = 0 := by
  generalize hmi : (mutex_init (some mtx) m0 flags).1 = mi
  have hmi_l : mi.locked = 0 := by
    rw [← hmi]
    rfl
  have hmi_f : mi.flags &&& MUTEX_FLAG_RECURSIVE ≠ 0 := by
    rw [← hmi]
    exact hflag
  obtain ⟨n, rfl⟩ : ∃ n, N = n + 1 := ⟨N - 1, by omega⟩
  have hfirst := mutex_lock_first fuel k T mtx mi timeout hcur hisr hmi_l
  refine ⟨mutex_held mi T (k.tcb T).priority (n + 1), ?_, mutex_held mi T (k.tcb T).priority 1,
    ?_, hfirst, ?_⟩
  · simp only [mutex_lock_n]
    rw [hfirst]
    simp only []
    rw [mutex_lock_n_held fuel k T mtx _ mi timeout hcur hisr hmi_f n 1 (by omega)]
    simp only [List.replicate_succ]
    rw [Nat.add_comm 1 n]
  · simp only [Nat.add_sub_cancel]
    rw [mutex_unlock_n_held fuel k T mtx _ mi hcur hisr n (n + 1) (by omega)]
    simp only [Nat.add_sub_cancel_left]
  · obtain ⟨k3, e⟩ := mutex_unlock_last hrep hfuel mtx (k.tcb T).priority mi hcur hisr hp hT hst
    exact ⟨k3, _, e, rfl, rfl, rfl⟩

theorem SchedRep_scheduler_init (k : Kernel) : SchedRep (scheduler_init k) (fun _ => []) [] := by
  constructor
  · intro p hp
    show (scheduler_init k).g_sched.ready_list p = none
    simp [scheduler_init, hp]
  · rfl
  · intro p _ t ht
    simp at ht
  · intro t ht
    simp at ht
  · intro p _
    exact List.nodup_nil
  · exact List.nodup_nil
  · intro p _ t ht
    simp at ht

theorem kernelB_rep : SchedRep kernelB (Function.update (fun _ => []) 5 [1]) [] := by
  obtain ⟨k1, e1, e2, _⟩ := @rep_add_task _ _ _ 4 (SchedRep_scheduler_init kernel0) 1
    (by simp) (by simp) (by decide) (by simp)
  have e3 : scheduler_add_task 4 (scheduler_init kernel0) 1 = some kernelA := by rfl
  rw [e3] at e1
  have e4 := Option.some.inj e1
  subst e4
  exact ⟨e2.ready, e2.blocked, e2.ready_prio, e2.blocked_prio, e2.ready_nodup, e2.blocked_nodup,
    e2.disjoint⟩

theorem kernelB_fuel : FuelCovers (Function.update (fun _ => []) 5 [1]) [] 4 := by
  refine ⟨[1], ?_, by simp, by simp⟩
  intro p _ t ht
  by_cases hp5 : p = 5
  · subst hp5
    simpa using ht
  · rw [Function.update_noteq hp5] at ht
    simp at ht

/-- Witness for C8: task 1, running and alone on `ready_list[5]`, locks a
recursive mutex three times and unlocks it three times. -/
theorem C8_recursive_lock_unlock_witness :
    ∃ m1, mutex_lock_n 4 200 100 kernelB (mutex_init (some 200) mutex0 1).1 3 =
        some (kernelB, m1, List.replicate 3 (Outcome.done KERNEL_OK)) ∧
      ∃ m2, mutex_unlock_n 4 200 kernelB m1 (3 - 1) =
          some (kernelB, m2, List.replicate (3 - 1) (KERNEL_OK, 1, some 1)) ∧
        mutex_lock 4 kernelB (some 200) (mutex_init (some 200) mutex0 1).1 100 =
          some (kernelB, m2, Outcome.done KERNEL_OK) ∧
        ∃ k3 m3, mutex_unlock 4 kernelB (some 200) m2 = some (k3, m3, KERNEL_OK) ∧
          m3.locked = 0 ∧ m3.owner = none ∧ m3.recursive_count = 0 :=
  C8_recursive_lock_unlock kernelB (Function.update (fun _ => []) 5 [1]) [] 4 kernelB_rep
    kernelB_fuel 1 5 rfl rfl (by decide) (by simp) (Or.inl (by decide)) 200 mutex0 1 (by decide)
    100 3 (by decide) (by decide)

/-! ## C7: priority inheritance -/

theorem data_field {α : Type} (f : task_tcb_t → α) (hf : ∀ c, f (tcb_data c) = f c)
    {c d : task_tcb_t} (h : tcb_data c = tcb_data d) : f c = f d := by
  rw [← hf c, h, hf d]

theorem SchedRep_of_eq {k k1 : Kernel} {rl : Nat → List Nat} {bl : List Nat}
    (h : SchedRep k rl bl) (htcb : k1.tcb = k.tcb)
    (hrl : k1.g_sched.ready_list = k.g_sched.ready_list)
    (hb : k1.g_blocked_head = k.g_blocked_head) : SchedRep k1 rl bl := by
  have hn : nxt k1 = nxt k := by
    unfold nxt
    rw [htcb]
  have hp : prv k1 = prv k := by
    unfold prv
    rw [htcb]
  constructor
  · intro p hp1
    rw [hn, hp, hrl]
    exact h.ready p hp1
  · rw [hn, hp, hb]
    exact h.blocked
  · intro p hp1 t ht
    rw [htcb]
    exact h.ready_prio p hp1 t ht
  · intro t ht
    rw [htcb]
    exact h.blocked_prio t ht
  · exact h.ready_nodup
  · exact h.blocked_nodup
  · exact h.disjoint

/-- C11, the divergence: `A` and `B` have the same priority 5 and block on the
same semaphore, `A` first and `B` second.  `blocked_insert` puts each at the
head of the blocked list, so `B` stands before `A`, and the search of
`scheduler_unblock_one` keeps the first of equal priority: the call returns
true and wakes `B`, the task that blocked last, while `A`, which blocked
earliest, stays blocked. -/
theorem C11_unblock_one_wakes_latest_waiter :
    scenario_two_waiters = some
      { take_A := Outcome.blocked, current_after_A := some 2, take_B := Outcome.blocked,
        current_after_B := some 3, blocked_head_before := some 2,
        blocked_second_before := some 1, priority_A := 5, priority_B := 5,
        unblock_result := true, state_A_after := task_state_t.BLOCKED,
        state_B_after := task_state_t.READY, block_result_B_after := KERNEL_OK,
        blocked_head_after := some 1 } := by
  decide!

/-! ## C12: the tick and the "never" sentinel -/

/-- C12, the divergence: `A` is blocked for Delay with the timeout
`UINT32_MAX`, the "never" sentinel, for which `scheduler_block_task` stores
`wake_tick = UINT32_MAX`.  The Delay branch of `scheduler_tick` does not test
the timeout, so the tick that takes the counter from `0xFFFFFFFE` to
`0xFFFFFFFF` makes `A` ready. -/
theorem C12_tick_wakes_delay_with_sentinel :
    scenario_delay_forever = some
      { delay_outcome := Outcome.blocked, block_reason_A := block_reason_t.DELAY,
        block_timeout_A := UINT32_MAX, wake_tick_A := UINT32_MAX,
        state_A_before := task_state_t.BLOCKED, tick_before := 0xFFFFFFFE,
        tick_after := 0xFFFFFFFF, state_A_after := task_state_t.READY,
        block_result_A_after := KERNEL_OK, blocked_head_after := none,
        ready_head_5_after := some 1 } := by
  decide!

/-! ## C13: the length of a delay -/

/-- C13, the divergence: with the tick counter at `0xFFFFFFF0`, `task_delay(32)`
stores `wake_tick = (0xFFFFFFF0 + 32) mod 2^32 = 0x10`, and the test
`g_tick_count >= wake_tick` of the very next tick (counter `0xFFFFFFF1`) holds:
`A` is made ready after one tick instead of 32. -/
theorem C13_delay_ends_early_at_wrap :
    scenario_delay_wrap = some
      { delay_outcome := Outcome.blocked, block_reason_A := block_reason_t.DELAY,
        block_timeout_A := 32, wake_tick_A := 0x10,
        state_A_before := task_state_t.BLOCKED, tick_before := 0xFFFFFFF0,
        tick_after := 0xFFFFFFF1, state_A_after := task_state_t.READY,
        block_result_A_after := KERNEL_OK, blocked_head_after := none,
        ready_head_5_after := some 1 } := by
  decide!

/-! ## C14: removing the head of the blocked list -/

/-- C14, the divergence: `B` is the head of the blocked list with `A` behind
it, and `C` calls `task_delete(B)`.  `scheduler_remove_task` clears the links
of `B` but leaves `g_blocked_head` pointing at it: `B` is still reachable from
the blocked list and `A` no longer is.  The third tick makes the deleted `B`
ready again, the switch exception runs it, and `A` stays blocked although its
delay is over. -/
theorem C14_deleted_blocked_head_wakes :
    scenario_delete_blocked_head = some
      { delay_A := Outcome.blocked, delay_B := Outcome.blocked,
        blocked_head_before := some 2, blocked_second_before := some 1,
        current_before := some 3, delete_outcome := Outcome.done KERNEL_OK,
        state_B_after_delete := task_state_t.DELETED, blocked_head_after_delete := some 2,
        next_B_after_delete := none, state_A_after_delete := task_state_t.BLOCKED,
        tick_after := 4, state_A_after_ticks := task_state_t.BLOCKED,
        state_B_after_ticks := task_state_t.READY, blocked_head_after_ticks := none,
        ready_head_5_after_ticks := some 2, current_after_switch := some 2 } := by
  decide!

/-! ## C15: `task_delete` and the pools -/

/-- C15, the divergence: sixteen tasks are created from the pools, the task in
`g_task_pool[3]` (stack `g_stack_pool[3]`, not the current task) is deleted,
and `task_delete` returns OK; but it never calls `free_slot`, the used-flags
of the slots stay 1, and the next `task_create` from the pools returns
`KERNEL_ERR_NO_MEM`. -/
theorem C15_task_delete_keeps_slots :
    scenario_pool_delete = some
      { init_code := KERNEL_OK, create_codes := List.replicate 16 KERNEL_OK,
        stack_base_3 := g_stack_pool 3, current_task := none,
        delete_outcome := Outcome.done KERNEL_OK,
        state_3_after_delete := task_state_t.DELETED,
        task_slot_3_after_delete := 1, stack_slot_3_after_delete := 1,
        create_code_after_delete := KERNEL_ERR_NO_MEM } := by
  decide!

/-! ## C17: unblocking while the scheduler is locked -/

/-- C17, the divergence: `B` (priority 6) runs with `lock_count = 1` and wakes
`A` (priority 5).  None of `scheduler_unblock_one`, `scheduler_unblock_task`
and `scheduler_unblock_all` reads `lock_count`: each raises the switch
exception at once and leaves `reschedule_pending` false. -/
theorem C17_unblock_ignores_lock :
    scenario_unblock_while_locked = some
      { take_A := Outcome.blocked, current_task := some 2, priority_A := 5,
        priority_current := 6, lock_count := 1, is_locked := true, pendsv_before := false,
        reschedule_pending_before := false, unblock_one_result := true,
        pendsv_after_unblock_one := true, reschedule_pending_after_unblock_one := false,
        pendsv_after_unblock_task := true, reschedule_pending_after_unblock_task := false,
        unblock_all_count := 1, pendsv_after_unblock_all := true,
        reschedule_pending_after_unblock_all := false, lock_count_after := 1 } := by
  decide!

/-! ## C16: `task_create` with the pools exhausted -/

theorem used_count_le (b : Nat → Nat) : ∀ n, used_count b n ≤ n := by
  intro n
  induction n with
  | zero => exact Nat.le_refl 0
  | succ n ih =>
    simp only [used_count]
    split <;> omega

theorem used_count_update_ge (b : Nat → Nat) (i v : Nat) :
    ∀ n, n ≤ i → used_count (Function.update b i v) n = used_count b n := by
  intro n
  induction n with
  | zero =>
    intro _
    rfl
  | succ n ih =>
    intro h
    simp only [used_count]
    rw [ih (by omega), Function.update_noteq (by omega)]

theorem used_count_alloc (b : Nat → Nat) (i : Nat) (hb : b i = 0) :
    ∀ n, i < n → used_count (Function.update b i 1) n = used_count b n + 1 := by
  intro n
  induction n with
  | zero =>
    intro h
    omega
  | succ n ih =>
    intro h
    simp only [used_count]
    by_cases hi : i = n
    · subst hi
      rw [used_count_update_ge b i 1 i (Nat.le_refl i), Function.update_same, hb]
      simp
    · rw [ih (by omega), Function.update_noteq (Ne.symm hi)]
      omega

theorem used_count_full (b : Nat → Nat) :
    ∀ n, used_count b n = n → ∀ i, i < n → b i ≠ 0 := by
  intro n
  induction n with
  | zero =>
    intro _ i hi
    omega
  | succ n ih =>
    intro h i hi
    simp only [used_count] at h
    have hle := used_count_le b n
    by_cases hn : b n = 0
    · rw [if_pos hn] at h
      omega
    · rw [if_neg hn] at h
      by_cases hin : i = n
      · subst hin
        exact hn
      · exact ih (by omega) i (by omega)

theorem alloc_slot_find_spec (b : Nat → Nat) :
    ∀ n j i, alloc_slot_find b n j = some i → j ≤ i ∧ i < j + n ∧ b i = 0 := by
  intro n
  induction n with
  | zero =>
    intro j i h
    simp [alloc_slot_find] at h
  | succ n ih =>
    intro j i h
    simp only [alloc_slot_find] at h
    by_cases hj : b j = 0
    · rw [if_pos hj] at h
      have e := Option.some.inj h
      subst e
      exact ⟨Nat.le_refl _, by omega, hj⟩
    · rw [if_neg hj] at h
      obtain ⟨h1, h2, h3⟩ := ih (j + 1) i h
      exact ⟨by omega, by omega, h3⟩

theorem alloc_slot_find_none (b : Nat → Nat) :
    ∀ n j, (∀ i, j ≤ i → i < j + n → b i ≠ 0) → alloc_slot_find b n j = none := by
  intro n
  induction n with
  | zero =>
    intro j _
    rfl
  | succ n ih =>
    intro j h
    simp only [alloc_slot_find]
    rw [if_neg (h j (Nat.le_refl j) (by omega))]
    exact ih (j + 1) (fun i h1 h2 => h i (by omega) (by omega))

theorem ready_insert_tail_pools {fuel : Nat} {k k1 : Kernel} {t : Nat}
    (h : ready_insert_tail fuel k t = some k1) :
    k1.g_task_slot_used = k.g_task_slot_used ∧ k1.g_stack_slot_used = k.g_stack_slot_used ∧
      k1.g_next_task_id = k.g_next_task_id := by
  unfold ready_insert_tail at h
  simp only at h
  split at h
  · split at h
    · have e := Option.some.inj h
      subst e
      exact ⟨rfl, rfl, rfl⟩
    · split at h
      · cases h
      · have e := Option.some.inj h
        subst e
        exact ⟨rfl, rfl, rfl⟩
  · cases h

theorem scheduler_add_task_pools {fuel : Nat} {k k1 : Kernel} {t : Nat}
    (h : scheduler_add_task fuel k t = some k1) :
    k1.g_task_slot_used = k.g_task_slot_used ∧ k1.g_stack_slot_used = k.g_stack_slot_used ∧
      k1.g_next_task_id = k.g_next_task_id := by
  unfold scheduler_add_task at h
  simp only at h
  split at h
  · cases h
  · rename_i k2 hk2
    have hp := ready_insert_tail_pools hk2
    split at h
    · split at h
      all_goals
        have e := Option.some.inj h
        subst e
        exact hp
    · have e := Option.some.inj h
      subst e
      exact hp

theorem task_create_pool_full (fuel : Nat) (k : Kernel) (entry arg priority : Nat)
    (stack : Option Nat) (stack_size : Nat) (hprio : priority < CONFIG_MAX_PRIORITY)
    (hsize : CONFIG_MIN_STACK_SIZE ≤ stack_size) (halign : stack_size % 8 = 0)
    (hfull : alloc_slot_find k.g_task_slot_used CONFIG_MAX_TASKS 0 = none) :
    task_create fuel k none (some entry) arg priority stack stack_size =
      some (k, KERNEL_ERR_NO_MEM) := by
  have h1 : ¬ priority ≥ CONFIG_MAX_PRIORITY := not_le.2 hprio
  have h2 : ¬ (stack_size < CONFIG_MIN_STACK_SIZE ∨ stack_size % 8 ≠ 0) := by
    intro h
    rcases h with h | h
    · omega
    · exact h halign
  unfold task_create
  simp only [if_neg h1, if_neg h2, alloc_slot, hfull]

theorem task_create_no_mem {fuel : Nat} {k k2 : Kernel} {tcb entry : Option Nat}
    {arg priority : Nat} {stack : Option Nat} {stack_size : Nat}
    (h : task_create fuel k tcb entry arg priority stack stack_size =
      some (k2, KERNEL_ERR_NO_MEM)) : k2 = k := by
  have hne1 : KERNEL_ERR_PARAM ≠ KERNEL_ERR_NO_MEM := by decide
  have hne2 : KERNEL_OK ≠ KERNEL_ERR_NO_MEM := by decide
  unfold task_create at h
  cases entry with
  | none =>
    simp only at h
    exact absurd (congrArg Prod.snd (Option.some.inj h)) hne1
  | some e =>
    simp only at h
    split at h
    · exact absurd (congrArg Prod.snd (Option.some.inj h)) hne1
    · split at h
      · exact absurd (congrArg Prod.snd (Option.some.inj h)) hne1
      · cases tcb with
        | some t =>
          try simp only at h
          cases stack with
          | some st =>
            try simp only at h
            split at h
            · cases h
            · exact absurd (congrArg Prod.snd (Option.some.inj h)) hne2
          | none =>
            try simp only at h
            split at h
            · simp only [free_slot] at h
              exact (congrArg Prod.fst (Option.some.inj h)).symm
            · split at h
              · cases h
              · exact absurd (congrArg Prod.snd (Option.some.inj h)) hne2
        | none =>
          simp only [alloc_slot] at h
          cases hf1 : alloc_slot_find k.g_task_slot_used CONFIG_MAX_TASKS 0 with
          | none =>
            rw [hf1] at h
            simp only at h
            exact (congrArg Prod.fst (Option.some.inj h)).symm
          | some j =>
            rw [hf1] at h
            try simp only at h
            have hj := (alloc_slot_find_spec _ _ _ _ hf1).2.2
            have hback : Function.update (Function.update k.g_task_slot_used j 1) j 0 =
                k.g_task_slot_used := by
              rw [Function.update_idem]
              exact Function.update_eq_self_iff.2 hj.symm
            cases stack with
            | some st =>
              try simp only at h
              split at h
              · cases h
              · exact absurd (congrArg Prod.snd (Option.some.inj h)) hne2
            | none =>
              try simp only at h
              split at h
              · simp only [free_slot, hback] at h
                exact (congrArg Prod.fst (Option.some.inj h)).symm
              · split at h
                · cases h
                · exact absurd (congrArg Prod.snd (Option.some.inj h)) hne2

theorem task_create_ok_slots {fuel : Nat} {k k2 : Kernel} {entry : Option Nat}
    {arg priority : Nat} {stack : Option Nat} {stack_size : Nat}
    (h : task_create fuel k none entry arg priority stack stack_size = some (k2, KERNEL_OK)) :
    ∃ j, j < CONFIG_MAX_TASKS ∧ k.g_task_slot_used j = 0 ∧
      k2.g_task_slot_used = Function.update k.g_task_slot_used j 1 := by
  have hne1 : KERNEL_ERR_PARAM ≠ KERNEL_OK := by decide
  have hne2 : KERNEL_ERR_NO_MEM ≠ KERNEL_OK := by decide
  unfold task_create at h
  cases entry with
  | none =>
    simp only at h
    exact absurd (congrArg Prod.snd (Option.some.inj h)) hne1
  | some e =>
    simp only at h
    split at h
    · exact absurd (congrArg Prod.snd (Option.some.inj h)) hne1
    · split at h
      · exact absurd (congrArg Prod.snd (Option.some.inj h)) hne1
      · simp only [alloc_slot] at h
        cases hf1 : alloc_slot_find k.g_task_slot_used CONFIG_MAX_TASKS 0 with
        | none =>
          rw [hf1] at h
          simp only at h
          exact absurd (congrArg Prod.snd (Option.some.inj h)) hne2
        | some j =>
          rw [hf1] at h
          try simp only at h
          obtain ⟨_, hj1, hj2⟩ := alloc_slot_find_spec _ _ _ _ hf1
          refine ⟨j, by omega, hj2, ?_⟩
          cases stack with
          | some st =>
            try simp only at h
            split at h
            · cases h
            · rename_i k5 hk5
              have e := congrArg Prod.fst (Option.some.inj h)
              simp only at e
              subst e
              exact (scheduler_add_task_pools hk5).1
          | none =>
            try simp only at h
            by_cases hbig : stack_size > CONFIG_DEFAULT_STACK_SIZE
            · simp only [if_pos hbig] at h
              exact absurd (congrArg Prod.snd (Option.some.inj h)) hne2
            · simp only [if_neg hbig] at h
              cases hf : alloc_slot_find k.g_stack_slot_used CONFIG_MAX_TASKS 0 with
              | none =>
                rw [hf] at h
                simp only at h
                exact absurd (congrArg Prod.snd (Option.some.inj h)) hne2
              | some i =>
                rw [hf] at h
                simp only at h
                split at h
                · cases h
                · rename_i k5 hk5
                  have e := congrArg Prod.fst (Option.some.inj h)
                  simp only at e
                  subst e
                  exact (scheduler_add_task_pools hk5).1

theorem PoolCreated_count {n : Nat} {k0 k : Kernel} (h : PoolCreated n k0 k) :
    n ≤ used_count k.g_task_slot_used CONFIG_MAX_TASKS := by
  induction h with
  | start k => exact Nat.zero_le _
  | create fuel entry arg priority stack stack_size _ hc ih =>
    obtain ⟨j, hj, hz, he⟩ := task_create_ok_slots hc
    rw [he, used_count_alloc _ j hz _ hj]
    omega
  | other _ he ih =>
    rw [he]
    exact ih

theorem PoolCreated_full {k0 k : Kernel} (h : PoolCreated CONFIG_MAX_TASKS k0 k) :
    alloc_slot_find k.g_task_slot_used CONFIG_MAX_TASKS 0 = none := by
  have h1 := PoolCreated_count h
  have h2 := used_count_le k.g_task_slot_used CONFIG_MAX_TASKS
  have h3 := used_count_full k.g_task_slot_used CONFIG_MAX_TASKS (by omega)
  exact alloc_slot_find_none _ _ _ (fun i _ hi => h3 i (by omega))

/-- Claim C16.  Once `CONFIG_MAX_TASKS` tasks have been created from the pools
(whatever happened in between that left the TCB slot map alone), every further
`task_create` with `tcb = NULL` and arguments that pass the parameter checks
(`entry` not NULL, `priority < 32`, `stack_size >= 256` and a multiple of 8)
returns `KERNEL_ERR_NO_MEM` and leaves the state as it is; and whenever any
`task_create` returns `KERNEL_ERR_NO_MEM`, the whole state after the call,
with both slot maps, the next task id and the scheduler lists, equals the
state before it. -/
theorem C16_create_with_pool_exhausted (k0 k : Kernel)
    (hk : PoolCreated CONFIG_MAX_TASKS k0 k) (fuel entry arg priority : Nat)
    (stack : Option Nat) (stack_size : Nat) (hprio : priority < CONFIG_MAX_PRIORITY)
    (hsize : CONFIG_MIN_STACK_SIZE ≤ stack_size) (halign : stack_size % 8 = 0) :
    task_create fuel k none (some entry) arg priority stack stack_size =
        some (k, KERNEL_ERR_NO_MEM) ∧
      ∀ (fuel1 : Nat) (k1 k2 : Kernel) (tcb entry1 : Option Nat) (arg1 priority1 : Nat)
        (stack1 : Option Nat) (size1 : Nat),
        task_create fuel1 k1 tcb entry1 arg1 priority1 stack1 size1 =
          some (k2, KERNEL_ERR_NO_MEM) → k2 = k1 :=
  ⟨task_create_pool_full fuel k entry arg priority stack stack_size hprio hsize halign
      (PoolCreated_full hk),
    fun _ _ _ _ _ _ _ _ _ h => task_create_no_mem h⟩

theorem pool_create_n_created (fuel : Nat) :
    ∀ (n : Nat) (k : Kernel) (r : Kernel × List Int), pool_create_n fuel n k = some r →
      r.2 = List.replicate n KERNEL_OK → ∀ k0 m, PoolCreated m k0 k → PoolCreated (m + n) k0 r.1 := by
  intro n
  induction n with
  | zero =>
    intro k r h _ k0 m hm
    simp only [pool_create_n] at h
    have e := Option.some.inj h
    subst e
    exact hm
  | succ n ih =>
    intro k r h hr k0 m hm
    simp only [pool_create_n] at h
    split at h
    · cases h
    · rename_i k1 c hc
      split at h
      · cases h
      · rename_i k2 cs hcs
        have e := Option.some.inj h
        subst e
        simp only [List.replicate_succ, List.cons.injEq] at hr
        obtain ⟨hc1, hcs1⟩ := hr
        subst hc1
        have h1 := PoolCreated.create fuel (some 0x60003001) 0 5 none 512 hm hc
        have h2 := ih k1 (k2, cs) hcs hcs1 k0 (m + 1) h1
        have e2 : m + (n + 1) = m + 1 + n := by omega
        rw [e2]
        exact h2

theorem kernelFull_created : PoolCreated CONFIG_MAX_TASKS (scheduler_init kernel0) kernelFull := by
  have h1 : (pool_create_n 20 16 (scheduler_init kernel0)).map Prod.snd =
      some (List.replicate 16 KERNEL_OK) := by decide!
  cases hr : pool_create_n 20 16 (scheduler_init kernel0) with
  | none =>
    rw [hr] at h1
    cases h1
  | some r =>
    rw [hr] at h1
    have h2 : r.2 = List.replicate 16 KERNEL_OK := Option.some.inj h1
    have h3 := pool_create_n_created 20 16 _ r hr h2 _ 0 (PoolCreated.start _)
    have e : kernelFull = r.1 := by
      unfold kernelFull
      rw [hr]
      rfl
    rw [e]
    exact h3

/-- Witness for C16: after sixteen pool creations a seventeenth
`task_create(NULL, "task", entry, 0, 5, NULL, 512)` returns
`KERNEL_ERR_NO_MEM`. -/
theorem C16_create_with_pool_exhausted_witness :
    task_create 20 kernelFull none (some 0x60003001) 0 5 none 512 =
        some (kernelFull, KERNEL_ERR_NO_MEM) ∧
      ∀ (fuel1 : Nat) (k1 k2 : Kernel) (tcb entry1 : Option Nat) (arg1 priority1 : Nat)
        (stack1 : Option Nat) (size1 : Nat),
        task_create fuel1 k1 tcb entry1 arg1 priority1 stack1 size1 =
          some (k2, KERNEL_ERR_NO_MEM) → k2 = k1 :=
  C16_create_with_pool_exhausted (scheduler_init kernel0) kernelFull kernelFull_created 20
    0x60003001 0 5 none 512 (by decide) (by decide) (by decide)

/-! ## C18: the preemption lock -/

/-- Counterexample for C18.  Before the first task is started there is no
current task: with `lock_count = 1`, `scheduler_yield` returns at its first
test and `reschedule_pending` stays false.  And `lock_count` is a `uint32_t`:
at `0xFFFFFFFF` one `scheduler_lock` wraps it to 0, and the `scheduler_unlock`
that follows leaves it 0, so one lock and one unlock do not restore it. -/
theorem C18_counterexample_no_current_and_wrap :
    (scheduler_lock (scheduler_init kernel0)).g_sched.lock_count = 1 ∧
      (scheduler_lock (scheduler_init kernel0)).current_task = none ∧
      (scheduler_yield 4 (scheduler_lock (scheduler_init kernel0))).map
        (fun k => k.g_sched.reschedule_pending) = some false ∧
      kernelLockMax.g_sched.lock_count = 0xFFFFFFFF ∧
      (scheduler_lock kernelLockMax).g_sched.lock_count = 0 ∧
      (scheduler_unlock (scheduler_lock kernelLockMax)).g_sched.lock_count = 0 := by
  decide

theorem scheduler_unlock_count (k : Kernel) :
    (scheduler_unlock k).g_sched.lock_count = k.g_sched.lock_count - 1 := by
  unfold scheduler_unlock
  by_cases h : k.g_sched.lock_count > 0
  · simp only [if_pos h]
    split <;> rfl
  · simp only [if_neg h]
    have h0 : k.g_sched.lock_count = 0 := by omega
    split
    · show k.g_sched.lock_count = k.g_sched.lock_count - 1
      omega
    · omega

theorem scheduler_lock_count (k : Kernel) (h : k.g_sched.lock_count < UINT32_MAX) :
    (scheduler_lock k).g_sched.lock_count = k.g_sched.lock_count + 1 := by
  show (k.g_sched.lock_count + 1) % 2 ^ 32 = k.g_sched.lock_count + 1
  have h1 : UINT32_MAX = 4294967295 := rfl
  rw [h1] at h
  omega

theorem scheduler_lock_iterate :
    ∀ (n : Nat) (k : Kernel), k.g_sched.lock_count + n ≤ UINT32_MAX →
      (Nat.iterate scheduler_lock n k).g_sched.lock_count = k.g_sched.lock_count + n := by
  intro n
  induction n with
  | zero =>
    intro k _
    rfl
  | succ n ih =>
    intro k h
    have h1 : k.g_sched.lock_count < UINT32_MAX := by omega
    have e := scheduler_lock_count k h1
    rw [Function.iterate_succ_apply, ih (scheduler_lock k) (by omega), e]
    omega

theorem scheduler_unlock_iterate :
    ∀ (n : Nat) (k : Kernel),
      (Nat.iterate scheduler_unlock n k).g_sched.lock_count = k.g_sched.lock_count - n := by
  intro n
  induction n with
  | zero =>
    intro k
    rfl
  | succ n ih =>
    intro k
    rw [Function.iterate_succ_apply, ih (scheduler_unlock k), scheduler_unlock_count]
    omega

/-- Claim C18, amended.  With a current task and `lock_count > 0`,
`scheduler_yield` only sets `reschedule_pending` (no switch is raised and no
list changes).  `scheduler_lock` adds one to `lock_count` below `0xFFFFFFFF`,
`scheduler_unlock` takes one off and leaves 0 at 0, so `n` locks followed by
`n` unlocks restore the count as long as it does not pass `0xFFFFFFFF`.
`scheduler_unlock` raises the switch exception and clears
`reschedule_pending` exactly when the count reaches, or is, zero with
`reschedule_pending` set; and `scheduler_is_locked` is true iff
`lock_count > 0`. -/
theorem C18_preemption_lock (k : Kernel) (cur fuel n : Nat)
    (hcur : k.current_task = some cur) (hn : k.g_sched.lock_count + n ≤ UINT32_MAX) :
    (k.g_sched.lock_count > 0 → scheduler_yield fuel k =
        some { k with g_sched := { k.g_sched with reschedule_pending := true } }) ∧
      (k.g_sched.lock_count < UINT32_MAX →
        (scheduler_lock k).g_sched.lock_count = k.g_sched.lock_count + 1) ∧
      (scheduler_unlock k).g_sched.lock_count = k.g_sched.lock_count - 1 ∧
      (Nat.iterate scheduler_unlock n (Nat.iterate scheduler_lock n k)).g_sched.lock_count =
        k.g_sched.lock_count ∧
      ((scheduler_unlock k).pendsv = true ↔
        k.pendsv = true ∨
          (k.g_sched.lock_count ≤ 1 ∧ k.g_sched.reschedule_pending = true)) ∧
      ((scheduler_unlock k).g_sched.reschedule_pending = true ↔
        k.g_sched.reschedule_pending = true ∧ 1 < k.g_sched.lock_count) ∧
      (scheduler_is_locked k = true ↔ k.g_sched.lock_count > 0) := by
  refine ⟨?_, scheduler_lock_count k, scheduler_unlock_count k, ?_, ?_, ?_, ?_⟩
  · intro h
    unfold scheduler_yield
    rw [hcur]
    simp only [if_pos h]
  · rw [scheduler_unlock_iterate, scheduler_lock_iterate n k hn]
    omega
  · unfold scheduler_unlock
    by_cases h : k.g_sched.lock_count > 0
    · simp only [if_pos h]
      by_cases hp : k.g_sched.reschedule_pending = true
      · by_cases h1 : k.g_sched.lock_count - 1 = 0
        · rw [if_pos ⟨h1, hp⟩]
          simp only [scheduler_trigger_switch, true_iff]
          exact Or.inr ⟨by omega, hp⟩
        · rw [if_neg (fun hh => h1 hh.1)]
          constructor
          · intro hh
            exact Or.inl hh
          · intro hh
            rcases hh with hh | hh
            · exact hh
            · omega
      · rw [if_neg (fun hh => hp hh.2)]
        constructor
        · intro hh
          exact Or.inl hh
        · intro hh
          rcases hh with hh | hh
          · exact hh
          · exact absurd hh.2 hp
    · simp only [if_neg h]
      have h0 : k.g_sched.lock_count = 0 := by omega
      by_cases hp : k.g_sched.reschedule_pending = true
      · rw [if_pos ⟨h0, hp⟩]
        simp only [scheduler_trigger_switch, true_iff]
        exact Or.inr ⟨by omega, hp⟩
      · rw [if_neg (fun hh => hp hh.2)]
        constructor
        · intro hh
          exact Or.inl hh
        · intro hh
          rcases hh with hh | hh
          · exact hh
          · exact absurd hh.2 hp
  · unfold scheduler_unlock
    by_cases h : k.g_sched.lock_count > 0
    · simp only [if_pos h]
      by_cases hp : k.g_sched.reschedule_pending = true
      · by_cases h1 : k.g_sched.lock_count - 1 = 0
        · rw [if_pos ⟨h1, hp⟩]
          simp only [scheduler_trigger_switch]
          constructor
          · intro hh
            cases hh
          · intro hh
            omega
        · rw [if_neg (fun hh => h1 hh.1)]
          constructor
          · intro _
            exact ⟨hp, by omega⟩
          · intro _
            exact hp
      · rw [if_neg (fun hh => hp hh.2)]
        constructor
        · intro hh
          exact absurd hh hp
        · intro hh
          exact hh.1
    · simp only [if_neg h]
      have h0 : k.g_sched.lock_count = 0 := by omega
      by_cases hp : k.g_sched.reschedule_pending = true
      · rw [if_pos ⟨h0, hp⟩]
        simp only [scheduler_trigger_switch]
        constructor
        · intro hh
          cases hh
        · intro hh
          omega
      · rw [if_neg (fun hh => hp hh.2)]
        constructor
        · intro hh
          exact absurd hh hp
        · intro hh
          exact hh.1
  · unfold scheduler_is_locked
    simp

/-- Witness for C18: the state `kernelLocked`, with the current task 1 and
`lock_count = 1`, and three locks followed by three unlocks. -/
theorem C18_preemption_lock_witness :
    (kernelLocked.g_sched.lock_count > 0 → scheduler_yield 4 kernelLocked =
        some { kernelLocked with
          g_sched := { kernelLocked.g_sched with reschedule_pending := true } }) ∧
      (kernelLocked.g_sched.lock_count < UINT32_MAX →
        (scheduler_lock kernelLocked).g_sched.lock_count =
          kernelLocked.g_sched.lock_count + 1) ∧
      (scheduler_unlock kernelLocked).g_sched.lock_count =
        kernelLocked.g_sched.lock_count - 1 ∧
      (Nat.iterate scheduler_unlock 3
          (Nat.iterate scheduler_lock 3 kernelLocked)).g_sched.lock_count =
        kernelLocked.g_sched.lock_count ∧
      ((scheduler_unlock kernelLocked).pendsv = true ↔
        kernelLocked.pendsv = true ∨
          (kernelLocked.g_sched.lock_count ≤ 1 ∧
            kernelLocked.g_sched.reschedule_pending = true)) ∧
      ((scheduler_unlock kernelLocked).g_sched.reschedule_pending = true ↔
        kernelLocked.g_sched.reschedule_pending = true ∧
          1 < kernelLocked.g_sched.lock_count) ∧
      (scheduler_is_locked kernelLocked = true ↔ kernelLocked.g_sched.lock_count > 0) :=
  C18_preemption_lock kernelLocked 1 4 3 rfl (by decide)

/-! ## C19: `scheduler_yield` rotates the ready list -/

theorem ctz_spec : ∀ (fuel b : Nat), b ≠ 0 → b < 2 ^ fuel →
    ctz fuel b < fuel ∧ b.testBit (ctz fuel b) = true ∧
      ∀ q, q < ctz fuel b → b.testBit q = false := by
  intro fuel
  induction fuel with
  | zero =>
    intro b h0 hlt
    simp at hlt
    exact absurd hlt h0
  | succ fuel ih =>
    intro b h0 hlt
    simp only [ctz]
    by_cases hodd : b % 2 = 1
    · rw [if_pos hodd]
      refine ⟨Nat.succ_pos _, ?_, ?_⟩
      · rw [Nat.testBit_zero]
        exact decide_eq_true hodd
      · intro q hq
        omega
    · rw [if_neg hodd]
      have h2 : b / 2 ≠ 0 := by omega
      have h3 : b / 2 < 2 ^ fuel := by
        rw [Nat.pow_succ] at hlt
        omega
      obtain ⟨a1, a2, a3⟩ := ih (b / 2) h2 h3
      refine ⟨by omega, ?_, ?_⟩
      · rw [Nat.add_comm, Nat.testBit_succ]
        exact a2
      · intro q hq
        cases q with
        | zero =>
          rw [Nat.testBit_zero]
          exact decide_eq_false hodd
        | succ q =>
          rw [Nat.testBit_succ]
          exact a3 q (by omega)

theorem bitmap_find_highest_spec (b : Nat) (h0 : b ≠ 0) (hb : b < 2 ^ 32) :
    bitmap_find_highest b < CONFIG_MAX_PRIORITY ∧ b.testBit (bitmap_find_highest b) = true ∧
      ∀ q, q < bitmap_find_highest b → b.testBit q = false := by
  obtain ⟨a1, a2, a3⟩ := ctz_spec 32 b h0 hb
  have e : bitmap_find_highest b = ctz 32 b := by
    unfold bitmap_find_highest
    rw [if_neg h0]
    omega
  rw [e]
  exact ⟨a1, a2, a3⟩

/-- Claim C23.  For every 32-bit bitmap `b`: `bitmap_find_highest b` is 32
when `b = 0`, and otherwise the smallest index of a set bit of `b`.  So in a
state whose bitmap has bit `p` set exactly when `ready_list[p]` is not empty,
`scheduler_get_next` returns NULL when every ready list is empty and the head
of the non-empty ready list of smallest index otherwise; it is a function of
the state and writes nothing. -/
theorem C23_find_highest (b : Nat) (hb : b < 2 ^ 32) :
    (b = 0 → bitmap_find_highest b = CONFIG_MAX_PRIORITY) ∧
    (b ≠ 0 → bitmap_find_highest b < CONFIG_MAX_PRIORITY ∧
      b.testBit (bitmap_find_highest b) = true ∧
      ∀ q, q < bitmap_find_highest b → b.testBit q = false) ∧
    ∀ k : Kernel, BitmapInv k → k.g_sched.priority_bitmap = b →
      ((∀ p, p < CONFIG_MAX_PRIORITY → k.g_sched.ready_list p = none) →
        scheduler_get_next k = some none) ∧
      ∀ p, p < CONFIG_MAX_PRIORITY → k.g_sched.ready_list p ≠ none →
        (∀ q, q < p → k.g_sched.ready_list q = none) →
        scheduler_get_next k = some (k.g_sched.ready_list p) := by
  refine ⟨?_, fun h0 => bitmap_find_highest_spec b h0 hb, ?_⟩
  · intro h0
    unfold bitmap_find_highest
    rw [if_pos h0]
  · intro k hinv hk
    have hbit : ∀ p, p < CONFIG_MAX_PRIORITY →
        (b.testBit p = true ↔ k.g_sched.ready_list p ≠ none) := by
      intro p hp
      rw [← hk, ← bitmap_test_eq_testBit _ p hp]
      exact hinv p hp
    constructor
    · intro hall
      have hz : b = 0 := by
        by_contra hne
        obtain ⟨a1, a2, _⟩ := bitmap_find_highest_spec b hne hb
        exact (hbit _ a1).1 a2 (hall _ a1)
      unfold scheduler_get_next
      simp only [hk]
      have e : bitmap_find_highest b = CONFIG_MAX_PRIORITY := by
        unfold bitmap_find_highest
        rw [if_pos hz]
      rw [e]
      simp
    · intro p hp hne hlow
      have hnz : b ≠ 0 := by
        intro hz
        have h1 := (hbit p hp).2 hne
        rw [hz] at h1
        simp at h1
      obtain ⟨a1, a2, a3⟩ := bitmap_find_highest_spec b hnz hb
      have hle : bitmap_find_highest b ≤ p := by
        by_contra hgt
        have h1 := a3 p (by omega)
        rw [(hbit p hp).2 hne] at h1
        cases h1
      have hge : p ≤ bitmap_find_highest b := by
        by_contra hlt
        exact (hbit _ a1).1 a2 (hlow _ (by omega))
      have e : bitmap_find_highest b = p := by omega
      unfold scheduler_get_next
      simp only [hk, e]
      rw [if_neg (by omega)]

/-- Witness for C23: the bitmap `0x28` (bits 3 and 5). -/
theorem C23_find_highest_witness :
    ((0x28 : Nat) = 0 → bitmap_find_highest 0x28 = CONFIG_MAX_PRIORITY) ∧
    ((0x28 : Nat) ≠ 0 → bitmap_find_highest 0x28 < CONFIG_MAX_PRIORITY ∧
      (0x28 : Nat).testBit (bitmap_find_highest 0x28) = true ∧
      ∀ q, q < bitmap_find_highest 0x28 → (0x28 : Nat).testBit q = false) ∧
    ∀ k : Kernel, BitmapInv k → k.g_sched.priority_bitmap = 0x28 →
      ((∀ p, p < CONFIG_MAX_PRIORITY → k.g_sched.ready_list p = none) →
        scheduler_get_next k = some none) ∧
      ∀ p, p < CONFIG_MAX_PRIORITY → k.g_sched.ready_list p ≠ none →
        (∀ q, q < p → k.g_sched.ready_list q = none) →
        scheduler_get_next k = some (k.g_sched.ready_list p) :=
  C23_find_highest 0x28 (by decide)

/-! ## The initial stack frame -/

theorem foldl_push_word : ∀ (vals : List Nat) (mem : Nat → Nat) (top : Nat),
    4 * vals.length ≤ top →
    (vals.foldl push_word (mem, top)).2 = top - 4 * vals.length ∧
    (∀ j v, vals[j]? = some v →
      (vals.foldl push_word (mem, top)).1 (top - 4 * (j + 1)) = v % 2 ^ 32) ∧
    ∀ a, (∀ j, j < vals.length → a ≠ top - 4 * (j + 1)) →
      (vals.foldl push_word (mem, top)).1 a = mem a := by
  intro vals
  induction vals with
  | nil =>
    intro mem top _
    refine ⟨rfl, ?_, fun _ _ => rfl⟩
    intro j v hj
    simp at hj
  | cons x vs ih =>
    intro mem top hroom
    simp only [List.length_cons] at hroom
    obtain ⟨a1, a2, a3⟩ := ih (Function.update mem (top - 4) (x % 2 ^ 32)) (top - 4) (by omega)
    simp only [List.foldl_cons, push_word, List.length_cons]
    refine ⟨by rw [a1]; omega, ?_, ?_⟩
    · intro j v hj
      cases j with
      | zero =>
        simp only [List.getElem?_cons_zero, Option.some.injEq] at hj
        rw [a3 _ (by
          intro j hj2
          omega)]
        simp [hj]
      | succ j =>
        simp only [List.getElem?_cons_succ] at hj
        have e : top - 4 * (j + 1 + 1) = top - 4 - 4 * (j + 1) := by omega
        rw [e]
        exact a2 j v hj
    · intro a hne
      rw [a3 a (by
        intro j hj
        have h1 := hne (j + 1) (by omega)
        omega)]
      have h0 := hne 0 (by omega)
      rw [Function.update_noteq (by omega)]

theorem ready_insert_tail_data {fuel : Nat} {k k1 : Kernel} {t : Nat}
    (h : ready_insert_tail fuel k t = some k1) :
    k1.stack_mem = k.stack_mem ∧ ∀ u, tcb_data (k1.tcb u) = tcb_data (k.tcb u) := by
  unfold ready_insert_tail at h
  simp only at h
  split at h
  · split at h
    · have e := Option.some.inj h
      subst e
      refine ⟨rfl, fun u => ?_⟩
      exact tcb_data_setTcb k t (fun c => { c with next := none, prev := none }) rfl u
    · split at h
      · cases h
      · have e := Option.some.inj h
        subst e
        rename_i tail _
        refine ⟨rfl, fun u => ?_⟩
        rw [tcb_data_setTcb _ t (fun c => { c with prev := some tail }) rfl u,
          tcb_data_setTcb _ tail (fun c => { c with next := some t }) rfl u]
        exact tcb_data_setTcb k t (fun c => { c with next := none, prev := none }) rfl u
  · cases h

theorem scheduler_add_task_data {fuel : Nat} {k k1 : Kernel} {t : Nat}
    (h : scheduler_add_task fuel k t = some k1) :
    k1.stack_mem = k.stack_mem ∧
      (∀ u, u ≠ t → tcb_data (k1.tcb u) = tcb_data (k.tcb u)) ∧
      tcb_data (k1.tcb t) = tcb_data { k.tcb t with
        state := task_state_t.READY, time_slice := CONFIG_TIME_SLICE } := by
  unfold scheduler_add_task at h
  simp only at h
  split at h
  · cases h
  · rename_i k2 hk2
    obtain ⟨m2, d2⟩ := ready_insert_tail_data hk2
    have hres : k1.stack_mem = k2.stack_mem ∧ k1.tcb = k2.tcb := by
      split at h
      · split at h
        all_goals
          have e := Option.some.inj h
          subst e
          exact ⟨rfl, rfl⟩
      · have e := Option.some.inj h
        subst e
        exact ⟨rfl, rfl⟩
    obtain ⟨r1, r2⟩ := hres
    refine ⟨r1.trans m2, ?_, ?_⟩
    · intro u hu
      rw [r2, d2 u, tcb_setTcb_other _ _ _ _ hu]
    · rw [r2, d2 t, tcb_setTcb_same]

theorem task_create_frame {fuel : Nat} {k k1 : Kernel} {tcb : Option Nat} {entry arg : Nat}
    {priority : Nat} {stack : Option Nat} {stack_size : Nat}
    (h : task_create fuel k tcb (some entry) arg priority stack stack_size =
      some (k1, KERNEL_OK)) :
    ∃ t m, (∀ u, tcb = some u → t = u) ∧
      (k1.tcb t).sp =
        (task_init_stack m (k1.tcb t).stack_top entry arg task_exit_trampoline).2 ∧
      k1.stack_mem =
        (task_init_stack m (k1.tcb t).stack_top entry arg task_exit_trampoline).1 := by
  have hne1 : KERNEL_ERR_PARAM ≠ KERNEL_OK := by decide
  have hne2 : KERNEL_ERR_NO_MEM ≠ KERNEL_OK := by decide
  have key : ∀ (K3 : Kernel) (t : Nat) (f : task_tcb_t → task_tcb_t) (m : Nat → Nat)
      (top : Nat) (k5 : Kernel), K3.stack_mem = (task_init_stack m top entry arg
        task_exit_trampoline).1 →
      (f (K3.tcb t)).sp = (task_init_stack m top entry arg task_exit_trampoline).2 →
      (f (K3.tcb t)).stack_top = top →
      scheduler_add_task fuel (K3.setTcb t f) t = some k5 →
      (k5.tcb t).sp = (task_init_stack m (k5.tcb t).stack_top entry arg
        task_exit_trampoline).2 ∧
      k5.stack_mem = (task_init_stack m (k5.tcb t).stack_top entry arg
        task_exit_trampoline).1 := by
    intro K3 t f m top k5 hm hsp htop hadd
    obtain ⟨a1, _, a3⟩ := scheduler_add_task_data hadd
    rw [tcb_setTcb_same] at a3
    have e1 : (k5.tcb t).sp = (f (K3.tcb t)).sp := by
      have hd := data_field task_tcb_t.sp (fun _ => rfl) a3
      exact hd
    have e2 : (k5.tcb t).stack_top = (f (K3.tcb t)).stack_top := by
      have hd := data_field task_tcb_t.stack_top (fun _ => rfl) a3
      exact hd
    rw [e1, e2, htop, hsp, a1]
    exact ⟨rfl, hm⟩
  unfold task_create at h
  simp only at h
  split at h
  · exact absurd (congrArg Prod.snd (Option.some.inj h)) hne1
  · split at h
    · exact absurd (congrArg Prod.snd (Option.some.inj h)) hne1
    · cases tcb with
      | some t =>
        try simp only at h
        cases stack with
        | some st =>
          try simp only at h
          split at h
          · cases h
          · rename_i k5 hk5
            have e := congrArg Prod.fst (Option.some.inj h)
            simp only at e
            subst e
            obtain ⟨b1, b2⟩ := key _ t _ _ _ _ rfl rfl rfl hk5
            exact ⟨t, _, fun u hu => (Option.some.inj hu), b1, b2⟩
        | none =>
          try simp only at h
          by_cases hbig : stack_size > CONFIG_DEFAULT_STACK_SIZE
          · simp only [if_pos hbig] at h
            exact absurd (congrArg Prod.snd (Option.some.inj h)) hne2
          · simp only [if_neg hbig, alloc_slot] at h
            cases hf : alloc_slot_find k.g_stack_slot_used CONFIG_MAX_TASKS 0 with
            | none =>
              rw [hf] at h
              simp only at h
              exact absurd (congrArg Prod.snd (Option.some.inj h)) hne2
            | some i =>
              rw [hf] at h
              simp only at h
              split at h
              · cases h
              · rename_i k5 hk5
                have e := congrArg Prod.fst (Option.some.inj h)
                simp only at e
                subst e
                obtain ⟨b1, b2⟩ := key _ t _ _ _ _ rfl rfl rfl hk5
                exact ⟨t, _, fun u hu => (Option.some.inj hu), b1, b2⟩
      | none =>
        simp only [alloc_slot] at h
        cases hf1 : alloc_slot_find k.g_task_slot_used CONFIG_MAX_TASKS 0 with
        | none =>
          rw [hf1] at h
          simp only at h
          exact absurd (congrArg Prod.snd (Option.some.inj h)) hne2
        | some j =>
          rw [hf1] at h
          try simp only at h
          cases stack with
          | some st =>
            try simp only at h
            split at h
            · cases h
            · rename_i k5 hk5
              have e := congrArg Prod.fst (Option.some.inj h)
              simp only at e
              subst e
              obtain ⟨b1, b2⟩ := key _ (g_task_pool j) _ _ _ _ rfl rfl rfl hk5
              exact ⟨g_task_pool j, _, fun u hu => Option.noConfusion hu, b1, b2⟩
          | none =>
            try simp only at h
            by_cases hbig : stack_size > CONFIG_DEFAULT_STACK_SIZE
            · simp only [if_pos hbig] at h
              exact absurd (congrArg Prod.snd (Option.some.inj h)) hne2
            · simp only [if_neg hbig] at h
              cases hf : alloc_slot_find k.g_stack_slot_used CONFIG_MAX_TASKS 0 with
              | none =>
                rw [hf] at h
                simp only at h
                exact absurd (congrArg Prod.snd (Option.some.inj h)) hne2
              | some i =>
                rw [hf] at h
                simp only at h
                split at h
                · cases h
                · rename_i k5 hk5
                  have e := congrArg Prod.fst (Option.some.inj h)
                  simp only at e
                  subst e
                  obtain ⟨b1, b2⟩ := key _ (g_task_pool j) _ _ _ _ rfl rfl rfl hk5
                  exact ⟨g_task_pool j, _, fun u hu => Option.noConfusion hu, b1, b2⟩

/-- The frame written by `task_init_stack`: the 17 words below `stack_top`,
and nothing else. -/
theorem task_init_stack_frame (mem : Nat → Nat) (stack_top entry arg exit_func : Nat)
    (hroom : 68 ≤ stack_top) (hentry : entry < 2 ^ 32) (harg : arg < 2 ^ 32)
    (hexit : exit_func < 2 ^ 32) :
    (task_init_stack mem stack_top entry arg exit_func).2 = stack_top - 68 ∧
    (∀ i, i < 8 → (task_init_stack mem stack_top entry arg exit_func).1
      (stack_top - 68 + 4 * i) = 0) ∧
    (task_init_stack mem stack_top entry arg exit_func).1 (stack_top - 68 + 4 * 8) =
      0xFFFFFFFD ∧
    (task_init_stack mem stack_top entry arg exit_func).1 (stack_top - 68 + 4 * 9) = arg ∧
    (∀ i, 10 ≤ i → i < 14 → (task_init_stack mem stack_top entry arg exit_func).1
      (stack_top - 68 + 4 * i) = 0) ∧
    (task_init_stack mem stack_top entry arg exit_func).1 (stack_top - 68 + 4 * 14) =
      exit_func ∧
    (task_init_stack mem stack_top entry arg exit_func).1 (stack_top - 68 + 4 * 15) = entry ∧
    (task_init_stack mem stack_top entry arg exit_func).1 (stack_top - 68 + 4 * 16) =
      0x01000000 ∧
    (∀ a, (∀ i, i < 17 → a ≠ stack_top - 68 + 4 * i) →
      (task_init_stack mem stack_top entry arg exit_func).1 a = mem a) := by
  obtain ⟨b1, b2, b3⟩ := foldl_push_word
    [0x01000000, entry, exit_func, 0, 0, 0, 0, arg, EXC_RETURN_THREAD_PSP, 0, 0, 0, 0, 0, 0, 0, 0]
    mem stack_top (by
      simp only [List.length_cons, List.length_nil]
      omega)
  simp only [List.length_cons, List.length_nil] at b1 b3
  have word : ∀ i v, i < 17 →
      [0x01000000, entry, exit_func, 0, 0, 0, 0, arg, EXC_RETURN_THREAD_PSP,
        0, 0, 0, 0, 0, 0, 0, 0][16 - i]? = some v →
      (task_init_stack mem stack_top entry arg exit_func).1 (stack_top - 68 + 4 * i) =
        v % 2 ^ 32 := by
    intro i v hi hv
    have e : stack_top - 68 + 4 * i = stack_top - 4 * (16 - i + 1) := by omega
    rw [e]
    exact b2 _ v hv
  refine ⟨?_, ?_, ?_, ?_, ?_, ?_, ?_, ?_, ?_⟩
  · unfold task_init_stack
    rw [b1]
  · intro i hi
    interval_cases i <;> exact word _ 0 (by omega) rfl
  · exact word 8 _ (by omega) rfl
  · rw [word 9 arg (by omega) rfl]
    omega
  · intro i h1 h2
    interval_cases i <;> exact word _ 0 (by omega) rfl
  · rw [word 14 exit_func (by omega) rfl]
    omega
  · rw [word 15 entry (by omega) rfl]
    omega
  · exact word 16 _ (by omega) rfl
  · intro a hne
    unfold task_init_stack
    refine b3 a ?_
    intro j hj
    have h1 := hne (16 - j) (by omega)
    omega

/-! ## C28: `mutex_trylock` -/

/-- Counterexample for C28: task 1 owns the recursive mutex with
`recursive_count = 255`; `mutex_trylock` by task 1 returns OK and leaves
`recursive_count` at 255 instead of incrementing it. -/
theorem C28_counterexample_saturated :
    kernelB.current_task = some 1 ∧ mutexDeep.owner = some 1 ∧
      mutexDeep.flags &&& MUTEX_FLAG_RECURSIVE ≠ 0 ∧ mutexDeep.recursive_count = 255 ∧
      mutex_trylock kernelB (some 200) mutexDeep = (mutexDeep, KERNEL_OK) := by
  decide

/-- Claim C28, amended.  `mutex_trylock` called by the current task `T` from
task context: on an unlocked mutex it returns OK and sets `locked = 1`,
`owner = T`, `recursive_count = 1` and `owner_base_priority` to the current
priority of `T`; on a locked mutex owned by `T` with the recursive flag set it
returns OK and increments `recursive_count` by one while that is below 255,
and leaves it as it is from 255 on; in every other case it returns
`KERNEL_ERR_TIMEOUT` and leaves the mutex unchanged. -/
theorem C28_trylock (k : Kernel) (T mtx : Nat) (m : mutex_t)
    (hcur : k.current_task = some T) (hisr : k.ipsr = 0) :
    (m.locked = 0 → mutex_trylock k (some mtx) m =
      ({ m with locked := 1, owner := some T, owner_base_priority := (k.tcb T).priority,
                recursive_count := 1 }, KERNEL_OK)) ∧
    (m.locked ≠ 0 → m.owner = some T → m.flags &&& MUTEX_FLAG_RECURSIVE ≠ 0 →
      m.recursive_count < 255 →
      mutex_trylock k (some mtx) m =
        ({ m with recursive_count := m.recursive_count + 1 }, KERNEL_OK)) ∧
    (m.locked ≠ 0 → m.owner = some T → m.flags &&& MUTEX_FLAG_RECURSIVE ≠ 0 →
      255 ≤ m.recursive_count → mutex_trylock k (some mtx) m = (m, KERNEL_OK)) ∧
    (m.locked ≠ 0 → ¬ (m.owner = some T ∧ m.flags &&& MUTEX_FLAG_RECURSIVE ≠ 0) →
      mutex_trylock k (some mtx) m = (m, KERNEL_ERR_TIMEOUT)) := by
  have h1 : is_isr_context k = false := by simp [is_isr_context, hisr]
  have h2 : task_get_current k = some T := hcur
  refine ⟨?_, ?_, ?_, ?_⟩
  · intro hl
    simp [mutex_trylock, h1, h2, hl]
  · intro hl ho hf hr
    simp [mutex_trylock, h1, h2, hl, ho, hf, hr]
  · intro hl ho hf hr
    have hr1 : ¬ m.recursive_count < 255 := by omega
    simp [mutex_trylock, h1, h2, hl, ho, hf, hr1]
  · intro hl hno
    unfold mutex_trylock
    simp only [h1, h2, if_neg hl, if_neg hno]
    simp

/-- Witness for C28: task 1 is the current task of `kernelB` and the mutex is
`mutexDeep`. -/
theorem C28_trylock_witness :
    (mutexDeep.locked = 0 → mutex_trylock kernelB (some 200) mutexDeep =
      ({ mutexDeep with locked := 1, owner := some 1,
                        owner_base_priority := (kernelB.tcb 1).priority,
                        recursive_count := 1 }, KERNEL_OK)) ∧
    (mutexDeep.locked ≠ 0 → mutexDeep.owner = some 1 →
      mutexDeep.flags &&& MUTEX_FLAG_RECURSIVE ≠ 0 → mutexDeep.recursive_count < 255 →
      mutex_trylock kernelB (some 200) mutexDeep =
        ({ mutexDeep with recursive_count := mutexDeep.recursive_count + 1 }, KERNEL_OK)) ∧
    (mutexDeep.locked ≠ 0 → mutexDeep.owner = some 1 →
      mutexDeep.flags &&& MUTEX_FLAG_RECURSIVE ≠ 0 →
      255 ≤ mutexDeep.recursive_count →
      mutex_trylock kernelB (some 200) mutexDeep = (mutexDeep, KERNEL_OK)) ∧
    (mutexDeep.locked ≠ 0 →
      ¬ (mutexDeep.owner = some 1 ∧ mutexDeep.flags &&& MUTEX_FLAG_RECURSIVE ≠ 0) →
      mutex_trylock kernelB (some 200) mutexDeep = (mutexDeep, KERNEL_ERR_TIMEOUT)) :=
  C28_trylock kernelB 1 200 mutexDeep rfl rfl

/-! ## C25: calls with `timeout = 0` -/

/-- Claim C25.  With `timeout = 0`: `sem_take` on a semaphore with
`count <= 0`, `mutex_lock` by the current task `T` (task context) on a mutex
held by another task, `queue_send` and `queue_send_front` on a full queue, and
`queue_receive` and `queue_peek` on an empty queue each return
`KERNEL_ERR_TIMEOUT` at once: the kernel state, with all scheduler lists, and
the primitive are as before, and the caller's buffer is untouched. -/
theorem C25_timeout_zero (fuel : Nat) (k : Kernel) (T sem mtx queue : Nat) (s : semaphore_t)
    (m : mutex_t) (qf qe : msg_queue_t) (msg : Nat → Nat)
    (hcur : k.current_task = some T) (hisr : k.ipsr = 0)
    (hs : s.count ≤ 0) (hlocked : m.locked ≠ 0) (howner : m.owner ≠ some T)
    (hfull : qf.capacity ≤ qf.count) (hempty : qe.count = 0) :
    sem_take k (some sem) s 0 = some (k, s, Outcome.done KERNEL_ERR_TIMEOUT) ∧
    mutex_lock fuel k (some mtx) m 0 = some (k, m, Outcome.done KERNEL_ERR_TIMEOUT) ∧
    queue_send fuel k (some queue) qf (some msg) 0 =
      some (k, qf, Outcome.done KERNEL_ERR_TIMEOUT) ∧
    queue_send_front fuel k (some queue) qf (some msg) 0 =
      some (k, qf, Outcome.done KERNEL_ERR_TIMEOUT) ∧
    queue_receive fuel k (some queue) qe (some msg) 0 =
      some (k, qe, msg, Outcome.done KERNEL_ERR_TIMEOUT) ∧
    queue_peek fuel k (some queue) qe (some msg) 0 =
      some (k, qe, msg, Outcome.done KERNEL_ERR_TIMEOUT) := by
  have h1 : is_isr_context k = false := by simp [is_isr_context, hisr]
  have h2 : task_get_current k = some T := hcur
  have hs1 : ¬ s.count > 0 := by omega
  have hf1 : ¬ qf.count < qf.capacity := by omega
  have he1 : ¬ qe.count > 0 := by omega
  have hne : KERNEL_ERR_TIMEOUT ≠ KERNEL_OK := by decide
  refine ⟨?_, ?_, ?_, ?_, ?_, ?_⟩
  · simp only [sem_take, sem_take_attempt, if_neg hs1, TIMEOUT_NONE, if_true]
  · have ht : mutex_trylock k (some mtx) m = (m, KERNEL_ERR_TIMEOUT) := by
      have hno : ¬ (m.owner = some T ∧ m.flags &&& MUTEX_FLAG_RECURSIVE ≠ 0) :=
        fun hh => howner hh.1
      unfold mutex_trylock
      simp only [h1, h2, if_neg hlocked, if_neg hno]
      simp
    simp only [mutex_lock, h1, h2, mutex_lock_attempt, ht, if_neg hne, TIMEOUT_NONE, if_true]
    simp
  · simp only [queue_send, queue_send_attempt, if_neg hf1, TIMEOUT_NONE, if_true]
  · simp only [queue_send_front, queue_send_attempt, if_neg hf1, TIMEOUT_NONE, if_true]
  · simp only [queue_receive, queue_receive_attempt, if_neg he1, TIMEOUT_NONE, if_true]
  · simp only [queue_peek, queue_receive_attempt, if_neg he1, TIMEOUT_NONE, if_true]

/-- Witness for C25: task 1 runs in `kernelB`; the semaphore `sem0` is empty,
the mutex is held by task 2, `queueFull` is full and `queueEmpty` is empty. -/
theorem C25_timeout_zero_witness :
    sem_take kernelB (some 100) sem0 0 = some (kernelB, sem0, Outcome.done KERNEL_ERR_TIMEOUT) ∧
    mutex_lock 4 kernelB (some 200) mutexOther 0 =
      some (kernelB, mutexOther, Outcome.done KERNEL_ERR_TIMEOUT) ∧
    queue_send 4 kernelB (some 300) queueFull (some (fun _ => 9)) 0 =
      some (kernelB, queueFull, Outcome.done KERNEL_ERR_TIMEOUT) ∧
    queue_send_front 4 kernelB (some 300) queueFull (some (fun _ => 9)) 0 =
      some (kernelB, queueFull, Outcome.done KERNEL_ERR_TIMEOUT) ∧
    queue_receive 4 kernelB (some 300) queueEmpty (some (fun _ => 9)) 0 =
      some (kernelB, queueEmpty, fun _ => 9, Outcome.done KERNEL_ERR_TIMEOUT) ∧
    queue_peek 4 kernelB (some 300) queueEmpty (some (fun _ => 9)) 0 =
      some (kernelB, queueEmpty, fun _ => 9, Outcome.done KERNEL_ERR_TIMEOUT) :=
  C25_timeout_zero 4 kernelB 1 100 200 300 sem0 mutexOther queueFull queueEmpty (fun _ => 9)
    rfl rfl (by decide) (by decide) (by decide) (by decide) (by decide)

/-! ## C26: calls in interrupt context -/

/-- Claim C26.  In interrupt context (`IPSR` not 0): with a non-zero timeout,
`sem_take` on a semaphore with `count <= 0`, `queue_send` and
`queue_send_front` on a full queue and `queue_receive` and `queue_peek` on an
empty queue return `KERNEL_ERR_ISR`; `mutex_trylock`, `mutex_lock` and
`mutex_unlock` return `KERNEL_ERR_ISR` for every mutex; `event_wait` returns
0; each leaves the kernel state and the primitive as they are, so none
reaches `scheduler_block_task`.  And `queue_send_isr` on a full queue returns
`KERNEL_ERR_OVERFLOW` with the queue unchanged. -/
theorem C26_isr_context (fuel : Nat) (k : Kernel) (sem mtx queue eg timeout : Nat)
    (s : semaphore_t) (m : mutex_t) (qf qe : msg_queue_t) (e : event_group_t)
    (msg : Nat → Nat) (bits wait_all : Nat)
    (hisr : k.ipsr ≠ 0) (htimeout : timeout ≠ 0) (hs : s.count ≤ 0)
    (hfull : qf.capacity ≤ qf.count) (hempty : qe.count = 0) :
    sem_take k (some sem) s timeout = some (k, s, Outcome.done KERNEL_ERR_ISR) ∧
    queue_send fuel k (some queue) qf (some msg) timeout =
      some (k, qf, Outcome.done KERNEL_ERR_ISR) ∧
    queue_send_front fuel k (some queue) qf (some msg) timeout =
      some (k, qf, Outcome.done KERNEL_ERR_ISR) ∧
    queue_receive fuel k (some queue) qe (some msg) timeout =
      some (k, qe, msg, Outcome.done KERNEL_ERR_ISR) ∧
    queue_peek fuel k (some queue) qe (some msg) timeout =
      some (k, qe, msg, Outcome.done KERNEL_ERR_ISR) ∧
    mutex_trylock k (some mtx) m = (m, KERNEL_ERR_ISR) ∧
    mutex_lock fuel k (some mtx) m timeout = some (k, m, Outcome.done KERNEL_ERR_ISR) ∧
    mutex_unlock fuel k (some mtx) m = some (k, m, KERNEL_ERR_ISR) ∧
    event_wait k (some eg) e bits wait_all timeout = some (k, e, Outcome.done 0) ∧
    queue_send_isr fuel k (some queue) qf (some msg) = some (k, qf, KERNEL_ERR_OVERFLOW) := by
  have h1 : is_isr_context k = true := by simp [is_isr_context, hisr]
  have hs1 : ¬ s.count > 0 := by omega
  have hf1 : ¬ qf.count < qf.capacity := by omega
  have hf2 : qf.count ≥ qf.capacity := hfull
  have he1 : ¬ qe.count > 0 := by omega
  have ht : ¬ timeout = TIMEOUT_NONE := htimeout
  refine ⟨?_, ?_, ?_, ?_, ?_, ?_, ?_, ?_, ?_, ?_⟩
  · simp only [sem_take, sem_take_attempt, if_neg hs1, if_neg ht, h1, if_true]
  · simp only [queue_send, queue_send_attempt, if_neg hf1, if_neg ht, h1, if_true]
  · simp only [queue_send_front, queue_send_attempt, if_neg hf1, if_neg ht, h1, if_true]
  · simp only [queue_receive, queue_receive_attempt, if_neg he1, if_neg ht, h1, if_true]
  · simp only [queue_peek, queue_receive_attempt, if_neg he1, if_neg ht, h1, if_true]
  · simp only [mutex_trylock, h1, if_true]
  · simp only [mutex_lock, h1, if_true]
  · simp only [mutex_unlock, h1, if_true]
  · unfold event_wait
    simp only [h1, if_true]
    split <;> rfl
  · simp only [queue_send_isr, if_pos hf2]

/-- Witness for C26: the state `kernelIsr`, the empty semaphore `sem0`, the
full queue `queueFull` and the empty queue `queueEmpty`. -/
theorem C26_isr_context_witness :
    sem_take kernelIsr (some 100) sem0 50 = some (kernelIsr, sem0, Outcome.done KERNEL_ERR_ISR) ∧
    queue_send 4 kernelIsr (some 300) queueFull (some (fun _ => 9)) 50 =
      some (kernelIsr, queueFull, Outcome.done KERNEL_ERR_ISR) ∧
    queue_send_front 4 kernelIsr (some 300) queueFull (some (fun _ => 9)) 50 =
      some (kernelIsr, queueFull, Outcome.done KERNEL_ERR_ISR) ∧
    queue_receive 4 kernelIsr (some 300) queueEmpty (some (fun _ => 9)) 50 =
      some (kernelIsr, queueEmpty, fun _ => 9, Outcome.done KERNEL_ERR_ISR) ∧
    queue_peek 4 kernelIsr (some 300) queueEmpty (some (fun _ => 9)) 50 =
      some (kernelIsr, queueEmpty, fun _ => 9, Outcome.done KERNEL_ERR_ISR) ∧
    mutex_trylock kernelIsr (some 200) mutexOther = (mutexOther, KERNEL_ERR_ISR) ∧
    mutex_lock 4 kernelIsr (some 200) mutexOther 50 =
      some (kernelIsr, mutexOther, Outcome.done KERNEL_ERR_ISR) ∧
    mutex_unlock 4 kernelIsr (some 200) mutexOther = some (kernelIsr, mutexOther, KERNEL_ERR_ISR) ∧
    event_wait kernelIsr (some 400) { flags := 0 } 5 0 50 =
      some (kernelIsr, { flags := 0 }, Outcome.done 0) ∧
    queue_send_isr 4 kernelIsr (some 300) queueFull (some (fun _ => 9)) =
      some (kernelIsr, queueFull, KERNEL_ERR_OVERFLOW) :=
  C26_isr_context 4 kernelIsr 100 200 300 400 50 sem0 mutexOther queueFull queueEmpty
    { flags := 0 } (fun _ => 9) 5 0 (by decide) (by decide) (by decide) (by decide) (by decide)

/-! ## C30: `queue_send_front` and `queue_peek` -/

theorem QueueWF_push_front {q : msg_queue_t} (h : QueueWF q) (msg : Nat → Nat)
    (hc : q.count < q.capacity) :
    QueueWF (queue_push_front q msg) ∧
    queue_contents (queue_push_front q msg) = msg_bytes msg q.msg_size :: queue_contents q ∧
    (queue_push_front q msg).count = q.count + 1 ∧
    (queue_push_front q msg).msg_size = q.msg_size := by
  have hcap := h.capacity_lt
  have hwf := h
  obtain ⟨h1, h2, h3, h4, h5, h6⟩ := h
  have hcount : (q.count + 1) % 2 ^ 32 = q.count + 1 := Nat.mod_eq_of_lt (by omega)
  obtain ⟨t, ht⟩ : ∃ t, t = (if q.tail = 0 then (q.capacity + (2 ^ 32 - 1)) % 2 ^ 32
      else q.tail - 1) := ⟨_, rfl⟩
  have ht1 : t < q.capacity := by
    rw [ht]
    split_ifs <;> omega
  have ht2 : (t + 1) % q.capacity = q.tail := by
    rw [ht]
    split_ifs with h0
    · have e : (q.capacity + (2 ^ 32 - 1)) % 2 ^ 32 + 1 = q.capacity := by omega
      rw [e, Nat.mod_self, h0]
    · have e : q.tail - 1 + 1 = q.tail := by omega
      rw [e, Nat.mod_eq_of_lt h5]
  have hq : queue_push_front q msg =
      { q with tail := t, buffer := mem_copy q.buffer (queue_slot_ptr q t) msg 0 q.msg_size,
               count := (q.count + 1) % 2 ^ 32 } := by
    rw [ht]
    rfl
  have hshift : ∀ i, (t + (i + 1)) % q.capacity = (q.tail + i) % q.capacity := by
    intro i
    rw [← ht2, Nat.mod_add_mod]
    congr 1
    omega
  rw [hq]
  refine ⟨⟨h1, h2, h3, ?_, ht1, ?_⟩, ?_, hcount, rfl⟩
  · show (q.count + 1) % 2 ^ 32 ≤ q.capacity
    rw [hcount]
    omega
  · show q.head = (t + (q.count + 1) % 2 ^ 32) % q.capacity
    rw [hcount, h6, ← hshift q.count]
  · unfold queue_contents
    show List.map _ (List.range ((q.count + 1) % 2 ^ 32)) = _
    rw [hcount, List.range_succ_eq_map, List.map_cons, List.map_map]
    refine congrArg₂ List.cons ?_ ?_
    · unfold slot_bytes msg_bytes
      apply List.map_congr_left
      intro j hj
      have hj1 : j < q.msg_size := List.mem_range.mp hj
      show mem_copy q.buffer (queue_slot_ptr q t) msg 0 q.msg_size
        (queue_slot_ptr q ((t + 0) % q.capacity) + j) = msg j
      rw [Nat.add_zero, Nat.mod_eq_of_lt ht1, mem_copy_apply, if_pos (by omega)]
      congr 1
      omega
    · apply List.map_congr_left
      intro i hi
      have hi1 : i < q.count := List.mem_range.mp hi
      show slot_bytes _ ((t + (i + 1)) % q.capacity) = slot_bytes q ((q.tail + i) % q.capacity)
      rw [hshift]
      unfold slot_bytes
      apply List.map_congr_left
      intro j hj
      have hj1 : j < q.msg_size := List.mem_range.mp hj
      have hidx : (q.tail + i) % q.capacity < q.capacity := Nat.mod_lt _ (by omega)
      have hne : (q.tail + i) % q.capacity ≠ t := by
        rw [← hshift]
        intro e
        have e2 := mod_ne_of_lt_lt (by omega : t < t + (i + 1))
          (by omega : t + (i + 1) - t < q.capacity)
        rw [e, Nat.mod_eq_of_lt ht1] at e2
        exact e2 rfl
      show mem_copy q.buffer (queue_slot_ptr q t) msg 0 q.msg_size
        (queue_slot_ptr q ((q.tail + i) % q.capacity) + j) = _
      rw [queue_slot_ptr_eq hwf hidx, queue_slot_ptr_eq hwf ht1, mem_copy_apply,
        if_neg (slot_disjoint _ _ _ _ hne hj1)]

/-- Claim C30.  For a queue `q` in the form `queue_init` and the queue
operations leave it, holding `k < capacity` messages, in a state with
well-formed scheduler lists: `queue_send_front` of `m` returns `KERNEL_OK`,
and the next `k + 1` calls of `queue_receive` return `KERNEL_OK` and yield
first the bytes of `m` and then the `k` messages that were held, in their
order.  For a non-empty queue `qp`, `queue_peek` returns `KERNEL_OK`, leaves
the kernel state and the whole queue record (head, tail, count, buffer) as
they are, and fills the caller's buffer exactly as the next `queue_receive`
does, with the oldest message. -/
theorem C30_send_front_and_peek (k : Kernel) (fuel : Nat) (hk : SchedOk k fuel) (queue : Nat)
    (q : msg_queue_t) (hq : QueueWF q) (hroom : q.count < q.capacity) (m buf : Nat → Nat)
    (ts tr : Nat) (qp : msg_queue_t) (hqp : QueueWF qp) (hne : 0 < qp.count) :
    (∃ k1 q1, queue_send_front fuel k (some queue) q (some m) ts =
        some (k1, q1, Outcome.done KERNEL_OK) ∧
      ∃ k2 q2 outs, queue_receive_n fuel queue buf tr k1 q1 (q.count + 1) =
          some (k2, q2, outs, List.replicate (q.count + 1) (Outcome.done KERNEL_OK)) ∧
        outs.map (fun o => msg_bytes o q.msg_size) = msg_bytes m q.msg_size :: queue_contents q) ∧
    ∃ out, queue_peek fuel k (some queue) qp (some buf) tr =
        some (k, qp, out, Outcome.done KERNEL_OK) ∧
      ∃ k1 q1, queue_receive fuel k (some queue) qp (some buf) tr =
          some (k1, q1, out, Outcome.done KERNEL_OK) ∧
        queue_contents qp = msg_bytes out qp.msg_size :: queue_contents q1 := by
  constructor
  · obtain ⟨hq1, hcont, hcount, hsize⟩ := QueueWF_push_front hq m hroom
    obtain ⟨ka, b, hub, hka⟩ := scheduler_unblock_one_ok hk block_reason_t.QUEUE_RECV
      (some queue) KERNEL_OK
    refine ⟨ka, queue_push_front q m, ?_, ?_⟩
    · simp only [queue_send_front, queue_send_attempt, if_pos hroom, hub, if_true]
    · obtain ⟨k2, q2, outs, g1, g2, _, _⟩ := queue_receive_n_spec fuel queue tr buf (q.count + 1)
        ka (queue_push_front q m) hka hq1 hcount
      refine ⟨k2, q2, outs, g1, ?_⟩
      rw [hsize] at g2
      rw [g2, hcont]
  · obtain ⟨hq1, hcont, _, _⟩ := QueueWF_pop hqp buf hne
    obtain ⟨ka, b, hub, _⟩ := scheduler_unblock_one_ok hk block_reason_t.QUEUE_SEND
      (some queue) KERNEL_OK
    have hpos : qp.count > 0 := hne
    refine ⟨mem_copy buf 0 qp.buffer (queue_slot_ptr qp qp.tail) qp.msg_size, ?_,
      ka, (queue_pop qp buf).1, ?_, hcont⟩
    · simp only [queue_peek, queue_receive_attempt, if_pos hpos, if_true]
    · simp only [queue_receive, queue_receive_attempt, if_pos hpos, hub, Bool.false_eq_true,
        if_false]
      rfl

theorem queueTwo_wf : QueueWF queueTwo := by
  unfold QueueWF
  decide

/-- Witness for C30: the message `09 0A 0B 0C` is sent to the front of
`queueTwo`, and `queueTwo` is peeked, in the state after `scheduler_init`. -/
theorem C30_send_front_and_peek_witness :
    (∃ k1 q1, queue_send_front 1 (scheduler_init kernel0) (some 300) queueTwo
        (some (fun j => [9, 10, 11, 12].getD j 0)) 0 = some (k1, q1, Outcome.done KERNEL_OK) ∧
      ∃ k2 q2 outs, queue_receive_n 1 300 (fun _ => 0) 0 k1 q1 (queueTwo.count + 1) =
          some (k2, q2, outs, List.replicate (queueTwo.count + 1) (Outcome.done KERNEL_OK)) ∧
        outs.map (fun o => msg_bytes o queueTwo.msg_size) =
          msg_bytes (fun j => [9, 10, 11, 12].getD j 0) queueTwo.msg_size ::
            queue_contents queueTwo) ∧
    ∃ out, queue_peek 1 (scheduler_init kernel0) (some 300) queueTwo (some (fun _ => 0)) 0 =
        some (scheduler_init kernel0, queueTwo, out, Outcome.done KERNEL_OK) ∧
      ∃ k1 q1, queue_receive 1 (scheduler_init kernel0) (some 300) queueTwo (some (fun _ => 0)) 0 =
          some (k1, q1, out, Outcome.done KERNEL_OK) ∧
        queue_contents queueTwo = msg_bytes out queueTwo.msg_size :: queue_contents q1 :=
  C30_send_front_and_peek (scheduler_init kernel0) 1 (SchedOk_scheduler_init kernel0 1) 300
    queueTwo queueTwo_wf (by decide) (fun j => [9, 10, 11, 12].getD j 0) (fun _ => 0) 0 0
    queueTwo queueTwo_wf (by decide)

/-! ## The state `kernelW` -/

theorem readyL_update (l m : List Nat) : Function.update (readyL l) 5 m = readyL m := by
  unfold readyL
  simp

theorem readyL_same (l : List Nat) : readyL l 5 = l := by
  unfold readyL
  simp

theorem readyL_other (l : List Nat) {p : Nat} (hp : p ≠ 5) : readyL l p = [] := by
  unfold readyL
  rw [Function.update_noteq hp]

theorem fuelW (l bl : List Nat) (hl : ∀ t ∈ l, t ∈ [1, 2, 3, 4, 5, 6])
    (hb : ∀ t ∈ bl, t ∈ [1, 2, 3, 4, 5, 6]) : FuelCovers (readyL l) bl 8 := by
  refine ⟨[1, 2, 3, 4, 5, 6], ?_, hb, by simp⟩
  intro p _ t ht
  by_cases hp5 : p = 5
  · subst hp5
    rw [readyL_same] at ht
    exact hl t ht
  · rw [readyL_other l hp5] at ht
    cases ht

theorem addW_rep {k : Kernel} {l bl : List Nat} (t : Nat) (h : SchedRep k (readyL l) bl)
    (hd : ∀ u, (k.tcb u).priority = 5 ∧ (k.tcb u).base_priority = 5)
    (hb : t ∉ bl) (hl : t ∉ l) (hlen : l.length ≤ 8) :
    SchedRep (addW k t) (readyL (l ++ [t])) bl ∧
    (∀ u, ((addW k t).tcb u).priority = 5 ∧ ((addW k t).tcb u).base_priority = 5) ∧
    (addW k t).ipsr = k.ipsr ∧ (addW k t).current_task = k.current_task := by
  have hp : (k.tcb t).priority = 5 := (hd t).1
  obtain ⟨k1, e1, r1, oth, dt, regs, _⟩ := @rep_add_task _ _ _ 8 h t hb (by
      intro p _
      by_cases hp5 : p = 5
      · subst hp5
        rw [readyL_same]
        exact hl
      · rw [readyL_other l hp5]
        simp) (by rw [hp]; decide) (by rw [hp, readyL_same]; exact hlen)
  have e : addW k t = k1 := by
    unfold addW
    rw [e1]
    rfl
  rw [e]
  rw [hp, readyL_same, readyL_update] at r1
  refine ⟨r1, ?_, regs.2.1, regs.1⟩
  intro u
  by_cases hu : u = t
  · subst hu
    have h1 := data_field task_tcb_t.priority (fun _ => rfl) dt
    have h2 := data_field task_tcb_t.base_priority (fun _ => rfl) dt
    exact ⟨h1.trans (hd u).1, h2.trans (hd u).2⟩
  · have h1 := data_field task_tcb_t.priority (fun _ => rfl) (oth u hu)
    have h2 := data_field task_tcb_t.base_priority (fun _ => rfl) (oth u hu)
    exact ⟨h1.trans (hd u).1, h2.trans (hd u).2⟩

theorem blockW_rep {k : Kernel} {l bl : List Nat} {self : Nat} (reason : block_reason_t)
    (object next : Nat) (h : SchedRep k (readyL l) bl) (hf : FuelCovers (readyL l) bl 8)
    (hd : ∀ u, (k.tcb u).priority = 5 ∧ (k.tcb u).base_priority = 5)
    (hcur : k.current_task = some self) (hs : self ∈ l) (l1 : List Nat)
    (hl1 : l.erase self = l1) :
    SchedRep (blockW k reason object next) (readyL l1) (self :: bl) ∧
    FuelCovers (readyL l1) (self :: bl) 8 ∧
    (∀ u, ((blockW k reason object next).tcb u).priority = 5 ∧
      ((blockW k reason object next).tcb u).base_priority = 5) ∧
    (blockW k reason object next).ipsr = k.ipsr ∧
    (blockW k reason object next).current_task = some next := by
  obtain ⟨k1, e1, r1, f1, oth, _, _, _, _, _, hp1, hb1, regs⟩ :=
    @rep_block_task_enter _ _ _ 8 h hf 5 self hcur (by decide) (by rw [readyL_same]; exact hs)
      reason (some object) 50
  have e : blockW k reason object next = { k1 with current_task := some next } := by
    unfold blockW
    rw [e1]
  rw [e]
  rw [readyL_same, readyL_update, hl1] at r1 f1
  refine ⟨SchedRep_of_eq r1 rfl rfl rfl, f1, ?_, regs.2.1, rfl⟩
  intro u
  show (k1.tcb u).priority = 5 ∧ (k1.tcb u).base_priority = 5
  by_cases hu : u = self
  · subst hu
    exact ⟨hp1.trans (hd u).1, hb1.trans (hd u).2⟩
  · have h1 := data_field task_tcb_t.priority (fun _ => rfl) (oth u hu)
    have h2 := data_field task_tcb_t.base_priority (fun _ => rfl) (oth u hu)
    exact ⟨h1.trans (hd u).1, h2.trans (hd u).2⟩

theorem set_current_facts {k : Kernel} {rl : Nat → List Nat} {bl : List Nat} (c : Option Nat)
    (h : SchedRep k rl bl)
    (hd : ∀ u, (k.tcb u).priority = 5 ∧ (k.tcb u).base_priority = 5) (hi : k.ipsr = 0) :
    SchedRep { k with current_task := c } rl bl ∧
    (∀ u, (({ k with current_task := c } : Kernel).tcb u).priority = 5 ∧
      (({ k with current_task := c } : Kernel).tcb u).base_priority = 5) ∧
    ({ k with current_task := c } : Kernel).ipsr = 0 :=
  ⟨SchedRep_of_eq h rfl rfl rfl, hd, hi⟩

theorem kernelW0_current : kernelW0.current_task = some 1 := by
  unfold kernelW0
  rfl

theorem kernelW0_rep : SchedRep kernelW0 (readyL [1, 2, 3, 4, 5, 6]) [] ∧
    (∀ u, (kernelW0.tcb u).priority = 5 ∧ (kernelW0.tcb u).base_priority = 5) ∧
    kernelW0.ipsr = 0 := by
  have r0 : SchedRep (scheduler_init kernel0) (readyL []) [] := by
    have e : readyL [] = fun _ => [] := by
      funext p
      unfold readyL
      by_cases hp : p = 5
      · subst hp
        simp
      · rw [Function.update_noteq hp]
    rw [e]
    exact SchedRep_scheduler_init kernel0
  have d0 : ∀ u, ((scheduler_init kernel0).tcb u).priority = 5 ∧
      ((scheduler_init kernel0).tcb u).base_priority = 5 := fun _ => ⟨rfl, rfl⟩
  have i0 : (scheduler_init kernel0).ipsr = 0 := rfl
  obtain ⟨r1, d1, i1, _⟩ := addW_rep 1 r0 d0 (by simp) (by simp) (by simp)
  obtain ⟨r2, d2, i2, _⟩ := addW_rep 2 r1 d1 (by simp) (by simp) (by simp)
  obtain ⟨r3, d3, i3, _⟩ := addW_rep 3 r2 d2 (by simp) (by simp) (by simp)
  obtain ⟨r4, d4, i4, _⟩ := addW_rep 4 r3 d3 (by simp) (by simp) (by simp)
  obtain ⟨r5, d5, i5, _⟩ := addW_rep 5 r4 d4 (by simp) (by simp) (by simp)
  obtain ⟨r6, d6, i6, _⟩ := addW_rep 6 r5 d5 (by simp) (by simp) (by simp)
  have i : (addW (addW (addW (addW (addW (addW (scheduler_init kernel0) 1) 2) 3) 4) 5) 6).ipsr =
      0 := by
    rw [i6, i5, i4, i3, i2, i1, i0]
  unfold kernelW0
  exact set_current_facts (some 1) r6 d6 i

theorem kernelW_rep : SchedRep kernelW (readyL [4]) blockedW ∧
    FuelCovers (readyL [4]) blockedW 8 ∧
    (∀ u, (kernelW.tcb u).priority = 5 ∧ (kernelW.tcb u).base_priority = 5) ∧
    kernelW.ipsr = 0 ∧ kernelW.current_task = some 4 := by
  obtain ⟨r0, d0, i0⟩ := kernelW0_rep
  have f0 : FuelCovers (readyL [1, 2, 3, 4, 5, 6]) [] 8 := fuelW _ _ (by decide) (by decide)
  obtain ⟨r1, f1, d1, i1, c1⟩ := blockW_rep block_reason_t.SEMAPHORE 100 2 r0 f0 d0
    kernelW0_current (by decide) [2, 3, 4, 5, 6] (by decide)
  obtain ⟨r2, f2, d2, i2, c2⟩ := blockW_rep block_reason_t.MUTEX 200 3 r1 f1 d1 c1 (by decide)
    [3, 4, 5, 6] (by decide)
  obtain ⟨r3, f3, d3, i3, c3⟩ := blockW_rep block_reason_t.SEMAPHORE 100 5 r2 f2 d2 c2
    (by decide) [4, 5, 6] (by decide)
  obtain ⟨r4, f4, d4, i4, c4⟩ := blockW_rep block_reason_t.QUEUE_SEND 300 6 r3 f3 d3 c3
    (by decide) [4, 6] (by decide)
  obtain ⟨r5, f5, d5, i5, c5⟩ := blockW_rep block_reason_t.QUEUE_RECV 300 4 r4 f4 d4 c4
    (by decide) [4] (by decide)
  have i : (blockW (blockW (blockW (blockW (blockW kernelW0 block_reason_t.SEMAPHORE 100 2)
      block_reason_t.MUTEX 200 3) block_reason_t.SEMAPHORE 100 5)
      block_reason_t.QUEUE_SEND 300 6) block_reason_t.QUEUE_RECV 300 4).ipsr = 0 := by
    rw [i5, i4, i3, i2, i1, i0]
  unfold kernelW blockedW
  exact ⟨r5, f5, d5, i, c5⟩

theorem BitmapInv_addW {k : Kernel} (t : Nat) (hk : BitmapInv k) : BitmapInv (addW k t) := by
  unfold addW
  cases h : scheduler_add_task 8 k t with
  | none => exact hk
  | some k1 => exact BitmapInv_scheduler_add_task h hk

theorem BitmapInv_set_current {k : Kernel} (c : Option Nat) (hk : BitmapInv k) :
    BitmapInv { k with current_task := c } :=
  BitmapInv_of_g_sched_eq rfl hk

theorem BitmapInv_blockW {k : Kernel} (reason : block_reason_t) (object next : Nat)
    (hk : BitmapInv k) : BitmapInv (blockW k reason object next) := by
  unfold blockW
  cases h : scheduler_block_task_enter k reason (some object) 50 with
  | none => exact hk
  | some r =>
    obtain ⟨k1, o⟩ := r
    exact BitmapInv_set_current (some next) (BitmapInv_scheduler_block_task_enter h hk)

theorem kernelW_bitmap : BitmapInv kernelW := by
  unfold kernelW kernelW0
  refine BitmapInv_blockW _ _ _ (BitmapInv_blockW _ _ _ (BitmapInv_blockW _ _ _
    (BitmapInv_blockW _ _ _ (BitmapInv_blockW _ _ _ (BitmapInv_set_current (some 1) ?_)))))
  exact BitmapInv_addW 6 (BitmapInv_addW 5 (BitmapInv_addW 4 (BitmapInv_addW 3
    (BitmapInv_addW 2 (BitmapInv_addW 1 (BitmapInv_scheduler_init kernel0))))))

theorem kernelW_state_4 : (kernelW.tcb 4).state = task_state_t.READY := by
  decide!

theorem kernelW_state_1 : (kernelW.tcb 1).state = task_state_t.BLOCKED := by
  decide!
/-! ## C21: `scheduler_set_priority` -/

/-- Claim C21.  In a state with well-formed scheduler lists and a correct
bitmap, for `new < 32`: for a task `t` that is Ready or Running and on
`ready_list[old]`, `scheduler_set_priority(t, new)` returns, `t` leaves
`ready_list[old]`, its priority is `new`, it is the last element of
`ready_list[new]`, the other ready lists and the blocked list are as
before, `t` is on exactly one ready list, and bit `p` of the bitmap is set
exactly when `ready_list[p]` is not empty.  For a task `u` that is neither
Ready nor Running only the priority field of `u` is written: the scheduler
record, the blocked head and all links are as before.  With a priority
`big >= 32` or a `NULL` task nothing changes, and `task_set_priority`
returns `KERNEL_ERR_PARAM` for `big`. -/
theorem C21_set_priority (k : Kernel) (rl : Nat → List Nat) (bl : List Nat) (fuel : Nat)
    (hrep : SchedRep k rl bl) (hfuel : FuelCovers rl bl fuel) (hbm : BitmapInv k)
    (t old new u big : Nat) (tcb : Option Nat)
    (hold : old < CONFIG_MAX_PRIORITY) (ht : t ∈ rl old)
    (hst : (k.tcb t).state = task_state_t.READY ∨ (k.tcb t).state = task_state_t.RUNNING)
    (hnew : new < CONFIG_MAX_PRIORITY)
    (hu : ¬((k.tcb u).state = task_state_t.READY ∨ (k.tcb u).state = task_state_t.RUNNING))
    (hbig : CONFIG_MAX_PRIORITY ≤ big) :
    (∃ k1 rl1, scheduler_set_priority fuel k (some t) new = some k1 ∧
      SchedRep k1 rl1 bl ∧
      rl1 new = (if new = old then (rl old).erase t else rl new) ++ [t] ∧
      (new ≠ old → rl1 old = (rl old).erase t) ∧
      (∀ p, p ≠ old → p ≠ new → rl1 p = rl p) ∧
      (∀ p, p < CONFIG_MAX_PRIORITY → (t ∈ rl1 p ↔ p = new)) ∧
      (k1.tcb t).priority = new ∧
      (∀ p, p < CONFIG_MAX_PRIORITY →
        (bitmap_test k1.g_sched.priority_bitmap p = true ↔ rl1 p ≠ [])) ∧
      k1.g_blocked_head = k.g_blocked_head ∧
      ∀ v, v ≠ t → tcb_data (k1.tcb v) = tcb_data (k.tcb v)) ∧
    (scheduler_set_priority fuel k (some u) new =
        some (k.setTcb u (fun c => { c with priority := new })) ∧
      (k.setTcb u (fun c => { c with priority := new })).g_sched = k.g_sched ∧
      (k.setTcb u (fun c => { c with priority := new })).g_blocked_head = k.g_blocked_head ∧
      (∀ v, ((k.setTcb u (fun c => { c with priority := new })).tcb v).next = (k.tcb v).next ∧
        ((k.setTcb u (fun c => { c with priority := new })).tcb v).prev = (k.tcb v).prev) ∧
      ∀ v, v ≠ u → (k.setTcb u (fun c => { c with priority := new })).tcb v = k.tcb v) ∧
    scheduler_set_priority fuel k tcb big = some k ∧
    scheduler_set_priority fuel k none new = some k ∧
    task_set_priority fuel k tcb big = some (k, KERNEL_ERR_PARAM) := by
  refine ⟨?_, ?_, ?_, rfl, ?_⟩
  · obtain ⟨k1, e1, r1, _, oth, dt, _, hbh⟩ :=
      rep_set_priority_ready hrep hfuel hold ht hst hnew
    have hb1 : BitmapInv k1 := BitmapInv_scheduler_set_priority e1 hbm
    have hmem : t ∈ Function.update (Function.update rl old ((rl old).erase t)) new
        (Function.update rl old ((rl old).erase t) new ++ [t]) new := by
      rw [Function.update_same]
      exact List.mem_append_right _ (List.mem_singleton.2 rfl)
    refine ⟨k1, _, e1, r1, ?_, ?_, ?_, ?_, ?_, ?_, hbh, oth⟩
    · rw [Function.update_same]
      by_cases hno : new = old
      · rw [if_pos hno, hno, Function.update_same]
      · rw [if_neg hno, Function.update_noteq hno]
    · intro hno
      rw [Function.update_noteq (Ne.symm hno), Function.update_same]
    · intro p hpo hpn
      rw [Function.update_noteq hpn, Function.update_noteq hpo]
    · intro p hp
      constructor
      · intro hin
        by_contra hne
        exact r1.ready_disjoint hp hnew (Ne.symm hne) t hmem hin
      · intro e
        rw [e]
        exact hmem
    · have h := data_field task_tcb_t.priority (fun _ => rfl) dt
      exact h
    · intro p hp
      rw [hb1 p hp, DList_head (r1.ready p hp)]
      cases Function.update (Function.update rl old ((rl old).erase t)) new
        (Function.update rl old ((rl old).erase t) new ++ [t]) p <;> simp
  · refine ⟨?_, rfl, rfl, ?_, ?_⟩
    · have hn : ¬ new ≥ CONFIG_MAX_PRIORITY := Nat.not_le.2 hnew
      simp only [scheduler_set_priority, if_neg hn, if_neg hu]
    · intro v
      by_cases hv : v = u
      · subst hv
        rw [tcb_setTcb_same]
        exact ⟨rfl, rfl⟩
      · rw [tcb_setTcb_other _ _ _ _ hv]
        exact ⟨rfl, rfl⟩
    · intro v hv
      exact tcb_setTcb_other _ _ _ _ hv
  · cases tcb with
    | none => rfl
    | some a =>
      have hn : big ≥ CONFIG_MAX_PRIORITY := hbig
      simp only [scheduler_set_priority, if_pos hn]
  · have hn : big ≥ CONFIG_MAX_PRIORITY := hbig
    simp only [task_set_priority, if_pos hn]

/-- Witness for C21: in `kernelW` the running task 4, alone on
`ready_list[5]`, is moved to priority 3; the blocked task 1 gets the priority
3; the priority 32 is refused. -/
theorem C21_set_priority_witness :
    (∃ k1 rl1, scheduler_set_priority 8 kernelW (some 4) 3 = some k1 ∧
      SchedRep k1 rl1 blockedW ∧
      rl1 3 = (if 3 = 5 then (readyL [4] 5).erase 4 else readyL [4] 3) ++ [4] ∧
      (3 ≠ 5 → rl1 5 = (readyL [4] 5).erase 4) ∧
      (∀ p, p ≠ 5 → p ≠ 3 → rl1 p = readyL [4] p) ∧
      (∀ p, p < CONFIG_MAX_PRIORITY → (4 ∈ rl1 p ↔ p = 3)) ∧
      (k1.tcb 4).priority = 3 ∧
      (∀ p, p < CONFIG_MAX_PRIORITY →
        (bitmap_test k1.g_sched.priority_bitmap p = true ↔ rl1 p ≠ [])) ∧
      k1.g_blocked_head = kernelW.g_blocked_head ∧
      ∀ v, v ≠ 4 → tcb_data (k1.tcb v) = tcb_data (kernelW.tcb v)) ∧
    (scheduler_set_priority 8 kernelW (some 1) 3 =
        some (kernelW.setTcb 1 (fun c => { c with priority := 3 })) ∧
      (kernelW.setTcb 1 (fun c => { c with priority := 3 })).g_sched = kernelW.g_sched ∧
      (kernelW.setTcb 1 (fun c => { c with priority := 3 })).g_blocked_head =
        kernelW.g_blocked_head ∧
      (∀ v, ((kernelW.setTcb 1 (fun c => { c with priority := 3 })).tcb v).next =
          (kernelW.tcb v).next ∧
        ((kernelW.setTcb 1 (fun c => { c with priority := 3 })).tcb v).prev =
          (kernelW.tcb v).prev) ∧
      ∀ v, v ≠ 1 → (kernelW.setTcb 1 (fun c => { c with priority := 3 })).tcb v =
        kernelW.tcb v) ∧
    scheduler_set_priority 8 kernelW (some 4) 32 = some kernelW ∧
    scheduler_set_priority 8 kernelW none 3 = some kernelW ∧
    task_set_priority 8 kernelW (some 4) 32 = some (kernelW, KERNEL_ERR_PARAM) :=
  C21_set_priority kernelW (readyL [4]) blockedW 8 kernelW_rep.1 kernelW_rep.2.1 kernelW_bitmap
    4 5 3 1 32 (some 4) (by decide) (by rw [readyL_same]; exact List.mem_singleton.2 rfl)
    (Or.inl kernelW_state_4) (by decide)
    (by rw [kernelW_state_1]; decide) (by decide)

/-! ## `scheduler_unblock_all` on well-formed lists -/

theorem DList_next_mid {nx pv : Nat → Option Nat} (x : Nat) (post : List Nat) :
    ∀ (pre : List Nat) (prev head : Option Nat), DList nx pv prev head (pre ++ x :: post) →
      nx x = post.head? := by
  intro pre
  induction pre with
  | nil =>
    intro prev head h
    obtain ⟨_, _, h3⟩ := h
    exact DList_head h3
  | cons a pre ih =>
    intro prev head h
    obtain ⟨_, _, h3⟩ := h
    exact ih _ _ h3

theorem waits_on_iff (k : Kernel) (reason : block_reason_t) (object : Option Nat) (t : Nat) :
    waits_on k reason object t = true ↔
      ((k.tcb t).block_reason = reason ∧ (k.tcb t).block_object = object) := by
  unfold waits_on
  exact decide_eq_true_iff

theorem waits_on_congr {k k1 : Kernel} {u : Nat} (h : tcb_data (k1.tcb u) = tcb_data (k.tcb u))
    (reason : block_reason_t) (object : Option Nat) :
    waits_on k1 reason object u = waits_on k reason object u := by
  unfold waits_on
  rw [data_field task_tcb_t.block_reason (fun _ => rfl) h,
    data_field task_tcb_t.block_object (fun _ => rfl) h]

theorem wakes_congr {k k1 : Kernel} {u : Nat} (h : tcb_data (k1.tcb u) = tcb_data (k.tcb u))
    (reason : block_reason_t) (object : Option Nat) (p : Nat) :
    wakes k1 reason object p u = wakes k reason object p u := by
  unfold wakes
  rw [waits_on_congr h, priority_of_data h]

theorem tcb_data_woken {c d : task_tcb_t} (h : tcb_data c = tcb_data d) (result : Int) :
    tcb_data { c with state := task_state_t.READY, block_reason := block_reason_t.NONE,
                      block_result := result, block_object := none, block_timeout := 0 } =
    tcb_data { d with state := task_state_t.READY, block_reason := block_reason_t.NONE,
                      block_result := result, block_object := none, block_timeout := 0 } := by
  unfold tcb_data at h ⊢
  simp only [task_tcb_t.mk.injEq] at h ⊢
  simp only [h, and_self]

/-- The walk of `scheduler_unblock_all` from the element after `pre` of the
blocked list `pre ++ post`: it returns, the tasks of `post` that pass the test
move to the tails of their ready lists in list order, the others stay in
order, and the count grows by the number of tasks moved. -/
theorem rep_unblock_all_walk (n : Nat) (reason : block_reason_t) (object : Option Nat)
    (result : Int) :
    ∀ (post : List Nat) (fuel : Nat) (k : Kernel) (rl : Nat → List Nat) (pre : List Nat)
      (cnt : Nat),
      SchedRep k rl (pre ++ post) → FuelCovers rl (pre ++ post) n → post.length ≤ fuel →
      cnt < 2 ^ 32 →
      ∃ k1, unblock_all_walk n reason object result fuel k post.head? cnt =
          some (k1, (cnt + (post.filter (waits_on k reason object)).length) % 2 ^ 32) ∧
        SchedRep k1 (fun p => rl p ++ post.filter (wakes k reason object p))
          (pre ++ post.filter (fun t => !waits_on k reason object t)) ∧
        FuelCovers (fun p => rl p ++ post.filter (wakes k reason object p))
          (pre ++ post.filter (fun t => !waits_on k reason object t)) n ∧
        (∀ u, ¬(u ∈ post ∧ waits_on k reason object u = true) →
          tcb_data (k1.tcb u) = tcb_data (k.tcb u)) ∧
        (∀ u ∈ post, waits_on k reason object u = true →
          tcb_data (k1.tcb u) = tcb_data { k.tcb u with
            state := task_state_t.READY, block_reason := block_reason_t.NONE,
            block_result := result, block_object := none, block_timeout := 0 }) ∧
        SameRegs k k1 ∧ k1.pendsv = k.pendsv := by
  intro post
  induction post with
  | nil =>
    intro fuel k rl pre cnt hrep hf _ hcnt
    have e1 : (fun p => rl p ++ ([] : List Nat).filter (wakes k reason object p)) = rl := by
      funext p
      simp
    have e2 : pre ++ ([] : List Nat).filter (fun t => !waits_on k reason object t) =
        pre ++ [] := by
      simp
    rw [e1, e2]
    refine ⟨k, ?_, hrep, hf, fun _ _ => rfl, ?_, SameRegs_refl k, rfl⟩
    · have e3 : (cnt + (([] : List Nat).filter (waits_on k reason object)).length) % 2 ^ 32 =
          cnt := by
        simp only [List.filter_nil, List.length_nil, Nat.add_zero]
        exact Nat.mod_eq_of_lt hcnt
      rw [e3]
      cases fuel <;> simp only [List.head?_nil, unblock_all_walk]
    · intro u hu
      cases hu
  | cons x post ih =>
    intro fuel k rl pre cnt hrep hf hlen hcnt
    obtain ⟨f, rfl⟩ : ∃ f, fuel = f + 1 := ⟨fuel - 1, by
      simp only [List.length_cons] at hlen
      omega⟩
    have hlen1 : post.length ≤ f := by
      simp only [List.length_cons] at hlen
      omega
    have hnext : (k.tcb x).next = post.head? := DList_next_mid x post pre _ _ hrep.blocked
    have hnd : (pre ++ x :: post).Nodup := hrep.blocked_nodup
    have hxpre : x ∉ pre := by
      intro hm
      have := List.nodup_append.1 hnd
      exact this.2.2 hm (List.mem_cons_self _ _)
    have hxpost : x ∉ post := by
      have := (List.nodup_append.1 hnd).2.1
      exact (List.nodup_cons.1 this).1
    have hxin : x ∈ pre ++ x :: post :=
      List.mem_append_right _ (List.mem_cons_self _ _)
    by_cases hW : (k.tcb x).block_reason = reason ∧ (k.tcb x).block_object = object
    · have hWx : waits_on k reason object x = true := (waits_on_iff _ _ _ _).2 hW
      obtain ⟨k3, e3, r3, oth3, dx3, regs3, pend3⟩ := rep_unblock_tail hrep hf hxin result
      have f3 := FuelCovers_move hf (k.tcb x).priority x hxin
      have herase : (pre ++ x :: post).erase x = pre ++ post := by
        rw [List.erase_append_right _ hxpre, List.erase_cons_head]
      rw [herase] at r3 f3
      obtain ⟨k1, g1, g2, g3, g4, g5, g6, g7⟩ := ih f k3 _ pre ((cnt + 1) % 2 ^ 32) r3 f3 hlen1
        (Nat.mod_lt _ (by decide))
      have hne : ∀ u ∈ post, u ≠ x := fun u hu e => hxpost (e ▸ hu)
      have hw3 : ∀ u ∈ post, waits_on k3 reason object u = waits_on k reason object u :=
        fun u hu => waits_on_congr (oth3 u (hne u hu)) reason object
      have hrl : (fun p => Function.update rl (k.tcb x).priority (rl (k.tcb x).priority ++ [x]) p
            ++ post.filter (wakes k3 reason object p)) =
          (fun p => rl p ++ (x :: post).filter (wakes k reason object p)) := by
        funext p
        have hc : post.filter (wakes k3 reason object p) =
            post.filter (wakes k reason object p) :=
          List.filter_congr (fun u hu => wakes_congr (oth3 u (hne u hu)) reason object p)
        rw [hc]
        by_cases hp : p = (k.tcb x).priority
        · subst hp
          have hwk : wakes k reason object (k.tcb x).priority x = true := by
            simp [wakes, hWx]
          rw [Function.update_same, List.filter_cons, if_pos hwk]
          simp
        · have hwk : ¬ wakes k reason object p x = true := by
            simp [wakes, hWx, Ne.symm hp]
          rw [Function.update_noteq hp, List.filter_cons, if_neg hwk]
      have hbl : pre ++ post.filter (fun t => !waits_on k3 reason object t) =
          pre ++ (x :: post).filter (fun t => !waits_on k reason object t) := by
        have hc : post.filter (fun t => !waits_on k3 reason object t) =
            post.filter (fun t => !waits_on k reason object t) :=
          List.filter_congr (fun u hu => by rw [hw3 u hu])
        rw [hc, List.filter_cons]
        simp [hWx]
      have hcount : (((cnt + 1) % 2 ^ 32) + (post.filter (waits_on k3 reason object)).length) %
            2 ^ 32 =
          (cnt + ((x :: post).filter (waits_on k reason object)).length) % 2 ^ 32 := by
        have hc : post.filter (waits_on k3 reason object) =
            post.filter (waits_on k reason object) := List.filter_congr hw3
        rw [hc, List.filter_cons, if_pos hWx, List.length_cons, Nat.mod_add_mod]
        congr 1
        omega
      rw [hrl, hbl] at g2 g3
      rw [hcount] at g1
      refine ⟨k1, ?_, g2, g3, ?_, ?_, SameRegs_trans regs3 g6, g7.trans pend3⟩
      · simp only [List.head?_cons, unblock_all_walk, if_pos hW, e3, hnext]
        exact g1
      · intro u hu
        have hux : u ≠ x := fun e => hu ⟨e ▸ List.mem_cons_self _ _, e ▸ hWx⟩
        have h3 : ¬(u ∈ post ∧ waits_on k3 reason object u = true) := by
          rintro ⟨hm, hw⟩
          rw [hw3 u hm] at hw
          exact hu ⟨List.mem_cons_of_mem _ hm, hw⟩
        rw [g4 u h3]
        exact oth3 u hux
      · intro u hu hw
        rcases List.mem_cons.1 hu with e | hm
        · subst e
          rw [g4 u (fun hh => hxpost hh.1)]
          exact dx3
        · rw [g5 u hm (by rw [hw3 u hm]; exact hw)]
          exact tcb_data_woken (oth3 u (hne u hm)) result
    · have hWx : waits_on k reason object x = false := by
        cases hb : waits_on k reason object x with
        | false => rfl
        | true => exact absurd ((waits_on_iff _ _ _ _).1 hb) hW
      have happ : pre ++ [x] ++ post = pre ++ x :: post := by simp
      obtain ⟨k1, g1, g2, g3, g4, g5, g6, g7⟩ := ih f k rl (pre ++ [x]) cnt
        (by rw [happ]; exact hrep) (by rw [happ]; exact hf) hlen1 hcnt
      have hrl : (fun p => rl p ++ post.filter (wakes k reason object p)) =
          (fun p => rl p ++ (x :: post).filter (wakes k reason object p)) := by
        funext p
        have hwk : ¬ wakes k reason object p x = true := by
          simp [wakes, hWx]
        rw [List.filter_cons, if_neg hwk]
      have hbl : pre ++ [x] ++ post.filter (fun t => !waits_on k reason object t) =
          pre ++ (x :: post).filter (fun t => !waits_on k reason object t) := by
        rw [List.filter_cons]
        simp [hWx]
      have hcount : (cnt + (post.filter (waits_on k reason object)).length) % 2 ^ 32 =
          (cnt + ((x :: post).filter (waits_on k reason object)).length) % 2 ^ 32 := by
        rw [List.filter_cons]
        simp [hWx]
      rw [hrl, hbl] at g2 g3
      rw [hcount] at g1
      refine ⟨k1, ?_, g2, g3, ?_, ?_, g6, g7⟩
      · simp only [List.head?_cons, unblock_all_walk, if_neg hW, hnext]
        exact g1
      · intro u hu
        exact g4 u (fun hh => hu ⟨List.mem_cons_of_mem _ hh.1, hh.2⟩)
      · intro u hu hw
        rcases List.mem_cons.1 hu with e | hm
        · subst e
          rw [hWx] at hw
          cases hw
        · exact g5 u hm hw

/-- The function `scheduler_unblock_all` on well-formed lists: it returns the
number of tasks of the blocked list that pass the test; these are appended to
their ready lists in list order, in the state given by `scheduler_unblock_task`,
and all other tasks are as before. -/
theorem rep_unblock_all {k : Kernel} {rl : Nat → List Nat} {bl : List Nat} {fuel : Nat}
    (hrep : SchedRep k rl bl) (hf : FuelCovers rl bl fuel) (hlen : bl.length < 2 ^ 32)
    (reason : block_reason_t) (object : Option Nat) (result : Int) :
    ∃ k1, scheduler_unblock_all fuel k reason object result =
        some (k1, (bl.filter (waits_on k reason object)).length) ∧
      SchedRep k1 (fun p => rl p ++ bl.filter (wakes k reason object p))
        (bl.filter (fun t => !waits_on k reason object t)) ∧
      FuelCovers (fun p => rl p ++ bl.filter (wakes k reason object p))
        (bl.filter (fun t => !waits_on k reason object t)) fuel ∧
      (∀ u, ¬(u ∈ bl ∧ waits_on k reason object u = true) →
        tcb_data (k1.tcb u) = tcb_data (k.tcb u)) ∧
      (∀ u ∈ bl, waits_on k reason object u = true →
        tcb_data (k1.tcb u) = tcb_data { k.tcb u with
          state := task_state_t.READY, block_reason := block_reason_t.NONE,
          block_result := result, block_object := none, block_timeout := 0 }) ∧
      SameRegs k k1 ∧
      (k1.pendsv = true ↔
        k.pendsv = true ∨ 0 < (bl.filter (waits_on k reason object)).length) := by
  have hfl : bl.length ≤ fuel := FuelCovers_blocked hf hrep.blocked_nodup
  obtain ⟨k1, g1, g2, g3, g4, g5, g6, g7⟩ := rep_unblock_all_walk fuel reason object result bl
    fuel k rl [] 0 (by rw [List.nil_append]; exact hrep) (by rw [List.nil_append]; exact hf)
    hfl (by decide)
  rw [List.nil_append] at g2 g3
  have hm : (0 + (bl.filter (waits_on k reason object)).length) % 2 ^ 32 =
      (bl.filter (waits_on k reason object)).length := by
    rw [Nat.zero_add]
    exact Nat.mod_eq_of_lt (lt_of_le_of_lt (List.length_filter_le _ _) hlen)
  rw [hm, ← DList_head hrep.blocked] at g1
  by_cases hpos : (bl.filter (waits_on k reason object)).length > 0
  · refine ⟨scheduler_trigger_switch k1, ?_, SchedRep_of_eq g2 rfl rfl rfl, g3, g4, g5, g6, ?_⟩
    · simp only [scheduler_unblock_all, g1, if_pos hpos]
    · constructor
      · intro _
        exact Or.inr hpos
      · intro _
        rfl
  · refine ⟨k1, ?_, g2, g3, g4, g5, g6, ?_⟩
    · simp only [scheduler_unblock_all, g1, if_neg hpos]
    · rw [g7]
      constructor
      · intro h
        exact Or.inl h
      · intro h
        rcases h with h | h
        · exact h
        · exact absurd h hpos

/-! ## The effect of `scheduler_unblock_all` on the tasks of the blocked list -/

/-- In a state with well-formed scheduler lists (the blocked list
`bl` having fewer than `2^32` elements), `scheduler_unblock_all(reason, object,
result)` returns the number of tasks of the blocked list whose `block_reason`
and `block_object` are `reason` and `object`.  Afterwards the blocked list
holds the other tasks in their previous order and none of them matches;
`ready_list[p]` is what it was followed by the matching tasks of priority `p`
in blocked-list order; every matching task is Ready with `block_result =
result`, reason `NONE` and object `NULL`; all other tasks are as before; and
the pend bit of the switch exception is set by the call if and only if the
returned count is positive. -/
theorem unblock_all_on_list (k : Kernel) (rl : Nat → List Nat) (bl : List Nat) (fuel : Nat)
    (hrep : SchedRep k rl bl) (hfuel : FuelCovers rl bl fuel) (hlen : bl.length < 2 ^ 32)
    (reason : block_reason_t) (object : Option Nat) (result : Int) :
    ∃ k1, scheduler_unblock_all fuel k reason object result =
        some (k1, (bl.filter (waits_on k reason object)).length) ∧
      SchedRep k1 (fun p => rl p ++ bl.filter (wakes k reason object p))
        (bl.filter (fun t => !waits_on k reason object t)) ∧
      (∀ t ∈ bl.filter (fun t => !waits_on k reason object t),
        waits_on k1 reason object t = false) ∧
      (∀ t ∈ bl, waits_on k reason object t = true →
        (k1.tcb t).state = task_state_t.READY ∧ (k1.tcb t).block_result = result ∧
        (k1.tcb t).block_reason = block_reason_t.NONE ∧ (k1.tcb t).block_object = none ∧
        (k1.tcb t).priority = (k.tcb t).priority) ∧
      (∀ t, ¬(t ∈ bl ∧ waits_on k reason object t = true) →
        tcb_data (k1.tcb t) = tcb_data (k.tcb t)) ∧
      (k1.pendsv = true ↔
        k.pendsv = true ∨ 0 < (bl.filter (waits_on k reason object)).length) := by
  obtain ⟨k1, g1, g2, _, g4, g5, _, g7⟩ := rep_unblock_all hrep hfuel hlen reason object result
  refine ⟨k1, g1, g2, ?_, ?_, g4, g7⟩
  · intro t ht
    have hw : waits_on k reason object t = false := by
      have := (List.mem_filter.1 ht).2
      simpa using this
    rw [waits_on_congr (g4 t (fun hh => by rw [hw] at hh; cases hh.2)), hw]
  · intro t ht hw
    have d := g5 t ht hw
    have h1 := data_field task_tcb_t.state (fun _ => rfl) d
    have h2 := data_field task_tcb_t.block_result (fun _ => rfl) d
    have h3 := data_field task_tcb_t.block_reason (fun _ => rfl) d
    have h4 := data_field task_tcb_t.block_object (fun _ => rfl) d
    have h5 := data_field task_tcb_t.priority (fun _ => rfl) d
    exact ⟨h1, h2, h3, h4, h5⟩

/-- Example: in `kernelW` (blocked list 6, 5, 3, 2, 1) the waiters of
the semaphore at 100 are unblocked with `KERNEL_ERR_STATE`. -/
theorem unblock_all_on_list_kernelW :
    ∃ k1, scheduler_unblock_all 8 kernelW block_reason_t.SEMAPHORE (some 100) KERNEL_ERR_STATE =
        some (k1, (blockedW.filter (waits_on kernelW block_reason_t.SEMAPHORE (some 100))).length) ∧
      SchedRep k1
        (fun p => readyL [4] p ++
          blockedW.filter (wakes kernelW block_reason_t.SEMAPHORE (some 100) p))
        (blockedW.filter (fun t => !waits_on kernelW block_reason_t.SEMAPHORE (some 100) t)) ∧
      (∀ t ∈ blockedW.filter (fun t => !waits_on kernelW block_reason_t.SEMAPHORE (some 100) t),
        waits_on k1 block_reason_t.SEMAPHORE (some 100) t = false) ∧
      (∀ t ∈ blockedW, waits_on kernelW block_reason_t.SEMAPHORE (some 100) t = true →
        (k1.tcb t).state = task_state_t.READY ∧ (k1.tcb t).block_result = KERNEL_ERR_STATE ∧
        (k1.tcb t).block_reason = block_reason_t.NONE ∧ (k1.tcb t).block_object = none ∧
        (k1.tcb t).priority = (kernelW.tcb t).priority) ∧
      (∀ t, ¬(t ∈ blockedW ∧ waits_on kernelW block_reason_t.SEMAPHORE (some 100) t = true) →
        tcb_data (k1.tcb t) = tcb_data (kernelW.tcb t)) ∧
      (k1.pendsv = true ↔ kernelW.pendsv = true ∨
        0 < (blockedW.filter (waits_on kernelW block_reason_t.SEMAPHORE (some 100))).length) :=
  unblock_all_on_list kernelW (readyL [4]) blockedW 8 kernelW_rep.1 kernelW_rep.2.1 (by decide)
    block_reason_t.SEMAPHORE (some 100) KERNEL_ERR_STATE

/-- In `kernelW` the waiters of the semaphore at 100 are, in blocked-list
order, the tasks 3 and 1. -/
theorem kernelW_sem_waiters :
    blockedW.filter (waits_on kernelW block_reason_t.SEMAPHORE (some 100)) = [3, 1] := by
  decide!

/-! ## Reset of a semaphore or a queue: the tasks of the blocked list -/

/-- A caller of `sem_take` that was suspended and runs again with a
`block_result` other than `KERNEL_OK` returns that result, the semaphore
untouched. -/
theorem sem_take_resume_result {k : Kernel} {rl : Nat → List Nat} {bl : List Nat} {fuel : Nat}
    (hrep : SchedRep k rl bl) (hf : FuelCovers rl bl fuel) {t : Nat}
    (hcur : k.current_task = some t) (hprio : (k.tcb t).priority < CONFIG_MAX_PRIORITY)
    (res : Int) (hres : (k.tcb t).block_result = res) (hne : res ≠ KERNEL_OK)
    (sem : Nat) (s : semaphore_t) (timeout : Nat) :
    ∃ k1, sem_take_resume fuel k t sem s timeout = some (k1, s, Outcome.done res) := by
  obtain ⟨k1, e1, d1, _, _⟩ := rep_yield hrep hf hcur hprio
  have hr : (k1.tcb t).block_result = res := by
    rw [data_field task_tcb_t.block_result (fun _ => rfl) (d1 t)]
    exact hres
  refine ⟨k1, ?_⟩
  simp only [sem_take_resume, scheduler_block_task_resume, e1, hr, if_pos hne]

/-- In a state with well-formed scheduler lists (blocked list `bl`):
`sem_reset(sem, n)` with a valid `n` returns `KERNEL_OK` with
`sem.count = n`; every task of `bl` that was blocked on `sem` is Ready with
`block_result = KERNEL_ERR_STATE`, and when it runs again its `sem_take`
returns `KERNEL_ERR_STATE`; the other blocked tasks stay blocked, in order,
and all other tasks are as before.  `queue_reset(q)` returns `KERNEL_OK` with
`head = tail = count = 0`; every task blocked on `q` for send or for receive
is Ready, on its ready list, with `block_result = KERNEL_ERR_STATE`, and the
others are as before.  `sem_reset` with `bad < 0`, or with `max_count > 0` and
`bad > max_count`, returns `KERNEL_ERR_PARAM` and changes nothing. -/
theorem reset_on_list (k : Kernel) (rl : Nat → List Nat) (bl : List Nat) (fuel : Nat)
    (hrep : SchedRep k rl bl) (hfuel : FuelCovers rl bl fuel) (hlen : bl.length < 2 ^ 32)
    (sem queue : Nat) (s : semaphore_t) (q : msg_queue_t) (n bad : Int)
    (hn : ¬(n < 0 ∨ (s.max_count > 0 ∧ n > s.max_count)))
    (hbad : bad < 0 ∨ (s.max_count > 0 ∧ bad > s.max_count)) :
    (∃ k1, sem_reset fuel k (some sem) s n = some (k1, { s with count := n }, KERNEL_OK) ∧
      SchedRep k1 (fun p => rl p ++ bl.filter (wakes k block_reason_t.SEMAPHORE (some sem) p))
        (bl.filter (fun t => !waits_on k block_reason_t.SEMAPHORE (some sem) t)) ∧
      (∀ t ∈ bl, waits_on k block_reason_t.SEMAPHORE (some sem) t = true →
        (k1.tcb t).state = task_state_t.READY ∧ (k1.tcb t).block_result = KERNEL_ERR_STATE ∧
        ∀ (k2 : Kernel) (rl2 : Nat → List Nat) (bl2 : List Nat) (s2 : semaphore_t)
          (timeout : Nat), SchedRep k2 rl2 bl2 → FuelCovers rl2 bl2 fuel →
          k2.current_task = some t → tcb_data (k2.tcb t) = tcb_data (k1.tcb t) →
          ∃ k3, sem_take_resume fuel k2 t sem s2 timeout =
            some (k3, s2, Outcome.done KERNEL_ERR_STATE)) ∧
      (∀ t, ¬(t ∈ bl ∧ waits_on k block_reason_t.SEMAPHORE (some sem) t = true) →
        tcb_data (k1.tcb t) = tcb_data (k.tcb t))) ∧
    (∃ k2 rl2, queue_reset fuel k (some queue) q =
        some (k2, { q with head := 0, tail := 0, count := 0 }, KERNEL_OK) ∧
      SchedRep k2 rl2 (bl.filter (fun t =>
        !waits_on k block_reason_t.QUEUE_SEND (some queue) t &&
        !waits_on k block_reason_t.QUEUE_RECV (some queue) t)) ∧
      (∀ t ∈ bl, waits_on k block_reason_t.QUEUE_SEND (some queue) t = true ∨
          waits_on k block_reason_t.QUEUE_RECV (some queue) t = true →
        (k2.tcb t).state = task_state_t.READY ∧ (k2.tcb t).block_result = KERNEL_ERR_STATE ∧
        t ∈ rl2 (k.tcb t).priority) ∧
      (∀ t, ¬(t ∈ bl ∧ (waits_on k block_reason_t.QUEUE_SEND (some queue) t = true ∨
          waits_on k block_reason_t.QUEUE_RECV (some queue) t = true)) →
        tcb_data (k2.tcb t) = tcb_data (k.tcb t))) ∧
    sem_reset fuel k (some sem) s bad = some (k, s, KERNEL_ERR_PARAM) := by
  have hstate : KERNEL_ERR_STATE ≠ KERNEL_OK := by decide
  refine ⟨?_, ?_, ?_⟩
  · obtain ⟨k1, g1, g2, _, g4, g5, _, _⟩ := rep_unblock_all hrep hfuel hlen
      block_reason_t.SEMAPHORE (some sem) KERNEL_ERR_STATE
    refine ⟨k1, ?_, g2, ?_, g4⟩
    · simp only [sem_reset, if_neg hn, g1]
    · intro t ht hw
      have d := g5 t ht hw
      have h1 := data_field task_tcb_t.state (fun _ => rfl) d
      have h2 := data_field task_tcb_t.block_result (fun _ => rfl) d
      have h3 := data_field task_tcb_t.priority (fun _ => rfl) d
      refine ⟨h1, h2, ?_⟩
      intro k2 rl2 bl2 s2 timeout hrep2 hf2 hcur2 hd2
      refine sem_take_resume_result hrep2 hf2 hcur2 ?_ KERNEL_ERR_STATE ?_ hstate sem s2 timeout
      · rw [priority_of_data hd2]
        have h4 : (k1.tcb t).priority = (k.tcb t).priority := h3
        rw [h4]
        exact hrep.blocked_prio t ht
      · rw [data_field task_tcb_t.block_result (fun _ => rfl) hd2]
        exact h2
  · obtain ⟨k1, g1, g2, g3, g4, g5, _, _⟩ := rep_unblock_all hrep hfuel hlen
      block_reason_t.QUEUE_SEND (some queue) KERNEL_ERR_STATE
    have hlen1 : (bl.filter (fun t => !waits_on k block_reason_t.QUEUE_SEND (some queue) t)).length
        < 2 ^ 32 := lt_of_le_of_lt (List.length_filter_le _ _) hlen
    obtain ⟨k2, e1, e2, _, e4, e5, _, _⟩ := rep_unblock_all g2 g3 hlen1
      block_reason_t.QUEUE_RECV (some queue) KERNEL_ERR_STATE
    have hkeep : ∀ t ∈ bl, waits_on k block_reason_t.QUEUE_SEND (some queue) t = false →
        t ∈ bl.filter (fun t => !waits_on k block_reason_t.QUEUE_SEND (some queue) t) ∧
        tcb_data (k1.tcb t) = tcb_data (k.tcb t) := by
      intro t ht hw
      refine ⟨List.mem_filter.2 ⟨ht, by simp [hw]⟩, g4 t ?_⟩
      rintro ⟨_, h⟩
      rw [hw] at h
      cases h
    have hexcl : ∀ t, waits_on k block_reason_t.QUEUE_RECV (some queue) t = true →
        waits_on k block_reason_t.QUEUE_SEND (some queue) t = false := by
      intro t h
      have h1 := ((waits_on_iff _ _ _ _).1 h).1
      cases hb : waits_on k block_reason_t.QUEUE_SEND (some queue) t with
      | false => rfl
      | true =>
        have h2 := ((waits_on_iff _ _ _ _).1 hb).1
        rw [h1] at h2
        cases h2
    have hbl : (bl.filter (fun t => !waits_on k block_reason_t.QUEUE_SEND (some queue) t)).filter
          (fun t => !waits_on k1 block_reason_t.QUEUE_RECV (some queue) t) =
        bl.filter (fun t => !waits_on k block_reason_t.QUEUE_SEND (some queue) t &&
          !waits_on k block_reason_t.QUEUE_RECV (some queue) t) := by
      rw [List.filter_filter]
      apply List.filter_congr
      intro t ht
      cases hw : waits_on k block_reason_t.QUEUE_SEND (some queue) t with
      | true => simp
      | false =>
        rw [waits_on_congr (hkeep t ht hw).2]
        simp
    rw [hbl] at e2
    refine ⟨k2, _, ?_, e2, ?_, ?_⟩
    · simp only [queue_reset, g1, e1]
    · intro t ht hw
      cases hs : waits_on k block_reason_t.QUEUE_SEND (some queue) t with
      | true =>
        have hnot : ¬(t ∈ bl.filter
            (fun t => !waits_on k block_reason_t.QUEUE_SEND (some queue) t) ∧
            waits_on k1 block_reason_t.QUEUE_RECV (some queue) t = true) := by
          rintro ⟨hm, _⟩
          have := (List.mem_filter.1 hm).2
          rw [hs] at this
          cases this
        have d := (e4 t hnot).trans (g5 t ht hs)
        have h1 := data_field task_tcb_t.state (fun _ => rfl) d
        have h2 := data_field task_tcb_t.block_result (fun _ => rfl) d
        refine ⟨h1, h2, ?_⟩
        apply List.mem_append_left
        apply List.mem_append_right
        exact List.mem_filter.2 ⟨ht, by simp [wakes, hs]⟩
      | false =>
        have hr : waits_on k block_reason_t.QUEUE_RECV (some queue) t = true := by
          rcases hw with h | h
          · rw [hs] at h
            cases h
          · exact h
        obtain ⟨hm, hd⟩ := hkeep t ht hs
        have hr1 : waits_on k1 block_reason_t.QUEUE_RECV (some queue) t = true := by
          rw [waits_on_congr hd]
          exact hr
        have d := e5 t hm hr1
        have h1 := data_field task_tcb_t.state (fun _ => rfl) d
        have h2 := data_field task_tcb_t.block_result (fun _ => rfl) d
        refine ⟨h1, h2, ?_⟩
        apply List.mem_append_right
        refine List.mem_filter.2 ⟨hm, ?_⟩
        have hp : (k1.tcb t).priority = (k.tcb t).priority := priority_of_data hd
        simp [wakes, hr1, hp]
    · intro t hnot
      have h1 : ¬(t ∈ bl ∧ waits_on k block_reason_t.QUEUE_SEND (some queue) t = true) :=
        fun hh => hnot ⟨hh.1, Or.inl hh.2⟩
      have d1 := g4 t h1
      have h2 : ¬(t ∈ bl.filter
          (fun t => !waits_on k block_reason_t.QUEUE_SEND (some queue) t) ∧
          waits_on k1 block_reason_t.QUEUE_RECV (some queue) t = true) := by
        rintro ⟨hm, hw⟩
        rw [waits_on_congr d1] at hw
        exact hnot ⟨(List.mem_filter.1 hm).1, Or.inr hw⟩
      exact (e4 t h2).trans d1
  · simp only [sem_reset, if_pos hbad]

/-- Example: in `kernelW` the semaphore at 100 (two waiters, limit 1)
is reset to 1 and, refused, to 2; the queue at 300 (one sender and one receiver
waiting) is reset. -/
theorem reset_on_list_kernelW :
    (∃ k1, sem_reset 8 kernelW (some 100) sem0 1 = some (k1, { sem0 with count := 1 }, KERNEL_OK) ∧
      SchedRep k1
        (fun p => readyL [4] p ++
          blockedW.filter (wakes kernelW block_reason_t.SEMAPHORE (some 100) p))
        (blockedW.filter (fun t => !waits_on kernelW block_reason_t.SEMAPHORE (some 100) t)) ∧
      (∀ t ∈ blockedW, waits_on kernelW block_reason_t.SEMAPHORE (some 100) t = true →
        (k1.tcb t).state = task_state_t.READY ∧ (k1.tcb t).block_result = KERNEL_ERR_STATE ∧
        ∀ (k2 : Kernel) (rl2 : Nat → List Nat) (bl2 : List Nat) (s2 : semaphore_t)
          (timeout : Nat), SchedRep k2 rl2 bl2 → FuelCovers rl2 bl2 8 →
          k2.current_task = some t → tcb_data (k2.tcb t) = tcb_data (k1.tcb t) →
          ∃ k3, sem_take_resume 8 k2 t 100 s2 timeout =
            some (k3, s2, Outcome.done KERNEL_ERR_STATE)) ∧
      (∀ t, ¬(t ∈ blockedW ∧ waits_on kernelW block_reason_t.SEMAPHORE (some 100) t = true) →
        tcb_data (k1.tcb t) = tcb_data (kernelW.tcb t))) ∧
    (∃ k2 rl2, queue_reset 8 kernelW (some 300) queueTwo =
        some (k2, { queueTwo with head := 0, tail := 0, count := 0 }, KERNEL_OK) ∧
      SchedRep k2 rl2 (blockedW.filter (fun t =>
        !waits_on kernelW block_reason_t.QUEUE_SEND (some 300) t &&
        !waits_on kernelW block_reason_t.QUEUE_RECV (some 300) t)) ∧
      (∀ t ∈ blockedW, waits_on kernelW block_reason_t.QUEUE_SEND (some 300) t = true ∨
          waits_on kernelW block_reason_t.QUEUE_RECV (some 300) t = true →
        (k2.tcb t).state = task_state_t.READY ∧ (k2.tcb t).block_result = KERNEL_ERR_STATE ∧
        t ∈ rl2 (kernelW.tcb t).priority) ∧
      (∀ t, ¬(t ∈ blockedW ∧ (waits_on kernelW block_reason_t.QUEUE_SEND (some 300) t = true ∨
          waits_on kernelW block_reason_t.QUEUE_RECV (some 300) t = true)) →
        tcb_data (k2.tcb t) = tcb_data (kernelW.tcb t))) ∧
    sem_reset 8 kernelW (some 100) sem0 2 = some (kernelW, sem0, KERNEL_ERR_PARAM) :=
  reset_on_list kernelW (readyL [4]) blockedW 8 kernelW_rep.1 kernelW_rep.2.1 (by decide)
    100 300 sem0 queueTwo 1 2 (by decide) (by decide)

/-! ## The effect of `mutex_unlock` on the tasks of the blocked list -/

/-- The task found by the search has the least priority value among the
matching tasks of the list and does not lose against the initial
candidate. -/
theorem pick_best_min (k : Kernel) (reason : block_reason_t) (object : Option Nat) :
    ∀ (l : List Nat) (best : Option Nat) (b : Nat),
      pick_best k reason object l best = some b →
      (∀ t ∈ l, waits_on k reason object t = true → (k.tcb b).priority ≤ (k.tcb t).priority) ∧
      (∀ b0, best = some b0 → (k.tcb b).priority ≤ (k.tcb b0).priority) := by
  intro l
  induction l with
  | nil =>
    intro best b h
    refine ⟨fun t ht => (by cases ht), ?_⟩
    intro b0 hb0
    have h1 : best = some b := h
    rw [h1] at hb0
    rw [Option.some.inj hb0]
  | cons x l ih =>
    intro best b h
    simp only [pick_best, List.foldl_cons] at h
    obtain ⟨h1, h2⟩ := ih _ b h
    by_cases hW : (k.tcb x).block_reason = reason ∧ (k.tcb x).block_object = object
    · have hx : (k.tcb b).priority ≤ (k.tcb x).priority ∧
          ∀ b0, best = some b0 → (k.tcb b).priority ≤ (k.tcb b0).priority := by
        cases best with
        | none =>
          have e : pick_step k reason object none x = some x := by
            simp only [pick_step, if_pos hW]
          exact ⟨h2 x e, fun b0 hb0 => by cases hb0⟩
        | some c =>
          by_cases hlt : (k.tcb x).priority < (k.tcb c).priority
          · have e : pick_step k reason object (some c) x = some x := by
              simp only [pick_step, if_pos hW, if_pos hlt]
            have h3 := h2 x e
            refine ⟨h3, ?_⟩
            intro b0 hb0
            rw [← Option.some.inj hb0]
            omega
          · have e : pick_step k reason object (some c) x = some c := by
              simp only [pick_step, if_pos hW, if_neg hlt]
            have h3 := h2 c e
            refine ⟨by omega, ?_⟩
            intro b0 hb0
            rw [← Option.some.inj hb0]
            exact h3
      refine ⟨?_, hx.2⟩
      intro t ht hw
      rcases List.mem_cons.1 ht with e | hm
      · rw [e]
        exact hx.1
      · exact h1 t hm hw
    · have e : pick_step k reason object best x = best := by
        simp only [pick_step, if_neg hW]
      rw [e] at h2
      refine ⟨?_, h2⟩
      intro t ht hw
      rcases List.mem_cons.1 ht with e1 | hm
      · rw [e1] at hw
        exact absurd ((waits_on_iff _ _ _ _).1 hw) hW
      · exact h1 t hm hw

/-- The search finds nothing only when no task of the list matches. -/
theorem pick_best_none (k : Kernel) (reason : block_reason_t) (object : Option Nat) :
    ∀ (l : List Nat) (best : Option Nat),
      pick_best k reason object l best = none →
      best = none ∧ ∀ t ∈ l, waits_on k reason object t = false := by
  intro l
  induction l with
  | nil =>
    intro best h
    exact ⟨h, fun t ht => by cases ht⟩
  | cons x l ih =>
    intro best h
    simp only [pick_best, List.foldl_cons] at h
    obtain ⟨h1, h2⟩ := ih _ h
    by_cases hW : (k.tcb x).block_reason = reason ∧ (k.tcb x).block_object = object
    · exfalso
      unfold pick_step at h1
      rw [if_pos hW] at h1
      cases best with
      | none => cases h1
      | some c =>
        simp only at h1
        split at h1 <;> cases h1
    · have e : pick_step k reason object best x = best := by
        simp only [pick_step, if_neg hW]
      rw [e] at h1
      refine ⟨h1, ?_⟩
      intro t ht
      rcases List.mem_cons.1 ht with e1 | hm
      · rw [e1]
        cases hb : waits_on k reason object x with
        | false => rfl
        | true => exact absurd ((waits_on_iff _ _ _ _).1 hb) hW
      · exact h2 t hm

/-- In task context with current task `T` and well-formed scheduler lists,
for the tasks of the blocked list: `mutex_unlock` on a mutex `mo` whose owner is not `T` (an
unlocked mutex included) returns `KERNEL_ERR_STATE` and leaves the mutex and
the whole kernel state as they are.  On a mutex `m` owned by `T` with
`recursive_count = 1` it returns `KERNEL_OK` with `locked = 0`, `owner = NULL`
and `recursive_count = 0`; the priority of `T` is then its base priority; with
no task waiting on the mutex the blocked list and all other tasks are as
before; otherwise a waiting task `b` whose priority value is least among the
waiters leaves the blocked list, is Ready on its ready list with
`block_result = KERNEL_OK`, and all tasks other than `T` and `b` are as
before. -/
theorem unlock_on_list (k : Kernel) (rl : Nat → List Nat) (bl : List Nat) (fuel : Nat)
    (hrep : SchedRep k rl bl) (hfuel : FuelCovers rl bl fuel) (T mtx p : Nat) (mo m : mutex_t)
    (hcur : k.current_task = some T) (hisr : k.ipsr = 0)
    (hno : mo.owner ≠ some T)
    (hown : m.owner = some T) (hrc : m.recursive_count = 1)
    (hp : p < CONFIG_MAX_PRIORITY) (hT : T ∈ rl p)
    (hst : (k.tcb T).state = task_state_t.READY ∨ (k.tcb T).state = task_state_t.RUNNING)
    (hbase : (k.tcb T).base_priority < CONFIG_MAX_PRIORITY) :
    mutex_unlock fuel k (some mtx) mo = some (k, mo, KERNEL_ERR_STATE) ∧
    ∃ k1 rl1 bl1, mutex_unlock fuel k (some mtx) m =
        some (k1, { m with locked := 0, owner := none, recursive_count := 0 }, KERNEL_OK) ∧
      SchedRep k1 rl1 bl1 ∧
      (k1.tcb T).priority = (k.tcb T).base_priority ∧
      ((∀ t ∈ bl, waits_on k block_reason_t.MUTEX (some mtx) t = false) →
        bl1 = bl ∧ ∀ u, u ≠ T → tcb_data (k1.tcb u) = tcb_data (k.tcb u)) ∧
      ((∃ t ∈ bl, waits_on k block_reason_t.MUTEX (some mtx) t = true) →
        ∃ b ∈ bl, waits_on k block_reason_t.MUTEX (some mtx) b = true ∧
          (∀ t ∈ bl, waits_on k block_reason_t.MUTEX (some mtx) t = true →
            (k.tcb b).priority ≤ (k.tcb t).priority) ∧
          bl1 = bl.erase b ∧ b ∈ rl1 (k.tcb b).priority ∧
          (k1.tcb b).state = task_state_t.READY ∧ (k1.tcb b).block_result = KERNEL_OK ∧
          ∀ u, u ≠ T → u ≠ b → tcb_data (k1.tcb u) = tcb_data (k.tcb u)) := by
  have h1 : is_isr_context k = false := by simp [is_isr_context, hisr]
  have h2 : task_get_current k = some T := hcur
  have hTnb : T ∉ bl := hrep.disjoint p hp T hT
  constructor
  · simp only [mutex_unlock, h1, h2, Bool.false_eq_true, if_false, ne_eq, hno, not_false_eq_true,
      if_true]
  have hstep : ∃ k2 rl2, (if CONFIG_PRIORITY_INHERITANCE = true ∧
        (k.tcb T).priority ≠ (k.tcb T).base_priority then
        scheduler_set_priority fuel k (some T) (k.tcb T).base_priority else some k) = some k2 ∧
      SchedRep k2 rl2 bl ∧ FuelCovers rl2 bl fuel ∧
      (∀ u, u ≠ T → tcb_data (k2.tcb u) = tcb_data (k.tcb u)) ∧
      (k2.tcb T).priority = (k.tcb T).base_priority := by
    by_cases hpb : (k.tcb T).priority = (k.tcb T).base_priority
    · refine ⟨k, rl, ?_, hrep, hfuel, fun _ _ => rfl, hpb⟩
      rw [if_neg (fun hh => hh.2 hpb)]
    · obtain ⟨k2, e2, rep2, fc2, oth2, dA2, _, _⟩ :=
        rep_set_priority_ready hrep hfuel hp hT hst hbase
      refine ⟨k2, _, ?_, rep2, fc2, oth2, ?_⟩
      · rw [if_pos ⟨rfl, hpb⟩]
        exact e2
      · have h := data_field task_tcb_t.priority (fun _ => rfl) dA2
        exact h
  obtain ⟨k2, rl2, e2, rep2, fc2, oth2, hp2⟩ := hstep
  have hd2 : ∀ t ∈ bl, tcb_data (k2.tcb t) = tcb_data (k.tcb t) :=
    fun t ht => oth2 t (fun e => hTnb (e ▸ ht))
  have hrc1 : ¬ m.recursive_count > 1 := by omega
  have hown1 : ¬ m.owner ≠ some T := fun hh => hh hown
  rcases rep_unblock_one rep2 fc2 block_reason_t.MUTEX (some mtx) KERNEL_OK with
    ⟨hnone, e3⟩ | ⟨best, k3, hbest, hmem, e3, rep3, oth3, dB3, _⟩
  · have hnw := (pick_best_none k2 _ _ bl none hnone).2
    refine ⟨k2, rl2, bl, ?_, rep2, hp2, ?_, ?_⟩
    · simp only [mutex_unlock, h1, h2, Bool.false_eq_true, if_false, if_neg hown1, if_neg hrc1,
        e2, e3]
    · intro _
      exact ⟨rfl, oth2⟩
    · rintro ⟨t, ht, hw⟩
      rw [← waits_on_congr (hd2 t ht), hnw t ht] at hw
      cases hw
  · have hbT : T ≠ best := fun e => hTnb (e ▸ hmem)
    rcases pick_best_spec k2 _ _ bl none best hbest with hc | ⟨_, hW2⟩
    · cases hc
    have hw2 : waits_on k2 block_reason_t.MUTEX (some mtx) best = true :=
      (waits_on_iff _ _ _ _).2 hW2
    have hwb : waits_on k block_reason_t.MUTEX (some mtx) best = true := by
      rw [← waits_on_congr (hd2 best hmem)]
      exact hw2
    have hpbest : (k2.tcb best).priority = (k.tcb best).priority :=
      priority_of_data (hd2 best hmem)
    refine ⟨k3, _, bl.erase best, ?_, rep3, ?_, ?_, ?_⟩
    · simp only [mutex_unlock, h1, h2, Bool.false_eq_true, if_false, if_neg hown1, if_neg hrc1,
        e2, e3]
    · rw [priority_of_data (oth3 T hbT)]
      exact hp2
    · intro hnow
      rw [hnow best hmem] at hwb
      cases hwb
    · intro _
      refine ⟨best, hmem, hwb, ?_, rfl, ?_, ?_, ?_, ?_⟩
      · intro t ht hw
        have h3 := (pick_best_min k2 _ _ bl none best hbest).1 t ht
          (by rw [waits_on_congr (hd2 t ht)]; exact hw)
        rw [hpbest, priority_of_data (hd2 t ht)] at h3
        exact h3
      · rw [← hpbest, Function.update_same]
        exact List.mem_append_right _ (List.mem_singleton.2 rfl)
      · have h := data_field task_tcb_t.state (fun _ => rfl) dB3
        exact h
      · have h := data_field task_tcb_t.block_result (fun _ => rfl) dB3
        exact h
      · intro u huT hub
        exact (oth3 u hub).trans (oth2 u huT)

/-- Example: task 4 runs in `kernelW`, where task 2 waits for the
mutex at 200; `mutexOther` is held by task 2 and `mutexW` by task 4. -/
theorem unlock_on_list_kernelW :
    mutex_unlock 8 kernelW (some 200) mutexOther = some (kernelW, mutexOther, KERNEL_ERR_STATE) ∧
    ∃ k1 rl1 bl1, mutex_unlock 8 kernelW (some 200) mutexW =
        some (k1, { mutexW with locked := 0, owner := none, recursive_count := 0 }, KERNEL_OK) ∧
      SchedRep k1 rl1 bl1 ∧
      (k1.tcb 4).priority = (kernelW.tcb 4).base_priority ∧
      ((∀ t ∈ blockedW, waits_on kernelW block_reason_t.MUTEX (some 200) t = false) →
        bl1 = blockedW ∧ ∀ u, u ≠ 4 → tcb_data (k1.tcb u) = tcb_data (kernelW.tcb u)) ∧
      ((∃ t ∈ blockedW, waits_on kernelW block_reason_t.MUTEX (some 200) t = true) →
        ∃ b ∈ blockedW, waits_on kernelW block_reason_t.MUTEX (some 200) b = true ∧
          (∀ t ∈ blockedW, waits_on kernelW block_reason_t.MUTEX (some 200) t = true →
            (kernelW.tcb b).priority ≤ (kernelW.tcb t).priority) ∧
          bl1 = blockedW.erase b ∧ b ∈ rl1 (kernelW.tcb b).priority ∧
          (k1.tcb b).state = task_state_t.READY ∧ (k1.tcb b).block_result = KERNEL_OK ∧
          ∀ u, u ≠ 4 → u ≠ b → tcb_data (k1.tcb u) = tcb_data (kernelW.tcb u)) :=
  unlock_on_list kernelW (readyL [4]) blockedW 8 kernelW_rep.1 kernelW_rep.2.1 4 200 5 mutexOther
    mutexW kernelW_rep.2.2.2.2 kernelW_rep.2.2.2.1 (by decide) (by decide) (by decide)
    (by decide) (by rw [readyL_same]; exact List.mem_singleton.2 rfl)
    (Or.inl kernelW_state_4) (by rw [(kernelW_rep.2.2.1 4).2]; decide)

/-- In `kernelW` the only waiter of the mutex at 200 is task 2. -/
theorem kernelW_mutex_waiters :
    blockedW.filter (waits_on kernelW block_reason_t.MUTEX (some 200)) = [2] := by
  decide!

/-! ## C31: `event_wait` without blocking -/

theorem and_or_absorb (f b m : Nat) : (f ||| b) &&& (b &&& m) = b &&& m := by
  apply Nat.eq_of_testBit_eq
  intro i
  simp only [Nat.testBit_and, Nat.testBit_or]
  cases f.testBit i <;> cases b.testBit i <;> cases m.testBit i <;> rfl

theorem event_mask_eq : UINT32_MAX ^^^ EVENT_CLEAR_ON_EXIT = 2 ^ 31 - 1 := by
  decide

theorem and_event_mask (b : Nat) : b &&& (UINT32_MAX ^^^ EVENT_CLEAR_ON_EXIT) = b % 2 ^ 31 := by
  rw [event_mask_eq]
  exact Nat.and_pow_two_sub_one_eq_mod b 31

theorem event_match_all (f b w : Nat) (hw : w ≠ 0) :
    event_match f b w = true ↔ f &&& b = b := by
  unfold event_match
  rw [if_pos hw]
  exact beq_iff_eq

theorem event_match_any (f b : Nat) : event_match f b 0 = true ↔ f &&& b ≠ 0 := by
  unfold event_match
  simp

/-- The function `event_wait` in task context on a request with an event bit:
it is one pass of the loop on the request without bit 31. -/
theorem event_wait_eq {k : Kernel} {T : Nat} (hcur : k.current_task = some T)
    (hisr : k.ipsr = 0) (eg : Nat) (e : event_group_t) (b w timeout : Nat) (hb : b ≠ 0) :
    event_wait k (some eg) e b w timeout =
      event_wait_attempt (k.setTcb T (fun c =>
          { c with event_wait_bits := b &&& (UINT32_MAX ^^^ EVENT_CLEAR_ON_EXIT),
                   event_wait_all := if w ≠ 0 then 1 else 0 })) eg e
        (b &&& (UINT32_MAX ^^^ EVENT_CLEAR_ON_EXIT)) (b &&& EVENT_CLEAR_ON_EXIT) w timeout := by
  have h1 : is_isr_context k = false := by simp [is_isr_context, hisr]
  have h2 : task_get_current k = some T := hcur
  simp only [event_wait, if_neg hb, h1, h2, Bool.false_eq_true, if_false]

/-- Counterexample for C31: in `kernelA` no task is running (as before
`scheduler_start`) and the call is not made from an interrupt handler; the
flag word `0x6` satisfies the request `0x6` in mode Any and in mode All, but
`event_wait` returns 0, not `0x6`, and leaves the flag word as it is. -/
theorem C31_counterexample_no_current_task :
    kernelA.current_task = none ∧ kernelA.ipsr = 0 ∧
    event_match 6 6 EVENT_WAIT_ANY = true ∧ event_match 6 6 EVENT_WAIT_ALL = true ∧
    (event_wait kernelA (some 400) { flags := 6 } 6 EVENT_WAIT_ANY 0).map
      (fun r => (r.2.1.flags, r.2.2)) = some (6, Outcome.done 0) ∧
    (event_wait kernelA (some 400) { flags := 6 } 6 EVENT_WAIT_ALL 100).map
      (fun r => (r.2.1.flags, r.2.2)) = some (6, Outcome.done 0) := by
  decide

/-- Claim C31, amended.  In task context (current task `T`, not in an
interrupt handler), for every event group with flag word `f` and every request
`b` whose part `b'` without bit 31 is not 0: when the condition holds (mode
All: `f & b' = b'`; mode Any: `f & b' != 0`) `event_wait` returns `f & b'` at
once, for every timeout, the only write to the kernel state being the request
stored in the caller's TCB; when the condition does not hold and `timeout = 0`
it returns 0 and leaves `f` as it is.  With well-formed scheduler lists, after
`event_set(eg, bits)` the call `event_wait(eg, bits, Any, 0)` returns `bits`
without bit 31, which is `bits` for every `bits < 2^31`; a wait for `0x6` in
mode All on flags `0x2` returns 0, and it returns `0x6` on every flag word
that contains `0x6`.  In a state `k0` without a current task, or in an
interrupt handler, `event_wait` returns 0 whatever the flag word is and
changes nothing. -/
theorem C31_event_wait (k : Kernel) (T eg : Nat) (e : event_group_t) (b w timeout : Nat)
    (hcur : k.current_task = some T) (hisr : k.ipsr = 0)
    (hb : b &&& (UINT32_MAX ^^^ EVENT_CLEAR_ON_EXIT) ≠ 0)
    (rl : Nat → List Nat) (bl : List Nat) (fuel : Nat) (hrep : SchedRep k rl bl)
    (hfuel : FuelCovers rl bl fuel) (hlen : bl.length < 2 ^ 32) (bits : Nat) :
    (((w ≠ 0 ∧ e.flags &&& (b &&& (UINT32_MAX ^^^ EVENT_CLEAR_ON_EXIT)) =
          b &&& (UINT32_MAX ^^^ EVENT_CLEAR_ON_EXIT)) ∨
        (w = 0 ∧ e.flags &&& (b &&& (UINT32_MAX ^^^ EVENT_CLEAR_ON_EXIT)) ≠ 0)) →
      ∃ e1, event_wait k (some eg) e b w timeout =
        some (k.setTcb T (fun c =>
            { c with event_wait_bits := b &&& (UINT32_MAX ^^^ EVENT_CLEAR_ON_EXIT),
                     event_wait_all := if w ≠ 0 then 1 else 0 }), e1,
          Outcome.done (Int.ofNat (e.flags &&& (b &&& (UINT32_MAX ^^^ EVENT_CLEAR_ON_EXIT)))))) ∧
    (¬((w ≠ 0 ∧ e.flags &&& (b &&& (UINT32_MAX ^^^ EVENT_CLEAR_ON_EXIT)) =
          b &&& (UINT32_MAX ^^^ EVENT_CLEAR_ON_EXIT)) ∨
        (w = 0 ∧ e.flags &&& (b &&& (UINT32_MAX ^^^ EVENT_CLEAR_ON_EXIT)) ≠ 0)) →
      event_wait k (some eg) e b w 0 =
        some (k.setTcb T (fun c =>
            { c with event_wait_bits := b &&& (UINT32_MAX ^^^ EVENT_CLEAR_ON_EXIT),
                     event_wait_all := if w ≠ 0 then 1 else 0 }), e, Outcome.done 0)) ∧
    (∃ k1 e1, event_set fuel k (some eg) e bits = some (k1, e1, KERNEL_OK) ∧
      ∃ k2 e2, event_wait k1 (some eg) e1 bits EVENT_WAIT_ANY 0 =
        some (k2, e2, Outcome.done (Int.ofNat (bits % 2 ^ 31))) ∧
      (bits < 2 ^ 31 → bits % 2 ^ 31 = bits)) ∧
    (e.flags = 2 → event_wait k (some eg) e 6 EVENT_WAIT_ALL 0 =
      some (k.setTcb T (fun c => { c with event_wait_bits := 6, event_wait_all := 1 }), e,
        Outcome.done 0)) ∧
    (e.flags &&& 6 = 6 → event_wait k (some eg) e 6 EVENT_WAIT_ALL timeout =
      some (k.setTcb T (fun c => { c with event_wait_bits := 6, event_wait_all := 1 }), e,
        Outcome.done 6)) ∧
    (∀ k0 : Kernel, k0.current_task = none ∨ k0.ipsr ≠ 0 →
      event_wait k0 (some eg) e b w timeout = some (k0, e, Outcome.done 0)) := by
  have hb0 : b ≠ 0 := by
    intro h0
    rw [h0] at hb
    exact hb (Nat.zero_and _)
  have hmatch : ∀ f m v : Nat, event_match f m v = true ↔
      ((v ≠ 0 ∧ f &&& m = m) ∨ (v = 0 ∧ f &&& m ≠ 0)) := by
    intro f m v
    by_cases hv : v = 0
    · subst hv
      rw [event_match_any]
      simp
    · rw [event_match_all f m v hv]
      simp [hv]
  have h6 : (6 : Nat) &&& (UINT32_MAX ^^^ EVENT_CLEAR_ON_EXIT) = 6 := by decide
  have h6c : (6 : Nat) &&& EVENT_CLEAR_ON_EXIT = 0 := by decide
  refine ⟨?_, ?_, ?_, ?_, ?_, ?_⟩
  · intro hc
    have hm := (hmatch e.flags _ w).2 hc
    rw [event_wait_eq hcur hisr eg e b w timeout hb0]
    simp only [event_wait_attempt, hm, if_true]
    exact ⟨_, rfl⟩
  · intro hc
    have hm : event_match e.flags (b &&& (UINT32_MAX ^^^ EVENT_CLEAR_ON_EXIT)) w = false := by
      cases hx : event_match e.flags (b &&& (UINT32_MAX ^^^ EVENT_CLEAR_ON_EXIT)) w with
      | false => rfl
      | true => exact absurd ((hmatch e.flags _ w).1 hx) hc
    rw [event_wait_eq hcur hisr eg e b w 0 hb0]
    simp only [event_wait_attempt, hm, Bool.false_eq_true, if_false, TIMEOUT_NONE, if_true]
  · obtain ⟨k1, e1, _, _, _, _, regs, _⟩ := rep_unblock_all hrep hfuel hlen
      block_reason_t.EVENT (some eg) KERNEL_OK
    have hcur1 : k1.current_task = some T := regs.1.trans hcur
    have hisr1 : k1.ipsr = 0 := regs.2.1.trans hisr
    refine ⟨k1, { e with flags := e.flags ||| bits }, ?_, ?_⟩
    · simp only [event_set, e1]
    · by_cases hz : bits = 0
      · subst hz
        simp only [event_wait, if_true]
        exact ⟨_, _, rfl, fun _ => rfl⟩
      · rw [event_wait_eq hcur1 hisr1 eg _ bits EVENT_WAIT_ANY 0 hz]
        have hr : (e.flags ||| bits) &&& (bits &&& (UINT32_MAX ^^^ EVENT_CLEAR_ON_EXIT)) =
            bits % 2 ^ 31 := by
          rw [and_or_absorb, and_event_mask]
        by_cases hm : event_match (e.flags ||| bits)
            (bits &&& (UINT32_MAX ^^^ EVENT_CLEAR_ON_EXIT)) EVENT_WAIT_ANY = true
        · simp only [event_wait_attempt, hm, if_true, hr]
          exact ⟨_, _, rfl, fun h => Nat.mod_eq_of_lt h⟩
        · have hm0 : bits % 2 ^ 31 = 0 := by
            have h1 : ¬((e.flags ||| bits) &&& (bits &&& (UINT32_MAX ^^^ EVENT_CLEAR_ON_EXIT))
                ≠ 0) := fun hh => hm ((event_match_any _ _).2 hh)
            rw [hr] at h1
            exact not_not.1 h1
          have hm1 : event_match (e.flags ||| bits)
              (bits &&& (UINT32_MAX ^^^ EVENT_CLEAR_ON_EXIT)) EVENT_WAIT_ANY = false := by
            simpa using hm
          simp only [event_wait_attempt, hm1, Bool.false_eq_true, if_false, TIMEOUT_NONE,
            if_true, hm0]
          exact ⟨_, _, rfl, fun h => hm0.symm.trans (Nat.mod_eq_of_lt h)⟩
  · intro hf2
    rw [event_wait_eq hcur hisr eg e 6 EVENT_WAIT_ALL 0 (by decide), h6, h6c]
    have hm : event_match e.flags 6 EVENT_WAIT_ALL = false := by
      rw [hf2]
      decide
    simp only [event_wait_attempt, hm, Bool.false_eq_true, if_false, TIMEOUT_NONE, if_true]
    rfl
  · intro hf6
    rw [event_wait_eq hcur hisr eg e 6 EVENT_WAIT_ALL timeout (by decide), h6, h6c]
    have hm : event_match e.flags 6 EVENT_WAIT_ALL = true :=
      (event_match_all _ _ _ (by decide)).2 hf6
    simp only [event_wait_attempt, hm, if_true, hf6]
    rfl
  · intro k0 h0
    unfold event_wait
    simp only []
    rw [if_neg hb0]
    by_cases hi : is_isr_context k0 = true
    · rw [if_pos hi]
    · rw [if_neg hi]
      have hc : task_get_current k0 = none := by
        rcases h0 with h | h
        · exact h
        · exact absurd (by simp [is_isr_context, h]) hi
      simp only [hc]

/-- Witness for C31: task 1 runs in `kernelB`; the flag word is `0x6` and the
request is `0x80000006` in mode All; `event_set` is called with `0x5`. -/
theorem C31_event_wait_witness :
    (((1 ≠ 0 ∧ (6 : Nat) &&& (0x80000006 &&& (UINT32_MAX ^^^ EVENT_CLEAR_ON_EXIT)) =
          0x80000006 &&& (UINT32_MAX ^^^ EVENT_CLEAR_ON_EXIT)) ∨
        (1 = 0 ∧ (6 : Nat) &&& (0x80000006 &&& (UINT32_MAX ^^^ EVENT_CLEAR_ON_EXIT)) ≠ 0)) →
      ∃ e1, event_wait kernelB (some 400) { flags := 6 } 0x80000006 1 100 =
        some (kernelB.setTcb 1 (fun c =>
            { c with event_wait_bits := 0x80000006 &&& (UINT32_MAX ^^^ EVENT_CLEAR_ON_EXIT),
                     event_wait_all := if 1 ≠ 0 then 1 else 0 }), e1,
          Outcome.done (Int.ofNat
            (6 &&& (0x80000006 &&& (UINT32_MAX ^^^ EVENT_CLEAR_ON_EXIT)))))) ∧
    (¬((1 ≠ 0 ∧ (6 : Nat) &&& (0x80000006 &&& (UINT32_MAX ^^^ EVENT_CLEAR_ON_EXIT)) =
          0x80000006 &&& (UINT32_MAX ^^^ EVENT_CLEAR_ON_EXIT)) ∨
        (1 = 0 ∧ (6 : Nat) &&& (0x80000006 &&& (UINT32_MAX ^^^ EVENT_CLEAR_ON_EXIT)) ≠ 0)) →
      event_wait kernelB (some 400) { flags := 6 } 0x80000006 1 0 =
        some (kernelB.setTcb 1 (fun c =>
            { c with event_wait_bits := 0x80000006 &&& (UINT32_MAX ^^^ EVENT_CLEAR_ON_EXIT),
                     event_wait_all := if 1 ≠ 0 then 1 else 0 }), { flags := 6 },
          Outcome.done 0)) ∧
    (∃ k1 e1, event_set 4 kernelB (some 400) { flags := 6 } 5 = some (k1, e1, KERNEL_OK) ∧
      ∃ k2 e2, event_wait k1 (some 400) e1 5 EVENT_WAIT_ANY 0 =
        some (k2, e2, Outcome.done (Int.ofNat (5 % 2 ^ 31))) ∧
      (5 < 2 ^ 31 → 5 % 2 ^ 31 = 5)) ∧
    ((6 : Nat) = 2 → event_wait kernelB (some 400) { flags := 6 } 6 EVENT_WAIT_ALL 0 =
      some (kernelB.setTcb 1 (fun c => { c with event_wait_bits := 6, event_wait_all := 1 }),
        { flags := 6 }, Outcome.done 0)) ∧
    ((6 : Nat) &&& 6 = 6 → event_wait kernelB (some 400) { flags := 6 } 6 EVENT_WAIT_ALL 100 =
      some (kernelB.setTcb 1 (fun c => { c with event_wait_bits := 6, event_wait_all := 1 }),
        { flags := 6 }, Outcome.done 6)) ∧
    (∀ k0 : Kernel, k0.current_task = none ∨ k0.ipsr ≠ 0 →
      event_wait k0 (some 400) { flags := 6 } 0x80000006 1 100 =
        some (k0, { flags := 6 }, Outcome.done 0)) :=
  C31_event_wait kernelB 1 400 { flags := 6 } 0x80000006 1 100 rfl rfl (by decide)
    (Function.update (fun _ => []) 5 [1]) [] 4 kernelB_rep kernelB_fuel (by decide) 5

/-! ## C32: the flag word of an event group -/

theorem testBit_not32 (x i : Nat) (hi : i < 32) :
    (UINT32_MAX ^^^ x).testBit i = !x.testBit i := by
  have e : UINT32_MAX = 2 ^ 32 - 1 := by decide
  rw [e, Nat.testBit_xor, Nat.testBit_two_pow_sub_one]
  simp [hi]

/-- The kernel state and the outcome of one pass of the loop of `event_wait`
do not depend on the clear request. -/
theorem event_wait_attempt_outcome (k : Kernel) (eg : Nat) (e : event_group_t)
    (bits c1 c2 w timeout : Nat) :
    (event_wait_attempt k eg e bits c1 w timeout).map (fun r => (r.1, r.2.2)) =
      (event_wait_attempt k eg e bits c2 w timeout).map (fun r => (r.1, r.2.2)) := by
  unfold event_wait_attempt
  simp only []
  by_cases hm : event_match e.flags bits w = true
  · simp only [hm, if_true, Option.map_some']
  · simp only [hm, Bool.false_eq_true, if_false]

/-- One pass of the loop of `event_wait` on a request without bit 31 returns
a value without bit 31. -/
theorem event_wait_attempt_result {k k1 : Kernel} {eg : Nat} {e e1 : event_group_t}
    {bits c w timeout : Nat} {r : Int} (hb : bits < 2 ^ 31)
    (h : event_wait_attempt k eg e bits c w timeout = some (k1, e1, Outcome.done r)) :
    0 ≤ r ∧ r < 2 ^ 31 := by
  unfold event_wait_attempt at h
  simp only [] at h
  split at h
  · have e2 := congrArg (fun x => x.2.2) (Option.some.inj h)
    simp only [Outcome.done.injEq] at e2
    rw [← e2]
    have hle : e.flags &&& bits ≤ bits := Nat.and_le_right
    constructor
    · exact Int.ofNat_nonneg _
    · have h1 : e.flags &&& bits < 2 ^ 31 := lt_of_le_of_lt hle hb
      have h2 : Int.ofNat (e.flags &&& bits) < Int.ofNat (2 ^ 31) := Int.ofNat_lt.2 h1
      exact lt_of_lt_of_le h2 (by decide)
  · split at h
    · have e2 := congrArg (fun x => x.2.2) (Option.some.inj h)
      simp only [Outcome.done.injEq] at e2
      rw [← e2]
      decide
    · split at h
      · cases h
      · cases h
      · have e2 := congrArg (fun x => x.2.2) (Option.some.inj h)
        simp only [Outcome.done.injEq] at e2
        rw [← e2]
        decide

/-- Claim C32.  In task context with current task `T`, for a request `b`
whose part `b'` without bit 31 is not 0 and a flag word `f` on which the
condition holds: `event_wait` returns `r = f & b'`; with bit 31 set in `b`
the flag word afterwards has, among its 32 bits, exactly the bits of `r`
cleared, bit 31 as before; with bit 31 clear in `b` the event group is
unchanged; the same holds for every pass of the loop after a wake-up.  Every
value returned by `event_wait` is below `2^31`.  Two requests that differ only
in bit 31 lead to the same kernel state and the same outcome.  `event_set`
(with well-formed scheduler lists) returns `KERNEL_OK` with the flag word ORed
with `bits`, and `event_clear` returns `KERNEL_OK` with exactly the bits of
`bits` cleared. -/
theorem C32_event_flags (k : Kernel) (T eg : Nat) (e : event_group_t) (b w timeout : Nat)
    (hcur : k.current_task = some T) (hisr : k.ipsr = 0)
    (hb : b &&& (UINT32_MAX ^^^ EVENT_CLEAR_ON_EXIT) ≠ 0)
    (hm : event_match e.flags (b &&& (UINT32_MAX ^^^ EVENT_CLEAR_ON_EXIT)) w = true)
    (rl : Nat → List Nat) (bl : List Nat) (fuel : Nat) (hrep : SchedRep k rl bl)
    (hfuel : FuelCovers rl bl fuel) (hlen : bl.length < 2 ^ 32) (bits : Nat) :
    (∃ k1 e1, event_wait k (some eg) e b w timeout =
        some (k1, e1, Outcome.done
          (Int.ofNat (e.flags &&& (b &&& (UINT32_MAX ^^^ EVENT_CLEAR_ON_EXIT))))) ∧
      (∀ (k2 : Kernel) (t2 : Nat), event_wait_attempt k2 eg e
          (b &&& (UINT32_MAX ^^^ EVENT_CLEAR_ON_EXIT)) (b &&& EVENT_CLEAR_ON_EXIT) w t2 =
        some (k2, e1, Outcome.done
          (Int.ofNat (e.flags &&& (b &&& (UINT32_MAX ^^^ EVENT_CLEAR_ON_EXIT)))))) ∧
      (b.testBit 31 = true → ∀ i, i < 32 → e1.flags.testBit i =
        (e.flags.testBit i &&
          !(e.flags &&& (b &&& (UINT32_MAX ^^^ EVENT_CLEAR_ON_EXIT))).testBit i)) ∧
      (b.testBit 31 = true → e1.flags.testBit 31 = e.flags.testBit 31) ∧
      (b.testBit 31 = false → e1 = e)) ∧
    (e.flags &&& (b &&& (UINT32_MAX ^^^ EVENT_CLEAR_ON_EXIT))).testBit 31 = false ∧
    (∀ (k0 k1 : Kernel) (g : Option Nat) (e0 e1 : event_group_t) (b0 w0 t0 : Nat) (r : Int),
      event_wait k0 g e0 b0 w0 t0 = some (k1, e1, Outcome.done r) → 0 ≤ r ∧ r < 2 ^ 31) ∧
    (∀ b2, b2 &&& (UINT32_MAX ^^^ EVENT_CLEAR_ON_EXIT) =
        b &&& (UINT32_MAX ^^^ EVENT_CLEAR_ON_EXIT) →
      (event_wait k (some eg) e b2 w timeout).map (fun r => (r.1, r.2.2)) =
        (event_wait k (some eg) e b w timeout).map (fun r => (r.1, r.2.2))) ∧
    (∃ k1, event_set fuel k (some eg) e bits =
      some (k1, { e with flags := e.flags ||| bits }, KERNEL_OK)) ∧
    (event_clear (some eg) e bits).2 = KERNEL_OK ∧
    ∀ i, i < 32 → (event_clear (some eg) e bits).1.flags.testBit i =
      (e.flags.testBit i && !bits.testBit i) := by
  have hb0 : b ≠ 0 := by
    intro h0
    rw [h0] at hb
    exact hb (Nat.zero_and _)
  have hbit31 : (b &&& EVENT_CLEAR_ON_EXIT ≠ 0) ↔ b.testBit 31 = true := by
    have e1 : b &&& EVENT_CLEAR_ON_EXIT = (b.testBit 31).toNat * 2 ^ 31 := Nat.and_two_pow b 31
    rw [e1]
    cases hx : b.testBit 31 <;> simp
  have hr31 : (e.flags &&& (b &&& (UINT32_MAX ^^^ EVENT_CLEAR_ON_EXIT))).testBit 31 = false := by
    rw [event_mask_eq, Nat.testBit_and, Nat.testBit_and, Nat.testBit_two_pow_sub_one]
    simp
  have hatt : ∀ (k2 : Kernel) (t2 : Nat), event_wait_attempt k2 eg e
      (b &&& (UINT32_MAX ^^^ EVENT_CLEAR_ON_EXIT)) (b &&& EVENT_CLEAR_ON_EXIT) w t2 =
      some (k2, (if b &&& EVENT_CLEAR_ON_EXIT ≠ 0 then
          { e with flags := e.flags &&& (UINT32_MAX ^^^
            (e.flags &&& (b &&& (UINT32_MAX ^^^ EVENT_CLEAR_ON_EXIT)))) } else e),
        Outcome.done (Int.ofNat (e.flags &&& (b &&& (UINT32_MAX ^^^ EVENT_CLEAR_ON_EXIT))))) := by
    intro k2 t2
    simp only [event_wait_attempt, hm, if_true]
  refine ⟨?_, hr31, ?_, ?_, ?_, rfl, ?_⟩
  · have hw := event_wait_eq hcur hisr eg e b w timeout hb0
    rw [hatt] at hw
    refine ⟨_, _, hw, hatt, ?_, ?_, ?_⟩
    · intro h31 i hi
      rw [if_pos (hbit31.2 h31)]
      show (e.flags &&& (UINT32_MAX ^^^
        (e.flags &&& (b &&& (UINT32_MAX ^^^ EVENT_CLEAR_ON_EXIT))))).testBit i = _
      rw [Nat.testBit_and, testBit_not32 _ i hi]
    · intro h31
      rw [if_pos (hbit31.2 h31)]
      show (e.flags &&& (UINT32_MAX ^^^
        (e.flags &&& (b &&& (UINT32_MAX ^^^ EVENT_CLEAR_ON_EXIT))))).testBit 31 = _
      rw [Nat.testBit_and, testBit_not32 _ 31 (by decide), hr31]
      simp
    · intro h31
      have hn : ¬ b &&& EVENT_CLEAR_ON_EXIT ≠ 0 := by
        rw [hbit31, h31]
        simp
      rw [if_neg hn]
  · intro k0 k1 g e0 e1 b0 w0 t0 r h
    unfold event_wait at h
    split at h
    · cases h
      decide
    · split at h
      · cases h
        decide
      · split at h
        · cases h
          decide
        · simp only [] at h
          split at h
          · cases h
            decide
          · refine event_wait_attempt_result ?_ h
            rw [and_event_mask]
            exact Nat.mod_lt _ (by decide)
  · intro b2 h2
    have hb2 : b2 ≠ 0 := by
      intro h0
      rw [h0, Nat.zero_and] at h2
      exact hb h2.symm
    rw [event_wait_eq hcur hisr eg e b2 w timeout hb2,
      event_wait_eq hcur hisr eg e b w timeout hb0, h2]
    exact event_wait_attempt_outcome _ _ _ _ _ _ _ _
  · obtain ⟨k1, e1, _⟩ := rep_unblock_all hrep hfuel hlen block_reason_t.EVENT (some eg)
      KERNEL_OK
    refine ⟨k1, ?_⟩
    simp only [event_set, e1]
  · intro i hi
    show (e.flags &&& (UINT32_MAX ^^^ bits)).testBit i = _
    rw [Nat.testBit_and, testBit_not32 _ i hi]

/-- Witness for C32: task 1 runs in `kernelB`; the flag word is `0x80000007`
and the request is `0x80000006` in mode All. -/
theorem C32_event_flags_witness :
    (∃ k1 e1, event_wait kernelB (some 400) { flags := 0x80000007 } 0x80000006 1 100 =
        some (k1, e1, Outcome.done
          (Int.ofNat (0x80000007 &&& (0x80000006 &&& (UINT32_MAX ^^^ EVENT_CLEAR_ON_EXIT))))) ∧
      (∀ (k2 : Kernel) (t2 : Nat), event_wait_attempt k2 400 { flags := 0x80000007 }
          (0x80000006 &&& (UINT32_MAX ^^^ EVENT_CLEAR_ON_EXIT))
          (0x80000006 &&& EVENT_CLEAR_ON_EXIT) 1 t2 =
        some (k2, e1, Outcome.done
          (Int.ofNat (0x80000007 &&& (0x80000006 &&& (UINT32_MAX ^^^ EVENT_CLEAR_ON_EXIT)))))) ∧
      (Nat.testBit 0x80000006 31 = true → ∀ i, i < 32 → e1.flags.testBit i =
        (Nat.testBit 0x80000007 i &&
          !(0x80000007 &&& (0x80000006 &&& (UINT32_MAX ^^^ EVENT_CLEAR_ON_EXIT))).testBit i)) ∧
      (Nat.testBit 0x80000006 31 = true → e1.flags.testBit 31 = Nat.testBit 0x80000007 31) ∧
      (Nat.testBit 0x80000006 31 = false → e1 = { flags := 0x80000007 })) ∧
    (0x80000007 &&& (0x80000006 &&& (UINT32_MAX ^^^ EVENT_CLEAR_ON_EXIT))).testBit 31 = false ∧
    (∀ (k0 k1 : Kernel) (g : Option Nat) (e0 e1 : event_group_t) (b0 w0 t0 : Nat) (r : Int),
      event_wait k0 g e0 b0 w0 t0 = some (k1, e1, Outcome.done r) → 0 ≤ r ∧ r < 2 ^ 31) ∧
    (∀ b2, b2 &&& (UINT32_MAX ^^^ EVENT_CLEAR_ON_EXIT) =
        0x80000006 &&& (UINT32_MAX ^^^ EVENT_CLEAR_ON_EXIT) →
      (event_wait kernelB (some 400) { flags := 0x80000007 } b2 1 100).map
          (fun r => (r.1, r.2.2)) =
        (event_wait kernelB (some 400) { flags := 0x80000007 } 0x80000006 1 100).map
          (fun r => (r.1, r.2.2))) ∧
    (∃ k1, event_set 4 kernelB (some 400) { flags := 0x80000007 } 0x18 =
      some (k1, { ({ flags := 0x80000007 } : event_group_t) with
        flags := 0x80000007 ||| 0x18 }, KERNEL_OK)) ∧
    (event_clear (some 400) { flags := 0x80000007 } 0x18).2 = KERNEL_OK ∧
    ∀ i, i < 32 → (event_clear (some 400) { flags := 0x80000007 } 0x18).1.flags.testBit i =
      (Nat.testBit 0x80000007 i && !Nat.testBit 0x18 i) :=
  C32_event_flags kernelB 1 400 { flags := 0x80000007 } 0x80000006 1 100 rfl rfl (by decide)
    (by decide) (Function.update (fun _ => []) 5 [1]) [] 4 kernelB_rep kernelB_fuel (by decide)
    0x18

/-! ## C35: `task_delay_ms` -/

/-- Below the overflow bound the conversion is the identity and
`task_delay_ms` is `task_delay`. -/
theorem task_delay_ms_small (fuel : Nat) (k : Kernel) (ms : Nat) (h : ms ≤ 4294967) :
    MS_TO_TICKS ms = ms ∧ task_delay_ms fuel k ms = task_delay fuel k ms := by
  have e : ((ms * CONFIG_TICK_RATE_HZ) % 2 ^ 32) / 1000 = ms := by
    unfold CONFIG_TICK_RATE_HZ
    omega
  exact ⟨e, by unfold task_delay_ms; rw [e]⟩

/-- C35, the divergence: for `ms = 4294968` the product `ms * 1000` is
`4294968000`, which is 704 modulo `2^32`, so `MS_TO_TICKS(ms)` is 0 and
`task_delay_ms(ms)` is `task_delay(0)`: the caller only yields and stays
Ready, where `task_delay(ms)` blocks it until tick 4294968. -/
theorem C35_delay_ms_overflows :
    scenario_delay_ms 4294968 = some
      { ticks_of_ms := 0, delay_ms_outcome := Outcome.done 0,
        state_A_after_delay_ms := task_state_t.RUNNING, delay_outcome := Outcome.blocked,
        state_A_after_delay := task_state_t.BLOCKED, wake_tick_A_after_delay := 4294968 } := by
  decide!

/-! ## C36: `scheduler_block_task` -/

/-- Counterexample for C36: at tick 0 the running task 1 of `kernelB` enters
`scheduler_block_task` with timeout 0 and gets `wake_tick = 1`, not 0; and at
tick `0xFFFFFFF0` a timeout of 32 gives `wake_tick = 0x10`. -/
theorem C36_counterexample_wake_tick :
    kernelB.g_tick_count = 0 ∧
    (scheduler_block_task_enter kernelB block_reason_t.SEMAPHORE (some 100) 0).map
      (fun r => (r.2, (r.1.tcb 1).wake_tick)) = some (Outcome.blocked, 1) ∧
    (scheduler_block_task_enter { kernelB with g_tick_count := 0xFFFFFFF0 }
      block_reason_t.SEMAPHORE (some 100) 32).map
      (fun r => (r.2, (r.1.tcb 1).wake_tick)) = some (Outcome.blocked, 0x10) := by
  decide!

/-- The `wake_tick` stored by `scheduler_block_task`. -/
theorem rep_block_task_enter_wake {k : Kernel} {rl : Nat → List Nat} {bl : List Nat}
    (h : SchedRep k rl bl) {p self : Nat}
    (hcur : k.current_task = some self) (hp : p < CONFIG_MAX_PRIORITY) (ht : self ∈ rl p)
    (reason : block_reason_t) (object : Option Nat) (timeout : Nat) :
    ∃ k1, scheduler_block_task_enter k reason object timeout = some (k1, Outcome.blocked) ∧
      (k1.tcb self).wake_tick =
        (if timeout = 0 then (k.g_tick_count + 1) % 2 ^ 32
         else if timeout = UINT32_MAX then UINT32_MAX
         else (k.g_tick_count + timeout) % 2 ^ 32) ∧
      k1.pendsv = true := by
  unfold scheduler_block_task_enter
  rw [hcur]
  simp only []
  obtain ⟨ka, a1, a2, a3, a4, a5, _⟩ := rep_remove_ready h hp ht
  rw [a1]
  simp only []
  obtain ⟨hoffb, hoffr⟩ := off_lists_after_remove h hp ht
  have htick : ka.g_tick_count = k.g_tick_count := a4.2.2.1
  rw [htick]
  generalize hw : (if timeout = 0 then (k.g_tick_count + 1) % 2 ^ 32
        else if timeout = UINT32_MAX then UINT32_MAX
        else (k.g_tick_count + timeout) % 2 ^ 32) = wake
  have h1 := rep_setTcb a2 self (fun c =>
        { c with state := task_state_t.BLOCKED, block_reason := reason, block_object := object,
                 block_timeout := timeout, block_result := KERNEL_OK, wake_tick := wake })
        rfl rfl (fun q hq hm => absurd hm (hoffr q hq)) (fun hm => absurd hm hoffb)
  generalize hkb : ka.setTcb self (fun c =>
        { c with state := task_state_t.BLOCKED, block_reason := reason, block_object := object,
                 block_timeout := timeout, block_result := KERNEL_OK, wake_tick := wake }) = kb
    at h1
  have b1 : kb.tcb self = { ka.tcb self with
      state := task_state_t.BLOCKED, block_reason := reason, block_object := object,
      block_timeout := timeout, block_result := KERNEL_OK, wake_tick := wake } := by
    rw [← hkb]
    exact tcb_setTcb_same _ _ _
  have b3 : (kb.tcb self).priority = (k.tcb self).priority := by
    rw [b1]
    show (ka.tcb self).priority = _
    exact priority_of_data (a3 self)
  have hprio : (k.tcb self).priority = p := h.ready_prio p hp self ht
  obtain ⟨_, c2, _, _⟩ := rep_blocked_insert h1 (t := self) hoffb hoffr
    (by rw [b3, hprio]; exact hp)
  refine ⟨_, rfl, ?_, rfl⟩
  show ((blocked_insert kb self).tcb self).wake_tick = _
  have hd := data_field task_tcb_t.wake_tick (fun _ => rfl) (c2 self)
  rw [hd, b1]

/-- Claim C36, amended.  With well-formed scheduler lists, a current task
`self` on `ready_list[p]` and the tick counter at `t`:
`scheduler_block_task(reason, object, timeout)` takes `self` off its ready
list, makes it the head of the blocked list, sets `state = Blocked`, records
reason, object and timeout, sets `block_result = KERNEL_OK`, pends the switch
exception, and stores `wake_tick = (t + 1) mod 2^32` for `timeout = 0`,
`UINT32_MAX` for `timeout = UINT32_MAX`, and `(t + timeout) mod 2^32` for every
other timeout.  With no current task it returns `KERNEL_ERR_STATE` and changes
nothing. -/
theorem C36_block_task (k : Kernel) (rl : Nat → List Nat) (bl : List Nat) (fuel : Nat)
    (hrep : SchedRep k rl bl) (hfuel : FuelCovers rl bl fuel) (p self : Nat)
    (hcur : k.current_task = some self) (hp : p < CONFIG_MAX_PRIORITY) (ht : self ∈ rl p)
    (reason : block_reason_t) (object : Option Nat) (timeout : Nat)
    (k0 : Kernel) (hno : k0.current_task = none) :
    (∃ k1, scheduler_block_task_enter k reason object timeout = some (k1, Outcome.blocked) ∧
      SchedRep k1 (Function.update rl p ((rl p).erase self)) (self :: bl) ∧
      (k1.tcb self).state = task_state_t.BLOCKED ∧ (k1.tcb self).block_reason = reason ∧
      (k1.tcb self).block_object = object ∧ (k1.tcb self).block_timeout = timeout ∧
      (k1.tcb self).block_result = KERNEL_OK ∧ k1.pendsv = true ∧
      (timeout = 0 → (k1.tcb self).wake_tick = (k.g_tick_count + 1) % 2 ^ 32) ∧
      (timeout = UINT32_MAX → (k1.tcb self).wake_tick = UINT32_MAX) ∧
      (timeout ≠ 0 → timeout ≠ UINT32_MAX →
        (k1.tcb self).wake_tick = (k.g_tick_count + timeout) % 2 ^ 32)) ∧
    scheduler_block_task_enter k0 reason object timeout =
      some (k0, Outcome.done KERNEL_ERR_STATE) := by
  constructor
  · obtain ⟨k1, e1, r1, _, _, s1, s2, s3, s4, s5, _⟩ :=
      rep_block_task_enter hrep hfuel hcur hp ht reason object timeout
    obtain ⟨k2, e2, w2, p2⟩ := rep_block_task_enter_wake hrep hcur hp ht reason object timeout
    rw [e1] at e2
    have e := congrArg Prod.fst (Option.some.inj e2)
    simp only at e
    subst e
    refine ⟨k1, e1, r1, s1, s2, s3, s4, s5, p2, ?_, ?_, ?_⟩
    · intro h0
      rw [w2, if_pos h0]
    · intro hmax
      have h0 : ¬ timeout = 0 := by
        rw [hmax]
        decide
      rw [w2, if_neg h0, if_pos hmax]
    · intro h0 hmax
      rw [w2, if_neg h0, if_neg hmax]
  · unfold scheduler_block_task_enter
    rw [hno]

/-- Witness for C36: task 1, running and alone on `ready_list[5]` of
`kernelB`, blocks on the semaphore at 100 with timeout 50. -/
theorem C36_block_task_witness :
    (∃ k1, scheduler_block_task_enter kernelB block_reason_t.SEMAPHORE (some 100) 50 =
        some (k1, Outcome.blocked) ∧
      SchedRep k1 (Function.update (Function.update (fun _ => []) 5 [1]) 5
        ((Function.update (fun _ => ([] : List Nat)) 5 [1] 5).erase 1)) (1 :: []) ∧
      (k1.tcb 1).state = task_state_t.BLOCKED ∧
      (k1.tcb 1).block_reason = block_reason_t.SEMAPHORE ∧
      (k1.tcb 1).block_object = some 100 ∧ (k1.tcb 1).block_timeout = 50 ∧
      (k1.tcb 1).block_result = KERNEL_OK ∧ k1.pendsv = true ∧
      (50 = 0 → (k1.tcb 1).wake_tick = (kernelB.g_tick_count + 1) % 2 ^ 32) ∧
      (50 = UINT32_MAX → (k1.tcb 1).wake_tick = UINT32_MAX) ∧
      (50 ≠ 0 → 50 ≠ UINT32_MAX →
        (k1.tcb 1).wake_tick = (kernelB.g_tick_count + 50) % 2 ^ 32)) ∧
    scheduler_block_task_enter kernelA block_reason_t.SEMAPHORE (some 100) 50 =
      some (kernelA, Outcome.done KERNEL_ERR_STATE) :=
  C36_block_task kernelB (Function.update (fun _ => []) 5 [1]) [] 4 kernelB_rep kernelB_fuel
    5 1 rfl (by decide) (by simp) block_reason_t.SEMAPHORE (some 100) 50 kernelA rfl

/-! ## C37: the timeout of a call that blocks again -/

/-- C37, the divergence: `A` enters `event_wait(eg, 0x6, EVENT_WAIT_ALL, 100)`
at tick 0 and is blocked with `wake_tick = 100`.  At tick 10, `event_set(eg,
0x2)` wakes it with `KERNEL_OK`; the condition is still unmet, and the loop of
`event_wait` calls `scheduler_block_task` with the whole timeout again: the
new `wake_tick` is `10 + 100 = 110`, later than `0 + 100`. -/
theorem C37_retry_restarts_timeout :
    scenario_event_retry = some
      { entry_tick := 0, first_outcome := Outcome.blocked, first_wake_tick := 100,
        set_tick := 10, set_code := KERNEL_OK, flags_after_set := 2,
        state_A_after_set := task_state_t.READY, block_result_A_after_set := KERNEL_OK,
        resumed_outcome := Outcome.blocked, state_A_at_end := task_state_t.BLOCKED,
        block_timeout_A_at_end := 100, second_wake_tick := 110 } := by
  decide!

/-! ## `task_create` on well-formed lists -/

/-- A store to the TCB of a task that is on no list keeps the lists. -/
theorem rep_setTcb_off {k : Kernel} {rl : Nat → List Nat} {bl : List Nat}
    (h : SchedRep k rl bl) (t : Nat) (f : task_tcb_t → task_tcb_t) (hb : t ∉ bl)
    (hr : ∀ p, p < CONFIG_MAX_PRIORITY → t ∉ rl p) : SchedRep (k.setTcb t f) rl bl := by
  have e3 : ∀ u, u ≠ t → (k.setTcb t f).tcb u = k.tcb u :=
    fun u hu => tcb_setTcb_other _ _ _ _ hu
  have hlinks : ∀ (l : List Nat), t ∉ l →
      ∀ a ∈ l, nxt (k.setTcb t f) a = nxt k a ∧ prv (k.setTcb t f) a = prv k a := by
    intro l hl a ha
    have hat : a ≠ t := fun e => hl (e ▸ ha)
    unfold nxt prv
    rw [e3 a hat]
    exact ⟨rfl, rfl⟩
  constructor
  · intro q hq
    exact DList_congr _ _ _ (hlinks _ (hr q hq)) (h.ready q hq)
  · exact DList_congr _ _ _ (hlinks _ hb) h.blocked
  · intro q hq u hu
    rw [e3 u (fun e => hr q hq (e ▸ hu))]
    exact h.ready_prio q hq u hu
  · intro u hu
    rw [e3 u (fun e => hb (e ▸ hu))]
    exact h.blocked_prio u hu
  · exact h.ready_nodup
  · exact h.blocked_nodup
  · exact h.disjoint

/-- The function `task_create` with a TCB and a stack supplied by the caller,
for a task that is on no list: it returns `KERNEL_OK`, and the task is the
last element of the ready list of its priority. -/
theorem rep_task_create_given {k : Kernel} {rl : Nat → List Nat} {bl : List Nat} {fuel : Nat}
    (hrep : SchedRep k rl bl) (t entry arg priority st size : Nat)
    (hprio : priority < CONFIG_MAX_PRIORITY) (hsize : CONFIG_MIN_STACK_SIZE ≤ size)
    (halign : size % 8 = 0) (hb : t ∉ bl) (hr : ∀ p, p < CONFIG_MAX_PRIORITY → t ∉ rl p)
    (hfuel : (rl priority).length ≤ fuel) :
    ∃ k1, task_create fuel k (some t) (some entry) arg priority (some st) size =
        some (k1, KERNEL_OK) ∧
      SchedRep k1 (Function.update rl priority (rl priority ++ [t])) bl ∧
      k1.stack_mem = (task_init_stack (stack_fill k.stack_mem st (size / 4) 0)
        ((st + 4 * (size / 4)) - (st + 4 * (size / 4)) % 8) entry arg
        task_exit_trampoline).1 ∧
      (k1.tcb t).sp = (task_init_stack (stack_fill k.stack_mem st (size / 4) 0)
        ((st + 4 * (size / 4)) - (st + 4 * (size / 4)) % 8) entry arg
        task_exit_trampoline).2 ∧
      (k1.tcb t).stack_top = (st + 4 * (size / 4)) - (st + 4 * (size / 4)) % 8 ∧
      (k1.tcb t).stack_base = st ∧ (k1.tcb t).stack_size = size ∧
      (k1.tcb t).priority = priority ∧ (k1.tcb t).state = task_state_t.READY ∧
      (∀ u, u ≠ t → tcb_data (k1.tcb u) = tcb_data (k.tcb u)) ∧
      SameRegs k k1 ∧ k1.g_blocked_head = k.g_blocked_head := by
  have h1 : ¬ priority ≥ CONFIG_MAX_PRIORITY := Nat.not_le.2 hprio
  have h2 : ¬ (size < CONFIG_MIN_STACK_SIZE ∨ size % 8 ≠ 0) := by omega
  have keyR : ∀ (K3 : Kernel) (f : task_tcb_t → task_tcb_t) (r : Option Kernel),
      scheduler_add_task fuel (K3.setTcb t f) t = r → SchedRep K3 rl bl →
      (f (K3.tcb t)).priority = priority →
      ∃ k5, r = some k5 ∧
        SchedRep k5 (Function.update rl priority (rl priority ++ [t])) bl ∧
        (∀ u, u ≠ t → tcb_data (k5.tcb u) = tcb_data (K3.tcb u)) ∧
        tcb_data (k5.tcb t) = tcb_data { f (K3.tcb t) with
          state := task_state_t.READY, time_slice := CONFIG_TIME_SLICE } ∧
        SameRegs K3 k5 ∧ k5.g_blocked_head = K3.g_blocked_head ∧
        k5.stack_mem = K3.stack_mem := by
    intro K3 f r hadd hK3 hpf
    have r4 : SchedRep (K3.setTcb t f) rl bl := rep_setTcb_off hK3 t f hb hr
    have hp4 : ((K3.setTcb t f).tcb t).priority = priority := by
      rw [tcb_setTcb_same]
      exact hpf
    obtain ⟨k5, e5, r5, oth5, dt5, regs5, hbh5⟩ := @rep_add_task _ _ _ fuel r4 t hb hr
      (by rw [hp4]; exact hprio) (by rw [hp4]; exact hfuel)
    rw [hp4] at r5
    rw [tcb_setTcb_same] at dt5
    refine ⟨k5, hadd.symm.trans e5, r5, ?_, dt5, SameRegs_trans (SameRegs_setTcb _ _ _) regs5,
      hbh5, (scheduler_add_task_data e5).1⟩
    intro u hu
    rw [oth5 u hu, tcb_setTcb_other _ _ _ _ hu]
  obtain ⟨r, hres⟩ : ∃ r, task_create fuel k (some t) (some entry) arg priority (some st) size =
      r := ⟨_, rfl⟩
  have hres2 := hres
  unfold task_create at hres
  simp only [if_neg h1, if_neg h2] at hres
  split at hres
  · rename_i heq
    obtain ⟨k5, e5, _⟩ := keyR _ _ _ heq (SchedRep_of_eq hrep rfl rfl rfl) rfl
    cases e5
  · rename_i k5 heq
    obtain ⟨k5b, e5, r5, oth, dt, regs, hbh, hsm⟩ :=
      keyR _ _ _ heq (SchedRep_of_eq hrep rfl rfl rfl) rfl
    have e := Option.some.inj e5
    subst e
    subst hres
    have d1 := data_field task_tcb_t.sp (fun _ => rfl) dt
    have d2 := data_field task_tcb_t.stack_top (fun _ => rfl) dt
    have d3 := data_field task_tcb_t.stack_base (fun _ => rfl) dt
    have d4 := data_field task_tcb_t.stack_size (fun _ => rfl) dt
    have d5 := data_field task_tcb_t.priority (fun _ => rfl) dt
    have d6 := data_field task_tcb_t.state (fun _ => rfl) dt
    exact ⟨k5, hres2, r5, hsm, d1, d2, d3, d4, d5, d6, oth, regs, hbh⟩

/-! ## The scheduler control block after `task_create` -/

/-- The function `ready_insert_tail` on an empty ready list sets the bit of
the priority and writes no other field of the control block but the list
head. -/
theorem ready_insert_tail_sched_empty {fuel : Nat} {k k1 : Kernel} {t : Nat}
    (h : ready_insert_tail fuel k t = some k1)
    (he : k.g_sched.ready_list (k.tcb t).priority = none) :
    k1.g_sched.priority_bitmap = bitmap_set k.g_sched.priority_bitmap (k.tcb t).priority ∧
      k1.g_sched.lock_count = k.g_sched.lock_count ∧
      k1.g_sched.reschedule_pending = k.g_sched.reschedule_pending ∧
      k1.g_sched.current = k.g_sched.current ∧ k1.next_task = k.next_task := by
  unfold ready_insert_tail at h
  simp only at h
  split at h
  · split at h
    · have e := Option.some.inj h
      subst e
      exact ⟨rfl, rfl, rfl, rfl, rfl⟩
    · rename_i head hh
      have hh1 : k.g_sched.ready_list (k.tcb t).priority = some head := hh
      rw [he] at hh1
      cases hh1
  · cases h

theorem scheduler_add_task_sched_empty {fuel : Nat} {k k1 : Kernel} {t : Nat}
    (h : scheduler_add_task fuel k t = some k1)
    (he : k.g_sched.ready_list (k.tcb t).priority = none) :
    k1.g_sched.priority_bitmap = bitmap_set k.g_sched.priority_bitmap (k.tcb t).priority ∧
      k1.g_sched.lock_count = k.g_sched.lock_count ∧
      k1.g_sched.reschedule_pending = k.g_sched.reschedule_pending ∧
      k1.g_sched.current = k.g_sched.current ∧ k1.next_task = k.next_task := by
  unfold scheduler_add_task at h
  simp only at h
  split at h
  · cases h
  · rename_i k2 hk2
    have hp : ((k.setTcb t (fun c =>
        { c with state := task_state_t.READY, time_slice := CONFIG_TIME_SLICE })).tcb
        t).priority = (k.tcb t).priority := by
      rw [tcb_setTcb_same]
    obtain ⟨b1, b2, b3, b4, b5⟩ := ready_insert_tail_sched_empty hk2 (by
      rw [hp]
      exact he)
    rw [hp] at b1
    have hres : k1.g_sched = k2.g_sched ∧ k1.next_task = k2.next_task := by
      split at h
      · split at h
        all_goals
          have e := Option.some.inj h
          subst e
          exact ⟨rfl, rfl⟩
      · have e := Option.some.inj h
        subst e
        exact ⟨rfl, rfl⟩
    rw [hres.1, hres.2]
    exact ⟨b1, b2, b3, b4, b5⟩

/-- The function `task_create` with a TCB and a stack supplied by the caller,
for a priority whose ready list is empty: it sets the bit of the priority in
the bitmap and leaves the other fields of the control block as they are. -/
theorem task_create_given_sched {fuel : Nat} {k k1 : Kernel} {t entry arg priority st size : Nat}
    (h : task_create fuel k (some t) (some entry) arg priority (some st) size =
      some (k1, KERNEL_OK))
    (he : k.g_sched.ready_list priority = none) :
    k1.g_sched.priority_bitmap = bitmap_set k.g_sched.priority_bitmap priority ∧
      k1.g_sched.lock_count = k.g_sched.lock_count ∧
      k1.g_sched.reschedule_pending = k.g_sched.reschedule_pending ∧
      k1.g_sched.current = k.g_sched.current ∧ k1.next_task = k.next_task := by
  have hne1 : KERNEL_ERR_PARAM ≠ KERNEL_OK := by decide
  have key : ∀ (K3 : Kernel) (f : task_tcb_t → task_tcb_t) (k5 : Kernel),
      scheduler_add_task fuel (K3.setTcb t f) t = some k5 →
      (f (K3.tcb t)).priority = priority → K3.g_sched = k.g_sched →
      K3.next_task = k.next_task →
      k5.g_sched.priority_bitmap = bitmap_set k.g_sched.priority_bitmap priority ∧
        k5.g_sched.lock_count = k.g_sched.lock_count ∧
        k5.g_sched.reschedule_pending = k.g_sched.reschedule_pending ∧
        k5.g_sched.current = k.g_sched.current ∧ k5.next_task = k.next_task := by
    intro K3 f k5 hadd hpf hg hn
    have hp : ((K3.setTcb t f).tcb t).priority = priority := by
      rw [tcb_setTcb_same]
      exact hpf
    have hg1 : (K3.setTcb t f).g_sched = k.g_sched := hg
    have hn1 : (K3.setTcb t f).next_task = k.next_task := hn
    obtain ⟨b1, b2, b3, b4, b5⟩ := scheduler_add_task_sched_empty hadd (by
      rw [hp, hg1]
      exact he)
    rw [hp, hg1] at b1
    rw [hg1] at b2 b3 b4
    rw [hn1] at b5
    exact ⟨b1, b2, b3, b4, b5⟩
  by_cases h1 : priority ≥ CONFIG_MAX_PRIORITY
  · simp only [task_create, if_pos h1] at h
    exact absurd (congrArg Prod.snd (Option.some.inj h)) hne1
  · by_cases h2 : size < CONFIG_MIN_STACK_SIZE ∨ size % 8 ≠ 0
    · simp only [task_create, if_neg h1, if_pos h2] at h
      exact absurd (congrArg Prod.snd (Option.some.inj h)) hne1
    · unfold task_create at h
      simp only [if_neg h1, if_neg h2] at h
      split at h
      · cases h
      · rename_i k5 heq
        have e := congrArg Prod.fst (Option.some.inj h)
        simp only at e
        subst e
        exact key _ _ _ heq rfl rfl rfl

/-! ## C34: `kernel_init` -/

/-- Claim C34.  `kernel_init` called in state `UNINIT` returns `KERNEL_OK` and
leaves the kernel in state `INIT` with the scheduler reset: tick 0, lock
count 0, no pending reschedule, no current task and no next task, an empty
blocked list, and the idle task, Ready with priority 31, as the only task on
a ready list (`ready_list[31]`); the priority bitmap is `0x80000000`, bit 31
for the idle task and no other bit, and `scheduler_get_next` returns the idle
task.  Called in a state other than `UNINIT` it returns `KERNEL_ERR_STATE` and
changes nothing. -/
theorem C34_kernel_init (fuel : Nat) (k k0 : Kernel)
    (hun : k.g_kernel_state = kernel_state_t.UNINIT)
    (hother : k0.g_kernel_state ≠ kernel_state_t.UNINIT) :
    (∃ k1, kernel_init fuel k = some (k1, KERNEL_OK) ∧
      k1.g_kernel_state = kernel_state_t.INIT ∧ k1.g_tick_count = 0 ∧
      k1.g_sched.lock_count = 0 ∧ k1.current_task = none ∧ k1.g_blocked_head = none ∧
      SchedRep k1 (Function.update (fun _ => []) (CONFIG_MAX_PRIORITY - 1) [g_idle_tcb]) [] ∧
      (k1.tcb g_idle_tcb).priority = CONFIG_MAX_PRIORITY - 1 ∧
      (k1.tcb g_idle_tcb).state = task_state_t.READY ∧
      k1.g_sched.priority_bitmap = 0x80000000 ∧
      (∀ p, p < CONFIG_MAX_PRIORITY →
        (bitmap_test k1.g_sched.priority_bitmap p = true ↔ p = CONFIG_MAX_PRIORITY - 1)) ∧
      (∀ p, p < CONFIG_MAX_PRIORITY →
        k1.g_sched.ready_list p = if p = CONFIG_MAX_PRIORITY - 1 then some g_idle_tcb else none) ∧
      k1.g_sched.reschedule_pending = false ∧ k1.g_sched.current = none ∧
      k1.next_task = none ∧ scheduler_get_next k1 = some (some g_idle_tcb)) ∧
    kernel_init fuel k0 = some (k0, KERNEL_ERR_STATE) := by
  constructor
  · obtain ⟨k1, e1, r1, _, _, _, _, _, p1, s1, _, regs, hbh⟩ :=
      @rep_task_create_given _ _ _ fuel (SchedRep_scheduler_init k) g_idle_tcb idle_task 0
        (CONFIG_MAX_PRIORITY - 1) g_idle_stack CONFIG_IDLE_STACK_SIZE (by decide) (by decide)
        (by decide) (by simp) (by simp) (by simp)
    obtain ⟨g1, _, g3, g4, g5⟩ := task_create_given_sched e1 (by
      simp [scheduler_init, CONFIG_MAX_PRIORITY])
    have hbm : k1.g_sched.priority_bitmap = 0x80000000 := by
      rw [g1]
      show bitmap_set 0 (CONFIG_MAX_PRIORITY - 1) = 0x80000000
      decide
    have hne : ¬ k.g_kernel_state ≠ kernel_state_t.UNINIT := fun hh => hh hun
    have hok : ¬ KERNEL_OK ≠ KERNEL_OK := fun hh => hh rfl
    have e : Function.update (fun _ => ([] : List Nat)) (CONFIG_MAX_PRIORITY - 1)
        ((fun _ => ([] : List Nat)) (CONFIG_MAX_PRIORITY - 1) ++ [g_idle_tcb]) =
        Function.update (fun _ => []) (CONFIG_MAX_PRIORITY - 1) [g_idle_tcb] := by
      simp
    rw [e] at r1
    have hlist : ∀ p, p < CONFIG_MAX_PRIORITY →
        k1.g_sched.ready_list p =
          if p = CONFIG_MAX_PRIORITY - 1 then some g_idle_tcb else none := by
      intro p hp
      have hd := r1.ready p hp
      by_cases hp1 : p = CONFIG_MAX_PRIORITY - 1
      · rw [if_pos hp1]
        rw [hp1, Function.update_same] at hd
        rw [hp1]
        exact hd.1
      · rw [if_neg hp1]
        rw [Function.update_noteq hp1] at hd
        exact hd
    refine ⟨{ k1 with g_kernel_state := kernel_state_t.INIT }, ?_, rfl, ?_, ?_, ?_, ?_, ?_,
      p1, s1, hbm, ?_, hlist, g3, g4, g5, ?_⟩
    · simp only [kernel_init, if_neg hne, e1, if_neg hok]
    · exact regs.2.2.1
    · exact regs.2.2.2
    · exact regs.1
    · exact hbh
    · exact SchedRep_of_eq r1 rfl rfl rfl
    · show ∀ p, p < CONFIG_MAX_PRIORITY →
        (bitmap_test k1.g_sched.priority_bitmap p = true ↔ p = CONFIG_MAX_PRIORITY - 1)
      rw [hbm]
      decide
    · show scheduler_get_next k1 = some (some g_idle_tcb)
      unfold scheduler_get_next
      simp only [hbm]
      have hf : bitmap_find_highest 0x80000000 = CONFIG_MAX_PRIORITY - 1 := by decide
      rw [hf, if_neg (by decide), hlist _ (by decide), if_pos rfl]
  · simp only [kernel_init, if_pos hother]

/-- Witness for C34: `kernel_init` in the power-on state `kernel0` and in
`kernel0` marked `RUNNING`. -/
theorem C34_kernel_init_witness :
    (∃ k1, kernel_init 0 kernel0 = some (k1, KERNEL_OK) ∧
      k1.g_kernel_state = kernel_state_t.INIT ∧ k1.g_tick_count = 0 ∧
      k1.g_sched.lock_count = 0 ∧ k1.current_task = none ∧ k1.g_blocked_head = none ∧
      SchedRep k1 (Function.update (fun _ => []) (CONFIG_MAX_PRIORITY - 1) [g_idle_tcb]) [] ∧
      (k1.tcb g_idle_tcb).priority = CONFIG_MAX_PRIORITY - 1 ∧
      (k1.tcb g_idle_tcb).state = task_state_t.READY ∧
      k1.g_sched.priority_bitmap = 0x80000000 ∧
      (∀ p, p < CONFIG_MAX_PRIORITY →
        (bitmap_test k1.g_sched.priority_bitmap p = true ↔ p = CONFIG_MAX_PRIORITY - 1)) ∧
      (∀ p, p < CONFIG_MAX_PRIORITY →
        k1.g_sched.ready_list p = if p = CONFIG_MAX_PRIORITY - 1 then some g_idle_tcb else none) ∧
      k1.g_sched.reschedule_pending = false ∧ k1.g_sched.current = none ∧
      k1.next_task = none ∧ scheduler_get_next k1 = some (some g_idle_tcb)) ∧
    kernel_init 0 { kernel0 with g_kernel_state := kernel_state_t.RUNNING } =
      some ({ kernel0 with g_kernel_state := kernel_state_t.RUNNING }, KERNEL_ERR_STATE) :=
  C34_kernel_init 0 kernel0 { kernel0 with g_kernel_state := kernel_state_t.RUNNING } rfl
    (by decide)

/-! ## C39: the stack region of a new task -/

theorem stack_fill_out (st : Nat) : ∀ (n : Nat) (mem : Nat → Nat) (i a : Nat),
    (∀ j, i ≤ j → j < i + n → a ≠ st + 4 * j) → stack_fill mem st n i a = mem a := by
  intro n
  induction n with
  | zero =>
    intro mem i a _
    rfl
  | succ n ih =>
    intro mem i a h
    simp only [stack_fill]
    rw [ih _ _ _ (fun j h1 h2 => h j (by omega) (by omega)),
      Function.update_noteq (h i (le_refl _) (by omega))]

theorem stack_fill_in (st : Nat) : ∀ (n : Nat) (mem : Nat → Nat) (i j : Nat),
    i ≤ j → j < i + n → stack_fill mem st n i (st + 4 * j) = TASK_STACK_FILL := by
  intro n
  induction n with
  | zero =>
    intro mem i j h1 h2
    omega
  | succ n ih =>
    intro mem i j h1 h2
    simp only [stack_fill]
    by_cases hji : j = i
    · subst hji
      rw [stack_fill_out st n _ _ _ (fun j2 g1 g2 => by omega), Function.update_same]
    · exact ih _ _ _ (by omega) (by omega)

/-- The fill loop and `task_init_stack` on a 4-byte-aligned region of an
accepted size: where `stack_top` lies, what is written, and what is not. -/
theorem stack_region (mem : Nat → Nat) (st size entry arg ex : Nat) (h4 : st % 4 = 0)
    (hsize : 256 ≤ size) (h8 : size % 8 = 0) :
    ((st + 4 * (size / 4)) - (st + 4 * (size / 4)) % 8) % 8 = 0 ∧
    st + size - 4 ≤ (st + 4 * (size / 4)) - (st + 4 * (size / 4)) % 8 ∧
    (st + 4 * (size / 4)) - (st + 4 * (size / 4)) % 8 ≤ st + size ∧
    (task_init_stack (stack_fill mem st (size / 4) 0)
      ((st + 4 * (size / 4)) - (st + 4 * (size / 4)) % 8) entry arg ex).2 =
      (st + 4 * (size / 4)) - (st + 4 * (size / 4)) % 8 - 68 ∧
    st ≤ (st + 4 * (size / 4)) - (st + 4 * (size / 4)) % 8 - 68 ∧
    (∀ a, a < st ∨ st + size ≤ a →
      (task_init_stack (stack_fill mem st (size / 4) 0)
        ((st + 4 * (size / 4)) - (st + 4 * (size / 4)) % 8) entry arg ex).1 a = mem a) ∧
    (∀ j, j < size / 4 →
      st + 4 * j < (st + 4 * (size / 4)) - (st + 4 * (size / 4)) % 8 - 68 ∨
        (st + 4 * (size / 4)) - (st + 4 * (size / 4)) % 8 ≤ st + 4 * j →
      (task_init_stack (stack_fill mem st (size / 4) 0)
        ((st + 4 * (size / 4)) - (st + 4 * (size / 4)) % 8) entry arg ex).1 (st + 4 * j) =
        TASK_STACK_FILL) ∧
    ∀ i, i < 17 →
      st ≤ (st + 4 * (size / 4)) - (st + 4 * (size / 4)) % 8 - 68 + 4 * i ∧
      (st + 4 * (size / 4)) - (st + 4 * (size / 4)) % 8 - 68 + 4 * i + 4 ≤ st + size := by
  have hsz : 4 * (size / 4) = size := by omega
  rw [hsz]
  obtain ⟨top, htop⟩ : ∃ top, top = (st + size) - (st + size) % 8 := ⟨_, rfl⟩
  rw [← htop]
  have t1 : top % 8 = 0 := by omega
  have t2 : st + size - 4 ≤ top := by omega
  have t3 : top ≤ st + size := by omega
  obtain ⟨b1, _, b3⟩ := foldl_push_word
    [0x01000000, entry, ex, 0, 0, 0, 0, arg, EXC_RETURN_THREAD_PSP, 0, 0, 0, 0, 0, 0, 0, 0]
    (stack_fill mem st (size / 4) 0) top (by simp only [List.length]; omega)
  have hlen : ([0x01000000, entry, ex, 0, 0, 0, 0, arg, EXC_RETURN_THREAD_PSP, 0, 0, 0, 0, 0, 0,
      0, 0] : List Nat).length = 17 := rfl
  rw [hlen] at b1 b3
  refine ⟨t1, t2, t3, b1, by omega, ?_, ?_, ?_⟩
  · intro a ha
    show (List.foldl push_word (stack_fill mem st (size / 4) 0, top) _).1 a = _
    rw [b3 a (by intro j hj; omega), stack_fill_out st _ _ _ _ (fun j _ h2 => by omega)]
  · intro j hj hout
    show (List.foldl push_word (stack_fill mem st (size / 4) 0, top) _).1 (st + 4 * j) = _
    rw [b3 _ (by intro i hi; omega), stack_fill_in st _ _ _ _ (Nat.zero_le _) (by omega)]
  · intro i hi
    omega

/-- When `task_create` returns `KERNEL_OK`, its arguments passed the checks
and the stack memory is the result of the fill loop over the stack region
followed by `task_init_stack`; the region is the caller's, or a block of the
stack pool. -/
theorem task_create_stack {fuel : Nat} {k k1 : Kernel} {tcb : Option Nat} {entry arg : Nat}
    {priority : Nat} {stack : Option Nat} {size : Nat}
    (h : task_create fuel k tcb (some entry) arg priority stack size = some (k1, KERNEL_OK)) :
    priority < CONFIG_MAX_PRIORITY ∧ CONFIG_MIN_STACK_SIZE ≤ size ∧ size % 8 = 0 ∧
    ∃ t st sz, (∀ u, tcb = some u → t = u) ∧ (∀ s, stack = some s → st = s ∧ sz = size) ∧
      (stack = none → sz = CONFIG_DEFAULT_STACK_SIZE ∧
        ∃ i, i < CONFIG_MAX_TASKS ∧ st = g_stack_pool i) ∧
      k1.stack_mem = (task_init_stack (stack_fill k.stack_mem st (sz / 4) 0)
        ((st + 4 * (sz / 4)) - (st + 4 * (sz / 4)) % 8) entry arg task_exit_trampoline).1 ∧
      (k1.tcb t).sp = (task_init_stack (stack_fill k.stack_mem st (sz / 4) 0)
        ((st + 4 * (sz / 4)) - (st + 4 * (sz / 4)) % 8) entry arg task_exit_trampoline).2 ∧
      (k1.tcb t).stack_top = (st + 4 * (sz / 4)) - (st + 4 * (sz / 4)) % 8 ∧
      (k1.tcb t).stack_base = st ∧ (k1.tcb t).stack_size = sz := by
  have hne1 : KERNEL_ERR_PARAM ≠ KERNEL_OK := by decide
  have hne2 : KERNEL_ERR_NO_MEM ≠ KERNEL_OK := by decide
  have key : ∀ (K3 : Kernel) (t : Nat) (f : task_tcb_t → task_tcb_t) (k5 : Kernel),
      scheduler_add_task fuel (K3.setTcb t f) t = some k5 →
      k5.stack_mem = K3.stack_mem ∧ (k5.tcb t).sp = (f (K3.tcb t)).sp ∧
      (k5.tcb t).stack_top = (f (K3.tcb t)).stack_top ∧
      (k5.tcb t).stack_base = (f (K3.tcb t)).stack_base ∧
      (k5.tcb t).stack_size = (f (K3.tcb t)).stack_size := by
    intro K3 t f k5 hadd
    obtain ⟨a1, _, a3⟩ := scheduler_add_task_data hadd
    rw [tcb_setTcb_same] at a3
    have d1 := data_field task_tcb_t.sp (fun _ => rfl) a3
    have d2 := data_field task_tcb_t.stack_top (fun _ => rfl) a3
    have d3 := data_field task_tcb_t.stack_base (fun _ => rfl) a3
    have d4 := data_field task_tcb_t.stack_size (fun _ => rfl) a3
    exact ⟨a1, d1, d2, d3, d4⟩
  by_cases h1 : priority ≥ CONFIG_MAX_PRIORITY
  · simp only [task_create, if_pos h1] at h
    exact absurd (congrArg Prod.snd (Option.some.inj h)) hne1
  by_cases h2 : size < CONFIG_MIN_STACK_SIZE ∨ size % 8 ≠ 0
  · simp only [task_create, if_neg h1, if_pos h2] at h
    exact absurd (congrArg Prod.snd (Option.some.inj h)) hne1
  refine ⟨Nat.not_le.1 h1, by omega, by omega, ?_⟩
  unfold task_create at h
  simp only [if_neg h1, if_neg h2] at h
  cases tcb with
  | some t =>
    try simp only at h
    cases stack with
    | some st =>
      try simp only at h
      split at h
      · cases h
      · rename_i k5 hk5
        have e := congrArg Prod.fst (Option.some.inj h)
        simp only at e
        subst e
        obtain ⟨b1, b2, b3, b4, b5⟩ := key _ t _ _ hk5
        exact ⟨t, st, size, fun u hu => (Option.some.inj hu),
          fun s hs => ⟨(Option.some.inj hs), rfl⟩, fun hs => Option.noConfusion hs,
          b1, b2, b3, b4, b5⟩
    | none =>
      try simp only at h
      by_cases hbig : size > CONFIG_DEFAULT_STACK_SIZE
      · simp only [if_pos hbig] at h
        exact absurd (congrArg Prod.snd (Option.some.inj h)) hne2
      · simp only [if_neg hbig, alloc_slot] at h
        cases hf : alloc_slot_find k.g_stack_slot_used CONFIG_MAX_TASKS 0 with
        | none =>
          rw [hf] at h
          simp only at h
          exact absurd (congrArg Prod.snd (Option.some.inj h)) hne2
        | some i =>
          rw [hf] at h
          simp only at h
          have hi := (alloc_slot_find_spec _ _ _ _ hf).2.1
          split at h
          · cases h
          · rename_i k5 hk5
            have e := congrArg Prod.fst (Option.some.inj h)
            simp only at e
            subst e
            obtain ⟨b1, b2, b3, b4, b5⟩ := key _ t _ _ hk5
            exact ⟨t, g_stack_pool i, CONFIG_DEFAULT_STACK_SIZE,
              fun u hu => (Option.some.inj hu), fun s hs => Option.noConfusion hs,
              fun _ => ⟨rfl, i, by omega, rfl⟩, b1, b2, b3, b4, b5⟩
  | none =>
    simp only [alloc_slot] at h
    cases hf1 : alloc_slot_find k.g_task_slot_used CONFIG_MAX_TASKS 0 with
    | none =>
      rw [hf1] at h
      simp only at h
      exact absurd (congrArg Prod.snd (Option.some.inj h)) hne2
    | some j =>
      rw [hf1] at h
      try simp only at h
      cases stack with
      | some st =>
        try simp only at h
        split at h
        · cases h
        · rename_i k5 hk5
          have e := congrArg Prod.fst (Option.some.inj h)
          simp only at e
          subst e
          obtain ⟨b1, b2, b3, b4, b5⟩ := key _ (g_task_pool j) _ _ hk5
          exact ⟨g_task_pool j, st, size, fun u hu => Option.noConfusion hu,
            fun s hs => ⟨(Option.some.inj hs), rfl⟩, fun hs => Option.noConfusion hs,
            b1, b2, b3, b4, b5⟩
      | none =>
        try simp only at h
        by_cases hbig : size > CONFIG_DEFAULT_STACK_SIZE
        · simp only [if_pos hbig] at h
          exact absurd (congrArg Prod.snd (Option.some.inj h)) hne2
        · simp only [if_neg hbig] at h
          cases hf : alloc_slot_find k.g_stack_slot_used CONFIG_MAX_TASKS 0 with
          | none =>
            rw [hf] at h
            simp only at h
            exact absurd (congrArg Prod.snd (Option.some.inj h)) hne2
          | some i =>
            rw [hf] at h
            simp only at h
            have hi := (alloc_slot_find_spec _ _ _ _ hf).2.1
            split at h
            · cases h
            · rename_i k5 hk5
              have e := congrArg Prod.fst (Option.some.inj h)
              simp only at e
              subst e
              obtain ⟨b1, b2, b3, b4, b5⟩ := key _ (g_task_pool j) _ _ hk5
              exact ⟨g_task_pool j, g_stack_pool i, CONFIG_DEFAULT_STACK_SIZE,
                fun u hu => Option.noConfusion hu, fun s hs => Option.noConfusion hs,
                fun _ => ⟨rfl, i, by omega, rfl⟩, b1, b2, b3, b4, b5⟩

/-- Claim C39.  For a 4-byte-aligned stack base `st` and an accepted
`size` (at least 256, a multiple of 8), the region lying in the 32-bit address
space: the `stack_top` computed by `task_create` is 8-byte aligned, fits in 32
bits and satisfies `st + size - 4 <= stack_top <= st + size`.  With
well-formed scheduler lists and a TCB `t` on no list, `task_create` returns
`KERNEL_OK`; the stack memory is the result of the fill of all `size / 4`
words with `0xCDCDCDCD` followed by `task_init_stack`; the saved `sp` is
`stack_top - 68 >= st`; every one of the 17 frame words lies in
`[st, st + size)`; every word of the region outside the frame holds the fill
pattern; and no address outside `[st, st + size)` is written.  For every
`task_create` call that returns `KERNEL_OK` (pool TCB or pool stack included,
a caller's stack being 4-byte aligned) the frame lies in the stack region of
the new task and nothing outside that region is written.  A `size` below 256
or not a multiple of 8, a `NULL` entry, or a priority of 32 or more gives
`KERNEL_ERR_PARAM` with the state unchanged. -/
theorem C39_stack_region (k : Kernel) (rl : Nat → List Nat) (bl : List Nat) (fuel : Nat)
    (hrep : SchedRep k rl bl) (t entry arg priority st size : Nat)
    (hprio : priority < CONFIG_MAX_PRIORITY) (hsize : 256 ≤ size) (h8 : size % 8 = 0)
    (h4 : st % 4 = 0) (hfit : st + size < 2 ^ 32) (hb : t ∉ bl)
    (hr : ∀ p, p < CONFIG_MAX_PRIORITY → t ∉ rl p) (hfuel : (rl priority).length ≤ fuel)
    (bad bigp : Nat) (hbad : bad < 256 ∨ bad % 8 ≠ 0) (hbig : CONFIG_MAX_PRIORITY ≤ bigp) :
    ((st + 4 * (size / 4)) - (st + 4 * (size / 4)) % 8) % 8 = 0 ∧
    (st + 4 * (size / 4)) - (st + 4 * (size / 4)) % 8 < 2 ^ 32 ∧
    st + size - 4 ≤ (st + 4 * (size / 4)) - (st + 4 * (size / 4)) % 8 ∧
    (st + 4 * (size / 4)) - (st + 4 * (size / 4)) % 8 ≤ st + size ∧
    (∃ k1, task_create fuel k (some t) (some entry) arg priority (some st) size =
        some (k1, KERNEL_OK) ∧
      k1.stack_mem = (task_init_stack (stack_fill k.stack_mem st (size / 4) 0)
        ((st + 4 * (size / 4)) - (st + 4 * (size / 4)) % 8) entry arg
        task_exit_trampoline).1 ∧
      (k1.tcb t).stack_top = (st + 4 * (size / 4)) - (st + 4 * (size / 4)) % 8 ∧
      (k1.tcb t).sp = (k1.tcb t).stack_top - 68 ∧ st ≤ (k1.tcb t).sp ∧
      (∀ i, i < 17 → st ≤ (k1.tcb t).sp + 4 * i ∧ (k1.tcb t).sp + 4 * i + 4 ≤ st + size) ∧
      (∀ j, j < size / 4 →
        st + 4 * j < (k1.tcb t).sp ∨ (k1.tcb t).stack_top ≤ st + 4 * j →
        k1.stack_mem (st + 4 * j) = TASK_STACK_FILL) ∧
      ∀ a, a < st ∨ st + size ≤ a → k1.stack_mem a = k.stack_mem a) ∧
    (∀ (tcb2 stack2 : Option Nat) (size2 : Nat) (k2 : Kernel),
      (∀ s, stack2 = some s → s % 4 = 0) →
      task_create fuel k tcb2 (some entry) arg priority stack2 size2 = some (k2, KERNEL_OK) →
      ∃ u, (k2.tcb u).stack_top % 8 = 0 ∧
        (k2.tcb u).sp = (k2.tcb u).stack_top - 68 ∧
        (k2.tcb u).stack_base ≤ (k2.tcb u).sp ∧
        (k2.tcb u).stack_top ≤ (k2.tcb u).stack_base + (k2.tcb u).stack_size ∧
        ∀ a, a < (k2.tcb u).stack_base ∨
            (k2.tcb u).stack_base + (k2.tcb u).stack_size ≤ a →
          k2.stack_mem a = k.stack_mem a) ∧
    (∀ (tcb2 stack2 : Option Nat),
      task_create fuel k tcb2 (some entry) arg priority stack2 bad =
        some (k, KERNEL_ERR_PARAM) ∧
      task_create fuel k tcb2 none arg priority stack2 size = some (k, KERNEL_ERR_PARAM) ∧
      task_create fuel k tcb2 (some entry) arg bigp stack2 size =
        some (k, KERNEL_ERR_PARAM)) := by
  obtain ⟨a1, a2, a3, a4, a5, a6, a7, a8⟩ := stack_region k.stack_mem st size entry arg
    task_exit_trampoline h4 hsize h8
  refine ⟨a1, lt_of_le_of_lt a3 hfit, a2, a3, ?_, ?_, ?_⟩
  · obtain ⟨k1, e1, _, m1, s1, s2, _⟩ := rep_task_create_given hrep t entry arg priority st size
      hprio hsize h8 hb hr hfuel
    have hsp : (k1.tcb t).sp = (k1.tcb t).stack_top - 68 := by
      rw [s1, s2, a4]
    refine ⟨k1, e1, m1, s2, hsp, ?_, ?_, ?_, ?_⟩
    · rw [hsp, s2]
      exact a5
    · rw [hsp, s2]
      exact a8
    · rw [hsp, s2, m1]
      exact a7
    · rw [m1]
      exact a6
  · intro tcb2 stack2 size2 k2 hal h
    obtain ⟨_, c2, c3, u, s, z, _, d2, d3, m, e1, e2, e3, e4⟩ := task_create_stack h
    have hs4 : s % 4 = 0 := by
      cases stack2 with
      | some s0 =>
        rw [(d2 s0 rfl).1]
        exact hal s0 rfl
      | none =>
        obtain ⟨_, i, _, hi⟩ := d3 rfl
        rw [hi]
        unfold g_stack_pool CONFIG_DEFAULT_STACK_SIZE
        omega
    have hz : 256 ≤ z ∧ z % 8 = 0 := by
      cases stack2 with
      | some s0 =>
        rw [(d2 s0 rfl).2]
        unfold CONFIG_MIN_STACK_SIZE at c2
        exact ⟨c2, c3⟩
      | none =>
        rw [(d3 rfl).1]
        decide
    obtain ⟨b1, _, b3, b4, b5, b6, _, _⟩ := stack_region k.stack_mem s z entry arg
      task_exit_trampoline hs4 hz.1 hz.2
    refine ⟨u, ?_, ?_, ?_, ?_, ?_⟩
    · rw [e2]
      exact b1
    · rw [e1, e2, b4]
    · rw [e1, e3, b4]
      exact b5
    · rw [e2, e3, e4]
      exact b3
    · rw [e3, e4, m]
      exact b6
  · intro tcb2 stack2
    have h1 : ¬ priority ≥ CONFIG_MAX_PRIORITY := Nat.not_le.2 hprio
    have h2 : bad < CONFIG_MIN_STACK_SIZE ∨ bad % 8 ≠ 0 := hbad
    have h3 : bigp ≥ CONFIG_MAX_PRIORITY := hbig
    refine ⟨?_, ?_, ?_⟩
    · simp only [task_create, if_neg h1, if_pos h2]
    · simp only [task_create]
    · simp only [task_create, if_pos h3]

/-- Witness for C39: after `scheduler_init`, a task with TCB 1 and a stack of
256 bytes at `0x20010004`, which is 4-byte but not 8-byte aligned. -/
theorem C39_stack_region_witness :
    ((0x20010004 + 4 * (256 / 4)) - (0x20010004 + 4 * (256 / 4)) % 8) % 8 = 0 ∧
    (0x20010004 + 4 * (256 / 4)) - (0x20010004 + 4 * (256 / 4)) % 8 < 2 ^ 32 ∧
    0x20010004 + 256 - 4 ≤ (0x20010004 + 4 * (256 / 4)) - (0x20010004 + 4 * (256 / 4)) % 8 ∧
    (0x20010004 + 4 * (256 / 4)) - (0x20010004 + 4 * (256 / 4)) % 8 ≤ 0x20010004 + 256 ∧
    (∃ k1, task_create 8 (scheduler_init kernel0) (some 1) (some 0x60003001) 7 5
        (some 0x20010004) 256 = some (k1, KERNEL_OK) ∧
      k1.stack_mem = (task_init_stack
        (stack_fill (scheduler_init kernel0).stack_mem 0x20010004 (256 / 4) 0)
        ((0x20010004 + 4 * (256 / 4)) - (0x20010004 + 4 * (256 / 4)) % 8) 0x60003001 7
        task_exit_trampoline).1 ∧
      (k1.tcb 1).stack_top =
        (0x20010004 + 4 * (256 / 4)) - (0x20010004 + 4 * (256 / 4)) % 8 ∧
      (k1.tcb 1).sp = (k1.tcb 1).stack_top - 68 ∧ 0x20010004 ≤ (k1.tcb 1).sp ∧
      (∀ i, i < 17 → 0x20010004 ≤ (k1.tcb 1).sp + 4 * i ∧
        (k1.tcb 1).sp + 4 * i + 4 ≤ 0x20010004 + 256) ∧
      (∀ j, j < 256 / 4 →
        0x20010004 + 4 * j < (k1.tcb 1).sp ∨ (k1.tcb 1).stack_top ≤ 0x20010004 + 4 * j →
        k1.stack_mem (0x20010004 + 4 * j) = TASK_STACK_FILL) ∧
      ∀ a, a < 0x20010004 ∨ 0x20010004 + 256 ≤ a →
        k1.stack_mem a = (scheduler_init kernel0).stack_mem a) ∧
    (∀ (tcb2 stack2 : Option Nat) (size2 : Nat) (k2 : Kernel),
      (∀ s, stack2 = some s → s % 4 = 0) →
      task_create 8 (scheduler_init kernel0) tcb2 (some 0x60003001) 7 5 stack2 size2 =
        some (k2, KERNEL_OK) →
      ∃ u, (k2.tcb u).stack_top % 8 = 0 ∧
        (k2.tcb u).sp = (k2.tcb u).stack_top - 68 ∧
        (k2.tcb u).stack_base ≤ (k2.tcb u).sp ∧
        (k2.tcb u).stack_top ≤ (k2.tcb u).stack_base + (k2.tcb u).stack_size ∧
        ∀ a, a < (k2.tcb u).stack_base ∨
            (k2.tcb u).stack_base + (k2.tcb u).stack_size ≤ a →
          k2.stack_mem a = (scheduler_init kernel0).stack_mem a) ∧
    (∀ (tcb2 stack2 : Option Nat),
      task_create 8 (scheduler_init kernel0) tcb2 (some 0x60003001) 7 5 stack2 100 =
        some (scheduler_init kernel0, KERNEL_ERR_PARAM) ∧
      task_create 8 (scheduler_init kernel0) tcb2 none 7 5 stack2 256 =
        some (scheduler_init kernel0, KERNEL_ERR_PARAM) ∧
      task_create 8 (scheduler_init kernel0) tcb2 (some 0x60003001) 7 32 stack2 256 =
        some (scheduler_init kernel0, KERNEL_ERR_PARAM)) :=
  C39_stack_region (scheduler_init kernel0) (fun _ => []) [] 8
    (SchedRep_scheduler_init kernel0) 1 0x60003001 7 5 0x20010004 256 (by decide) (by decide)
    (by decide) (by decide) (by decide) (by simp) (by simp) (by simp) 100 32 (by decide)
    (by decide)

/-! ## C40: the ring relation of the message queue -/

theorem TimerChain_congr {nx nx1 : Nat → Option Nat} :
    ∀ (l : List Nat) (h : Option Nat), (∀ a ∈ l, nx1 a = nx a) → TimerChain nx h l →
      TimerChain nx1 h l := by
  intro l
  induction l with
  | nil =>
    intro h _ hc
    exact hc
  | cons a l ih =>
    intro h hn hc
    refine ⟨hc.1, ?_⟩
    rw [hn a (List.mem_cons_self _ _)]
    exact ih _ (fun b hb => hn b (List.mem_cons_of_mem _ hb)) hc.2

theorem TimerChain_head {nx : Nat → Option Nat} {h : Option Nat} {l : List Nat}
    (hc : TimerChain nx h l) : h = l.head? := by
  cases l with
  | nil => exact hc
  | cons a l => exact hc.1

theorem TimerChain_next_mid {nx : Nat → Option Nat} (x : Nat) (post : List Nat) :
    ∀ (pre : List Nat) (head : Option Nat), TimerChain nx head (pre ++ x :: post) →
      nx x = post.head? := by
  intro pre
  induction pre with
  | nil =>
    intro head h
    exact TimerChain_head h.2
  | cons a pre ih =>
    intro head h
    exact ih _ h.2

theorem last_before_mem : ∀ (pre : List Nat) (b : Nat),
    ∃ c, last_before (some b) pre = some c ∧ c ∈ b :: pre := by
  intro pre
  induction pre with
  | nil =>
    intro b
    exact ⟨b, rfl, List.mem_cons_self _ _⟩
  | cons a pre ih =>
    intro b
    obtain ⟨c, h1, h2⟩ := ih a
    exact ⟨c, h1, List.mem_cons_of_mem _ h2⟩

/-- The walk of `timer_list_remove` finds the timer `T` of the list and
unlinks it behind its predecessor. -/
theorem timer_remove_walk_found (T : Nat) (s : TimerState) (post : List Nat) :
    ∀ (pre : List Nat) (fuel : Nat) (iter prev : Option Nat),
      TimerChain (timer_nxt s) iter (pre ++ T :: post) → T ∉ pre → pre.length < fuel →
      timer_remove_walk T fuel s iter prev =
        some (timer_unlink s (last_before prev pre) T) := by
  intro pre
  induction pre with
  | nil =>
    intro fuel iter prev hc _ hf
    obtain ⟨f, rfl⟩ : ∃ f, fuel = f + 1 := ⟨fuel - 1, by
      simp only [List.length_nil] at hf
      omega⟩
    have h1 : iter = some T := hc.1
    rw [h1]
    simp only [timer_remove_walk, if_true]
    rfl
  | cons a pre ih =>
    intro fuel iter prev hc hT hf
    obtain ⟨f, rfl⟩ : ∃ f, fuel = f + 1 := ⟨fuel - 1, by
      simp only [List.length_cons] at hf
      omega⟩
    have h1 : iter = some a := hc.1
    have hne : a ≠ T := fun e => hT (e ▸ List.mem_cons_self _ _)
    rw [h1]
    simp only [timer_remove_walk, if_neg hne]
    exact ih f _ (some a) hc.2 (fun hm => hT (List.mem_cons_of_mem _ hm)) (by
      simp only [List.length_cons] at hf
      omega)

/-- The links after the unlink step describe the list without `T`. -/
theorem TimerChain_unlink (nx : Nat → Option Nat) (T : Nat) (post : List Nat) :
    ∀ (pre : List Nat) (head prev : Option Nat),
      TimerChain nx head (pre ++ T :: post) → (pre ++ T :: post).Nodup →
      (∀ p, prev = some p → p ∉ pre ++ T :: post) →
      TimerChain
        (Function.update
          (match last_before prev pre with
            | none => nx
            | some p => Function.update nx p (nx T)) T none)
        (match pre with
          | [] => nx T
          | a :: _ => some a)
        (pre ++ post) := by
  intro pre
  induction pre with
  | nil =>
    intro head prev hc hnd hprev
    have hTpost : T ∉ post := (List.nodup_cons.1 hnd).1
    refine TimerChain_congr post _ ?_ hc.2
    intro a ha
    have haT : a ≠ T := fun e => hTpost (e ▸ ha)
    rw [Function.update_noteq haT]
    show (match prev with
      | none => nx
      | some p => Function.update nx p (nx T)) a = nx a
    cases prev with
    | none => rfl
    | some p =>
      have hap : a ≠ p := fun e => hprev p rfl (List.mem_cons_of_mem _ (e ▸ ha))
      exact Function.update_noteq hap _ _
  | cons a pre ih =>
    intro head prev hc hnd hprev
    have hnd1 : (pre ++ T :: post).Nodup := (List.nodup_cons.1 hnd).2
    have hanot : a ∉ pre ++ T :: post := (List.nodup_cons.1 hnd).1
    have haT : a ≠ T := fun e => hanot (e ▸ List.mem_append_right _ (List.mem_cons_self _ _))
    have h := ih (nx a) (some a) hc.2 hnd1 (fun p hp => by
      cases hp
      exact hanot)
    refine ⟨rfl, ?_⟩
    show TimerChain
      (Function.update
        (match last_before (some a) pre with
          | none => nx
          | some p => Function.update nx p (nx T)) T none)
      (Function.update
        (match last_before (some a) pre with
          | none => nx
          | some p => Function.update nx p (nx T)) T none a) (pre ++ post)
    rw [Function.update_noteq haT]
    cases pre with
    | nil =>
      have e : last_before (some a) [] = some a := rfl
      rw [e] at h ⊢
      simp only [Function.update_same]
      exact h
    | cons b pre1 =>
      obtain ⟨c, hc1, hc2⟩ := last_before_mem pre1 b
      have e : last_before (some a) (b :: pre1) = some c := hc1
      rw [e] at h ⊢
      have hac : a ≠ c := fun e1 => hanot (List.mem_append_left _ (e1 ▸ hc2))
      simp only [Function.update_noteq hac]
      have hb : nx a = some b := hc.2.1
      rw [hb]
      exact h

theorem timer_nxt_setTimer (s : TimerState) (a : Nat) (f : sw_timer_t → sw_timer_t) :
    timer_nxt (s.setTimer a f) = Function.update (timer_nxt s) a (f (s.timer a)).next := by
  funext b
  unfold timer_nxt TimerState.setTimer
  by_cases h : b = a
  · subst h
    simp
  · simp [Function.update_noteq h]

theorem timer_data_setTimer (s : TimerState) (a : Nat) (f : sw_timer_t → sw_timer_t)
    (hf : timer_data (f (s.timer a)) = timer_data (s.timer a)) (u : Nat) :
    timer_data ((s.setTimer a f).timer u) = timer_data (s.timer u) := by
  unfold TimerState.setTimer
  by_cases h : u = a
  · subst h
    simpa using hf
  · simp [Function.update_noteq h]

theorem timer_field {α : Type} (f : sw_timer_t → α) (hf : ∀ c, f (timer_data c) = f c)
    {c d : sw_timer_t} (h : timer_data c = timer_data d) : f c = f d := by
  rw [← hf c, h, hf d]

/-- The function `timer_list_remove` on a timer of a well-formed list: it
returns, the list is the old one without the timer, the timer is inactive
with a `NULL` link, and nothing else but a link changes. -/
theorem timer_remove_spec {s : TimerState} {pre post : List Nat} {T fuel : Nat}
    (hc : TimerChain (timer_nxt s) s.g_timer_list (pre ++ T :: post))
    (hnd : (pre ++ T :: post).Nodup) (hf : (pre ++ T :: post).length ≤ fuel) :
    ∃ s1, timer_list_remove fuel s T = some s1 ∧
      TimerChain (timer_nxt s1) s1.g_timer_list (pre ++ post) ∧
      (∀ t, t ≠ T → timer_data (s1.timer t) = timer_data (s.timer t)) ∧
      s1.timer T = { s.timer T with next := none, active := 0 } ∧ s1.calls = s.calls := by
  have hTpre : T ∉ pre := by
    intro hm
    exact (List.nodup_append.1 hnd).2.2 hm (List.mem_cons_self _ _)
  have hlen : pre.length < fuel := by
    simp only [List.length_append, List.length_cons] at hf
    omega
  have hrun := timer_remove_walk_found T s post pre fuel s.g_timer_list none hc hTpre hlen
  have hch := TimerChain_unlink (timer_nxt s) T post pre s.g_timer_list none hc hnd
    (fun p hp => by cases hp)
  refine ⟨_, hrun, ?_, ?_, ?_, ?_⟩
  · cases pre with
    | nil =>
      exact TimerChain_congr _ _ (fun a _ => by
        show timer_nxt (timer_unlink s none T) a = _
        unfold timer_unlink
        rw [timer_nxt_setTimer]
        rfl) hch
    | cons b pre1 =>
      obtain ⟨c, hc1, hc2⟩ := last_before_mem pre1 b
      have e : last_before none (b :: pre1) = some c := hc1
      rw [e] at hch ⊢
      have hhead : s.g_timer_list = some b := hc.1
      have hg : (timer_unlink s (some c) T).g_timer_list = some b := hhead
      rw [hg]
      have hcT : c ≠ T := fun e1 => hTpre (e1 ▸ hc2)
      exact TimerChain_congr _ _ (fun a _ => by
        show timer_nxt (timer_unlink s (some c) T) a = _
        unfold timer_unlink
        rw [timer_nxt_setTimer, timer_nxt_setTimer]
        rfl) hch
  · intro t ht
    cases hp : last_before none pre with
    | none =>
      unfold timer_unlink
      simp [TimerState.setTimer, Function.update_noteq ht]
    | some c =>
      unfold timer_unlink
      simp only []
      have h1 : ((s.setTimer c (fun x => { x with next := (s.timer T).next })).setTimer T
          (fun x => { x with next := none, active := 0 })).timer t =
          (s.setTimer c (fun x => { x with next := (s.timer T).next })).timer t := by
        simp [TimerState.setTimer, Function.update_noteq ht]
      rw [h1]
      exact timer_data_setTimer s c _ rfl t
  · cases pre with
    | nil =>
      show (timer_unlink s none T).timer T = _
      unfold timer_unlink
      simp [TimerState.setTimer]
    | cons b pre1 =>
      obtain ⟨c, hc1, hc2⟩ := last_before_mem pre1 b
      have e : last_before none (b :: pre1) = some c := hc1
      rw [e]
      have hcT : T ≠ c := fun e1 => hTpre (e1 ▸ hc2)
      unfold timer_unlink
      simp [TimerState.setTimer, Function.update_noteq hcT]
  · cases last_before none pre <;> rfl

theorem timer_fires_congr {s s1 : TimerState} {t : Nat}
    (h : timer_data (s1.timer t) = timer_data (s.timer t)) :
    timer_fires s1 t = timer_fires s t := by
  unfold timer_fires
  rw [timer_field sw_timer_t.remaining_ticks (fun _ => rfl) h]

theorem timer_stays_congr {s s1 : TimerState} {t : Nat}
    (h : timer_data (s1.timer t) = timer_data (s.timer t)) :
    timer_stays s1 t = timer_stays s t := by
  unfold timer_stays
  rw [timer_fires_congr h, timer_field sw_timer_t.periodic (fun _ => rfl) h]

theorem timer_call_congr {s s1 : TimerState} {t : Nat}
    (h : timer_data (s1.timer t) = timer_data (s.timer t)) :
    timer_call s1 t = timer_call s t := by
  unfold timer_call
  rw [timer_field sw_timer_t.callback (fun _ => rfl) h,
    timer_field sw_timer_t.arg (fun _ => rfl) h]

/-- A store to timer `x` that keeps its link and its `active` flag and leaves
it armed keeps the list well formed. -/
theorem TimerInv_setTimer {s : TimerState} {l : List Nat} (h : TimerInv s l) (x : Nat)
    (f : sw_timer_t → sw_timer_t) (hn : (f (s.timer x)).next = (s.timer x).next)
    (ha : (f (s.timer x)).active = (s.timer x).active)
    (harm : x ∈ l → (f (s.timer x)).callback ≠ none ∧ 1 ≤ (f (s.timer x)).remaining_ticks ∧
      (f (s.timer x)).remaining_ticks ≤ (f (s.timer x)).period_ticks) :
    TimerInv (s.setTimer x f) l := by
  have e1 : timer_nxt (s.setTimer x f) = timer_nxt s := by
    rw [timer_nxt_setTimer, hn]
    exact Function.update_eq_self x (timer_nxt s)
  have e3 : ∀ u, u ≠ x → (s.setTimer x f).timer u = s.timer u := by
    intro u hu
    simp [TimerState.setTimer, Function.update_noteq hu]
  have e4 : (s.setTimer x f).timer x = f (s.timer x) := by
    simp [TimerState.setTimer]
  refine ⟨?_, h.nodup, ?_, ?_⟩
  · rw [e1]
    exact h.chain
  · intro t
    by_cases ht : t = x
    · subst ht
      rw [e4, ha]
      exact h.active t
    · rw [e3 t ht]
      exact h.active t
  · intro t ht
    by_cases htx : t = x
    · subst htx
      rw [e4]
      exact harm ht
    · rw [e3 t htx]
      exact h.armed t ht

theorem TimerInv_calls {s : TimerState} {l : List Nat} (h : TimerInv s l)
    (c : List (Nat × Nat × Nat)) : TimerInv { s with calls := c } l :=
  ⟨h.chain, h.nodup, h.active, h.armed⟩

theorem setTimer_setTimer (s : TimerState) (x : Nat) (f g : sw_timer_t → sw_timer_t) :
    (s.setTimer x f).setTimer x g = s.setTimer x (fun c => g (f c)) := by
  unfold TimerState.setTimer
  simp

/-- The round of the loop of `timer_tick_isr` for a timer that does not reach
0. -/
theorem timer_tick_walk_count (n f : Nat) (s : TimerState) (x : Nat) (nx : Option Nat)
    (hnx : (s.timer x).next = nx) (h : 1 < (s.timer x).remaining_ticks) :
    timer_tick_walk n (f + 1) s (some x) =
      timer_tick_walk n f
        (s.setTimer x (fun c => { c with remaining_ticks := c.remaining_ticks - 1 })) nx := by
  have hpos : (s.timer x).remaining_ticks > 0 := by omega
  have e1 : ((s.setTimer x (fun c => { c with remaining_ticks := c.remaining_ticks - 1 })).timer
      x).remaining_ticks = (s.timer x).remaining_ticks - 1 := by
    simp [TimerState.setTimer]
  simp only [timer_tick_walk, if_pos hpos, e1, hnx]
  rw [if_neg (by omega)]

/-- The round of the loop of `timer_tick_isr` for a periodic timer that
reaches 0. -/
theorem timer_tick_walk_rearm (n f : Nat) (s : TimerState) (x cbf : Nat) (nx : Option Nat)
    (hnx : (s.timer x).next = nx) (h : (s.timer x).remaining_ticks = 1)
    (hper : (s.timer x).periodic ≠ 0) (hcb : (s.timer x).callback = some cbf) :
    timer_tick_walk n (f + 1) s (some x) =
      timer_tick_walk n f
        { s.setTimer x (fun c => { c with remaining_ticks := c.period_ticks }) with
          calls := s.calls ++ [(x, cbf, (s.timer x).arg)] } nx := by
  have hpos : (s.timer x).remaining_ticks > 0 := by omega
  have e1 : ((s.setTimer x (fun c => { c with remaining_ticks := c.remaining_ticks - 1 })).timer
      x) = { s.timer x with remaining_ticks := 0 } := by
    simp [TimerState.setTimer, h]
  simp only [timer_tick_walk, if_pos hpos, e1, hnx, if_true, hper, ne_eq, not_false_eq_true,
    hcb, setTimer_setTimer]
  rfl

/-- The round of the loop of `timer_tick_isr` for a single-shot timer that
reaches 0. -/
theorem timer_tick_walk_expire (n f : Nat) (s s2 : TimerState) (x cbf : Nat) (nx : Option Nat)
    (hnx : (s.timer x).next = nx) (h : (s.timer x).remaining_ticks = 1)
    (hper : (s.timer x).periodic = 0) (hcb : (s.timer x).callback = some cbf)
    (hrm : timer_list_remove n
      (s.setTimer x (fun c => { c with remaining_ticks := c.remaining_ticks - 1 })) x = some s2) :
    timer_tick_walk n (f + 1) s (some x) =
      timer_tick_walk n f { s2 with calls := s2.calls ++ [(x, cbf, (s.timer x).arg)] } nx := by
  have hpos : (s.timer x).remaining_ticks > 0 := by omega
  have e1 : ((s.setTimer x (fun c => { c with remaining_ticks := c.remaining_ticks - 1 })).timer
      x) = { s.timer x with remaining_ticks := 0 } := by
    simp [TimerState.setTimer, h]
  simp only [timer_tick_walk, if_pos hpos, e1, hnx, if_true, hper, ne_eq, not_true_eq_false,
    if_false, hcb, hrm]

/-- One round of the loop of `timer_tick_isr`, at the timer `x` of the list:
the timer is counted down; when it reaches 0 its callback is called, and the
timer is re-armed if periodic and removed from the list otherwise. -/
theorem timer_tick_step {n : Nat} (f : Nat) {s : TimerState} {pre post : List Nat} {x : Nat}
    (hinv : TimerInv s (pre ++ x :: post)) (hn : (pre ++ x :: post).length ≤ n) :
    ∃ s3, timer_tick_walk n (f + 1) s (some x) = timer_tick_walk n f s3 post.head? ∧
      TimerInv s3 ((if timer_stays s x = true then pre ++ [x] else pre) ++ post) ∧
      (∀ t, t ≠ x → timer_data (s3.timer t) = timer_data (s.timer t)) ∧
      s3.calls = s.calls ++ (if timer_fires s x = true then [timer_call s x] else []) ∧
      (s3.timer x).period_ticks = (s.timer x).period_ticks ∧
      (s3.timer x).callback = (s.timer x).callback ∧
      (s3.timer x).arg = (s.timer x).arg ∧
      (s3.timer x).periodic = (s.timer x).periodic ∧
      (s3.timer x).remaining_ticks =
        (if timer_fires s x = true
          then (if (s.timer x).periodic ≠ 0 then (s.timer x).period_ticks else 0)
          else (s.timer x).remaining_ticks - 1) := by
  have hnext : (s.timer x).next = post.head? :=
    TimerChain_next_mid x post pre _ hinv.chain
  have hxin : x ∈ pre ++ x :: post := List.mem_append_right _ (List.mem_cons_self _ _)
  obtain ⟨hcb, hr1, hrp⟩ := hinv.armed x hxin
  obtain ⟨cbf, hcbf⟩ : ∃ cbf, (s.timer x).callback = some cbf :=
    Option.ne_none_iff_exists'.1 hcb
  have happ : pre ++ [x] ++ post = pre ++ x :: post := by simp
  have hcall : timer_call s x = (x, cbf, (s.timer x).arg) := by
    simp [timer_call, hcbf]
  by_cases hfire : (s.timer x).remaining_ticks ≤ 1
  · have hF : timer_fires s x = true := by
      simp [timer_fires, hfire]
    have hone : (s.timer x).remaining_ticks = 1 := by omega
    by_cases hper : (s.timer x).periodic ≠ 0
    · have hS : timer_stays s x = true := by
        simp [timer_stays, hper]
      have i1 := TimerInv_setTimer hinv x
        (fun c => { c with remaining_ticks := c.period_ticks }) rfl rfl
        (fun _ => ⟨hcb, le_trans hr1 hrp, le_refl _⟩)
      have i2 := TimerInv_calls i1 (s.calls ++ [(x, cbf, (s.timer x).arg)])
      refine ⟨_, timer_tick_walk_rearm n f s x cbf _ hnext hone hper hcbf, ?_, ?_, ?_, ?_, ?_, ?_,
        ?_, ?_⟩
      · rw [if_pos hS, happ]
        exact i2
      · intro t ht
        simp [TimerState.setTimer, Function.update_noteq ht]
      · rw [if_pos hF, hcall]
      · simp [TimerState.setTimer]
      · simp [TimerState.setTimer]
      · simp [TimerState.setTimer]
      · simp [TimerState.setTimer]
      · rw [if_pos hF, if_pos hper]
        simp [TimerState.setTimer]
    · have hper0 : (s.timer x).periodic = 0 := by
        by_contra hh
        exact hper hh
      have hS : ¬ timer_stays s x = true := by
        simp [timer_stays, hF, hper0]
      have hnx1 : timer_nxt
          (s.setTimer x (fun c => { c with remaining_ticks := c.remaining_ticks - 1 })) =
          timer_nxt s := by
        rw [timer_nxt_setTimer]
        exact Function.update_eq_self x (timer_nxt s)
      have hchain1 : TimerChain
          (timer_nxt (s.setTimer x (fun c => { c with remaining_ticks := c.remaining_ticks - 1 })))
          (s.setTimer x (fun c => { c with remaining_ticks := c.remaining_ticks - 1 })).g_timer_list
          (pre ++ x :: post) := by
        rw [hnx1]
        exact hinv.chain
      obtain ⟨s2, r1, r2, r3, r4, r5⟩ := timer_remove_spec hchain1 hinv.nodup hn
      have hx1 : (s.setTimer x (fun c => { c with remaining_ticks := c.remaining_ticks - 1 })).timer
          x = { s.timer x with remaining_ticks := (s.timer x).remaining_ticks - 1 } := by
        simp [TimerState.setTimer]
      have ho1 : ∀ t, t ≠ x →
          (s.setTimer x (fun c => { c with remaining_ticks := c.remaining_ticks - 1 })).timer t =
            s.timer t := by
        intro t ht
        simp [TimerState.setTimer, Function.update_noteq ht]
      rw [hx1] at r4
      have hdata : ∀ t, t ≠ x → timer_data (s2.timer t) = timer_data (s.timer t) := by
        intro t ht
        rw [r3 t ht, ho1 t ht]
      have hxnot : x ∉ pre ++ post := by
        intro hm
        have hnd := hinv.nodup
        rcases List.mem_append.1 hm with h | h
        · exact (List.nodup_append.1 hnd).2.2 h (List.mem_cons_self _ _)
        · exact (List.nodup_cons.1 (List.nodup_append.1 hnd).2.1).1 h
      have hsub : ∀ t, t ∈ pre ++ post → t ∈ pre ++ x :: post := by
        intro t ht
        rcases List.mem_append.1 ht with h | h
        · exact List.mem_append_left _ h
        · exact List.mem_append_right _ (List.mem_cons_of_mem _ h)
      have i2 : TimerInv s2 (pre ++ post) := by
        refine ⟨r2, ?_, ?_, ?_⟩
        · have hnd := hinv.nodup
          rw [List.nodup_append] at hnd ⊢
          refine ⟨hnd.1, (List.nodup_cons.1 hnd.2.1).2, ?_⟩
          intro a ha hb
          exact hnd.2.2 ha (List.mem_cons_of_mem _ hb)
        · intro t
          by_cases ht : t = x
          · subst ht
            rw [r4]
            constructor
            · intro hh
              exact absurd rfl hh
            · intro hh
              exact absurd hh hxnot
          · rw [timer_field sw_timer_t.active (fun _ => rfl) (hdata t ht)]
            constructor
            · intro hh
              have hm := (hinv.active t).1 hh
              rcases List.mem_append.1 hm with h | h
              · exact List.mem_append_left _ h
              · rcases List.mem_cons.1 h with h1 | h1
                · exact absurd h1 ht
                · exact List.mem_append_right _ h1
            · intro hh
              exact (hinv.active t).2 (hsub t hh)
        · intro t ht
          have htx : t ≠ x := fun e => hxnot (e ▸ ht)
          rw [timer_field sw_timer_t.callback (fun _ => rfl) (hdata t htx),
            timer_field sw_timer_t.remaining_ticks (fun _ => rfl) (hdata t htx),
            timer_field sw_timer_t.period_ticks (fun _ => rfl) (hdata t htx)]
          exact hinv.armed t (hsub t ht)
      have i3 := TimerInv_calls i2 (s2.calls ++ [(x, cbf, (s.timer x).arg)])
      refine ⟨_, timer_tick_walk_expire n f s s2 x cbf _ hnext hone hper0 hcbf r1, ?_, ?_, ?_, ?_,
        ?_, ?_, ?_, ?_⟩
      · rw [if_neg hS]
        exact i3
      · exact hdata
      · rw [if_pos hF, hcall]
        show s2.calls ++ _ = _
        rw [r5]
        rfl
      · show (s2.timer x).period_ticks = _
        rw [r4]
      · show (s2.timer x).callback = _
        rw [r4]
      · show (s2.timer x).arg = _
        rw [r4]
      · show (s2.timer x).periodic = _
        rw [r4]
      · rw [if_pos hF, if_neg hper]
        show (s2.timer x).remaining_ticks = _
        rw [r4]
        show (s.timer x).remaining_ticks - 1 = 0
        omega
  · have hF : ¬ timer_fires s x = true := by
      simp [timer_fires, hfire]
    have hS : timer_stays s x = true := by
      simp [timer_stays, timer_fires, hfire]
    have i1 := TimerInv_setTimer hinv x
      (fun c => { c with remaining_ticks := c.remaining_ticks - 1 }) rfl rfl
      (fun _ => ⟨hcb, by show 1 ≤ (s.timer x).remaining_ticks - 1; omega,
        by show (s.timer x).remaining_ticks - 1 ≤ (s.timer x).period_ticks; omega⟩)
    refine ⟨_, timer_tick_walk_count n f s x _ hnext (by omega), ?_, ?_, ?_, ?_, ?_, ?_, ?_, ?_⟩
    · rw [if_pos hS, happ]
      exact i1
    · intro t ht
      simp [TimerState.setTimer, Function.update_noteq ht]
    · rw [if_neg hF, List.append_nil]
      rfl
    · simp [TimerState.setTimer]
    · simp [TimerState.setTimer]
    · simp [TimerState.setTimer]
    · simp [TimerState.setTimer]
    · rw [if_neg hF]
      simp [TimerState.setTimer]

/-- The loop of `timer_tick_isr` from the element after `pre` of the timer
list `pre ++ post`: it returns; every timer of `post` is counted down, those
that reach 0 have their callback called in list order, the periodic ones are
re-armed and the others leave the list. -/
theorem timer_tick_walk_spec (n : Nat) :
    ∀ (post : List Nat) (fuel : Nat) (s : TimerState) (pre : List Nat),
      TimerInv s (pre ++ post) → (pre ++ post).length ≤ n → post.length ≤ fuel →
      ∃ s1, timer_tick_walk n fuel s post.head? = some s1 ∧
        TimerInv s1 (pre ++ post.filter (timer_stays s)) ∧
        s1.calls = s.calls ++ (post.filter (timer_fires s)).map (timer_call s) ∧
        (∀ t, t ∉ post → timer_data (s1.timer t) = timer_data (s.timer t)) ∧
        (∀ t ∈ post, (s1.timer t).period_ticks = (s.timer t).period_ticks ∧
          (s1.timer t).callback = (s.timer t).callback ∧
          (s1.timer t).arg = (s.timer t).arg ∧
          (s1.timer t).periodic = (s.timer t).periodic ∧
          (s1.timer t).remaining_ticks =
            (if timer_fires s t = true
              then (if (s.timer t).periodic ≠ 0 then (s.timer t).period_ticks else 0)
              else (s.timer t).remaining_ticks - 1)) := by
  intro post
  induction post with
  | nil =>
    intro fuel s pre hinv _ _
    refine ⟨s, ?_, ?_, ?_, fun _ _ => rfl, ?_⟩
    · cases fuel <;> simp only [List.head?_nil, timer_tick_walk]
    · simpa using hinv
    · simp
    · intro t ht
      cases ht
  | cons x post ih =>
    intro fuel s pre hinv hn hlen
    obtain ⟨f, rfl⟩ : ∃ f, fuel = f + 1 := ⟨fuel - 1, by
      simp only [List.length_cons] at hlen
      omega⟩
    have hlen1 : post.length ≤ f := by
      simp only [List.length_cons] at hlen
      omega
    have hnd : (pre ++ x :: post).Nodup := hinv.nodup
    have hxpost : x ∉ post := (List.nodup_cons.1 (List.nodup_append.1 hnd).2.1).1
    have hne : ∀ u ∈ post, u ≠ x := fun u hu e => hxpost (e ▸ hu)
    obtain ⟨s3, e3, i3, d3, c3, p3, cb3, a3, per3, r3⟩ := timer_tick_step f hinv hn
    have hn3 : ((if timer_stays s x = true then pre ++ [x] else pre) ++ post).length ≤ n := by
      refine le_trans ?_ hn
      split_ifs <;> simp
    obtain ⟨s1, g1, g2, g3, g4, g5⟩ := ih f s3 _ i3 hn3 hlen1
    have hst : post.filter (timer_stays s3) = post.filter (timer_stays s) :=
      List.filter_congr (fun u hu => timer_stays_congr (d3 u (hne u hu)))
    have hfi : post.filter (timer_fires s3) = post.filter (timer_fires s) :=
      List.filter_congr (fun u hu => timer_fires_congr (d3 u (hne u hu)))
    have hca : (post.filter (timer_fires s)).map (timer_call s3) =
        (post.filter (timer_fires s)).map (timer_call s) :=
      List.map_congr_left (fun u hu =>
        timer_call_congr (d3 u (hne u (List.mem_filter.1 hu).1)))
    rw [hst] at g2
    rw [hfi, hca] at g3
    refine ⟨s1, ?_, ?_, ?_, ?_, ?_⟩
    · rw [List.head?_cons, e3]
      exact g1
    · rw [List.filter_cons]
      by_cases hS : timer_stays s x = true
      · rw [if_pos hS] at g2 ⊢
        simpa using g2
      · rw [if_neg hS] at g2 ⊢
        exact g2
    · rw [g3, c3, List.filter_cons]
      by_cases hF : timer_fires s x = true
      · rw [if_pos hF, if_pos hF]
        simp
      · rw [if_neg hF, if_neg hF]
        simp
    · intro t ht
      have htx : t ≠ x := fun e => ht (e ▸ List.mem_cons_self _ _)
      rw [g4 t (fun hm => ht (List.mem_cons_of_mem _ hm))]
      exact d3 t htx
    · intro t ht
      rcases List.mem_cons.1 ht with e | hm
      · subst e
        have hd := g4 t hxpost
        rw [timer_field sw_timer_t.period_ticks (fun _ => rfl) hd,
          timer_field sw_timer_t.callback (fun _ => rfl) hd,
          timer_field sw_timer_t.arg (fun _ => rfl) hd,
          timer_field sw_timer_t.periodic (fun _ => rfl) hd,
          timer_field sw_timer_t.remaining_ticks (fun _ => rfl) hd]
        exact ⟨p3, cb3, a3, per3, r3⟩
      · have hd := d3 t (hne t hm)
        obtain ⟨q1, q2, q3, q4, q5⟩ := g5 t hm
        rw [timer_fires_congr hd, timer_field sw_timer_t.period_ticks (fun _ => rfl) hd,
          timer_field sw_timer_t.callback (fun _ => rfl) hd,
          timer_field sw_timer_t.arg (fun _ => rfl) hd,
          timer_field sw_timer_t.periodic (fun _ => rfl) hd,
          timer_field sw_timer_t.remaining_ticks (fun _ => rfl) hd] at *
        exact ⟨q1, q2, q3, q4, q5⟩

theorem calls_filter (s : TimerState) (T : Nat) (P : Nat → Bool) :
    ∀ l : List Nat, l.Nodup →
      ((l.filter P).map (timer_call s)).filter (fun e => e.1 == T) =
        if T ∈ l ∧ P T = true then [timer_call s T] else [] := by
  intro l
  induction l with
  | nil =>
    intro _
    simp
  | cons a l ih =>
    intro hnd
    have hal : a ∉ l := (List.nodup_cons.1 hnd).1
    have ih1 := ih (List.nodup_cons.1 hnd).2
    by_cases haT : a = T
    · subst haT
      have h0 : ((l.filter P).map (timer_call s)).filter (fun e => e.1 == a) = [] := by
        rw [ih1, if_neg (fun h => hal h.1)]
      by_cases hPa : P a = true
      · rw [List.filter_cons, if_pos hPa, List.map_cons, List.filter_cons]
        have hh : ((timer_call s a).1 == a) = true := by
          simp [timer_call]
        rw [if_pos hh, h0, if_pos ⟨List.mem_cons_self _ _, hPa⟩]
      · rw [List.filter_cons, if_neg hPa, h0, if_neg (fun h => hPa h.2)]
    · have hmem : (T ∈ a :: l ∧ P T = true) ↔ (T ∈ l ∧ P T = true) := by
        constructor
        · rintro ⟨h1, h2⟩
          rcases List.mem_cons.1 h1 with h | h
          · exact absurd h.symm haT
          · exact ⟨h, h2⟩
        · rintro ⟨h1, h2⟩
          exact ⟨List.mem_cons_of_mem _ h1, h2⟩
      by_cases hPa : P a = true
      · rw [List.filter_cons, if_pos hPa, List.map_cons, List.filter_cons]
        have hh : ¬ ((timer_call s a).1 == T) = true := by
          simp [timer_call, haT]
        rw [if_neg hh, ih1]
        exact if_congr hmem.symm rfl rfl
      · rw [List.filter_cons, if_neg hPa, ih1]
        exact if_congr hmem.symm rfl rfl

/-- One `timer_tick_isr` on a well-formed timer list. -/
theorem timer_tick_spec {s : TimerState} {l : List Nat} {fuel : Nat} (hinv : TimerInv s l)
    (hf : l.length ≤ fuel) (T : Nat) :
    ∃ s1, timer_tick_isr fuel s = some s1 ∧ TimerInv s1 (l.filter (timer_stays s)) ∧
      calls_of s1 T = calls_of s T ++
        (if T ∈ l ∧ timer_fires s T = true then [timer_call s T] else []) ∧
      (T ∉ l → timer_data (s1.timer T) = timer_data (s.timer T)) ∧
      (T ∈ l → (s1.timer T).period_ticks = (s.timer T).period_ticks ∧
        (s1.timer T).callback = (s.timer T).callback ∧
        (s1.timer T).arg = (s.timer T).arg ∧
        (s1.timer T).periodic = (s.timer T).periodic ∧
        (s1.timer T).remaining_ticks =
          (if timer_fires s T = true
            then (if (s.timer T).periodic ≠ 0 then (s.timer T).period_ticks else 0)
            else (s.timer T).remaining_ticks - 1)) := by
  obtain ⟨s1, g1, g2, g3, g4, g5⟩ := timer_tick_walk_spec fuel l fuel s []
    (by rw [List.nil_append]; exact hinv) (by rw [List.nil_append]; exact hf) hf
  rw [List.nil_append] at g2
  refine ⟨s1, ?_, g2, ?_, g4 T, g5 T⟩
  · unfold timer_tick_isr
    rw [TimerChain_head hinv.chain]
    exact g1
  · unfold calls_of
    rw [g3, List.filter_append, calls_filter s T _ l hinv.nodup]

theorem filter_length_le_of {l : List Nat} {fuel : Nat} (P : Nat → Bool) (hf : l.length ≤ fuel) :
    (l.filter P).length ≤ fuel :=
  le_trans (List.length_filter_le _ _) hf

/-- Ticks never bring a timer into the list, and no callback is called for a
timer that is not in the list. -/
theorem timer_ticks_absent {fuel T : Nat} :
    ∀ (k : Nat) (s : TimerState) (l : List Nat), TimerInv s l → l.length ≤ fuel → T ∉ l →
      ∃ sk lk, timer_ticks fuel k s = some sk ∧ TimerInv sk lk ∧ T ∉ lk ∧
        calls_of sk T = calls_of s T := by
  intro k
  induction k with
  | zero =>
    intro s l hinv _ hT
    exact ⟨s, l, rfl, hinv, hT, rfl⟩
  | succ k ih =>
    intro s l hinv hf hT
    obtain ⟨s1, e1, i1, c1, _, _⟩ := timer_tick_spec hinv hf T
    obtain ⟨sk, lk, e2, i2, n2, c2⟩ := ih s1 _ i1 (filter_length_le_of _ hf)
      (fun hm => hT (List.mem_filter.1 hm).1)
    refine ⟨sk, lk, ?_, i2, n2, ?_⟩
    · simp only [timer_ticks, e1]
      exact e2
    · rw [c2, c1, if_neg (fun h => hT h.1), List.append_nil]

/-- A periodic timer of the list with `r` ticks remaining: after `k` ticks its
callback has been called `(k + (p - r)) / p` more times, each time with its
argument, and the timer is in the list. -/
theorem timer_ticks_periodic {fuel T cb arg p : Nat} :
    ∀ (k : Nat) (s : TimerState) (l : List Nat) (r : Nat), TimerInv s l → l.length ≤ fuel →
      T ∈ l → (s.timer T).periodic ≠ 0 → (s.timer T).period_ticks = p →
      (s.timer T).callback = some cb → (s.timer T).arg = arg →
      (s.timer T).remaining_ticks = r →
      ∃ sk lk, timer_ticks fuel k s = some sk ∧ TimerInv sk lk ∧ T ∈ lk ∧
        calls_of sk T = calls_of s T ++ List.replicate ((k + (p - r)) / p) (T, cb, arg) := by
  intro k
  induction k with
  | zero =>
    intro s l r hinv _ hT _ hp _ _ hr
    refine ⟨s, l, rfl, hinv, hT, ?_⟩
    obtain ⟨_, h1, h2⟩ := hinv.armed T hT
    have hlt : (0 + (p - r)) / p = 0 := by
      apply Nat.div_eq_of_lt
      rw [hp] at h2
      rw [hr] at h1 h2
      omega
    rw [hlt]
    simp
  | succ k ih =>
    intro s l r hinv hf hT hper hp hcb harg hr
    obtain ⟨_, h1, h2⟩ := hinv.armed T hT
    rw [hp] at h2
    rw [hr] at h1 h2
    obtain ⟨s1, e1, i1, c1, _, t1⟩ := timer_tick_spec hinv hf T
    obtain ⟨q1, q2, q3, q4, q5⟩ := t1 hT
    have hS : timer_stays s T = true := by
      simp [timer_stays, hper]
    have hT1 : T ∈ l.filter (timer_stays s) := List.mem_filter.2 ⟨hT, hS⟩
    have hcall : timer_call s T = (T, cb, arg) := by
      simp [timer_call, hcb, harg]
    rw [hcall] at c1
    by_cases hF : timer_fires s T = true
    · have hr1 : r = 1 := by
        have : (s.timer T).remaining_ticks ≤ 1 := by
          simpa [timer_fires] using hF
        omega
      rw [if_pos hF, if_pos hper, hp] at q5
      obtain ⟨sk, lk, e2, i2, m2, c2⟩ := ih s1 _ p i1 (filter_length_le_of _ hf) hT1
        (by rw [q4]; exact hper) (q1.trans hp) (q2.trans hcb) (q3.trans harg) q5
      refine ⟨sk, lk, ?_, i2, m2, ?_⟩
      · simp only [timer_ticks, e1]
        exact e2
      · rw [c2, c1, if_pos ⟨hT, hF⟩, List.append_assoc]
        congr 1
        have e : (k + 1 + (p - r)) / p = (k + (p - p)) / p + 1 := by
          have e0 : k + 1 + (p - r) = k + (p - p) + p := by omega
          rw [e0]
          exact Nat.add_div_right _ (by omega)
        rw [e, List.replicate_succ]
        rfl
    · have hr1 : 1 < r := by
        have : ¬ (s.timer T).remaining_ticks ≤ 1 := by
          simpa [timer_fires] using hF
        omega
      rw [if_neg hF, hr] at q5
      obtain ⟨sk, lk, e2, i2, m2, c2⟩ := ih s1 _ (r - 1) i1 (filter_length_le_of _ hf) hT1
        (by rw [q4]; exact hper) (q1.trans hp) (q2.trans hcb) (q3.trans harg) q5
      refine ⟨sk, lk, ?_, i2, m2, ?_⟩
      · simp only [timer_ticks, e1]
        exact e2
      · rw [c2, c1, if_neg (fun h => hF h.2), List.append_nil]
        have e0 : k + (p - (r - 1)) = k + 1 + (p - r) := by omega
        rw [e0]

/-- A single-shot timer of the list with `r` ticks remaining: its callback is
called on tick `r` and on no other tick, and from then on the timer is out of
the list. -/
theorem timer_ticks_oneshot {fuel T cb arg : Nat} :
    ∀ (k : Nat) (s : TimerState) (l : List Nat) (r : Nat), TimerInv s l → l.length ≤ fuel →
      T ∈ l → (s.timer T).periodic = 0 →
      (s.timer T).callback = some cb → (s.timer T).arg = arg →
      (s.timer T).remaining_ticks = r →
      ∃ sk lk, timer_ticks fuel k s = some sk ∧ TimerInv sk lk ∧
        (k < r → T ∈ lk ∧ calls_of sk T = calls_of s T) ∧
        (r ≤ k → T ∉ lk ∧ calls_of sk T = calls_of s T ++ [(T, cb, arg)]) := by
  intro k
  induction k with
  | zero =>
    intro s l r hinv _ hT _ _ _ hr
    obtain ⟨_, h1, _⟩ := hinv.armed T hT
    rw [hr] at h1
    exact ⟨s, l, rfl, hinv, fun _ => ⟨hT, rfl⟩, fun h => by omega⟩
  | succ k ih =>
    intro s l r hinv hf hT hper hcb harg hr
    obtain ⟨_, h1, _⟩ := hinv.armed T hT
    rw [hr] at h1
    obtain ⟨s1, e1, i1, c1, _, t1⟩ := timer_tick_spec hinv hf T
    obtain ⟨q1, q2, q3, q4, q5⟩ := t1 hT
    have hcall : timer_call s T = (T, cb, arg) := by
      simp [timer_call, hcb, harg]
    rw [hcall] at c1
    by_cases hF : timer_fires s T = true
    · have hr1 : r = 1 := by
        have : (s.timer T).remaining_ticks ≤ 1 := by
          simpa [timer_fires] using hF
        omega
      have hT1 : T ∉ l.filter (timer_stays s) := by
        intro hm
        have := (List.mem_filter.1 hm).2
        simp [timer_stays, hF, hper] at this
      obtain ⟨sk, lk, e2, i2, n2, c2⟩ :=
        timer_ticks_absent k s1 _ i1 (filter_length_le_of _ hf) hT1
      refine ⟨sk, lk, ?_, i2, fun h => by omega, fun _ => ⟨n2, ?_⟩⟩
      · simp only [timer_ticks, e1]
        exact e2
      · rw [c2, c1, if_pos ⟨hT, hF⟩]
    · have hr1 : 1 < r := by
        have : ¬ (s.timer T).remaining_ticks ≤ 1 := by
          simpa [timer_fires] using hF
        omega
      have hS : timer_stays s T = true := by
        simp [timer_stays, hF]
      have hT1 : T ∈ l.filter (timer_stays s) := List.mem_filter.2 ⟨hT, hS⟩
      rw [if_neg hF, hr] at q5
      obtain ⟨sk, lk, e2, i2, a2, b2⟩ := ih s1 _ (r - 1) i1 (filter_length_le_of _ hf) hT1
        (q4.trans hper) (q2.trans hcb) (q3.trans harg) q5
      have hc1 : calls_of s1 T = calls_of s T := by
        rw [c1, if_neg (fun h => hF h.2), List.append_nil]
      refine ⟨sk, lk, ?_, i2, ?_, ?_⟩
      · simp only [timer_ticks, e1]
        exact e2
      · intro hk
        obtain ⟨m, c⟩ := a2 (by omega)
        exact ⟨m, c.trans hc1⟩
      · intro hk
        obtain ⟨m, c⟩ := b2 (by omega)
        exact ⟨m, by rw [c, hc1]⟩

/-- The second half of `timer_start`: the timer `T`, not in the list, gets its
period and is pushed at the head of the list. -/
theorem timer_start_tail {s s1 : TimerState} {l : List Nat} {T p cb : Nat} (per : Nat)
    (hinv : TimerInv s l) (hchain : TimerChain (timer_nxt s1) s1.g_timer_list (l.erase T))
    (hdata : ∀ t, t ≠ T → timer_data (s1.timer t) = timer_data (s.timer t))
    (hcb : (s1.timer T).callback = some cb) (hp : 1 ≤ p) :
    TimerInv (timer_list_add (s1.setTimer T (fun c =>
        { c with period_ticks := p, remaining_ticks := p,
                 periodic := if per ≠ 0 then 1 else 0 })) T) (T :: l.erase T) ∧
      (timer_list_add (s1.setTimer T (fun c =>
        { c with period_ticks := p, remaining_ticks := p,
                 periodic := if per ≠ 0 then 1 else 0 })) T).timer T =
        { s1.timer T with period_ticks := p, remaining_ticks := p,
                          periodic := if per ≠ 0 then 1 else 0, active := 1,
                          next := s1.g_timer_list } ∧
      (∀ t, t ≠ T → (timer_list_add (s1.setTimer T (fun c =>
        { c with period_ticks := p, remaining_ticks := p,
                 periodic := if per ≠ 0 then 1 else 0 })) T).timer t = s1.timer t) := by
  have eT : (timer_list_add (s1.setTimer T (fun c =>
        { c with period_ticks := p, remaining_ticks := p,
                 periodic := if per ≠ 0 then 1 else 0 })) T).timer T =
        { s1.timer T with period_ticks := p, remaining_ticks := p,
                          periodic := if per ≠ 0 then 1 else 0, active := 1,
                          next := s1.g_timer_list } := by
    simp [timer_list_add, TimerState.setTimer]
  have eo : ∀ t, t ≠ T → (timer_list_add (s1.setTimer T (fun c =>
        { c with period_ticks := p, remaining_ticks := p,
                 periodic := if per ≠ 0 then 1 else 0 })) T).timer t = s1.timer t := by
    intro t ht
    simp [timer_list_add, TimerState.setTimer, Function.update_noteq ht]
  have hnd : (l.erase T).Nodup := hinv.nodup.erase T
  have hTnot : T ∉ l.erase T := fun hm => (List.Nodup.mem_erase_iff hinv.nodup).1 hm |>.1 rfl
  refine ⟨⟨?_, ?_, ?_, ?_⟩, eT, eo⟩
  · refine ⟨rfl, ?_⟩
    have hnT : timer_nxt (timer_list_add (s1.setTimer T (fun c =>
        { c with period_ticks := p, remaining_ticks := p,
                 periodic := if per ≠ 0 then 1 else 0 })) T) T = s1.g_timer_list := by
      unfold timer_nxt
      rw [eT]
    rw [hnT]
    refine TimerChain_congr _ _ ?_ hchain
    intro a ha
    have haT : a ≠ T := fun e => hTnot (e ▸ ha)
    unfold timer_nxt
    rw [eo a haT]
  · exact List.nodup_cons.2 ⟨hTnot, hnd⟩
  · intro t
    by_cases ht : t = T
    · subst ht
      rw [eT]
      constructor
      · intro _
        exact List.mem_cons_self _ _
      · intro _
        show (1 : Nat) ≠ 0
        decide
    · rw [eo t ht, timer_field sw_timer_t.active (fun _ => rfl) (hdata t ht)]
      constructor
      · intro hh
        exact List.mem_cons_of_mem _ ((List.mem_erase_of_ne ht).2 ((hinv.active t).1 hh))
      · intro hh
        rcases List.mem_cons.1 hh with h | h
        · exact absurd h ht
        · exact (hinv.active t).2 (List.mem_of_mem_erase h)
  · intro t ht
    by_cases htT : t = T
    · subst htT
      rw [eT]
      refine ⟨?_, hp, le_refl _⟩
      show (s1.timer t).callback ≠ none
      rw [hcb]
      exact Option.some_ne_none _
    · rcases List.mem_cons.1 ht with h | h
      · exact absurd h htT
      · rw [eo t htT, timer_field sw_timer_t.callback (fun _ => rfl) (hdata t htT),
          timer_field sw_timer_t.remaining_ticks (fun _ => rfl) (hdata t htT),
          timer_field sw_timer_t.period_ticks (fun _ => rfl) (hdata t htT)]
        exact hinv.armed t (List.mem_of_mem_erase h)

/-- The function `timer_start` with a period of at least 1 on a timer that has
a callback: it returns `KERNEL_OK`, the timer is the head of the list and in
it once, with `remaining_ticks = period_ticks = p`; the other timers keep
their place and their data. -/
theorem timer_start_spec {s : TimerState} {l : List Nat} {fuel T p cb : Nat} (per : Nat)
    (hinv : TimerInv s l) (hf : l.length ≤ fuel) (hcb : (s.timer T).callback = some cb)
    (hp : 1 ≤ p) :
    ∃ s1, timer_start fuel s (some T) p per = some (s1, KERNEL_OK) ∧
      TimerInv s1 (T :: l.erase T) ∧
      (s1.timer T).period_ticks = p ∧ (s1.timer T).remaining_ticks = p ∧
      (s1.timer T).periodic = (if per ≠ 0 then 1 else 0) ∧
      (s1.timer T).callback = some cb ∧ (s1.timer T).arg = (s.timer T).arg ∧
      (∀ t, t ≠ T → timer_data (s1.timer t) = timer_data (s.timer t)) ∧
      s1.calls = s.calls := by
  have hno : ¬((s.timer T).callback = none ∨ p = 0) := by
    rw [hcb]
    intro h
    rcases h with h | h
    · cases h
    · omega
  have hrm : ∃ s', (if (s.timer T).active ≠ 0 then timer_list_remove fuel s T else some s) =
      some s' ∧ TimerChain (timer_nxt s') s'.g_timer_list (l.erase T) ∧
      (∀ t, t ≠ T → timer_data (s'.timer t) = timer_data (s.timer t)) ∧
      (s'.timer T).callback = some cb ∧ (s'.timer T).arg = (s.timer T).arg ∧
      s'.calls = s.calls := by
    by_cases hact : (s.timer T).active ≠ 0
    · have hT : T ∈ l := (hinv.active T).1 hact
      obtain ⟨pre, post, hl⟩ := List.append_of_mem hT
      subst hl
      have hTpre : T ∉ pre := by
        intro hm
        exact (List.nodup_append.1 hinv.nodup).2.2 hm (List.mem_cons_self _ _)
      have herase : (pre ++ T :: post).erase T = pre ++ post := by
        rw [List.erase_append_right _ hTpre, List.erase_cons_head]
      obtain ⟨s', r1, r2, r3, r4, r5⟩ := timer_remove_spec hinv.chain hinv.nodup hf
      rw [if_pos hact, herase]
      refine ⟨s', r1, r2, r3, ?_, ?_, r5⟩
      · rw [r4]
        exact hcb
      · rw [r4]
    · have hT : T ∉ l := fun hm => hact ((hinv.active T).2 hm)
      rw [if_neg hact, List.erase_of_not_mem hT]
      exact ⟨s, rfl, hinv.chain, fun _ _ => rfl, hcb, rfl, rfl⟩
  obtain ⟨s', e1, c1, d1, cb1, a1, k1⟩ := hrm
  obtain ⟨i2, eT, eo⟩ := timer_start_tail per hinv c1 d1 cb1 hp
  refine ⟨_, ?_, i2, ?_, ?_, ?_, ?_, ?_, ?_, ?_⟩
  · unfold timer_start
    simp only [if_neg hno, e1]
  · rw [eT]
  · rw [eT]
  · rw [eT]
  · rw [eT]
    exact cb1
  · rw [eT]
    exact a1
  · intro t ht
    rw [eo t ht]
    exact d1 t ht
  · exact k1

theorem timer_start_zero (fuel : Nat) (s : TimerState) (t : Option Nat) (per : Nat) :
    timer_start fuel s t 0 per = some (s, KERNEL_ERR_PARAM) := by
  unfold timer_start
  cases t with
  | none => rfl
  | some T => simp

/-! ## C33: software timers -/

/-- Claim C33.  In a state with a well-formed timer list `l` (with room for one
more timer within the fuel), `timer_start(T, p, periodic)` with `p ≥ 1` on a
timer `T` that has a callback `cb` returns `KERNEL_OK` and leaves `T` in the
list exactly once, also when `T` was active before.  After `k` further calls
of `timer_tick_isr`, which all return: when `periodic` is not 0 the callback
of `T` has been called exactly `k / p` times, each time as `cb(arg)` with the
argument of `T`, and `T` is active and in the list; when `periodic` is 0 the
callback has not been called while `k < p`, with `T` still active, and has
been called exactly once, as `cb(arg)`, when `k ≥ p`, with `T` inactive and
out of the list.  And `timer_start` with period 0 returns `KERNEL_ERR_PARAM`
and changes nothing. -/
theorem C33_timers (s : TimerState) (l : List Nat) (fuel T p per cb : Nat)
    (hinv : TimerInv s l) (hfuel : l.length < fuel)
    (hcb : (s.timer T).callback = some cb) (hp : 1 ≤ p) :
    (∃ s1, timer_start fuel s (some T) p per = some (s1, KERNEL_OK) ∧
      TimerInv s1 (T :: l.erase T) ∧ (T :: l.erase T).count T = 1 ∧
      calls_of s1 T = calls_of s T ∧
      ∀ k, ∃ sk lk, timer_ticks fuel k s1 = some sk ∧ TimerInv sk lk ∧
        (per ≠ 0 →
          calls_of sk T = calls_of s T ++ List.replicate (k / p) (T, cb, (s.timer T).arg) ∧
          T ∈ lk ∧ (sk.timer T).active ≠ 0) ∧
        (per = 0 →
          (k < p → calls_of sk T = calls_of s T ∧ T ∈ lk ∧ (sk.timer T).active ≠ 0) ∧
          (p ≤ k → calls_of sk T = calls_of s T ++ [(T, cb, (s.timer T).arg)] ∧ T ∉ lk ∧
            (sk.timer T).active = 0))) ∧
    ∀ (t : Option Nat) (per1 : Nat), timer_start fuel s t 0 per1 = some (s, KERNEL_ERR_PARAM) := by
  refine ⟨?_, fun t per1 => timer_start_zero fuel s t per1⟩
  obtain ⟨s1, e1, i1, f1, f2, f3, f4, f5, _, f7⟩ :=
    @timer_start_spec s l fuel T p cb per hinv (le_of_lt hfuel) hcb hp
  have hlen : (T :: l.erase T).length ≤ fuel := by
    have := List.length_erase_le T l
    simp only [List.length_cons]
    omega
  have hTin : T ∈ T :: l.erase T := List.mem_cons_self _ _
  have hc0 : calls_of s1 T = calls_of s T := by
    unfold calls_of
    rw [f7]
  refine ⟨s1, e1, i1, List.count_eq_one_of_mem i1.nodup hTin, hc0, ?_⟩
  intro k
  by_cases hper : per ≠ 0
  · obtain ⟨sk, lk, e2, i2, m2, c2⟩ := @timer_ticks_periodic fuel T cb (s.timer T).arg p k s1 _ p
      i1 hlen hTin (by rw [f3, if_pos hper]; decide) f1 f4 f5 f2
    refine ⟨sk, lk, e2, i2, fun _ => ⟨?_, m2, (i2.active T).2 m2⟩, fun h => absurd h hper⟩
    rw [c2, hc0, Nat.sub_self, Nat.add_zero]
  · have hper0 : per = 0 := by
      by_contra hh
      exact hper hh
    obtain ⟨sk, lk, e2, i2, a2, b2⟩ := @timer_ticks_oneshot fuel T cb (s.timer T).arg k s1 _ p
      i1 hlen hTin (by rw [f3, if_neg hper]) f4 f5 f2
    refine ⟨sk, lk, e2, i2, fun h => absurd h hper, fun _ => ⟨?_, ?_⟩⟩
    · intro hk
      obtain ⟨m, c⟩ := a2 hk
      exact ⟨c.trans hc0, m, (i2.active T).2 m⟩
    · intro hk
      obtain ⟨m, c⟩ := b2 hk
      refine ⟨by rw [c, hc0], m, ?_⟩
      by_contra hh
      exact m ((i2.active T).1 hh)

theorem timersS_inv : TimerInv timersS [] := by
  refine ⟨rfl, List.nodup_nil, ?_, ?_⟩
  · intro t
    have h0 : (timersS.timer t).active = 0 := by
      simp only [timersS, timer_create, TimerState.setTimer, timers0, Function.update_apply]
      split_ifs <;> rfl
    rw [h0]
    simp
  · intro t ht
    cases ht

theorem timersA_inv : TimerInv timersA [2] := by
  obtain ⟨s1, e1, i1, _⟩ := @timer_start_spec timersS [] 4 2 3 0x60005101 1 timersS_inv
    (by decide) (by rfl) (by decide)
  have e : timersA = s1 := by
    unfold timersA
    rw [e1]
    rfl
  rw [e]
  exact i1

theorem C33_timers_witness :
    (∃ s1, timer_start 4 timersA (some 2) 10 1 = some (s1, KERNEL_OK) ∧
      TimerInv s1 (2 :: [2].erase 2) ∧ (2 :: [2].erase 2).count 2 = 1 ∧
      calls_of s1 2 = calls_of timersA 2 ∧
      ∀ k, ∃ sk lk, timer_ticks 4 k s1 = some sk ∧ TimerInv sk lk ∧
        (1 ≠ 0 →
          calls_of sk 2 = calls_of timersA 2 ++
            List.replicate (k / 10) (2, 0x60005101, (timersA.timer 2).arg) ∧
          2 ∈ lk ∧ (sk.timer 2).active ≠ 0) ∧
        (1 = 0 →
          (k < 10 → calls_of sk 2 = calls_of timersA 2 ∧ 2 ∈ lk ∧ (sk.timer 2).active ≠ 0) ∧
          (10 ≤ k → calls_of sk 2 = calls_of timersA 2 ++
              [(2, 0x60005101, (timersA.timer 2).arg)] ∧ 2 ∉ lk ∧
            (sk.timer 2).active = 0))) ∧
    ∀ (t : Option Nat) (per1 : Nat),
      timer_start 4 timersA t 0 per1 = some (timersA, KERNEL_ERR_PARAM) :=
  C33_timers timersA [2] 4 2 10 1 0x60005101 timersA_inv (by decide) (by rfl) (by decide)

/-! ## C22: `scheduler_unblock_all` and a waiter cut off from the blocked list -/

/-- C22, the divergence: `A` and `B` block on the semaphore at 100, so the
blocked list is `B`, `A`; `task_suspend(B)` returns `KERNEL_OK` and leaves
`B`, now Suspended, as the head of the blocked list with `B.next = NULL`, so
the Blocked task `A` is no longer reachable.
`scheduler_unblock_all(BLOCK_SEMAPHORE, sem, KERNEL_ERR_STATE)` then returns 1
and makes the Suspended task `B` Ready, while `A` is still Blocked and still
matches `(BLOCK_SEMAPHORE, sem)` afterwards. -/
theorem C22_unblock_all_misses_cut_off_waiter :
    scenario_unblock_all_cut_off = some
      { suspend_code := KERNEL_OK, current_before := some 3,
        state_A_before := task_state_t.BLOCKED, A_matches_before := true,
        state_B_before := task_state_t.SUSPENDED, blocked_head_before := some 2,
        next_B_before := none, returned_count := 1,
        state_A_after := task_state_t.BLOCKED, A_matches_after := true,
        block_result_A_after := KERNEL_OK, state_B_after := task_state_t.READY,
        block_result_B_after := KERNEL_ERR_STATE, ready_head_5_after := some 2,
        blocked_head_after := none } := by
  decide!

/-! ## C27: `sem_reset` and a waiter cut off from the blocked list -/

/-- C27, the divergence: in the state of `sem_cut_off_setup` (`A` Blocked on
the semaphore but cut off from the blocked list by `task_suspend(B)`),
`sem_reset(sem, 0)` returns `KERNEL_OK` with count 0, but `A` is still
Blocked on the semaphore with `block_result = KERNEL_OK`, on no list, so its
`sem_take` never returns; and the Suspended task `B` is made Ready with
`block_result = KERNEL_ERR_STATE`. -/
theorem C27_reset_misses_cut_off_waiter :
    scenario_sem_reset_cut_off = some
      { state_A_before := task_state_t.BLOCKED,
        block_reason_A_before := block_reason_t.SEMAPHORE, block_object_A_before := some 100,
        state_B_before := task_state_t.SUSPENDED, blocked_head_before := some 2,
        next_B_before := none, reset_code := KERNEL_OK, count_after := 0,
        state_A_after := task_state_t.BLOCKED,
        block_reason_A_after := block_reason_t.SEMAPHORE, block_result_A_after := KERNEL_OK,
        state_B_after := task_state_t.READY, block_result_B_after := KERNEL_ERR_STATE,
        ready_head_5_after := some 2, blocked_head_after := none } := by
  decide!

/-! ## C29: `mutex_unlock` and a waiter cut off from the blocked list -/

/-- C29, the divergence: `A` (priority 5) owns the mutex, `B` (priority 5) and
`C` (priority 6) are blocked on it, `C` at the head of the blocked list, and
`D` runs until the delay of `A` is over.
`task_suspend(C)` by `A` leaves the Suspended `C` as the head with
`C.next = NULL`, so `B` is cut off.  `mutex_unlock` by the owner returns
`KERNEL_OK` and releases the mutex, but the task it makes Ready is the
Suspended `C`; `B`, the waiter of highest priority, is still Blocked on the
mutex and on no list. -/
theorem C29_unlock_misses_cut_off_waiter :
    scenario_unlock_cut_off = some
      { lock_A := Outcome.done KERNEL_OK, lock_B := Outcome.blocked, lock_C := Outcome.blocked,
        current_during_ticks := some 4, owner_before := some 1, current_at_unlock := some 1, suspend_code := KERNEL_OK,
        state_B_before := task_state_t.BLOCKED, B_waits_before := true, priority_B := 5,
        state_C_before := task_state_t.SUSPENDED, priority_C := 6,
        blocked_head_before := some 3, next_C_before := none, unlock_code := KERNEL_OK,
        owner_after := none, state_B_after := task_state_t.BLOCKED, B_waits_after := true,
        state_C_after := task_state_t.READY, block_result_C_after := KERNEL_OK,
        ready_head_6_after := some 3, blocked_head_after := none } := by
  decide!

/-! ## C24: the initial stack frame -/

/-- Claim C24.  For a `stack_top` with room for the frame below it and 32-bit
`entry`, `arg` and `exit_func`: `task_init_stack` returns
`sp = stack_top - 17 words`, and afterwards, counted in words from `sp`,
words 0 to 7 are 0, word 8 is `0xFFFFFFFD`, word 9 is `arg`, words 10 to 13
are 0, word 14 is `exit_func`, word 15 is `entry` and word 16 is `0x01000000`,
while every address that is not one of these 17 word addresses keeps its
content.  With well-formed scheduler lists, `task_create` for a TCB `t` on no
list with a caller's stack of an accepted size returns `KERNEL_OK`; the saved
`sp` of `t` is the value `task_init_stack` returned for the `stack_top` of
`t`, which is `stack_top - 17 words`, the stack memory is the memory
`task_init_stack` left, and the 17 words from the saved `sp` upward hold the
frame for `entry`, `arg` and `task_exit_trampoline`.  And for every
`task_create` call that returns `KERNEL_OK` (pool TCB or pool stack included)
the `sp` field of the new TCB and the stack memory are the result of
`task_init_stack` for the `stack_top` of that TCB. -/
theorem C24_initial_frame (mem : Nat → Nat) (stack_top entry arg exit_func : Nat)
    (hroom : 68 ≤ stack_top) (hentry : entry < 2 ^ 32) (harg : arg < 2 ^ 32)
    (hexit : exit_func < 2 ^ 32)
    (k : Kernel) (rl : Nat → List Nat) (bl : List Nat) (fuel : Nat) (hrep : SchedRep k rl bl)
    (t priority st size : Nat) (hprio : priority < CONFIG_MAX_PRIORITY)
    (hsize : CONFIG_MIN_STACK_SIZE ≤ size) (h8 : size % 8 = 0) (hb : t ∉ bl)
    (hr : ∀ p, p < CONFIG_MAX_PRIORITY → t ∉ rl p) (hfuel : (rl priority).length ≤ fuel) :
    ((task_init_stack mem stack_top entry arg exit_func).2 = stack_top - 68 ∧
      (∀ i, i < 8 → (task_init_stack mem stack_top entry arg exit_func).1
        (stack_top - 68 + 4 * i) = 0) ∧
      (task_init_stack mem stack_top entry arg exit_func).1 (stack_top - 68 + 4 * 8) =
        0xFFFFFFFD ∧
      (task_init_stack mem stack_top entry arg exit_func).1 (stack_top - 68 + 4 * 9) = arg ∧
      (∀ i, 10 ≤ i → i < 14 → (task_init_stack mem stack_top entry arg exit_func).1
        (stack_top - 68 + 4 * i) = 0) ∧
      (task_init_stack mem stack_top entry arg exit_func).1 (stack_top - 68 + 4 * 14) =
        exit_func ∧
      (task_init_stack mem stack_top entry arg exit_func).1 (stack_top - 68 + 4 * 15) =
        entry ∧
      (task_init_stack mem stack_top entry arg exit_func).1 (stack_top - 68 + 4 * 16) =
        0x01000000 ∧
      (∀ a, (∀ i, i < 17 → a ≠ stack_top - 68 + 4 * i) →
        (task_init_stack mem stack_top entry arg exit_func).1 a = mem a)) ∧
    (∃ k1, task_create fuel k (some t) (some entry) arg priority (some st) size =
        some (k1, KERNEL_OK) ∧
      (k1.tcb t).sp = (task_init_stack (stack_fill k.stack_mem st (size / 4) 0)
        (k1.tcb t).stack_top entry arg task_exit_trampoline).2 ∧
      k1.stack_mem = (task_init_stack (stack_fill k.stack_mem st (size / 4) 0)
        (k1.tcb t).stack_top entry arg task_exit_trampoline).1 ∧
      (k1.tcb t).sp = (k1.tcb t).stack_top - 68 ∧
      (∀ i, i < 8 → k1.stack_mem ((k1.tcb t).sp + 4 * i) = 0) ∧
      k1.stack_mem ((k1.tcb t).sp + 4 * 8) = 0xFFFFFFFD ∧
      k1.stack_mem ((k1.tcb t).sp + 4 * 9) = arg ∧
      (∀ i, 10 ≤ i → i < 14 → k1.stack_mem ((k1.tcb t).sp + 4 * i) = 0) ∧
      k1.stack_mem ((k1.tcb t).sp + 4 * 14) = task_exit_trampoline ∧
      k1.stack_mem ((k1.tcb t).sp + 4 * 15) = entry ∧
      k1.stack_mem ((k1.tcb t).sp + 4 * 16) = 0x01000000) ∧
    ∀ (fuel2 : Nat) (k2 k3 : Kernel) (tcb : Option Nat) (priority2 : Nat) (stack : Option Nat)
      (stack_size : Nat),
      task_create fuel2 k2 tcb (some entry) arg priority2 stack stack_size =
        some (k3, KERNEL_OK) →
      ∃ u m, (∀ v, tcb = some v → u = v) ∧
        (k3.tcb u).sp =
          (task_init_stack m (k3.tcb u).stack_top entry arg task_exit_trampoline).2 ∧
        k3.stack_mem =
          (task_init_stack m (k3.tcb u).stack_top entry arg task_exit_trampoline).1 := by
  refine ⟨task_init_stack_frame mem stack_top entry arg exit_func hroom hentry harg hexit, ?_,
    fun _ _ _ _ _ _ _ h => task_create_frame h⟩
  obtain ⟨k1, e1, _, hmem, hsp, htop, _⟩ :=
    @rep_task_create_given _ _ _ fuel hrep t entry arg priority st size hprio hsize h8 hb hr hfuel
  have hsz : 4 * (size / 4) = size := by omega
  have hroom2 : 68 ≤ (st + 4 * (size / 4)) - (st + 4 * (size / 4)) % 8 := by
    unfold CONFIG_MIN_STACK_SIZE at hsize
    omega
  obtain ⟨f1, f2, f3, f4, f5, f6, f7, f8, _⟩ := task_init_stack_frame
    (stack_fill k.stack_mem st (size / 4) 0)
    ((st + 4 * (size / 4)) - (st + 4 * (size / 4)) % 8) entry arg task_exit_trampoline hroom2
    hentry harg (by decide)
  have hsp2 : (k1.tcb t).sp = (k1.tcb t).stack_top - 68 := by
    rw [hsp, htop]
    exact f1
  refine ⟨k1, e1, ?_, ?_, hsp2, ?_, ?_, ?_, ?_, ?_, ?_, ?_⟩
  · rw [htop]
    exact hsp
  · rw [htop]
    exact hmem
  · intro i hi
    rw [hsp2, htop, hmem]
    exact f2 i hi
  · rw [hsp2, htop, hmem]
    exact f3
  · rw [hsp2, htop, hmem]
    exact f4
  · intro i h1 h2
    rw [hsp2, htop, hmem]
    exact f5 i h1 h2
  · rw [hsp2, htop, hmem]
    exact f6
  · rw [hsp2, htop, hmem]
    exact f7
  · rw [hsp2, htop, hmem]
    exact f8

/-- Witness for C24: the frame `frameW` below `0x20010100` for the entry
`0x60003001`, the argument 7 and the exit function `task_exit_trampoline`, in
a memory of zeros; and `task_create` after `scheduler_init` for TCB 1 with
priority 5 and the 256-byte stack at `0x20010000`. -/
theorem C24_initial_frame_witness :
    (frameW.2 = 0x20010100 - 68 ∧
      (∀ i, i < 8 → frameW.1 (0x20010100 - 68 + 4 * i) = 0) ∧
      frameW.1 (0x20010100 - 68 + 4 * 8) = 0xFFFFFFFD ∧
      frameW.1 (0x20010100 - 68 + 4 * 9) = 7 ∧
      (∀ i, 10 ≤ i → i < 14 → frameW.1 (0x20010100 - 68 + 4 * i) = 0) ∧
      frameW.1 (0x20010100 - 68 + 4 * 14) = task_exit_trampoline ∧
      frameW.1 (0x20010100 - 68 + 4 * 15) = 0x60003001 ∧
      frameW.1 (0x20010100 - 68 + 4 * 16) = 0x01000000 ∧
      (∀ a, (∀ i, i < 17 → a ≠ 0x20010100 - 68 + 4 * i) → frameW.1 a = 0)) ∧
    (∃ k1, task_create 8 (scheduler_init kernel0) (some 1) (some 0x60003001) 7 5
        (some 0x20010000) 256 = some (k1, KERNEL_OK) ∧
      (k1.tcb 1).sp = (task_init_stack
        (stack_fill (scheduler_init kernel0).stack_mem 0x20010000 (256 / 4) 0)
        (k1.tcb 1).stack_top 0x60003001 7 task_exit_trampoline).2 ∧
      k1.stack_mem = (task_init_stack
        (stack_fill (scheduler_init kernel0).stack_mem 0x20010000 (256 / 4) 0)
        (k1.tcb 1).stack_top 0x60003001 7 task_exit_trampoline).1 ∧
      (k1.tcb 1).sp = (k1.tcb 1).stack_top - 68 ∧
      (∀ i, i < 8 → k1.stack_mem ((k1.tcb 1).sp + 4 * i) = 0) ∧
      k1.stack_mem ((k1.tcb 1).sp + 4 * 8) = 0xFFFFFFFD ∧
      k1.stack_mem ((k1.tcb 1).sp + 4 * 9) = 7 ∧
      (∀ i, 10 ≤ i → i < 14 → k1.stack_mem ((k1.tcb 1).sp + 4 * i) = 0) ∧
      k1.stack_mem ((k1.tcb 1).sp + 4 * 14) = task_exit_trampoline ∧
      k1.stack_mem ((k1.tcb 1).sp + 4 * 15) = 0x60003001 ∧
      k1.stack_mem ((k1.tcb 1).sp + 4 * 16) = 0x01000000) ∧
    ∀ (fuel2 : Nat) (k2 k3 : Kernel) (tcb : Option Nat) (priority2 : Nat) (stack : Option Nat)
      (stack_size : Nat),
      task_create fuel2 k2 tcb (some 0x60003001) 7 priority2 stack stack_size =
        some (k3, KERNEL_OK) →
      ∃ u m, (∀ v, tcb = some v → u = v) ∧
        (k3.tcb u).sp =
          (task_init_stack m (k3.tcb u).stack_top 0x60003001 7 task_exit_trampoline).2 ∧
        k3.stack_mem =
          (task_init_stack m (k3.tcb u).stack_top 0x60003001 7 task_exit_trampoline).1 :=
  C24_initial_frame (fun _ => 0) 0x20010100 0x60003001 7 task_exit_trampoline (by decide)
    (by decide) (by decide) (by decide) (scheduler_init kernel0) (fun _ => []) [] 8
    (SchedRep_scheduler_init kernel0) 1 5 0x20010000 256 (by decide) (by decide) (by decide)
    (by simp) (by simp) (by simp)

end HelixRT
